import Mathlib

/-!
# A shallow embedding of the cpusim 6502 core

The definitions below follow `src/memory.cpp`, `src/cpu.cpp` and
`src/cpu6502.cpp`.  Machine integers are natural numbers; every place where the
C++ code narrows a value to `std::uint8_t` or `std::uint16_t` carries an
explicit `% 256` or `% 65536`.  The cycle counter is an `unsigned long` of 64
bits, like `std::size_t` and `std::uint64_t`: every `emu_cycles += k` carries
an explicit `% 2 ^ 64`.  Text (`std::string`, `char` buffers) is a list of characters.
-/

namespace Cpusim

/-! ## memory.cpp -/

/-- The class `Memory`: `bytes` is the byte vector, given by its length `size`
and its contents `bytes i` for `i < size`, and `mask` is the address mask. -/
structure Memory where
  size : Nat
  mask : Nat
  bytes : Nat → Nat

namespace Memory

/-- The loop of the constructor, `for (p2 = 1; p2 < size && p2 != 0; p2 <<= 1)`,
on a 64-bit `std::size_t`; the first argument bounds the number of
iterations. -/
def maskLoop (size : Nat) : Nat → Nat → Nat
  | 0, p2 => p2
  | fuel + 1, p2 =>
    if p2 < size ∧ p2 ≠ 0 then maskLoop size fuel ((p2 <<< 1) % 2 ^ 64) else p2

/-- The constructor `Memory::Memory(size)`: a zero-filled vector and
`mask = p2 - 1` (an unsigned subtraction). -/
def new (size : Nat) : Memory :=
  { size := size
    mask := (maskLoop size 65 1 + (2 ^ 64 - 1)) % 2 ^ 64
    bytes := fun _ => 0 }

/-- The method `Memory::Peek8`.  The stored element is a `std::uint8_t`. -/
def Peek8 (m : Memory) (addr : Nat) : Nat :=
  if addr &&& m.mask < m.size then m.bytes (addr &&& m.mask) % 256 else 0xFF

/-- The method `Memory::Read8`. -/
def Read8 (m : Memory) (addr : Nat) : Nat :=
  if addr &&& m.mask < m.size then m.bytes (addr &&& m.mask) % 256 else 0xFF

/-- The method `Memory::Write8`; `data` is narrowed to a byte. -/
def Write8 (m : Memory) (addr : Nat) (data : Nat) : Memory :=
  if addr &&& m.mask < m.size then
    { m with bytes := fun i => if i = (addr &&& m.mask) then data % 256 else m.bytes i }
  else m

/-- The method `Memory::Load8`. -/
def Load8 (m : Memory) (addr : Nat) (data : Nat) : Memory :=
  if addr &&& m.mask < m.size then
    { m with bytes := fun i => if i = (addr &&& m.mask) then data % 256 else m.bytes i }
  else m

end Memory

/-! ## cpu6502.cpp: the state and the opcode table -/

/-- The enumeration `AddrMode`. -/
inductive AddrMode
  | am_invalid
  | am_implied
  | am_acc
  | am_immediate
  | am_abs_x
  | am_abs_y
  | am_abs
  | am_zp_x
  | am_zp_y
  | am_zp
  | am_ind_x
  | am_ind_y
  | am_ind
  | am_rel
  deriving DecidableEq, Repr

/-- The member functions an opcode-table entry can point to. -/
inductive Handler
  | do_invalid
  | do_ORA
  | do_AND
  | do_EOR
  | do_ADC
  | do_STA
  | do_LDA
  | do_CMP
  | do_SBC
  | do_ASL
  | do_LSR
  | do_ROL
  | do_ROR
  | do_ASL_A
  | do_LSR_A
  | do_ROL_A
  | do_ROR_A
  | do_BIT
  | do_branch
  | do_BRK
  | do_CLC
  | do_CLD
  | do_CLI
  | do_CLV
  | do_CPX
  | do_CPX_imm
  | do_CPY
  | do_CPY_imm
  | do_DEC
  | do_DEX
  | do_DEY
  | do_INC
  | do_INX
  | do_INY
  | do_JMP_abs
  | do_JMP_ind
  | do_JSR
  | do_LDX
  | do_LDX_imm
  | do_LDY
  | do_LDY_imm
  | do_NOP
  | do_PHA
  | do_PHP
  | do_PLA
  | do_PLP
  | do_RTI
  | do_RTS
  | do_SEC
  | do_SED
  | do_SEI
  | do_STX
  | do_STY
  | do_TAX
  | do_TAY
  | do_TSX
  | do_TXA
  | do_TXS
  | do_TYA
  deriving DecidableEq, Repr

/-- The struct `Instruction`: one entry of the opcode table. -/
structure Instruction where
  name : List Char
  addr_mode : AddrMode
  handler : Handler

/-- Entries 00 to 0F of the opcode table. -/
def instructionRow0 : List Instruction := [
  Instruction.mk "BRK".toList AddrMode.am_implied Handler.do_BRK,
  Instruction.mk "ORA".toList AddrMode.am_ind_x Handler.do_ORA,
  Instruction.mk "".toList AddrMode.am_invalid Handler.do_invalid,
  Instruction.mk "".toList AddrMode.am_invalid Handler.do_invalid,
  Instruction.mk "".toList AddrMode.am_invalid Handler.do_invalid,
  Instruction.mk "ORA".toList AddrMode.am_zp Handler.do_ORA,
  Instruction.mk "ASL".toList AddrMode.am_zp Handler.do_ASL,
  Instruction.mk "".toList AddrMode.am_invalid Handler.do_invalid,
  Instruction.mk "PHP".toList AddrMode.am_implied Handler.do_PHP,
  Instruction.mk "ORA".toList AddrMode.am_immediate Handler.do_ORA,
  Instruction.mk "ASL".toList AddrMode.am_acc Handler.do_ASL_A,
  Instruction.mk "".toList AddrMode.am_invalid Handler.do_invalid,
  Instruction.mk "".toList AddrMode.am_invalid Handler.do_invalid,
  Instruction.mk "ORA".toList AddrMode.am_abs Handler.do_ORA,
  Instruction.mk "ASL".toList AddrMode.am_abs Handler.do_ASL,
  Instruction.mk "".toList AddrMode.am_invalid Handler.do_invalid
]

/-- Entries 10 to 1F of the opcode table. -/
def instructionRow1 : List Instruction := [
  Instruction.mk "BPL".toList AddrMode.am_rel Handler.do_branch,
  Instruction.mk "ORA".toList AddrMode.am_ind_y Handler.do_ORA,
  Instruction.mk "".toList AddrMode.am_invalid Handler.do_invalid,
  Instruction.mk "".toList AddrMode.am_invalid Handler.do_invalid,
  Instruction.mk "".toList AddrMode.am_invalid Handler.do_invalid,
  Instruction.mk "ORA".toList AddrMode.am_zp_x Handler.do_ORA,
  Instruction.mk "ASL".toList AddrMode.am_zp_x Handler.do_ASL,
  Instruction.mk "".toList AddrMode.am_invalid Handler.do_invalid,
  Instruction.mk "CLC".toList AddrMode.am_implied Handler.do_CLC,
  Instruction.mk "ORA".toList AddrMode.am_abs_y Handler.do_ORA,
  Instruction.mk "".toList AddrMode.am_invalid Handler.do_invalid,
  Instruction.mk "".toList AddrMode.am_invalid Handler.do_invalid,
  Instruction.mk "".toList AddrMode.am_invalid Handler.do_invalid,
  Instruction.mk "ORA".toList AddrMode.am_abs_x Handler.do_ORA,
  Instruction.mk "ASL".toList AddrMode.am_abs_x Handler.do_ASL,
  Instruction.mk "".toList AddrMode.am_invalid Handler.do_invalid
]

/-- Entries 20 to 2F of the opcode table. -/
def instructionRow2 : List Instruction := [
  Instruction.mk "JSR".toList AddrMode.am_abs Handler.do_JSR,
  Instruction.mk "AND".toList AddrMode.am_ind_x Handler.do_AND,
  Instruction.mk "".toList AddrMode.am_invalid Handler.do_invalid,
  Instruction.mk "".toList AddrMode.am_invalid Handler.do_invalid,
  Instruction.mk "BIT".toList AddrMode.am_zp Handler.do_BIT,
  Instruction.mk "AND".toList AddrMode.am_zp Handler.do_AND,
  Instruction.mk "ROL".toList AddrMode.am_zp Handler.do_ROL,
  Instruction.mk "".toList AddrMode.am_invalid Handler.do_invalid,
  Instruction.mk "PLP".toList AddrMode.am_implied Handler.do_PLP,
  Instruction.mk "AND".toList AddrMode.am_immediate Handler.do_AND,
  Instruction.mk "ROL".toList AddrMode.am_acc Handler.do_ROL_A,
  Instruction.mk "".toList AddrMode.am_invalid Handler.do_invalid,
  Instruction.mk "BIT".toList AddrMode.am_abs Handler.do_BIT,
  Instruction.mk "AND".toList AddrMode.am_abs Handler.do_AND,
  Instruction.mk "ROL".toList AddrMode.am_abs Handler.do_ROL,
  Instruction.mk "".toList AddrMode.am_invalid Handler.do_invalid
]

/-- Entries 30 to 3F of the opcode table. -/
def instructionRow3 : List Instruction := [
  Instruction.mk "BMI".toList AddrMode.am_rel Handler.do_branch,
  Instruction.mk "AND".toList AddrMode.am_ind_y Handler.do_AND,
  Instruction.mk "".toList AddrMode.am_invalid Handler.do_invalid,
  Instruction.mk "".toList AddrMode.am_invalid Handler.do_invalid,
  Instruction.mk "".toList AddrMode.am_invalid Handler.do_invalid,
  Instruction.mk "AND".toList AddrMode.am_zp_x Handler.do_AND,
  Instruction.mk "ROL".toList AddrMode.am_zp_x Handler.do_ROL,
  Instruction.mk "".toList AddrMode.am_invalid Handler.do_invalid,
  Instruction.mk "SEC".toList AddrMode.am_implied Handler.do_SEC,
  Instruction.mk "AND".toList AddrMode.am_abs_y Handler.do_AND,
  Instruction.mk "".toList AddrMode.am_invalid Handler.do_invalid,
  Instruction.mk "".toList AddrMode.am_invalid Handler.do_invalid,
  Instruction.mk "".toList AddrMode.am_invalid Handler.do_invalid,
  Instruction.mk "AND".toList AddrMode.am_abs_x Handler.do_AND,
  Instruction.mk "ROL".toList AddrMode.am_abs_x Handler.do_ROL,
  Instruction.mk "".toList AddrMode.am_invalid Handler.do_invalid
]

/-- Entries 40 to 4F of the opcode table. -/
def instructionRow4 : List Instruction := [
  Instruction.mk "RTI".toList AddrMode.am_implied Handler.do_RTI,
  Instruction.mk "EOR".toList AddrMode.am_ind_x Handler.do_EOR,
  Instruction.mk "".toList AddrMode.am_invalid Handler.do_invalid,
  Instruction.mk "".toList AddrMode.am_invalid Handler.do_invalid,
  Instruction.mk "".toList AddrMode.am_invalid Handler.do_invalid,
  Instruction.mk "EOR".toList AddrMode.am_zp Handler.do_EOR,
  Instruction.mk "LSR".toList AddrMode.am_zp Handler.do_LSR,
  Instruction.mk "".toList AddrMode.am_invalid Handler.do_invalid,
  Instruction.mk "PHA".toList AddrMode.am_implied Handler.do_PHA,
  Instruction.mk "EOR".toList AddrMode.am_immediate Handler.do_EOR,
  Instruction.mk "LSR".toList AddrMode.am_acc Handler.do_LSR_A,
  Instruction.mk "".toList AddrMode.am_invalid Handler.do_invalid,
  Instruction.mk "JMP".toList AddrMode.am_abs Handler.do_JMP_abs,
  Instruction.mk "EOR".toList AddrMode.am_abs Handler.do_EOR,
  Instruction.mk "LSR".toList AddrMode.am_abs Handler.do_LSR,
  Instruction.mk "".toList AddrMode.am_invalid Handler.do_invalid
]

/-- Entries 50 to 5F of the opcode table. -/
def instructionRow5 : List Instruction := [
  Instruction.mk "BVC".toList AddrMode.am_rel Handler.do_branch,
  Instruction.mk "EOR".toList AddrMode.am_ind_y Handler.do_EOR,
  Instruction.mk "".toList AddrMode.am_invalid Handler.do_invalid,
  Instruction.mk "".toList AddrMode.am_invalid Handler.do_invalid,
  Instruction.mk "".toList AddrMode.am_invalid Handler.do_invalid,
  Instruction.mk "EOR".toList AddrMode.am_zp_x Handler.do_EOR,
  Instruction.mk "LSR".toList AddrMode.am_zp_x Handler.do_LSR,
  Instruction.mk "".toList AddrMode.am_invalid Handler.do_invalid,
  Instruction.mk "CLI".toList AddrMode.am_implied Handler.do_CLI,
  Instruction.mk "EOR".toList AddrMode.am_abs_y Handler.do_EOR,
  Instruction.mk "".toList AddrMode.am_invalid Handler.do_invalid,
  Instruction.mk "".toList AddrMode.am_invalid Handler.do_invalid,
  Instruction.mk "".toList AddrMode.am_invalid Handler.do_invalid,
  Instruction.mk "EOR".toList AddrMode.am_abs_x Handler.do_EOR,
  Instruction.mk "LSR".toList AddrMode.am_abs_x Handler.do_LSR,
  Instruction.mk "".toList AddrMode.am_invalid Handler.do_invalid
]

/-- Entries 60 to 6F of the opcode table. -/
def instructionRow6 : List Instruction := [
  Instruction.mk "RTS".toList AddrMode.am_implied Handler.do_RTS,
  Instruction.mk "ADC".toList AddrMode.am_ind_x Handler.do_ADC,
  Instruction.mk "".toList AddrMode.am_invalid Handler.do_invalid,
  Instruction.mk "".toList AddrMode.am_invalid Handler.do_invalid,
  Instruction.mk "".toList AddrMode.am_invalid Handler.do_invalid,
  Instruction.mk "ADC".toList AddrMode.am_zp Handler.do_ADC,
  Instruction.mk "ROR".toList AddrMode.am_zp Handler.do_ROR,
  Instruction.mk "".toList AddrMode.am_invalid Handler.do_invalid,
  Instruction.mk "PLA".toList AddrMode.am_implied Handler.do_PLA,
  Instruction.mk "ADC".toList AddrMode.am_immediate Handler.do_ADC,
  Instruction.mk "ROR".toList AddrMode.am_acc Handler.do_ROR_A,
  Instruction.mk "".toList AddrMode.am_invalid Handler.do_invalid,
  Instruction.mk "JMP".toList AddrMode.am_ind Handler.do_JMP_ind,
  Instruction.mk "ADC".toList AddrMode.am_abs Handler.do_ADC,
  Instruction.mk "ROR".toList AddrMode.am_abs Handler.do_ROR,
  Instruction.mk "".toList AddrMode.am_invalid Handler.do_invalid
]

/-- Entries 70 to 7F of the opcode table. -/
def instructionRow7 : List Instruction := [
  Instruction.mk "BVS".toList AddrMode.am_rel Handler.do_branch,
  Instruction.mk "ADC".toList AddrMode.am_ind_y Handler.do_ADC,
  Instruction.mk "".toList AddrMode.am_invalid Handler.do_invalid,
  Instruction.mk "".toList AddrMode.am_invalid Handler.do_invalid,
  Instruction.mk "".toList AddrMode.am_invalid Handler.do_invalid,
  Instruction.mk "ADC".toList AddrMode.am_zp_x Handler.do_ADC,
  Instruction.mk "ROR".toList AddrMode.am_zp_x Handler.do_ROR,
  Instruction.mk "".toList AddrMode.am_invalid Handler.do_invalid,
  Instruction.mk "SEI".toList AddrMode.am_implied Handler.do_SEI,
  Instruction.mk "ADC".toList AddrMode.am_abs_y Handler.do_ADC,
  Instruction.mk "".toList AddrMode.am_invalid Handler.do_invalid,
  Instruction.mk "".toList AddrMode.am_invalid Handler.do_invalid,
  Instruction.mk "".toList AddrMode.am_invalid Handler.do_invalid,
  Instruction.mk "ADC".toList AddrMode.am_abs_x Handler.do_ADC,
  Instruction.mk "ROR".toList AddrMode.am_abs_x Handler.do_ROR,
  Instruction.mk "".toList AddrMode.am_invalid Handler.do_invalid
]

/-- Entries 80 to 8F of the opcode table. -/
def instructionRow8 : List Instruction := [
  Instruction.mk "".toList AddrMode.am_invalid Handler.do_invalid,
  Instruction.mk "STA".toList AddrMode.am_ind_x Handler.do_STA,
  Instruction.mk "".toList AddrMode.am_invalid Handler.do_invalid,
  Instruction.mk "".toList AddrMode.am_invalid Handler.do_invalid,
  Instruction.mk "STY".toList AddrMode.am_zp Handler.do_STY,
  Instruction.mk "STA".toList AddrMode.am_zp Handler.do_STA,
  Instruction.mk "STX".toList AddrMode.am_zp Handler.do_STX,
  Instruction.mk "".toList AddrMode.am_invalid Handler.do_invalid,
  Instruction.mk "DEY".toList AddrMode.am_implied Handler.do_DEY,
  Instruction.mk "".toList AddrMode.am_invalid Handler.do_invalid,
  Instruction.mk "TXA".toList AddrMode.am_implied Handler.do_TXA,
  Instruction.mk "".toList AddrMode.am_invalid Handler.do_invalid,
  Instruction.mk "STY".toList AddrMode.am_abs Handler.do_STY,
  Instruction.mk "STA".toList AddrMode.am_abs Handler.do_STA,
  Instruction.mk "STX".toList AddrMode.am_abs Handler.do_STX,
  Instruction.mk "".toList AddrMode.am_invalid Handler.do_invalid
]

/-- Entries 90 to 9F of the opcode table. -/
def instructionRow9 : List Instruction := [
  Instruction.mk "BCC".toList AddrMode.am_rel Handler.do_branch,
  Instruction.mk "STA".toList AddrMode.am_ind_y Handler.do_STA,
  Instruction.mk "".toList AddrMode.am_invalid Handler.do_invalid,
  Instruction.mk "".toList AddrMode.am_invalid Handler.do_invalid,
  Instruction.mk "STY".toList AddrMode.am_zp_x Handler.do_STY,
  Instruction.mk "STA".toList AddrMode.am_zp_x Handler.do_STA,
  Instruction.mk "STX".toList AddrMode.am_zp_y Handler.do_STX,
  Instruction.mk "".toList AddrMode.am_invalid Handler.do_invalid,
  Instruction.mk "TYA".toList AddrMode.am_implied Handler.do_TYA,
  Instruction.mk "STA".toList AddrMode.am_abs_y Handler.do_STA,
  Instruction.mk "TXS".toList AddrMode.am_implied Handler.do_TXS,
  Instruction.mk "".toList AddrMode.am_invalid Handler.do_invalid,
  Instruction.mk "".toList AddrMode.am_invalid Handler.do_invalid,
  Instruction.mk "STA".toList AddrMode.am_abs_x Handler.do_STA,
  Instruction.mk "".toList AddrMode.am_invalid Handler.do_invalid,
  Instruction.mk "".toList AddrMode.am_invalid Handler.do_invalid
]

/-- Entries A0 to AF of the opcode table. -/
def instructionRowA : List Instruction := [
  Instruction.mk "LDY".toList AddrMode.am_immediate Handler.do_LDY_imm,
  Instruction.mk "LDA".toList AddrMode.am_ind_x Handler.do_LDA,
  Instruction.mk "LDX".toList AddrMode.am_immediate Handler.do_LDX_imm,
  Instruction.mk "".toList AddrMode.am_invalid Handler.do_invalid,
  Instruction.mk "LDY".toList AddrMode.am_zp Handler.do_LDY,
  Instruction.mk "LDA".toList AddrMode.am_zp Handler.do_LDA,
  Instruction.mk "LDX".toList AddrMode.am_zp Handler.do_LDX,
  Instruction.mk "".toList AddrMode.am_invalid Handler.do_invalid,
  Instruction.mk "TAY".toList AddrMode.am_implied Handler.do_TAY,
  Instruction.mk "LDA".toList AddrMode.am_immediate Handler.do_LDA,
  Instruction.mk "TAX".toList AddrMode.am_implied Handler.do_TAX,
  Instruction.mk "".toList AddrMode.am_invalid Handler.do_invalid,
  Instruction.mk "LDY".toList AddrMode.am_abs Handler.do_LDY,
  Instruction.mk "LDA".toList AddrMode.am_abs Handler.do_LDA,
  Instruction.mk "LDX".toList AddrMode.am_abs Handler.do_LDX,
  Instruction.mk "".toList AddrMode.am_invalid Handler.do_invalid
]

/-- Entries B0 to BF of the opcode table. -/
def instructionRowB : List Instruction := [
  Instruction.mk "BCS".toList AddrMode.am_rel Handler.do_branch,
  Instruction.mk "LDA".toList AddrMode.am_ind_y Handler.do_LDA,
  Instruction.mk "".toList AddrMode.am_invalid Handler.do_invalid,
  Instruction.mk "".toList AddrMode.am_invalid Handler.do_invalid,
  Instruction.mk "LDY".toList AddrMode.am_zp_x Handler.do_LDY,
  Instruction.mk "LDA".toList AddrMode.am_zp_x Handler.do_LDA,
  Instruction.mk "LDX".toList AddrMode.am_zp_y Handler.do_LDX,
  Instruction.mk "".toList AddrMode.am_invalid Handler.do_invalid,
  Instruction.mk "CLV".toList AddrMode.am_implied Handler.do_CLV,
  Instruction.mk "LDA".toList AddrMode.am_abs_y Handler.do_LDA,
  Instruction.mk "TSX".toList AddrMode.am_implied Handler.do_TSX,
  Instruction.mk "".toList AddrMode.am_invalid Handler.do_invalid,
  Instruction.mk "LDY".toList AddrMode.am_abs_x Handler.do_LDY,
  Instruction.mk "LDA".toList AddrMode.am_abs_x Handler.do_LDA,
  Instruction.mk "LDX".toList AddrMode.am_abs_y Handler.do_LDX,
  Instruction.mk "".toList AddrMode.am_invalid Handler.do_invalid
]

/-- Entries C0 to CF of the opcode table. -/
def instructionRowC : List Instruction := [
  Instruction.mk "CPY".toList AddrMode.am_immediate Handler.do_CPY_imm,
  Instruction.mk "CMP".toList AddrMode.am_ind_x Handler.do_CMP,
  Instruction.mk "".toList AddrMode.am_invalid Handler.do_invalid,
  Instruction.mk "".toList AddrMode.am_invalid Handler.do_invalid,
  Instruction.mk "CPY".toList AddrMode.am_zp Handler.do_CPY,
  Instruction.mk "CMP".toList AddrMode.am_zp Handler.do_CMP,
  Instruction.mk "DEC".toList AddrMode.am_zp Handler.do_DEC,
  Instruction.mk "".toList AddrMode.am_invalid Handler.do_invalid,
  Instruction.mk "INY".toList AddrMode.am_implied Handler.do_INY,
  Instruction.mk "CMP".toList AddrMode.am_immediate Handler.do_CMP,
  Instruction.mk "DEX".toList AddrMode.am_implied Handler.do_DEX,
  Instruction.mk "".toList AddrMode.am_invalid Handler.do_invalid,
  Instruction.mk "CPY".toList AddrMode.am_abs Handler.do_CPY,
  Instruction.mk "CMP".toList AddrMode.am_abs Handler.do_CMP,
  Instruction.mk "DEC".toList AddrMode.am_abs Handler.do_DEC,
  Instruction.mk "".toList AddrMode.am_invalid Handler.do_invalid
]

/-- Entries D0 to DF of the opcode table. -/
def instructionRowD : List Instruction := [
  Instruction.mk "BNE".toList AddrMode.am_rel Handler.do_branch,
  Instruction.mk "CMP".toList AddrMode.am_ind_y Handler.do_CMP,
  Instruction.mk "".toList AddrMode.am_invalid Handler.do_invalid,
  Instruction.mk "".toList AddrMode.am_invalid Handler.do_invalid,
  Instruction.mk "".toList AddrMode.am_invalid Handler.do_invalid,
  Instruction.mk "CMP".toList AddrMode.am_zp_x Handler.do_CMP,
  Instruction.mk "DEC".toList AddrMode.am_zp_x Handler.do_DEC,
  Instruction.mk "".toList AddrMode.am_invalid Handler.do_invalid,
  Instruction.mk "CLD".toList AddrMode.am_implied Handler.do_CLD,
  Instruction.mk "CMP".toList AddrMode.am_abs_y Handler.do_CMP,
  Instruction.mk "".toList AddrMode.am_invalid Handler.do_invalid,
  Instruction.mk "".toList AddrMode.am_invalid Handler.do_invalid,
  Instruction.mk "".toList AddrMode.am_invalid Handler.do_invalid,
  Instruction.mk "CMP".toList AddrMode.am_abs_x Handler.do_CMP,
  Instruction.mk "DEC".toList AddrMode.am_abs_x Handler.do_DEC,
  Instruction.mk "".toList AddrMode.am_invalid Handler.do_invalid
]

/-- Entries E0 to EF of the opcode table. -/
def instructionRowE : List Instruction := [
  Instruction.mk "CPX".toList AddrMode.am_immediate Handler.do_CPX_imm,
  Instruction.mk "SBC".toList AddrMode.am_ind_x Handler.do_SBC,
  Instruction.mk "".toList AddrMode.am_invalid Handler.do_invalid,
  Instruction.mk "".toList AddrMode.am_invalid Handler.do_invalid,
  Instruction.mk "CPX".toList AddrMode.am_zp Handler.do_CPX,
  Instruction.mk "SBC".toList AddrMode.am_zp Handler.do_SBC,
  Instruction.mk "INC".toList AddrMode.am_zp Handler.do_INC,
  Instruction.mk "".toList AddrMode.am_invalid Handler.do_invalid,
  Instruction.mk "INX".toList AddrMode.am_implied Handler.do_INX,
  Instruction.mk "SBC".toList AddrMode.am_immediate Handler.do_SBC,
  Instruction.mk "NOP".toList AddrMode.am_implied Handler.do_NOP,
  Instruction.mk "".toList AddrMode.am_invalid Handler.do_invalid,
  Instruction.mk "CPX".toList AddrMode.am_abs Handler.do_CPX,
  Instruction.mk "SBC".toList AddrMode.am_abs Handler.do_SBC,
  Instruction.mk "INC".toList AddrMode.am_abs Handler.do_INC,
  Instruction.mk "".toList AddrMode.am_invalid Handler.do_invalid
]

/-- Entries F0 to FF of the opcode table. -/
def instructionRowF : List Instruction := [
  Instruction.mk "BEQ".toList AddrMode.am_rel Handler.do_branch,
  Instruction.mk "SBC".toList AddrMode.am_ind_y Handler.do_SBC,
  Instruction.mk "".toList AddrMode.am_invalid Handler.do_invalid,
  Instruction.mk "".toList AddrMode.am_invalid Handler.do_invalid,
  Instruction.mk "".toList AddrMode.am_invalid Handler.do_invalid,
  Instruction.mk "SBC".toList AddrMode.am_zp_x Handler.do_SBC,
  Instruction.mk "INC".toList AddrMode.am_zp_x Handler.do_INC,
  Instruction.mk "".toList AddrMode.am_invalid Handler.do_invalid,
  Instruction.mk "SED".toList AddrMode.am_implied Handler.do_SED,
  Instruction.mk "SBC".toList AddrMode.am_abs_y Handler.do_SBC,
  Instruction.mk "".toList AddrMode.am_invalid Handler.do_invalid,
  Instruction.mk "".toList AddrMode.am_invalid Handler.do_invalid,
  Instruction.mk "".toList AddrMode.am_invalid Handler.do_invalid,
  Instruction.mk "SBC".toList AddrMode.am_abs_x Handler.do_SBC,
  Instruction.mk "INC".toList AddrMode.am_abs_x Handler.do_INC,
  Instruction.mk "".toList AddrMode.am_invalid Handler.do_invalid
]

/-- The array `CPU6502Impl::instructions`, entries 00 to FF in order. -/
def instructionTable : List Instruction :=
  instructionRow0 ++ instructionRow1 ++ instructionRow2 ++ instructionRow3 ++
  instructionRow4 ++ instructionRow5 ++ instructionRow6 ++ instructionRow7 ++
  instructionRow8 ++ instructionRow9 ++ instructionRowA ++ instructionRowB ++
  instructionRowC ++ instructionRowD ++ instructionRowE ++ instructionRowF

/-- The expression `instructions[opcode]` for a byte `opcode`. -/
def instructions (opcode : Nat) : Instruction :=
  instructionTable.getD opcode ⟨[], .am_invalid, .do_invalid⟩

/-- The exception class `CPUExcept`, carrying its message. -/
structure CPUExcept where
  what : List Char
  deriving DecidableEq

/-- The registers and cycle counter of `CPU6502Impl`, the memory it points to,
and the breakpoint set of the `CPU` object it points to. -/
structure CPU6502Impl where
  reg_a : Nat
  reg_x : Nat
  reg_y : Nat
  reg_s : Nat
  reg_flags : Nat
  reg_pc : Nat
  emu_cycles : Nat
  memory : Memory
  breakpoints : List Nat

/-- How a call ends: it returns a value, or it throws; either way the state
the call leaves behind is recorded. -/
inductive Outcome (α : Type)
  | returned (value : α) (s : CPU6502Impl)
  | threw (e : CPUExcept) (s : CPU6502Impl)

/-- The state a call leaves behind, whether it returned or threw. -/
def Outcome.state {α : Type} : Outcome α → CPU6502Impl
  | .returned _ s => s
  | .threw _ s => s

/-- The uppercase hexadecimal digit of a number below 16. -/
def hexDigit (n : Nat) : Char :=
  if n < 10 then Char.ofNat (48 + n) else Char.ofNat (55 + n)

/-- The conversion `%02X` of a byte. -/
def fmt02X (b : Nat) : List Char :=
  [hexDigit (b / 16 % 16), hexDigit (b % 16)]

/-- The conversion `%04X` of a 16-bit value. -/
def fmt04X (w : Nat) : List Char :=
  [hexDigit (w / 4096 % 16), hexDigit (w / 256 % 16), hexDigit (w / 16 % 16), hexDigit (w % 16)]

namespace CPU6502Impl

/-- The constructor `CPU6502Impl::CPU6502Impl`, with an empty breakpoint set. -/
def new (mem : Memory) : CPU6502Impl :=
  { reg_a := 0, reg_x := 0, reg_y := 0, reg_s := 0, reg_flags := 0x20, reg_pc := 0,
    emu_cycles := 0, memory := mem, breakpoints := [] }

/-- The method `SetZ`; the parameter is a `std::uint8_t`. -/
def SetZ (result : Nat) (s : CPU6502Impl) : CPU6502Impl :=
  if result % 256 = 0 then { s with reg_flags := s.reg_flags ||| 0x02 }
  else { s with reg_flags := s.reg_flags &&& 0xFD }

/-- The method `SetNZ`; the parameter is a `std::uint8_t`. -/
def SetNZ (result : Nat) (s : CPU6502Impl) : CPU6502Impl :=
  SetZ result { s with reg_flags := (s.reg_flags &&& 0x7F) ||| (result % 256 &&& 0x80) }

/-- The method `SetV`. -/
def SetV (overflow : Bool) (s : CPU6502Impl) : CPU6502Impl :=
  if overflow then { s with reg_flags := s.reg_flags ||| 0x40 }
  else { s with reg_flags := s.reg_flags &&& 0xBF }

/-- The method `SetC`. -/
def SetC (carry : Bool) (s : CPU6502Impl) : CPU6502Impl :=
  if carry then { s with reg_flags := s.reg_flags ||| 0x01 }
  else { s with reg_flags := s.reg_flags &&& 0xFE }

/-- The method `PushByte`: `address = 0x0100 + --reg_s`, then the write. -/
def PushByte (byte : Nat) (s : CPU6502Impl) : CPU6502Impl :=
  { s with
    reg_s := (s.reg_s + 255) % 256
    memory := s.memory.Write8 (0x0100 + (s.reg_s + 255) % 256) byte }

/-- The method `PopByte`: `address = 0x0100 + reg_s++`, then the read. -/
def PopByte (s : CPU6502Impl) : Nat × CPU6502Impl :=
  (s.memory.Read8 (0x0100 + s.reg_s), { s with reg_s := (s.reg_s + 1) % 256 })

/-- The method `Compare`. -/
def Compare (reg byte : Nat) (s : CPU6502Impl) : CPU6502Impl :=
  SetC (decide (reg + (byte ^^^ 0xFF) + 1 > 0xFF)) (SetNZ (reg + (byte ^^^ 0xFF) + 1) s)

/-- The method `DoAdd`, common to ADC and SBC. -/
def DoAdd (byte : Nat) (s : CPU6502Impl) : CPU6502Impl :=
  if s.reg_flags &&& 0x08 ≠ 0 then
    let r1 := (s.reg_a &&& 0x0F) + (byte &&& 0xF0) + (s.reg_flags &&& 0x01)
    let r1 := if r1 > 0x09 then r1 + 0x06 else r1
    let r2 := (s.reg_a &&& 0xF0) + (byte &&& 0xF0)
    let r2 := if r2 > 0x90 then r2 + 0x60 else r2
    let result := r1 + r2
    SetC (decide (result > 0xFF)) (SetNZ result { s with reg_a := result % 256 })
  else
    let result := s.reg_a + byte + (s.reg_flags &&& 0x01)
    let r7 := (s.reg_a &&& 0x7F) + (byte &&& 0x7F) + (s.reg_flags &&& 0x01)
    let overflow := ((r7 <<< 1) ^^^ result) &&& 0x100
    let s1 := SetV (decide (overflow ≠ 0)) s
    SetC (decide (result > 0xFF)) (SetNZ result { s1 with reg_a := result % 256 })

/-- The method `GetAddress`: the address of the operand, and the state with
the program counter and the cycle counter advanced. -/
def GetAddress (opcode : Nat) (s : CPU6502Impl) : Nat × CPU6502Impl :=
  match (instructions opcode).addr_mode with
  | .am_ind_x =>
    let byte1 := s.memory.Read8 s.reg_pc
    let zp_addr := (byte1 + s.reg_x) % 256
    let byte2 := s.memory.Read8 zp_addr
    let byte3 := s.memory.Read8 ((zp_addr + 1) % 256)
    (byte3 * 0x100 + byte2,
      { s with reg_pc := (s.reg_pc + 1) % 65536, emu_cycles := (s.emu_cycles + 4) % 2 ^ 64 })
  | .am_immediate =>
    (s.reg_pc, { s with reg_pc := (s.reg_pc + 1) % 65536 })
  | .am_ind_y =>
    let byte1 := s.memory.Read8 s.reg_pc
    let zp_addr := byte1
    let byte2 := s.memory.Read8 zp_addr
    let byte3 := s.memory.Read8 ((zp_addr + 1) % 256)
    let addr1 := byte3 * 0x100 + byte2
    let addr2 := (addr1 + s.reg_y) % 65536
    (addr2,
      { s with
        reg_pc := (s.reg_pc + 1) % 65536
        emu_cycles :=
          (s.emu_cycles + 3 + (if addr2 >>> 8 ≠ addr1 >>> 8 then 1 else 0)) % 2 ^ 64 })
  | .am_zp =>
    let byte1 := s.memory.Read8 s.reg_pc
    (byte1 &&& 0xFF,
      { s with reg_pc := (s.reg_pc + 1) % 65536, emu_cycles := (s.emu_cycles + 2) % 2 ^ 64 })
  | .am_zp_x =>
    let byte1 := s.memory.Read8 s.reg_pc
    ((byte1 + s.reg_x) &&& 0xFF,
      { s with reg_pc := (s.reg_pc + 1) % 65536, emu_cycles := (s.emu_cycles + 2) % 2 ^ 64 })
  | .am_zp_y =>
    let byte1 := s.memory.Read8 s.reg_pc
    ((byte1 + s.reg_y) &&& 0xFF,
      { s with reg_pc := (s.reg_pc + 1) % 65536, emu_cycles := (s.emu_cycles + 2) % 2 ^ 64 })
  | .am_abs =>
    let byte1 := s.memory.Read8 s.reg_pc
    let byte2 := s.memory.Read8 ((s.reg_pc + 1) % 65536)
    let addr1 := byte2 * 0x100 + byte1
    (addr1,
      { s with
        reg_pc := ((s.reg_pc + 1) % 65536 + 1) % 65536
        emu_cycles := (s.emu_cycles + 2) % 2 ^ 64 })
  | .am_abs_x =>
    let byte1 := s.memory.Read8 s.reg_pc
    let byte2 := s.memory.Read8 ((s.reg_pc + 1) % 65536)
    let addr1 := byte2 * 0x100 + byte1
    let addr2 := (addr1 + s.reg_x) % 65536
    (addr2,
      { s with
        reg_pc := ((s.reg_pc + 1) % 65536 + 1) % 65536
        emu_cycles :=
          (s.emu_cycles + 2 + (if addr2 >>> 8 ≠ addr1 >>> 8 then 1 else 0)) % 2 ^ 64 })
  | .am_abs_y =>
    let byte1 := s.memory.Read8 s.reg_pc
    let byte2 := s.memory.Read8 ((s.reg_pc + 1) % 65536)
    let addr1 := byte2 * 0x100 + byte1
    let addr2 := (addr1 + s.reg_y) % 65536
    (addr2,
      { s with
        reg_pc := ((s.reg_pc + 1) % 65536 + 1) % 65536
        emu_cycles :=
          (s.emu_cycles + 2 + (if addr2 >>> 8 ≠ addr1 >>> 8 then 1 else 0)) % 2 ^ 64 })
  | _ => (0xFFFF, s)

/-- The handler `do_ORA`. -/
def do_ORA (opcode : Nat) (s : CPU6502Impl) : CPU6502Impl :=
  let (addr, s1) := GetAddress opcode s
  let byte := s1.memory.Read8 addr
  let s2 := { s1 with reg_a := s1.reg_a ||| byte }
  let s3 := SetNZ s2.reg_a s2
  { s3 with emu_cycles := (s3.emu_cycles + 2) % 2 ^ 64 }

/-- The handler `do_AND`. -/
def do_AND (opcode : Nat) (s : CPU6502Impl) : CPU6502Impl :=
  let (addr, s1) := GetAddress opcode s
  let byte := s1.memory.Read8 addr
  let s2 := { s1 with reg_a := s1.reg_a &&& byte }
  let s3 := SetNZ s2.reg_a s2
  { s3 with emu_cycles := (s3.emu_cycles + 2) % 2 ^ 64 }

/-- The handler `do_EOR`. -/
def do_EOR (opcode : Nat) (s : CPU6502Impl) : CPU6502Impl :=
  let (addr, s1) := GetAddress opcode s
  let byte := s1.memory.Read8 addr
  let s2 := { s1 with reg_a := s1.reg_a ^^^ byte }
  let s3 := SetNZ s2.reg_a s2
  { s3 with emu_cycles := (s3.emu_cycles + 2) % 2 ^ 64 }

/-- The handler `do_ADC`. -/
def do_ADC (opcode : Nat) (s : CPU6502Impl) : CPU6502Impl :=
  let (addr, s1) := GetAddress opcode s
  let byte := s1.memory.Read8 addr
  DoAdd byte { s1 with emu_cycles := (s1.emu_cycles + 2) % 2 ^ 64 }

/-- The handler `do_STA`. -/
def do_STA (opcode : Nat) (s : CPU6502Impl) : CPU6502Impl :=
  let (addr, s1) := GetAddress opcode s
  { s1 with memory := s1.memory.Write8 addr s1.reg_a, emu_cycles := (s1.emu_cycles + 2) % 2 ^ 64 }

/-- The handler `do_LDA`. -/
def do_LDA (opcode : Nat) (s : CPU6502Impl) : CPU6502Impl :=
  let (addr, s1) := GetAddress opcode s
  let byte := s1.memory.Read8 addr
  let s2 := { s1 with reg_a := byte }
  let s3 := SetNZ s2.reg_a s2
  { s3 with emu_cycles := (s3.emu_cycles + 2) % 2 ^ 64 }

/-- The handler `do_CMP`. -/
def do_CMP (opcode : Nat) (s : CPU6502Impl) : CPU6502Impl :=
  let (addr, s1) := GetAddress opcode s
  let byte := s1.memory.Read8 addr
  let s2 := Compare s1.reg_a byte s1
  { s2 with emu_cycles := (s2.emu_cycles + 2) % 2 ^ 64 }

/-- The handler `do_SBC`; the subtrahend is rewritten in a byte variable. -/
def do_SBC (opcode : Nat) (s : CPU6502Impl) : CPU6502Impl :=
  let (addr, s1) := GetAddress opcode s
  let byte := s1.memory.Read8 addr
  let byte := if s1.reg_flags &&& 0x08 ≠ 0 then (0x99 + 256 - byte) % 256 else (byte ^^^ 0xFF) % 256
  let s2 := DoAdd byte s1
  { s2 with emu_cycles := (s2.emu_cycles + 2) % 2 ^ 64 }

/-- The handler `do_ASL`. -/
def do_ASL (opcode : Nat) (s : CPU6502Impl) : CPU6502Impl :=
  let (addr, s1) := GetAddress opcode s
  let byte := s1.memory.Read8 addr
  let result := (byte <<< 1) % 256
  let s2 := { s1 with memory := s1.memory.Write8 addr result }
  let s3 := SetNZ result s2
  let s3 := SetC (decide (byte &&& 0x80 ≠ 0)) s3
  { s3 with emu_cycles := (s3.emu_cycles + 4) % 2 ^ 64 }

/-- The handler `do_LSR`. -/
def do_LSR (opcode : Nat) (s : CPU6502Impl) : CPU6502Impl :=
  let (addr, s1) := GetAddress opcode s
  let byte := s1.memory.Read8 addr
  let result := (byte >>> 1) % 256
  let s2 := { s1 with memory := s1.memory.Write8 addr result }
  let s3 := SetNZ result s2
  let s3 := SetC (decide (byte &&& 0x01 ≠ 0)) s3
  { s3 with emu_cycles := (s3.emu_cycles + 4) % 2 ^ 64 }

/-- The handler `do_ROL`. -/
def do_ROL (opcode : Nat) (s : CPU6502Impl) : CPU6502Impl :=
  let (addr, s1) := GetAddress opcode s
  let byte := s1.memory.Read8 addr
  let result := ((byte <<< 1) ||| (s1.reg_flags &&& 0x01)) % 256
  let s2 := { s1 with memory := s1.memory.Write8 addr result }
  let s3 := SetNZ result s2
  let s3 := SetC (decide (byte &&& 0x80 ≠ 0)) s3
  { s3 with emu_cycles := (s3.emu_cycles + 4) % 2 ^ 64 }

/-- The handler `do_ROR`. -/
def do_ROR (opcode : Nat) (s : CPU6502Impl) : CPU6502Impl :=
  let (addr, s1) := GetAddress opcode s
  let byte := s1.memory.Read8 addr
  let result := ((byte >>> 1) ||| ((s1.reg_flags &&& 0x01) <<< 7)) % 256
  let s2 := { s1 with memory := s1.memory.Write8 addr result }
  let s3 := SetNZ result s2
  let s3 := SetC (decide (byte &&& 0x01 ≠ 0)) s3
  { s3 with emu_cycles := (s3.emu_cycles + 4) % 2 ^ 64 }

/-- The handler `do_ASL_A`. -/
def do_ASL_A (_opcode : Nat) (s : CPU6502Impl) : CPU6502Impl :=
  let byte := s.reg_a
  let result := (byte <<< 1) % 256
  let s2 := { s with reg_a := result }
  let s3 := SetC (decide (byte &&& 0x80 ≠ 0)) (SetNZ result s2)
  { s3 with emu_cycles := (s3.emu_cycles + 2) % 2 ^ 64 }

/-- The handler `do_LSR_A`. -/
def do_LSR_A (_opcode : Nat) (s : CPU6502Impl) : CPU6502Impl :=
  let byte := s.reg_a
  let result := (byte >>> 1) % 256
  let s2 := { s with reg_a := result }
  let s3 := SetC (decide (byte &&& 0x01 ≠ 0)) (SetNZ result s2)
  { s3 with emu_cycles := (s3.emu_cycles + 2) % 2 ^ 64 }

/-- The handler `do_ROL_A`. -/
def do_ROL_A (_opcode : Nat) (s : CPU6502Impl) : CPU6502Impl :=
  let byte := s.reg_a
  let result := ((byte <<< 1) ||| (s.reg_flags &&& 0x01)) % 256
  let s2 := { s with reg_a := result }
  let s3 := SetC (decide (byte &&& 0x80 ≠ 0)) (SetNZ result s2)
  { s3 with emu_cycles := (s3.emu_cycles + 2) % 2 ^ 64 }

/-- The handler `do_ROR_A`. -/
def do_ROR_A (_opcode : Nat) (s : CPU6502Impl) : CPU6502Impl :=
  let byte := s.reg_a
  let result := ((byte >>> 1) ||| ((s.reg_flags &&& 0x01) <<< 7)) % 256
  let s2 := { s with reg_a := result }
  let s3 := SetC (decide (byte &&& 0x01 ≠ 0)) (SetNZ result s2)
  { s3 with emu_cycles := (s3.emu_cycles + 2) % 2 ^ 64 }

/-- The handler `do_BIT`. -/
def do_BIT (opcode : Nat) (s : CPU6502Impl) : CPU6502Impl :=
  let (addr, s1) := GetAddress opcode s
  let byte := s1.memory.Read8 addr
  let s2 := SetZ (byte &&& s1.reg_a) s1
  { s2 with
    reg_flags := (s2.reg_flags &&& 0x3F) ||| (byte &&& 0xC0)
    emu_cycles := (s2.emu_cycles + 2) % 2 ^ 64 }

/-- The table `flag_bits` of `do_branch`, indexed by `opcode >> 6`. -/
def flag_bits (i : Nat) : Nat :=
  match i with
  | 0 => 0x80
  | 1 => 0x40
  | 2 => 0x01
  | _ => 0x02

/-- The handler `do_branch`. -/
def do_branch (opcode : Nat) (s : CPU6502Impl) : CPU6502Impl :=
  let offset := s.memory.Read8 s.reg_pc
  let pc := (s.reg_pc + 1) % 65536
  let address := (pc + (offset ^^^ 0x80) + (65536 - 0x80)) % 65536
  let which := decide (opcode &&& 0x20 ≠ 0)
  let flag := decide (s.reg_flags &&& flag_bits (opcode >>> 6) ≠ 0)
  if flag = which then
    { s with
      reg_pc := address
      emu_cycles :=
        (s.emu_cycles + 2 + 1 + (if address >>> 8 ≠ pc >>> 8 then 1 else 0)) % 2 ^ 64 }
  else
    { s with reg_pc := pc, emu_cycles := (s.emu_cycles + 2) % 2 ^ 64 }

/-- The handler `do_BRK`. -/
def do_BRK (_opcode : Nat) (s : CPU6502Impl) : CPU6502Impl :=
  let byte1 := s.memory.Read8 0xFFFE
  let byte2 := s.memory.Read8 0xFFFF
  let pc := (s.reg_pc + 1) % 65536
  let s1 := PushByte (pc >>> 8) { s with reg_pc := pc }
  let s2 := PushByte (pc &&& 0xFF) s1
  let s3 := PushByte s2.reg_flags s2
  { s3 with
    reg_flags := s3.reg_flags ||| 0x14
    reg_pc := byte2 * 0x100 + byte1
    emu_cycles := (s3.emu_cycles + 7) % 2 ^ 64 }

/-- The handler `do_CLC`. -/
def do_CLC (_opcode : Nat) (s : CPU6502Impl) : CPU6502Impl :=
  { s with reg_flags := s.reg_flags &&& 0xFE, emu_cycles := (s.emu_cycles + 2) % 2 ^ 64 }

/-- The handler `do_CLD`. -/
def do_CLD (_opcode : Nat) (s : CPU6502Impl) : CPU6502Impl :=
  { s with reg_flags := s.reg_flags &&& 0xF7, emu_cycles := (s.emu_cycles + 2) % 2 ^ 64 }

/-- The handler `do_CLI`. -/
def do_CLI (_opcode : Nat) (s : CPU6502Impl) : CPU6502Impl :=
  { s with reg_flags := s.reg_flags &&& 0xFB, emu_cycles := (s.emu_cycles + 2) % 2 ^ 64 }

/-- The handler `do_CLV`. -/
def do_CLV (_opcode : Nat) (s : CPU6502Impl) : CPU6502Impl :=
  { s with reg_flags := s.reg_flags &&& 0xBF, emu_cycles := (s.emu_cycles + 2) % 2 ^ 64 }

/-- The handler `do_CPX`. -/
def do_CPX (opcode : Nat) (s : CPU6502Impl) : CPU6502Impl :=
  let (addr, s1) := GetAddress opcode s
  let byte := s1.memory.Read8 addr
  let s2 := Compare s1.reg_x byte s1
  { s2 with emu_cycles := (s2.emu_cycles + 2) % 2 ^ 64 }

/-- The handler `do_CPX_imm`. -/
def do_CPX_imm (_opcode : Nat) (s : CPU6502Impl) : CPU6502Impl :=
  let byte := s.memory.Read8 s.reg_pc
  let s1 := { s with reg_pc := (s.reg_pc + 1) % 65536 }
  let s2 := Compare s1.reg_x byte s1
  { s2 with emu_cycles := (s2.emu_cycles + 2) % 2 ^ 64 }

/-- The handler `do_CPY`. -/
def do_CPY (opcode : Nat) (s : CPU6502Impl) : CPU6502Impl :=
  let (addr, s1) := GetAddress opcode s
  let byte := s1.memory.Read8 addr
  let s2 := Compare s1.reg_y byte s1
  { s2 with emu_cycles := (s2.emu_cycles + 2) % 2 ^ 64 }

/-- The handler `do_CPY_imm`. -/
def do_CPY_imm (_opcode : Nat) (s : CPU6502Impl) : CPU6502Impl :=
  let byte := s.memory.Read8 s.reg_pc
  let s1 := { s with reg_pc := (s.reg_pc + 1) % 65536 }
  let s2 := Compare s1.reg_y byte s1
  { s2 with emu_cycles := (s2.emu_cycles + 2) % 2 ^ 64 }

/-- The handler `do_DEC`. -/
def do_DEC (opcode : Nat) (s : CPU6502Impl) : CPU6502Impl :=
  let (addr, s1) := GetAddress opcode s
  let byte := s1.memory.Read8 addr
  let result := (byte + 255) % 256
  let s2 := { s1 with memory := s1.memory.Write8 addr result }
  let s3 := SetNZ result s2
  { s3 with emu_cycles := (s3.emu_cycles + 4) % 2 ^ 64 }

/-- The handler `do_DEX`. -/
def do_DEX (_opcode : Nat) (s : CPU6502Impl) : CPU6502Impl :=
  let s1 := { s with reg_x := (s.reg_x + 255) % 256 }
  let s2 := SetNZ s1.reg_x s1
  { s2 with emu_cycles := (s2.emu_cycles + 2) % 2 ^ 64 }

/-- The handler `do_DEY`. -/
def do_DEY (_opcode : Nat) (s : CPU6502Impl) : CPU6502Impl :=
  let s1 := { s with reg_y := (s.reg_y + 255) % 256 }
  let s2 := SetNZ s1.reg_y s1
  { s2 with emu_cycles := (s2.emu_cycles + 2) % 2 ^ 64 }

/-- The handler `do_INC`. -/
def do_INC (opcode : Nat) (s : CPU6502Impl) : CPU6502Impl :=
  let (addr, s1) := GetAddress opcode s
  let byte := s1.memory.Read8 addr
  let result := (byte + 1) % 256
  let s2 := { s1 with memory := s1.memory.Write8 addr result }
  let s3 := SetNZ result s2
  { s3 with emu_cycles := (s3.emu_cycles + 4) % 2 ^ 64 }

/-- The handler `do_INX`. -/
def do_INX (_opcode : Nat) (s : CPU6502Impl) : CPU6502Impl :=
  let s1 := { s with reg_x := (s.reg_x + 1) % 256 }
  let s2 := SetNZ s1.reg_x s1
  { s2 with emu_cycles := (s2.emu_cycles + 2) % 2 ^ 64 }

/-- The handler `do_INY`. -/
def do_INY (_opcode : Nat) (s : CPU6502Impl) : CPU6502Impl :=
  let s1 := { s with reg_y := (s.reg_y + 1) % 256 }
  let s2 := SetNZ s1.reg_y s1
  { s2 with emu_cycles := (s2.emu_cycles + 2) % 2 ^ 64 }

/-- The handler `do_JMP_abs`. -/
def do_JMP_abs (_opcode : Nat) (s : CPU6502Impl) : CPU6502Impl :=
  let byte1 := s.memory.Read8 s.reg_pc
  let byte2 := s.memory.Read8 ((s.reg_pc + 1) % 65536)
  let addr := (byte2 * 0x100 + byte1) % 65536
  { s with reg_pc := addr, emu_cycles := (s.emu_cycles + 3) % 2 ^ 64 }

/-- The handler `do_JMP_ind`; `++byte1` is an increment of a byte variable. -/
def do_JMP_ind (_opcode : Nat) (s : CPU6502Impl) : CPU6502Impl :=
  let byte1 := s.memory.Read8 s.reg_pc
  let byte2 := s.memory.Read8 ((s.reg_pc + 1) % 65536)
  let addr := (byte2 * 0x100 + byte1) % 65536
  let byte3 := s.memory.Read8 addr
  let byte1 := (byte1 + 1) % 256
  let addr := (byte2 * 0x100 + byte1) % 65536
  let byte4 := s.memory.Read8 addr
  { s with reg_pc := (byte4 * 0x100 + byte3) % 65536, emu_cycles := (s.emu_cycles + 5) % 2 ^ 64 }

/-- The handler `do_JSR`: the program counter is advanced once only, so the
address pushed is that of the last byte of the instruction. -/
def do_JSR (_opcode : Nat) (s : CPU6502Impl) : CPU6502Impl :=
  let byte1 := s.memory.Read8 s.reg_pc
  let pc := (s.reg_pc + 1) % 65536
  let byte2 := s.memory.Read8 pc
  let addr := (byte2 * 0x100 + byte1) % 65536
  let s1 := PushByte (pc >>> 8) { s with reg_pc := pc }
  let s2 := PushByte (pc &&& 0xFF) s1
  { s2 with reg_pc := addr, emu_cycles := (s2.emu_cycles + 6) % 2 ^ 64 }

/-- The handler `do_LDX`. -/
def do_LDX (opcode : Nat) (s : CPU6502Impl) : CPU6502Impl :=
  let (addr, s1) := GetAddress opcode s
  let byte := s1.memory.Read8 addr
  let s2 := { s1 with reg_x := byte }
  let s3 := SetNZ s2.reg_x s2
  { s3 with emu_cycles := (s3.emu_cycles + 2) % 2 ^ 64 }

/-- The handler `do_LDX_imm`. -/
def do_LDX_imm (_opcode : Nat) (s : CPU6502Impl) : CPU6502Impl :=
  let byte := s.memory.Read8 s.reg_pc
  let s1 := { s with reg_pc := (s.reg_pc + 1) % 65536, reg_x := byte }
  let s2 := SetNZ s1.reg_x s1
  { s2 with emu_cycles := (s2.emu_cycles + 2) % 2 ^ 64 }

/-- The handler `do_LDY`. -/
def do_LDY (opcode : Nat) (s : CPU6502Impl) : CPU6502Impl :=
  let (addr, s1) := GetAddress opcode s
  let byte := s1.memory.Read8 addr
  let s2 := { s1 with reg_y := byte }
  let s3 := SetNZ s2.reg_y s2
  { s3 with emu_cycles := (s3.emu_cycles + 2) % 2 ^ 64 }

/-- The handler `do_LDY_imm`. -/
def do_LDY_imm (_opcode : Nat) (s : CPU6502Impl) : CPU6502Impl :=
  let byte := s.memory.Read8 s.reg_pc
  let s1 := { s with reg_pc := (s.reg_pc + 1) % 65536, reg_y := byte }
  let s2 := SetNZ s1.reg_y s1
  { s2 with emu_cycles := (s2.emu_cycles + 2) % 2 ^ 64 }

/-- The handler `do_NOP`. -/
def do_NOP (_opcode : Nat) (s : CPU6502Impl) : CPU6502Impl :=
  { s with emu_cycles := (s.emu_cycles + 2) % 2 ^ 64 }

/-- The handler `do_PHA`. -/
def do_PHA (_opcode : Nat) (s : CPU6502Impl) : CPU6502Impl :=
  let s1 := PushByte s.reg_a s
  { s1 with emu_cycles := (s1.emu_cycles + 3) % 2 ^ 64 }

/-- The handler `do_PHP`. -/
def do_PHP (_opcode : Nat) (s : CPU6502Impl) : CPU6502Impl :=
  let s1 := PushByte (s.reg_flags ||| 0x20) s
  { s1 with emu_cycles := (s1.emu_cycles + 3) % 2 ^ 64 }

/-- The handler `do_PLA`. -/
def do_PLA (_opcode : Nat) (s : CPU6502Impl) : CPU6502Impl :=
  let (byte, s1) := PopByte s
  let s2 := { s1 with reg_a := byte }
  let s3 := SetNZ s2.reg_a s2
  { s3 with emu_cycles := (s3.emu_cycles + 4) % 2 ^ 64 }

/-- The handler `do_PLP`. -/
def do_PLP (_opcode : Nat) (s : CPU6502Impl) : CPU6502Impl :=
  let (byte, s1) := PopByte s
  { s1 with reg_flags := byte ||| 0x20, emu_cycles := (s1.emu_cycles + 4) % 2 ^ 64 }

/-- The handler `do_RTI`. -/
def do_RTI (_opcode : Nat) (s : CPU6502Impl) : CPU6502Impl :=
  let (byte1, s1) := PopByte s
  let s2 := { s1 with reg_flags := byte1 ||| 0x20 }
  let (byte2, s3) := PopByte s2
  let (byte3, s4) := PopByte s3
  { s4 with reg_pc := (byte3 * 0x100 + byte2) % 65536, emu_cycles := (s4.emu_cycles + 6) % 2 ^ 64 }

/-- The handler `do_RTS`. -/
def do_RTS (_opcode : Nat) (s : CPU6502Impl) : CPU6502Impl :=
  let (byte1, s1) := PopByte s
  let (byte2, s2) := PopByte s1
  { s2 with reg_pc := (byte2 * 0x100 + byte1 + 1) % 65536, emu_cycles := (s2.emu_cycles + 6) % 2 ^ 64 }

/-- The handler `do_SEC`. -/
def do_SEC (_opcode : Nat) (s : CPU6502Impl) : CPU6502Impl :=
  { s with reg_flags := s.reg_flags ||| 0x01, emu_cycles := (s.emu_cycles + 2) % 2 ^ 64 }

/-- The handler `do_SED`. -/
def do_SED (_opcode : Nat) (s : CPU6502Impl) : CPU6502Impl :=
  { s with reg_flags := s.reg_flags ||| 0x08, emu_cycles := (s.emu_cycles + 2) % 2 ^ 64 }

/-- The handler `do_SEI`. -/
def do_SEI (_opcode : Nat) (s : CPU6502Impl) : CPU6502Impl :=
  { s with reg_flags := s.reg_flags ||| 0x04, emu_cycles := (s.emu_cycles + 2) % 2 ^ 64 }

/-- The handler `do_STX`. -/
def do_STX (opcode : Nat) (s : CPU6502Impl) : CPU6502Impl :=
  let (addr, s1) := GetAddress opcode s
  { s1 with memory := s1.memory.Write8 addr s1.reg_x, emu_cycles := (s1.emu_cycles + 2) % 2 ^ 64 }

/-- The handler `do_STY`. -/
def do_STY (opcode : Nat) (s : CPU6502Impl) : CPU6502Impl :=
  let (addr, s1) := GetAddress opcode s
  { s1 with memory := s1.memory.Write8 addr s1.reg_y, emu_cycles := (s1.emu_cycles + 2) % 2 ^ 64 }

/-- The handler `do_TAX`. -/
def do_TAX (_opcode : Nat) (s : CPU6502Impl) : CPU6502Impl :=
  let s1 := { s with reg_x := s.reg_a }
  let s2 := SetNZ s1.reg_x s1
  { s2 with emu_cycles := (s2.emu_cycles + 2) % 2 ^ 64 }

/-- The handler `do_TAY`. -/
def do_TAY (_opcode : Nat) (s : CPU6502Impl) : CPU6502Impl :=
  let s1 := { s with reg_y := s.reg_a }
  let s2 := SetNZ s1.reg_y s1
  { s2 with emu_cycles := (s2.emu_cycles + 2) % 2 ^ 64 }

/-- The handler `do_TSX`. -/
def do_TSX (_opcode : Nat) (s : CPU6502Impl) : CPU6502Impl :=
  let s1 := { s with reg_x := s.reg_s }
  let s2 := SetNZ s1.reg_x s1
  { s2 with emu_cycles := (s2.emu_cycles + 2) % 2 ^ 64 }

/-- The handler `do_TXA`. -/
def do_TXA (_opcode : Nat) (s : CPU6502Impl) : CPU6502Impl :=
  let s1 := { s with reg_a := s.reg_x }
  let s2 := SetNZ s1.reg_a s1
  { s2 with emu_cycles := (s2.emu_cycles + 2) % 2 ^ 64 }

/-- The handler `do_TXS`. -/
def do_TXS (_opcode : Nat) (s : CPU6502Impl) : CPU6502Impl :=
  { s with reg_s := s.reg_x, emu_cycles := (s.emu_cycles + 2) % 2 ^ 64 }

/-- The handler `do_TYA`. -/
def do_TYA (_opcode : Nat) (s : CPU6502Impl) : CPU6502Impl :=
  let s1 := { s with reg_a := s.reg_y }
  let s2 := SetNZ s1.reg_a s1
  { s2 with emu_cycles := (s2.emu_cycles + 2) % 2 ^ 64 }

/-- The handler `do_invalid`: the program counter is stepped back and a
`CPUExcept` with the message `Undocumented opcode %02X` is thrown. -/
def do_invalid (opcode : Nat) (s : CPU6502Impl) : Outcome Unit :=
  .threw ⟨"Undocumented opcode ".toList ++ fmt02X opcode⟩
    { s with reg_pc := (s.reg_pc + 65535) % 65536 }

/-- The call `(this->*handler)(opcode)` through a table entry. -/
def callHandler (h : Handler) (opcode : Nat) (s : CPU6502Impl) : Outcome Unit :=
  match h with
  | .do_invalid => do_invalid opcode s
  | .do_ORA => .returned () (do_ORA opcode s)
  | .do_AND => .returned () (do_AND opcode s)
  | .do_EOR => .returned () (do_EOR opcode s)
  | .do_ADC => .returned () (do_ADC opcode s)
  | .do_STA => .returned () (do_STA opcode s)
  | .do_LDA => .returned () (do_LDA opcode s)
  | .do_CMP => .returned () (do_CMP opcode s)
  | .do_SBC => .returned () (do_SBC opcode s)
  | .do_ASL => .returned () (do_ASL opcode s)
  | .do_LSR => .returned () (do_LSR opcode s)
  | .do_ROL => .returned () (do_ROL opcode s)
  | .do_ROR => .returned () (do_ROR opcode s)
  | .do_ASL_A => .returned () (do_ASL_A opcode s)
  | .do_LSR_A => .returned () (do_LSR_A opcode s)
  | .do_ROL_A => .returned () (do_ROL_A opcode s)
  | .do_ROR_A => .returned () (do_ROR_A opcode s)
  | .do_BIT => .returned () (do_BIT opcode s)
  | .do_branch => .returned () (do_branch opcode s)
  | .do_BRK => .returned () (do_BRK opcode s)
  | .do_CLC => .returned () (do_CLC opcode s)
  | .do_CLD => .returned () (do_CLD opcode s)
  | .do_CLI => .returned () (do_CLI opcode s)
  | .do_CLV => .returned () (do_CLV opcode s)
  | .do_CPX => .returned () (do_CPX opcode s)
  | .do_CPX_imm => .returned () (do_CPX_imm opcode s)
  | .do_CPY => .returned () (do_CPY opcode s)
  | .do_CPY_imm => .returned () (do_CPY_imm opcode s)
  | .do_DEC => .returned () (do_DEC opcode s)
  | .do_DEX => .returned () (do_DEX opcode s)
  | .do_DEY => .returned () (do_DEY opcode s)
  | .do_INC => .returned () (do_INC opcode s)
  | .do_INX => .returned () (do_INX opcode s)
  | .do_INY => .returned () (do_INY opcode s)
  | .do_JMP_abs => .returned () (do_JMP_abs opcode s)
  | .do_JMP_ind => .returned () (do_JMP_ind opcode s)
  | .do_JSR => .returned () (do_JSR opcode s)
  | .do_LDX => .returned () (do_LDX opcode s)
  | .do_LDX_imm => .returned () (do_LDX_imm opcode s)
  | .do_LDY => .returned () (do_LDY opcode s)
  | .do_LDY_imm => .returned () (do_LDY_imm opcode s)
  | .do_NOP => .returned () (do_NOP opcode s)
  | .do_PHA => .returned () (do_PHA opcode s)
  | .do_PHP => .returned () (do_PHP opcode s)
  | .do_PLA => .returned () (do_PLA opcode s)
  | .do_PLP => .returned () (do_PLP opcode s)
  | .do_RTI => .returned () (do_RTI opcode s)
  | .do_RTS => .returned () (do_RTS opcode s)
  | .do_SEC => .returned () (do_SEC opcode s)
  | .do_SED => .returned () (do_SED opcode s)
  | .do_SEI => .returned () (do_SEI opcode s)
  | .do_STX => .returned () (do_STX opcode s)
  | .do_STY => .returned () (do_STY opcode s)
  | .do_TAX => .returned () (do_TAX opcode s)
  | .do_TAY => .returned () (do_TAY opcode s)
  | .do_TSX => .returned () (do_TSX opcode s)
  | .do_TXA => .returned () (do_TXA opcode s)
  | .do_TXS => .returned () (do_TXS opcode s)
  | .do_TYA => .returned () (do_TYA opcode s)

/-- The method `DoStep`: run one instruction; the value returned tells whether
the instruction was JSR. -/
def DoStep (s : CPU6502Impl) : Outcome Bool :=
  let opcode := s.memory.Read8 s.reg_pc
  match callHandler (instructions opcode).handler opcode
      { s with reg_pc := (s.reg_pc + 1) % 65536 } with
  | .returned _ s1 => .returned (opcode == 0x20) s1
  | .threw e s1 => .threw e s1

end CPU6502Impl

/-! ## cpu6502.cpp: the disassembler and the assembler -/

/-- The struct `CPU::Disasm`. -/
structure Disasm where
  disasm : List Char
  num_bytes : Nat
  deriving DecidableEq

/-- The struct `CPU::Assem`. -/
structure Assem where
  valid : Bool
  bytes : List Nat
  deriving DecidableEq

/-- The library function `std::isspace` in the C locale: the space and the
characters 9 to 13. -/
def isspace (c : Char) : Bool :=
  c.toNat = 32 || (9 ≤ c.toNat && c.toNat ≤ 13)

/-- The library function `std::toupper` in the C locale. -/
def toupper (c : Char) : Char :=
  if 97 ≤ c.toNat ∧ c.toNat ≤ 122 then Char.ofNat (c.toNat - 32) else c

/-- The value of a hexadecimal digit of either case. -/
def hexValue (c : Char) : Option Nat :=
  if 48 ≤ c.toNat ∧ c.toNat ≤ 57 then some (c.toNat - 48)
  else if 65 ≤ c.toNat ∧ c.toNat ≤ 70 then some (c.toNat - 55)
  else if 97 ≤ c.toNat ∧ c.toNat ≤ 102 then some (c.toNat - 87)
  else none

/-- The number that a string of hexadecimal digits denotes. -/
def hexNumber (digits : List Char) : Nat :=
  digits.foldl (fun acc c => acc * 16 + (hexValue c).getD 0) 0

/-- The digit loop of `strtoul` in base 16: the value read so far, whether it
has left the range of a 64-bit `unsigned long`, whether a digit was seen, and
the text left over. -/
def strtoulDigits : List Char → Nat → Bool → Bool → Nat × Bool × Bool × List Char
  | [], acc, over, seen => (acc, over, seen, [])
  | c :: rest, acc, over, seen =>
    match hexValue c with
    | some d =>
      if over ∨ acc * 16 + d ≥ 2 ^ 64 then strtoulDigits rest acc true true
      else strtoulDigits rest (acc * 16 + d) false true
    | none => (acc, over, seen, c :: rest)

/-- The library function `std::strtoul(nptr, &endptr, 16)` with a 64-bit
`unsigned long`: white space, an optional sign, an optional `0x`, the digits.
It returns the value and the text `endptr` points to. -/
def strtoul16 (nptr : List Char) : Nat × List Char :=
  let s1 := nptr.dropWhile isspace
  let (neg, s2) :=
    match s1 with
    | c :: rest => if c = '-' then (true, rest) else if c = '+' then (false, rest) else (false, s1)
    | [] => (false, s1)
  let s3 :=
    match s2 with
    | c0 :: cx :: d :: rest =>
      if c0 = '0' ∧ (cx = 'x' ∨ cx = 'X') ∧ (hexValue d).isSome then d :: rest else s2
    | _ => s2
  let (acc, over, seen, rest) := strtoulDigits s3 0 false false
  if ¬ seen then (0, nptr)
  else if over then (2 ^ 64 - 1, rest)
  else if neg then ((2 ^ 64 - acc) % 2 ^ 64, rest)
  else (acc, rest)

/-- Whether a character of the text matches a character of the pattern under
`std::regex_constants::icase`. -/
def icaseEq (p c : Char) : Bool :=
  toupper p = toupper c

/-- Whether the text starts with the literal characters `lit`, compared without
regard to case; the rest of the text on success. -/
def matchLiteral : List Char → List Char → Option (List Char)
  | [], text => some text
  | _ :: _, [] => none
  | p :: ps, c :: cs => if icaseEq p c then matchLiteral ps cs else none

/-- The call `std::regex_match(op2, match, re)` for a regular expression of the
shape `pre \$?([0-9A-F]+) post` with literal `pre` and `post`, compiled with
`icase`; the result is capture group 1.  Neither `$` nor the first character of
any `post` in use is a hexadecimal digit, so the match takes the `$` when there
is one and the longest run of digits. -/
def regexMatchHex (pre post op2 : List Char) : Option (List Char) :=
  match matchLiteral pre op2 with
  | none => none
  | some t1 =>
    let t2 := match t1 with
      | c :: rest => if c = '$' then rest else t1
      | [] => t1
    let digits := t2.takeWhile (fun c => (hexValue c).isSome)
    let t3 := t2.dropWhile (fun c => (hexValue c).isSome)
    if digits = [] then none
    else
      match matchLiteral post t3 with
      | some [] => some digits
      | _ => none

/-- The function `checkAddress`: the mode, or `am_invalid` when the number is
out of range for it. -/
def checkAddress (mode : AddrMode) (address : List Char) : AddrMode :=
  match mode with
  | .am_abs_x | .am_abs_y | .am_abs | .am_ind | .am_rel =>
    if (strtoul16 address).1 > 0xFFFF then .am_invalid else mode
  | .am_immediate | .am_zp_x | .am_zp_y | .am_zp | .am_ind_x | .am_ind_y =>
    if (strtoul16 address).1 > 0xFF then .am_invalid else mode
  | _ => if address = [] then mode else .am_invalid

/-- The function `parseOperand`: the mode and the text of the number.  The
operand is copied without white space and in upper case into a buffer that is
read back as a C string, so it ends at the first NUL character. -/
def parseOperand (operand : List Char) : AddrMode × List Char :=
  let op2 := (((operand.filter (fun c => !isspace c)).map toupper).takeWhile
    (fun c => c.toNat ≠ 0))
  if op2 = [] then (checkAddress .am_implied [], [])
  else if op2 = ['A'] then (checkAddress .am_acc [], [])
  else
    match regexMatchHex ['#'] [] op2 with
    | some address => (checkAddress .am_immediate address, address)
    | none =>
    match regexMatchHex [] [',', 'X'] op2 with
    | some address => (checkAddress .am_abs_x address, address)
    | none =>
    match regexMatchHex [] [',', 'Y'] op2 with
    | some address => (checkAddress .am_abs_y address, address)
    | none =>
    match regexMatchHex [] [] op2 with
    | some address => (checkAddress .am_abs address, address)
    | none =>
    match regexMatchHex ['('] [',', 'X', ')'] op2 with
    | some address => (checkAddress .am_ind_x address, address)
    | none =>
    match regexMatchHex ['('] [')', ',', 'Y'] op2 with
    | some address => (checkAddress .am_ind_y address, address)
    | none =>
    match regexMatchHex ['('] [')'] op2 with
    | some address => (checkAddress .am_ind address, address)
    | none => (.am_invalid, [])

namespace CPU6502Impl

/-- The loop of `FindOpcode` from index `i` on; the first argument bounds the
number of iterations. -/
def FindOpcodeFrom (instr : List Char) (mode : AddrMode) : Nat → Nat → Int
  | 0, _ => -1
  | fuel + 1, i =>
    if i < 256 then
      if instr = (instructions i).name ∧ mode = (instructions i).addr_mode then (i : Int)
      else FindOpcodeFrom instr mode fuel (i + 1)
    else -1

/-- The method `FindOpcode`: the first table index with this mnemonic and
mode, or -1. -/
def FindOpcode (instr : List Char) (mode : AddrMode) : Int :=
  FindOpcodeFrom instr mode 256 0

/-- The method `Disassemble`. -/
def Disassemble (s : CPU6502Impl) (address : Nat) : Disasm :=
  let opcode := s.memory.Peek8 address
  let mnemonic := (instructions opcode).name
  let b1 := s.memory.Peek8 ((address + 1) % 2 ^ 64)
  let b2 := s.memory.Peek8 ((address + 2) % 2 ^ 64)
  match (instructions opcode).addr_mode with
  | .am_invalid => ⟨"??? $".toList ++ fmt02X opcode, 1⟩
  | .am_implied => ⟨mnemonic, 1⟩
  | .am_acc => ⟨mnemonic ++ " A".toList, 1⟩
  | .am_immediate => ⟨mnemonic ++ " #$".toList ++ fmt02X b1, 2⟩
  | .am_abs_x => ⟨mnemonic ++ " $".toList ++ fmt02X b2 ++ fmt02X b1 ++ ",X".toList, 3⟩
  | .am_abs_y => ⟨mnemonic ++ " $".toList ++ fmt02X b2 ++ fmt02X b1 ++ ",Y".toList, 3⟩
  | .am_abs => ⟨mnemonic ++ " $".toList ++ fmt02X b2 ++ fmt02X b1, 3⟩
  | .am_zp_x => ⟨mnemonic ++ " $".toList ++ fmt02X b1 ++ ",X".toList, 2⟩
  | .am_zp_y => ⟨mnemonic ++ " $".toList ++ fmt02X b1 ++ ",Y".toList, 2⟩
  | .am_zp => ⟨mnemonic ++ " $".toList ++ fmt02X b1, 2⟩
  | .am_ind_x => ⟨mnemonic ++ " ($".toList ++ fmt02X b1 ++ ",X)".toList, 2⟩
  | .am_ind_y => ⟨mnemonic ++ " ($".toList ++ fmt02X b1 ++ "),Y".toList, 2⟩
  | .am_ind => ⟨mnemonic ++ " ($".toList ++ fmt02X b2 ++ fmt02X b1 ++ ")".toList, 3⟩
  | .am_rel =>
    let offset := ((b1 ^^^ 0x80) + (65536 - 0x80)) % 65536
    ⟨mnemonic ++ " $".toList ++ fmt04X ((address + 2 + offset) % 65536), 2⟩

/-- The part of the method `Assemble` that follows the parsing of the operand:
the choice between a zero-page mode and an absolute mode, the lookup of the
opcode and the bytes.  The result `error` is `Assem(false)`.  The program
counter is a `std::uint64_t` and the branch offset an `int` of 32 bits. -/
def AssembleOperand (pc : Nat) (instr : List Char) (mode0 : AddrMode) (address : List Char) :
    Assem :=
  let addr_num := (strtoul16 address).1
  let (mode1, alt_mode) :=
    match mode0 with
    | .am_abs_x =>
      if address.length ≤ 2 then (AddrMode.am_zp_x, AddrMode.am_abs_x)
      else if addr_num < 0x100 then (mode0, AddrMode.am_zp_x)
      else (mode0, AddrMode.am_invalid)
    | .am_abs_y =>
      if address.length ≤ 2 then (AddrMode.am_zp_y, AddrMode.am_abs_y)
      else if addr_num < 0x100 then (mode0, AddrMode.am_zp_y)
      else (mode0, AddrMode.am_invalid)
    | .am_abs =>
      if address.length ≤ 2 then (AddrMode.am_zp, AddrMode.am_abs)
      else if addr_num < 0x100 then (mode0, AddrMode.am_zp)
      else (mode0, AddrMode.am_invalid)
    | _ => (mode0, AddrMode.am_invalid)
  let opcode0 := FindOpcode instr mode1
  let (opcode, mode) :=
    if opcode0 < 0 ∧ alt_mode ≠ .am_invalid then
      if FindOpcode instr alt_mode ≥ 0 then (FindOpcode instr alt_mode, alt_mode)
      else if mode1 = .am_abs ∨ mode1 = .am_zp then
        if FindOpcode instr .am_rel ≥ 0 then (FindOpcode instr .am_rel, AddrMode.am_rel)
        else (FindOpcode instr .am_rel, mode1)
      else (FindOpcode instr alt_mode, mode1)
    else (opcode0, mode1)
  if opcode < 0 then ⟨false, []⟩
  else
    match mode with
    | .am_invalid => ⟨false, []⟩
    | .am_implied | .am_acc => ⟨true, [opcode.toNat % 256]⟩
    | .am_immediate | .am_zp_x | .am_zp_y | .am_zp | .am_ind_x | .am_ind_y =>
      ⟨true, [opcode.toNat % 256, addr_num % 256]⟩
    | .am_abs_x | .am_abs_y | .am_abs | .am_ind =>
      ⟨true, [opcode.toNat % 256, (addr_num &&& 0xFF) % 256, (addr_num >>> 8) % 256]⟩
    | .am_rel =>
      let diff := (addr_num + 2 ^ 64 - (pc + 2) % 2 ^ 64) % 2 ^ 64
      let offset : Int :=
        if diff % 2 ^ 32 < 2 ^ 31 then (diff % 2 ^ 32 : Nat) else ((diff % 2 ^ 32 : Nat) : Int) - 2 ^ 32
      if offset < -128 ∨ offset > 127 then ⟨false, []⟩
      else ⟨true, [opcode.toNat % 256, (offset % 256).toNat]⟩

/-- The method `Assemble`: the mnemonic is the first run of characters that
are not white space, in upper case; the operand is the rest of the line. -/
def Assemble (pc : Nat) (code : List Char) : Assem :=
  let rest := code.dropWhile isspace
  let instr := (rest.takeWhile (fun c => !isspace c)).map toupper
  let operand := rest.dropWhile (fun c => !isspace c)
  if instr = [] then ⟨false, []⟩
  else AssembleOperand pc instr (parseOperand operand).1 (parseOperand operand).2

end CPU6502Impl

/-! ## cpu.cpp: the breakpoint set -/

namespace CPU

/-- The method `CPU::SetBreakpoint`: `breakpoints.insert(addr)`.  The set is a
list without repetition. -/
def SetBreakpoint (addr : Nat) (s : CPU6502Impl) : CPU6502Impl :=
  { s with breakpoints := if addr ∈ s.breakpoints then s.breakpoints else addr :: s.breakpoints }

/-- The method `CPU::ClearBreakpoint`: `breakpoints.erase(addr)`. -/
def ClearBreakpoint (addr : Nat) (s : CPU6502Impl) : CPU6502Impl :=
  { s with breakpoints := s.breakpoints.filter (fun b => b ≠ addr) }

/-- The method `CPU::HasBreakpoint(addr, count)`: whether one of `addr + i`,
`i < count`, is in the set; the sum is a `std::uint64_t`. -/
def HasBreakpoint (addr count : Nat) (s : CPU6502Impl) : Bool :=
  (List.range count).any (fun i => decide ((addr + i) % 2 ^ 64 ∈ s.breakpoints))

end CPU

/-! ## cpu6502.cpp: stepping and the registers as text -/

namespace CPU6502Impl

/-- The method `CPU6502Impl::HasBreakpoint`: whether a breakpoint lies on one of
the bytes of the instruction at PC. -/
def HasBreakpoint (s : CPU6502Impl) : Bool :=
  let pc := s.reg_pc
  let opcode := s.memory.Peek8 pc
  let count :=
    match (instructions opcode).addr_mode with
    | .am_invalid | .am_implied | .am_acc => 1
    | .am_immediate | .am_zp_x | .am_zp_y | .am_zp | .am_ind_x | .am_ind_y | .am_rel => 2
    | .am_abs_x | .am_abs_y | .am_abs | .am_ind => 3
  CPU.HasBreakpoint pc count s

end CPU6502Impl

namespace CPU6502

/-- The method `CPU6502::Step`: `DoStep` with its result dropped. -/
def Step (s : CPU6502Impl) : Outcome Unit :=
  match s.DoStep with
  | .returned _ s1 => .returned () s1
  | .threw e s1 => .threw e s1

/-- The loop of `CPU6502::ToReturn`, a `do ... while`: step, leave when a
breakpoint lies on the next instruction, else go on while
`delta_s = reg_s - saved_s` (a byte) is 0 or above 3.  The first argument
bounds the number of iterations; `none` means the bound was reached. -/
def ToReturnLoop (saved_s : Nat) : Nat → CPU6502Impl → Option (Outcome Unit)
  | 0, _ => none
  | fuel + 1, s =>
    match Step s with
    | .threw e s1 => some (.threw e s1)
    | .returned _ s1 =>
      if s1.HasBreakpoint then some (.returned () s1)
      else if (s1.reg_s + (256 - saved_s % 256)) % 256 = 0
          ∨ (s1.reg_s + (256 - saved_s % 256)) % 256 > 3 then
        ToReturnLoop saved_s fuel s1
      else some (.returned () s1)

/-- The method `CPU6502::ToReturn`, with a bound on the number of steps. -/
def ToReturn (fuel : Nat) (s : CPU6502Impl) : Option (Outcome Unit) :=
  ToReturnLoop s.reg_s fuel s

/-- The method `CPU6502::Next`, with a bound on the number of steps of the
`ToReturn` it may call. -/
def Next (fuel : Nat) (s : CPU6502Impl) : Option (Outcome Unit) :=
  match s.DoStep with
  | .threw e s1 => some (.threw e s1)
  | .returned jsr s1 =>
    if jsr && !s1.HasBreakpoint then ToReturn fuel s1 else some (.returned () s1)

/-- The method `CPU6502::GetPC`. -/
def GetPC (s : CPU6502Impl) : Nat :=
  s.reg_pc

/-- The method `CPU6502::ClearEmuCycles`. -/
def ClearEmuCycles (s : CPU6502Impl) : CPU6502Impl :=
  { s with emu_cycles := 0 }

/-- The library function `std::strchr(str, c)` as an index into `str`; the
terminating NUL of `str` is found when `c` is NUL. -/
def strchr (str : List Char) (c : Char) : Option Nat :=
  if c ∈ str then some (str.indexOf c)
  else if c.toNat = 0 then some str.length
  else none

/-- The loop of `SetRegister` over the letters of a FLAGS value: the number
built so far, or `none` where the method returns false. -/
def parseFlags : List Char → Nat → Option Nat
  | [], num => some num
  | ch :: rest, num =>
    if ch = '-' then parseFlags rest num
    else
      match strchr "NV-BDIZC".toList (toupper ch) with
      | none => none
      | some i => parseFlags rest (num ||| (0x80 >>> i))

/-- The method `CPU6502::SetRegister`: the value returned and the state.  The
value of a register other than FLAGS is read through `c_str()`, so it ends at
its first NUL character. -/
def SetRegister (reg_name value : List Char) (s : CPU6502Impl) : Bool × CPU6502Impl :=
  if reg_name = "FLAGS".toList then
    match parseFlags value 0x20 with
    | none => (false, s)
    | some num => (true, { s with reg_flags := num % 256 })
  else
    let (num, ptr) := strtoul16 (value.takeWhile (fun c => c.toNat ≠ 0))
    if ptr.all isspace then
      if reg_name = "A".toList then (true, { s with reg_a := num % 256 })
      else if reg_name = "X".toList then (true, { s with reg_x := num % 256 })
      else if reg_name = "Y".toList then (true, { s with reg_y := num % 256 })
      else if reg_name = "S".toList then (true, { s with reg_s := num % 256 })
      else if reg_name = "PC".toList then (true, { s with reg_pc := num % 65536 })
      else (false, s)
    else (false, s)

/-- The method `CPU6502::GetRegister`: `%0*X` with width 2 for the 8-bit
registers and 4 for PC, the letters of the flags for FLAGS, and the empty
string for any other name. -/
def GetRegister (reg_name : List Char) (s : CPU6502Impl) : List Char :=
  if reg_name = "A".toList then fmt02X s.reg_a
  else if reg_name = "X".toList then fmt02X s.reg_x
  else if reg_name = "Y".toList then fmt02X s.reg_y
  else if reg_name = "S".toList then fmt02X s.reg_s
  else if reg_name = "FLAGS".toList then
    [ if s.reg_flags &&& 0x80 ≠ 0 then 'N' else '-',
      if s.reg_flags &&& 0x40 ≠ 0 then 'V' else '-',
      '-',
      if s.reg_flags &&& 0x10 ≠ 0 then 'B' else '-',
      if s.reg_flags &&& 0x08 ≠ 0 then 'D' else '-',
      if s.reg_flags &&& 0x04 ≠ 0 then 'I' else '-',
      if s.reg_flags &&& 0x02 ≠ 0 then 'Z' else '-',
      if s.reg_flags &&& 0x01 ≠ 0 then 'C' else '-' ]
  else if reg_name = "PC".toList then fmt04X s.reg_pc
  else []

end CPU6502

/-- The states a CPU can be in: the constructed one, and those that a call of
`Step`, `Next`, `ToReturn`, `SetRegister`, `ClearEmuCycles`, of the breakpoint
methods or a `Load8` on its memory leaves behind, whether the call returns or
throws. -/
inductive Reachable : CPU6502Impl → Prop
  | construct (mem : Memory) : Reachable (CPU6502Impl.new mem)
  | step_returned {s s1 : CPU6502Impl} :
      Reachable s → CPU6502.Step s = Outcome.returned () s1 → Reachable s1
  | step_threw {s s1 : CPU6502Impl} {e : CPUExcept} :
      Reachable s → CPU6502.Step s = Outcome.threw e s1 → Reachable s1
  | next_returned {s s1 : CPU6502Impl} {fuel : Nat} :
      Reachable s → CPU6502.Next fuel s = some (Outcome.returned () s1) → Reachable s1
  | next_threw {s s1 : CPU6502Impl} {fuel : Nat} {e : CPUExcept} :
      Reachable s → CPU6502.Next fuel s = some (Outcome.threw e s1) → Reachable s1
  | to_return_returned {s s1 : CPU6502Impl} {fuel : Nat} :
      Reachable s → CPU6502.ToReturn fuel s = some (Outcome.returned () s1) → Reachable s1
  | to_return_threw {s s1 : CPU6502Impl} {fuel : Nat} {e : CPUExcept} :
      Reachable s → CPU6502.ToReturn fuel s = some (Outcome.threw e s1) → Reachable s1
  | set_register {s : CPU6502Impl} (reg_name value : List Char) :
      Reachable s → Reachable (CPU6502.SetRegister reg_name value s).2
  | clear_cycles {s : CPU6502Impl} : Reachable s → Reachable (CPU6502.ClearEmuCycles s)
  | set_breakpoint {s : CPU6502Impl} (addr : Nat) :
      Reachable s → Reachable (CPU.SetBreakpoint addr s)
  | clear_breakpoint {s : CPU6502Impl} (addr : Nat) :
      Reachable s → Reachable (CPU.ClearBreakpoint addr s)
  | load {s : CPU6502Impl} (addr data : Nat) :
      Reachable s → Reachable { s with memory := s.memory.Load8 addr data }

/-! ## Notions used to state the claims -/

/-- The state after `n` calls of `Step` in a row that all return; `none` when
one of them throws. -/
def stepTimes : Nat → CPU6502Impl → Option CPU6502Impl
  | 0, s => some s
  | n + 1, s =>
    match CPU6502.Step s with
    | .returned _ s1 => stepTimes n s1
    | .threw _ _ => none

/-- Whether `text` is the number `value` written as `width` uppercase
hexadecimal digits, padded with zeros. -/
def isHexText (width value : Nat) (text : List Char) : Bool :=
  text.length == width && text.all (fun c => "0123456789ABCDEF".toList.contains c)
    && hexNumber text == value

/-- The signed value of a byte taken as a two's-complement number. -/
def signExtend (b : Nat) : Int :=
  if b < 128 then (b : Int) else (b : Int) - 256

/-- The bit of FLAGS that a flag letter stands for; 0 for any other
character. -/
def flagBit (c : Char) : Nat :=
  if c = 'N' then 0x80
  else if c = 'V' then 0x40
  else if c = 'B' then 0x10
  else if c = 'D' then 0x08
  else if c = 'I' then 0x04
  else if c = 'Z' then 0x02
  else if c = 'C' then 0x01
  else 0

/-- The value `$20` or-ed with the bits of the flag letters, of either case,
that occur in a text. -/
def flagsOfLetters (text : List Char) : Nat :=
  text.foldl (fun num c => num ||| flagBit (toupper c)) 0x20

/-! ## Concrete machine states used as examples -/

/-- The image loader's loop: `Load8(addr++, byte)` for each byte in turn. -/
def loadBytes (m : Memory) (addr : Nat) : List Nat → Memory
  | [] => m
  | b :: bs => loadBytes (m.Load8 addr b) (addr + 1) bs

/-- A freshly constructed CPU on a 64K memory that holds `bytes` at `addr`,
with the program counter set to `addr`. -/
def machineAt (addr : Nat) (bytes : List Nat) : CPU6502Impl :=
  { CPU6502Impl.new (loadBytes (Memory.new 65536) addr bytes) with reg_pc := addr }

/-- The machine of the JSR/RTS scenario: `20 10 40` at `$0500`, `60` at
`$4010`, PC = `$0500` and S = `$FF`. -/
def jsrRtsMachine : CPU6502Impl :=
  { CPU6502Impl.new
      (loadBytes (loadBytes (Memory.new 65536) 0x0500 [0x20, 0x10, 0x40]) 0x4010 [0x60]) with
    reg_pc := 0x0500
    reg_s := 0xFF }

/-- A machine whose JSR targets a byte of the stack that it writes itself:
`20 FE 01` at `$6800`, `60` at `$01FE`, PC = `$6800` and S = `$FF`. -/
def jsrStackMachine : CPU6502Impl :=
  { CPU6502Impl.new
      (loadBytes (loadBytes (Memory.new 65536) 0x6800 [0x20, 0xFE, 0x01]) 0x01FE [0x60]) with
    reg_pc := 0x6800
    reg_s := 0xFF }

/-- The machine of the indirect-jump scenario: `$80` at `$10FF`, `$40` at
`$1000`, `6C FF 10` at `$3000` and PC = `$3000`. -/
def jmpIndMachine : CPU6502Impl :=
  { CPU6502Impl.new
      (loadBytes (loadBytes (loadBytes (Memory.new 65536) 0x10FF [0x80]) 0x1000 [0x40])
        0x3000 [0x6C, 0xFF, 0x10]) with
    reg_pc := 0x3000 }

/-- A machine for BRK: `00` at `$0600`, the IRQ vector `$1234` at `$FFFE`,
PC = `$0600` and S = `$FF`. -/
def brkMachine : CPU6502Impl :=
  { CPU6502Impl.new
      (loadBytes (loadBytes (Memory.new 65536) 0x0600 [0x00]) 0xFFFE [0x34, 0x12]) with
    reg_pc := 0x0600
    reg_s := 0xFF }

/-! # Theorems -/

open CPU6502Impl

set_option maxRecDepth 1000000

/-! ## Bytes and bit masks -/

theorem Memory.Read8_lt (m : Memory) (a : Nat) : m.Read8 a < 256 := by
  unfold Memory.Read8; split <;> omega

theorem byte_or_01 : ∀ x < 256, x ||| 0x01 = x - x % 2 + 1 := by decide!
theorem byte_and_FE : ∀ x < 256, x &&& 0xFE = x - x % 2 := by decide!
theorem byte_or_02 : ∀ x < 256, x ||| 0x02 = x - 2 * (x / 2 % 2) + 2 := by decide!
theorem byte_and_FD : ∀ x < 256, x &&& 0xFD = x - 2 * (x / 2 % 2) := by decide!
theorem byte_or_40 : ∀ x < 256, x ||| 0x40 = x - 64 * (x / 64 % 2) + 64 := by decide!
theorem byte_and_BF : ∀ x < 256, x &&& 0xBF = x - 64 * (x / 64 % 2) := by decide!
theorem byte_and_7F (x : Nat) : x &&& 0x7F = x % 128 := Nat.and_pow_two_sub_one_eq_mod x 7
theorem byte_and_FF (x : Nat) : x &&& 0xFF = x % 256 := Nat.and_pow_two_sub_one_eq_mod x 8
theorem byte_and_01 (x : Nat) : x &&& 0x01 = x % 2 := Nat.and_pow_two_sub_one_eq_mod x 1
theorem byte_and_80 : ∀ x < 256, x &&& 0x80 = 128 * (x / 128) := by decide!
theorem byte_and_02 : ∀ x < 256, x &&& 0x02 = 2 * (x / 2 % 2) := by decide!
theorem byte_and_40 : ∀ x < 256, x &&& 0x40 = 64 * (x / 64 % 2) := by decide!
theorem byte_and_08 : ∀ x < 256, x &&& 0x08 = 8 * (x / 8 % 2) := by decide!
theorem byte_or_80 : ∀ x < 128, ∀ n < 2, x ||| 128 * n = x + 128 * n := by decide!
theorem byte_xor_FF : ∀ x < 256, x ^^^ 0xFF = 255 - x := by decide!



theorem CPU6502Impl.SetC_flags (c : Bool) (s : CPU6502Impl) (hf : s.reg_flags < 256) :
    (SetC c s).reg_flags = 2 * (s.reg_flags / 2) + c.toNat := by
  unfold SetC
  cases c
  · simp [byte_and_FE _ hf]; omega
  · simp [byte_or_01 _ hf]; omega

theorem CPU6502Impl.SetC_frame (c : Bool) (s : CPU6502Impl) :
    SetC c s = { s with reg_flags := (SetC c s).reg_flags } := by
  unfold SetC; split <;> rfl

theorem CPU6502Impl.SetV_flags (v : Bool) (s : CPU6502Impl) (hf : s.reg_flags < 256) :
    (SetV v s).reg_flags = 128 * (s.reg_flags / 128) + 64 * v.toNat + s.reg_flags % 64 := by
  unfold SetV
  cases v
  · simp [byte_and_BF _ hf]; omega
  · simp [byte_or_40 _ hf]; omega

theorem CPU6502Impl.SetV_frame (v : Bool) (s : CPU6502Impl) :
    SetV v s = { s with reg_flags := (SetV v s).reg_flags } := by
  unfold SetV; split <;> rfl

theorem CPU6502Impl.SetZ_flags (r : Nat) (s : CPU6502Impl) (hf : s.reg_flags < 256) :
    (SetZ r s).reg_flags
      = 4 * (s.reg_flags / 4) + 2 * (decide (r % 256 = 0)).toNat + s.reg_flags % 2 := by
  unfold SetZ
  split
  · rename_i h; simp [byte_or_02 _ hf, h]; omega
  · rename_i h; simp [byte_and_FD _ hf, h]; omega

theorem CPU6502Impl.SetZ_frame (r : Nat) (s : CPU6502Impl) :
    SetZ r s = { s with reg_flags := (SetZ r s).reg_flags } := by
  unfold SetZ; split <;> rfl

theorem CPU6502Impl.SetNZ_flags (r : Nat) (s : CPU6502Impl) :
    (SetNZ r s).reg_flags
      = 128 * (r % 256 / 128) + 4 * (s.reg_flags / 4 % 32)
        + 2 * (decide (r % 256 = 0)).toNat + s.reg_flags % 2 := by
  have hr : r % 256 < 256 := Nat.mod_lt _ (by decide)
  have h1 : (s.reg_flags &&& 0x7F) ||| (r % 256 &&& 0x80)
      = s.reg_flags % 128 + 128 * (r % 256 / 128) := by
    rw [byte_and_7F, byte_and_80 _ hr]
    exact byte_or_80 _ (Nat.mod_lt _ (by decide)) _ (by omega)
  unfold SetNZ
  rw [SetZ_flags _ _ (by show _ ||| _ < 256; rw [h1]; omega)]
  dsimp only
  rw [h1]
  generalize (decide (r % 256 = 0)).toNat = z
  generalize r % 256 / 128 = n
  omega

theorem CPU6502Impl.SetNZ_frame (r : Nat) (s : CPU6502Impl) :
    SetNZ r s = { s with reg_flags := (SetNZ r s).reg_flags } := by
  unfold SetNZ; rw [SetZ_frame]

theorem CPU6502Impl.GetAddress_reg_a (opcode : Nat) (s : CPU6502Impl) :
    (GetAddress opcode s).2.reg_a = s.reg_a := by
  unfold GetAddress; split <;> rfl

theorem CPU6502Impl.GetAddress_reg_x (opcode : Nat) (s : CPU6502Impl) :
    (GetAddress opcode s).2.reg_x = s.reg_x := by
  unfold GetAddress; split <;> rfl

theorem CPU6502Impl.GetAddress_reg_y (opcode : Nat) (s : CPU6502Impl) :
    (GetAddress opcode s).2.reg_y = s.reg_y := by
  unfold GetAddress; split <;> rfl

theorem CPU6502Impl.GetAddress_reg_s (opcode : Nat) (s : CPU6502Impl) :
    (GetAddress opcode s).2.reg_s = s.reg_s := by
  unfold GetAddress; split <;> rfl

theorem CPU6502Impl.GetAddress_reg_flags (opcode : Nat) (s : CPU6502Impl) :
    (GetAddress opcode s).2.reg_flags = s.reg_flags := by
  unfold GetAddress; split <;> rfl

theorem CPU6502Impl.GetAddress_memory (opcode : Nat) (s : CPU6502Impl) :
    (GetAddress opcode s).2.memory = s.memory := by
  unfold GetAddress; split <;> rfl

theorem CPU6502Impl.GetAddress_breakpoints (opcode : Nat) (s : CPU6502Impl) :
    (GetAddress opcode s).2.breakpoints = s.breakpoints := by
  unfold GetAddress; split <;> rfl

theorem toNat_decide (p : Prop) [Decidable p] :
    ((decide p).toNat = 1 ↔ p) ∧ (decide p).toNat < 2 := by
  by_cases h : p <;> simp [h]

theorem table_jsr : ∀ op < 256, (instructions op).handler = Handler.do_JSR ↔ op = 0x20 := by
  decide!

theorem xor_bit8 : ∀ i < 2, ∀ j < 2, (256 * i) ^^^ (256 * j) = 0 ↔ i = j := by decide!
theorem and_0x100 : ∀ x < 512, x &&& 0x100 = 256 * (x / 256) := by decide!

theorem overflow_bit (r7 result : Nat) (h7 : r7 < 256) (hr : result < 512) :
    ((r7 <<< 1) ^^^ result) &&& 0x100 ≠ 0 ↔ r7 / 128 ≠ result / 256 := by
  rw [Nat.and_xor_distrib_right, Nat.shiftLeft_eq, and_0x100 _ hr,
    and_0x100 (r7 * 2 ^ 1) (by omega)]
  have h := xor_bit8 (r7 * 2 ^ 1 / 256) (by omega) (result / 256) (by omega)
  rw [Ne, h]
  omega

theorem CPU6502Impl.DoAdd_binary (byte : Nat) (s : CPU6502Impl)
    (ha : s.reg_a < 256) (hb : byte < 256) (hf : s.reg_flags < 256)
    (hd : s.reg_flags &&& 0x08 = 0) :
    DoAdd byte s =
      { s with
        reg_a := (s.reg_a + byte + s.reg_flags % 2) % 256
        reg_flags :=
          128 * ((s.reg_a + byte + s.reg_flags % 2) % 256 / 128)
          + 64 * (decide ((s.reg_a % 128 + byte % 128 + s.reg_flags % 2) / 128
              ≠ (s.reg_a + byte + s.reg_flags % 2) / 256)).toNat
          + 4 * (s.reg_flags / 4 % 16)
          + 2 * (decide ((s.reg_a + byte + s.reg_flags % 2) % 256 = 0)).toNat
          + (decide (s.reg_a + byte + s.reg_flags % 2 > 0xFF)).toNat } := by
  have hD : ¬ (s.reg_flags &&& 0x08 ≠ 0) := by simp [hd]
  have hov : decide ((((s.reg_a &&& 0x7F) + (byte &&& 0x7F) + (s.reg_flags &&& 0x01)) <<< 1
      ^^^ (s.reg_a + byte + (s.reg_flags &&& 0x01))) &&& 0x100 ≠ 0)
      = decide ((s.reg_a % 128 + byte % 128 + s.reg_flags % 2) / 128
          ≠ (s.reg_a + byte + s.reg_flags % 2) / 256) := by
    rw [byte_and_7F, byte_and_7F, byte_and_01]
    exact decide_eq_decide.mpr (overflow_bit _ _ (by omega) (by omega))
  unfold DoAdd
  rw [if_neg hD]
  dsimp only
  rw [hov, byte_and_01, SetC_frame, SetNZ_frame, SetV_frame, SetC_flags, SetNZ_flags, SetV_flags _ _ hf]
  · dsimp only
    congr 1
    have hv := Bool.toNat_lt (decide ((s.reg_a % 128 + byte % 128 + s.reg_flags % 2) / 128
          ≠ (s.reg_a + byte + s.reg_flags % 2) / 256))
    have hz := Bool.toNat_lt (decide ((s.reg_a + byte + s.reg_flags % 2) % 256 = 0))
    have hn : (s.reg_a + byte + s.reg_flags % 2) % 256 / 128 < 2 := by omega
    generalize (decide ((s.reg_a % 128 + byte % 128 + s.reg_flags % 2) / 128
          ≠ (s.reg_a + byte + s.reg_flags % 2) / 256)).toNat = v at hv ⊢
    generalize (decide ((s.reg_a + byte + s.reg_flags % 2) % 256 = 0)).toNat = z at hz ⊢
    generalize (decide (s.reg_a + byte + s.reg_flags % 2 > 0xFF)).toNat = c
    generalize (s.reg_a + byte + s.reg_flags % 2) % 256 / 128 = n at hn ⊢
    omega
  · rw [SetNZ_flags, SetV_flags _ _ hf]
    have hv := Bool.toNat_lt (decide ((s.reg_a % 128 + byte % 128 + s.reg_flags % 2) / 128
          ≠ (s.reg_a + byte + s.reg_flags % 2) / 256))
    have hz := Bool.toNat_lt (decide ((s.reg_a + byte + s.reg_flags % 2) % 256 = 0))
    have hn : (s.reg_a + byte + s.reg_flags % 2) % 256 / 128 < 2 := by omega
    generalize (decide ((s.reg_a % 128 + byte % 128 + s.reg_flags % 2) / 128
          ≠ (s.reg_a + byte + s.reg_flags % 2) / 256)).toNat = v at hv ⊢
    generalize (decide ((s.reg_a + byte + s.reg_flags % 2) % 256 = 0)).toNat = z at hz ⊢
    generalize (s.reg_a + byte + s.reg_flags % 2) % 256 / 128 = n at hn ⊢
    omega

/-! ## C1: assembling the text of the disassembler -/

/-- Claim C1 (what the code does at the failing input): with the documented
opcode `$F0` (BEQ, mode Relative) and offset `$0E` at `$1000`, `Disassemble`
returns the text `BEQ $1010` and 2 bytes, and `Assemble` rejects that text at
`$1000`: the target has four digits and is not below `$100`, so `alt_mode`
stays `am_invalid` and the retry with `am_rel` is never reached.  The same
branch to a target below `$100` is assembled. -/
theorem assemble_rejects_disassembled_branch :
    (instructions 0xF0).addr_mode = AddrMode.am_rel ∧
    Disassemble (machineAt 0x1000 [0xF0, 0x0E]) 0x1000 = ⟨"BEQ $1010".toList, 2⟩ ∧
    Assemble 0x1000 "BEQ $1010".toList = ⟨false, []⟩ ∧
    Disassemble (machineAt 0x0010 [0xF0, 0x0E]) 0x0010 = ⟨"BEQ $0020".toList, 2⟩ ∧
    Assemble 0x0010 "BEQ $0020".toList = ⟨true, [0xF0, 0x0E]⟩ := by
  refine ⟨?_, ?_, ?_, ?_, ?_⟩ <;> decide!

/-! ## C2: undocumented opcodes -/

theorem table_invalid : ∀ op < 256,
    (instructions op).handler = Handler.do_invalid ↔
      (instructions op).addr_mode = AddrMode.am_invalid := by
  decide!

theorem CPU6502Impl.callHandler_threw (h : Handler) (opcode : Nat) (s : CPU6502Impl)
    (e : CPUExcept) (s' : CPU6502Impl) (hc : callHandler h opcode s = Outcome.threw e s') :
    h = Handler.do_invalid := by
  cases h <;> first | rfl | (simp [callHandler] at hc)

theorem CPU6502Impl.DoStep_threw (s : CPU6502Impl) (e : CPUExcept) (s' : CPU6502Impl)
    (h : DoStep s = Outcome.threw e s') :
    (instructions (s.memory.Read8 s.reg_pc)).handler = Handler.do_invalid := by
  unfold DoStep at h
  dsimp only at h
  split at h
  · exact Outcome.noConfusion h
  · rename_i e1 s1 hc
    exact callHandler_threw _ _ _ _ _ hc

theorem CPU6502Impl.DoStep_invalid (s : CPU6502Impl)
    (h : (instructions (s.memory.Read8 s.reg_pc)).handler = Handler.do_invalid) :
    DoStep s = Outcome.threw
      ⟨"Undocumented opcode ".toList ++ fmt02X (s.memory.Read8 s.reg_pc)⟩
      { s with reg_pc := ((s.reg_pc + 1) % 65536 + 65535) % 65536 } := by
  unfold DoStep
  simp only [h, callHandler, do_invalid]

/-- Claim C2: a step throws exactly when the table entry of the byte at PC has
mode Invalid; the exception then carries the message `Undocumented opcode`
followed by the two hexadecimal digits of that byte, and the state after the
failure, the program counter included, is the state before the call. -/
theorem step_undocumented (s : CPU6502Impl) (hpc : s.reg_pc < 65536) :
    ((instructions (s.memory.Read8 s.reg_pc)).addr_mode = AddrMode.am_invalid ↔
      DoStep s = Outcome.threw
        ⟨"Undocumented opcode ".toList ++ fmt02X (s.memory.Read8 s.reg_pc)⟩ s) ∧
    (∀ e s', DoStep s = Outcome.threw e s' →
      (instructions (s.memory.Read8 s.reg_pc)).addr_mode = AddrMode.am_invalid ∧
      e.what = "Undocumented opcode ".toList ++ fmt02X (s.memory.Read8 s.reg_pc) ∧
      s'.reg_pc = s.reg_pc) := by
  have hlt : s.memory.Read8 s.reg_pc < 256 := Memory.Read8_lt _ _
  have hpc' : ((s.reg_pc + 1) % 65536 + 65535) % 65536 = s.reg_pc := by omega
  have hinv : ∀ h : (instructions (s.memory.Read8 s.reg_pc)).handler = Handler.do_invalid,
      DoStep s = Outcome.threw
        ⟨"Undocumented opcode ".toList ++ fmt02X (s.memory.Read8 s.reg_pc)⟩ s := by
    intro h
    rw [DoStep_invalid s h, hpc']
  constructor
  · constructor
    · intro h
      exact hinv ((table_invalid _ hlt).mpr h)
    · intro h
      exact (table_invalid _ hlt).mp (DoStep_threw _ _ _ h)
  · intro e s' h
    have hh := DoStep_threw _ _ _ h
    rw [hinv hh] at h
    injection h with h1 h2
    subst h1 h2
    exact ⟨(table_invalid _ hlt).mp hh, rfl, rfl⟩

/-- The instance of claim C2 at byte `$02` with PC = `$0800`: the step throws
`Undocumented opcode 02` and leaves PC at `$0800`. -/
theorem step_undocumented_witness :
    (machineAt 0x0800 [0x02]).reg_pc < 65536 ∧
    DoStep (machineAt 0x0800 [0x02])
      = Outcome.threw ⟨"Undocumented opcode 02".toList⟩ (machineAt 0x0800 [0x02]) ∧
    (machineAt 0x0800 [0x02]).reg_pc = 0x0800 :=
  ⟨by decide, ((step_undocumented (machineAt 0x0800 [0x02]) (by decide)).1).mp (by decide!),
    rfl⟩


/-! ## C3: ADC in binary mode -/

theorem table_ADC : ∀ op < 256, (instructions op).name = "ADC".toList →
    (instructions op).handler = Handler.do_ADC := by
  decide!

/-- Claim C3: in binary mode (D = 0), a step of an ADC opcode with accumulator
`A`, operand byte `M` and carry `C` leaves `A' = (A + M + C) mod 256`, the carry
flag set iff `A + M + C >= 256`, N equal to bit 7 of `A'`, Z set iff `A' = 0`,
and V set iff the carry into bit 7 differs from the carry out of bit 7, which
holds iff the signed sum of `A`, `M` and `C` lies outside -128..127. -/
theorem step_ADC_binary (s : CPU6502Impl) (A M C : Nat)
    (hname : (instructions (s.memory.Read8 s.reg_pc)).name = "ADC".toList)
    (hA : s.reg_a = A) (hA256 : A < 256)
    (hM : s.memory.Read8 (GetAddress (s.memory.Read8 s.reg_pc)
        { s with reg_pc := (s.reg_pc + 1) % 65536 }).1 = M)
    (hF : s.reg_flags < 256) (hC : s.reg_flags &&& 0x01 = C)
    (hD : s.reg_flags &&& 0x08 = 0) :
    ∃ s', DoStep s = Outcome.returned false s' ∧
      s'.reg_a = (A + M + C) % 256 ∧
      (s'.reg_flags &&& 0x01 = 0x01 ↔ A + M + C ≥ 256) ∧
      s'.reg_flags &&& 0x80 = s'.reg_a &&& 0x80 ∧
      (s'.reg_flags &&& 0x02 = 0x02 ↔ s'.reg_a = 0) ∧
      (s'.reg_flags &&& 0x40 = 0x40 ↔
        (A % 128 + M % 128 + C) / 128 ≠ (A + M + C) / 256) ∧
      ((A % 128 + M % 128 + C) / 128 ≠ (A + M + C) / 256 ↔
        ((if A < 128 then (A : Int) else (A : Int) - 256)
          + (if M < 128 then (M : Int) else (M : Int) - 256) + (C : Int) < -128 ∨
         (if A < 128 then (A : Int) else (A : Int) - 256)
          + (if M < 128 then (M : Int) else (M : Int) - 256) + (C : Int) > 127)) := by
  have hop256 : s.memory.Read8 s.reg_pc < 256 := Memory.Read8_lt _ _
  have hop := table_ADC _ hop256 hname
  have hM256 : M < 256 := hM ▸ Memory.Read8_lt _ _
  have hjsr : (s.memory.Read8 s.reg_pc == 0x20) = false := by
    rw [beq_eq_false_iff_ne]
    intro h
    have := (table_jsr _ hop256).mpr h
    rw [hop] at this
    exact Handler.noConfusion this
  rw [byte_and_01] at hC
  have hstep : DoStep s = Outcome.returned false
      (DoAdd M { s with
        reg_pc := (GetAddress (s.memory.Read8 s.reg_pc)
          { s with reg_pc := (s.reg_pc + 1) % 65536 }).2.reg_pc
        emu_cycles := ((GetAddress (s.memory.Read8 s.reg_pc)
          { s with reg_pc := (s.reg_pc + 1) % 65536 }).2.emu_cycles + 2) % 2 ^ 64 }) := by
    unfold DoStep
    simp only [hop, callHandler, hjsr]
    unfold do_ADC
    simp only [GetAddress_reg_a, GetAddress_reg_x, GetAddress_reg_y, GetAddress_reg_s,
      GetAddress_reg_flags, GetAddress_memory, GetAddress_breakpoints, hM]
  generalize (GetAddress (s.memory.Read8 s.reg_pc)
      { s with reg_pc := (s.reg_pc + 1) % 65536 }).2.reg_pc = pc1 at hstep
  generalize (GetAddress (s.memory.Read8 s.reg_pc)
      { s with reg_pc := (s.reg_pc + 1) % 65536 }).2.emu_cycles = cy1 at hstep
  rw [DoAdd_binary M { s with reg_pc := pc1, emu_cycles := (cy1 + 2) % 2 ^ 64 }
    (hA ▸ hA256) hM256 hF hD] at hstep
  refine ⟨_, hstep, ?_⟩
  dsimp only
  rw [hA, hC]
  obtain ⟨hz1, hz2⟩ := toNat_decide ((A + M + C) % 256 = 0)
  obtain ⟨hv1, hv2⟩ := toNat_decide ((A % 128 + M % 128 + C) / 128 ≠ (A + M + C) / 256)
  obtain ⟨hc1, hc2⟩ := toNat_decide (A + M + C > 0xFF)
  have hC2 : C < 2 := by omega
  have hn : (A + M + C) % 256 / 128 < 2 := by omega
  have hm : s.reg_flags / 4 % 16 < 16 := by omega
  generalize (decide ((A + M + C) % 256 = 0)).toNat = z at hz1 hz2 ⊢
  generalize (decide ((A % 128 + M % 128 + C) / 128 ≠ (A + M + C) / 256)).toNat = v
    at hv1 hv2 ⊢
  generalize (decide (A + M + C > 0xFF)).toNat = c at hc1 hc2 ⊢
  generalize s.reg_flags / 4 % 16 = m at hm ⊢
  refine ⟨rfl, ?_, ?_, ?_, ?_, ?_⟩
  · rw [byte_and_01, ← show A + M + C > 0xFF ↔ A + M + C ≥ 256 from Iff.rfl, ← hc1]
    omega
  · rw [byte_and_80 _ (by omega), byte_and_80 _ (by omega)]
    omega
  · rw [byte_and_02 _ (by omega), ← hz1]
    omega
  · rw [byte_and_40 _ (by omega), ← hv1]
    omega
  · split_ifs <;> omega

/-- The instance of claim C3 at `ADC #$50` with `A = $50` and carry clear: the
sum is $A0 and overflows as a signed sum. -/
theorem step_ADC_binary_witness :
    ∃ s', DoStep { machineAt 0x1000 [0x69, 0x50] with reg_a := 0x50 }
        = Outcome.returned false s' ∧
      s'.reg_a = (0x50 + 0x50 + 0) % 256 ∧
      (s'.reg_flags &&& 0x01 = 0x01 ↔ 0x50 + 0x50 + 0 ≥ 256) ∧
      s'.reg_flags &&& 0x80 = s'.reg_a &&& 0x80 ∧
      (s'.reg_flags &&& 0x02 = 0x02 ↔ s'.reg_a = 0) ∧
      (s'.reg_flags &&& 0x40 = 0x40 ↔
        (0x50 % 128 + 0x50 % 128 + 0) / 128 ≠ (0x50 + 0x50 + 0) / 256) ∧
      ((0x50 % 128 + 0x50 % 128 + 0) / 128 ≠ (0x50 + 0x50 + 0) / 256 ↔
        ((if 0x50 < 128 then ((0x50 : Nat) : Int) else ((0x50 : Nat) : Int) - 256)
          + (if 0x50 < 128 then ((0x50 : Nat) : Int) else ((0x50 : Nat) : Int) - 256)
          + ((0 : Nat) : Int) < -128 ∨
         (if 0x50 < 128 then ((0x50 : Nat) : Int) else ((0x50 : Nat) : Int) - 256)
          + (if 0x50 < 128 then ((0x50 : Nat) : Int) else ((0x50 : Nat) : Int) - 256)
          + ((0 : Nat) : Int) > 127)) :=
  step_ADC_binary { machineAt 0x1000 [0x69, 0x50] with reg_a := 0x50 } 0x50 0x50 0
    (by decide!) rfl (by decide) (by decide!) (by decide) (by decide) (by decide)

/-! ## C4: CMP, CPX, CPY -/

theorem not_jsr (op : Nat) (hlt : op < 256)
    (h : (instructions op).handler ≠ Handler.do_JSR) : (op == 0x20) = false := by
  rw [beq_eq_false_iff_ne]
  intro h1
  exact h ((table_jsr _ hlt).mpr h1)

theorem table_CMP : ∀ op < 256, (instructions op).name = "CMP".toList →
    (instructions op).handler = Handler.do_CMP := by
  decide!

theorem table_CPX : ∀ op < 256, (instructions op).name = "CPX".toList →
    (instructions op).handler = Handler.do_CPX ∨
      (instructions op).handler = Handler.do_CPX_imm := by
  decide!

theorem table_CPY : ∀ op < 256, (instructions op).name = "CPY".toList →
    (instructions op).handler = Handler.do_CPY ∨
      (instructions op).handler = Handler.do_CPY_imm := by
  decide!

theorem table_cmp_imm : ∀ op < 256,
    ((instructions op).handler = Handler.do_CPX_imm ∨
      (instructions op).handler = Handler.do_CPY_imm) →
    (instructions op).addr_mode = AddrMode.am_immediate := by
  decide!

theorem CPU6502Impl.GetAddress_immediate (opcode : Nat) (s : CPU6502Impl)
    (h : (instructions opcode).addr_mode = AddrMode.am_immediate) :
    GetAddress opcode s = (s.reg_pc, { s with reg_pc := (s.reg_pc + 1) % 65536 }) := by
  unfold GetAddress
  rw [h]

theorem and_byte_mask (x mask : Nat) (h : mask < 256) : x &&& mask = x % 256 &&& mask := by
  have h1 : (2 ^ 8 - 1) &&& mask = mask := by
    rw [Nat.and_comm]; exact Nat.and_pow_two_sub_one_of_lt_two_pow h
  rw [← Nat.and_pow_two_sub_one_eq_mod x 8, Nat.and_assoc, h1]

theorem byte_and_7C : ∀ x < 256, x &&& 0x7C = 4 * (x / 4 % 32) := by decide!

theorem nat_and_7C (x : Nat) : x &&& 0x7C = 4 * (x / 4 % 32) := by
  rw [and_byte_mask x 0x7C (by decide), byte_and_7C _ (Nat.mod_lt _ (by decide))]
  omega

theorem CPU6502Impl.Compare_eq (reg byte : Nat) (s : CPU6502Impl) :
    Compare reg byte s =
      { s with
        reg_flags :=
          2 * ((128 * ((reg + (byte ^^^ 0xFF) + 1) % 256 / 128) + 4 * (s.reg_flags / 4 % 32)
            + 2 * (decide ((reg + (byte ^^^ 0xFF) + 1) % 256 = 0)).toNat
            + s.reg_flags % 2) / 2)
          + (decide (reg + (byte ^^^ 0xFF) + 1 > 0xFF)).toNat } := by
  have hz := (toNat_decide ((reg + (byte ^^^ 0xFF) + 1) % 256 = 0)).2
  unfold Compare
  rw [SetC_frame, SetNZ_frame, SetC_flags, SetNZ_flags]
  rw [SetNZ_flags]
  generalize (decide ((reg + (byte ^^^ 0xFF) + 1) % 256 = 0)).toNat = z at hz ⊢
  omega

/-- What `Compare` leaves in the flags, and that it leaves everything else. -/
theorem CPU6502Impl.Compare_spec (r m : Nat) (s : CPU6502Impl)
    (hr : r < 256) (hm : m < 256) :
    ((Compare r m s).reg_flags &&& 0x01 = 0x01 ↔ r ≥ m) ∧
    ((Compare r m s).reg_flags &&& 0x02 = 0x02 ↔ r = m) ∧
    (Compare r m s).reg_flags &&& 0x80 = (r + 256 - m) % 256 &&& 0x80 ∧
    (Compare r m s).reg_flags &&& 0x7C = s.reg_flags &&& 0x7C ∧
    Compare r m s = { s with reg_flags := (Compare r m s).reg_flags } := by
  rw [Compare_eq]
  dsimp only
  rw [byte_xor_FF _ hm]
  obtain ⟨hz1, hz2⟩ := toNat_decide ((r + (255 - m) + 1) % 256 = 0)
  obtain ⟨hc1, hc2⟩ := toNat_decide (r + (255 - m) + 1 > 0xFF)
  have hn : (r + (255 - m) + 1) % 256 / 128 < 2 := by omega
  have hn' : (r + (255 - m) + 1) % 256 / 128 = (r + 256 - m) % 256 / 128 := by
    congr 2; omega
  have h80 := byte_and_80 ((r + 256 - m) % 256) (Nat.mod_lt _ (by decide))
  have h7C := nat_and_7C s.reg_flags
  have hm32 : s.reg_flags / 4 % 32 < 32 := Nat.mod_lt _ (by decide)
  have hm2 : s.reg_flags % 2 < 2 := Nat.mod_lt _ (by decide)
  generalize (decide ((r + (255 - m) + 1) % 256 = 0)).toNat = z at hz1 hz2 ⊢
  generalize (decide (r + (255 - m) + 1 > 0xFF)).toNat = c at hc1 hc2 ⊢
  rw [hn'] at hn ⊢
  rw [h80, h7C]
  generalize (r + 256 - m) % 256 / 128 = n at hn ⊢
  generalize s.reg_flags / 4 % 32 = k at hm32 ⊢
  generalize s.reg_flags % 2 = b at hm2 ⊢
  refine ⟨?_, ?_, ?_, ?_, rfl⟩
  · rw [byte_and_01]; omega
  · rw [byte_and_02 _ (by omega)]; omega
  · rw [byte_and_80 _ (by omega)]; omega
  · rw [nat_and_7C]; omega

/-- Claim C4: a step of CMP, CPX or CPY with register value `r` (A, X or Y
respectively) and operand byte `m` sets C iff `r >= m`, Z iff `r = m` and N to
bit 7 of `(r - m) mod 256`, and leaves A, X, Y, S, the flags V, B, D and I
(and the unused flag bit) and the memory unchanged. -/
theorem step_compare (s : CPU6502Impl) (r m : Nat)
    (hname :
      ((instructions (s.memory.Read8 s.reg_pc)).name = "CMP".toList ∧ s.reg_a = r) ∨
      ((instructions (s.memory.Read8 s.reg_pc)).name = "CPX".toList ∧ s.reg_x = r) ∨
      ((instructions (s.memory.Read8 s.reg_pc)).name = "CPY".toList ∧ s.reg_y = r))
    (hr : r < 256)
    (hm : s.memory.Read8 (GetAddress (s.memory.Read8 s.reg_pc)
        { s with reg_pc := (s.reg_pc + 1) % 65536 }).1 = m) :
    ∃ s', DoStep s = Outcome.returned false s' ∧
      (s'.reg_flags &&& 0x01 = 0x01 ↔ r ≥ m) ∧
      (s'.reg_flags &&& 0x02 = 0x02 ↔ r = m) ∧
      s'.reg_flags &&& 0x80 = (r + 256 - m) % 256 &&& 0x80 ∧
      s'.reg_flags &&& 0x7C = s.reg_flags &&& 0x7C ∧
      s'.reg_a = s.reg_a ∧ s'.reg_x = s.reg_x ∧ s'.reg_y = s.reg_y ∧
      s'.reg_s = s.reg_s ∧ s'.memory = s.memory := by
  have hop256 : s.memory.Read8 s.reg_pc < 256 := Memory.Read8_lt _ _
  have hm256 : m < 256 := hm ▸ Memory.Read8_lt _ _
  have key : ∀ s1 : CPU6502Impl, s1.reg_flags = s.reg_flags → s1.reg_a = s.reg_a →
      s1.reg_x = s.reg_x → s1.reg_y = s.reg_y → s1.reg_s = s.reg_s → s1.memory = s.memory →
      DoStep s = Outcome.returned false
        { Compare r m s1 with emu_cycles := ((Compare r m s1).emu_cycles + 2) % 2 ^ 64 } →
      ∃ s', DoStep s = Outcome.returned false s' ∧
        (s'.reg_flags &&& 0x01 = 0x01 ↔ r ≥ m) ∧
        (s'.reg_flags &&& 0x02 = 0x02 ↔ r = m) ∧
        s'.reg_flags &&& 0x80 = (r + 256 - m) % 256 &&& 0x80 ∧
        s'.reg_flags &&& 0x7C = s.reg_flags &&& 0x7C ∧
        s'.reg_a = s.reg_a ∧ s'.reg_x = s.reg_x ∧ s'.reg_y = s.reg_y ∧
        s'.reg_s = s.reg_s ∧ s'.memory = s.memory := by
    intro s1 hf ha hx hy hs hmem hstep
    obtain ⟨h1, h2, h3, h4, h5⟩ := Compare_spec r m s1 hr hm256
    refine ⟨_, hstep, h1, h2, h3, ?_, ?_, ?_, ?_, ?_, ?_⟩
    · rw [← hf]; exact h4
    · rw [h5]; exact ha
    · rw [h5]; exact hx
    · rw [h5]; exact hy
    · rw [h5]; exact hs
    · rw [h5]; exact hmem
  have hop :
      ((instructions (s.memory.Read8 s.reg_pc)).handler = Handler.do_CMP ∧ s.reg_a = r) ∨
      (((instructions (s.memory.Read8 s.reg_pc)).handler = Handler.do_CPX ∨
        (instructions (s.memory.Read8 s.reg_pc)).handler = Handler.do_CPX_imm) ∧
        s.reg_x = r) ∨
      (((instructions (s.memory.Read8 s.reg_pc)).handler = Handler.do_CPY ∨
        (instructions (s.memory.Read8 s.reg_pc)).handler = Handler.do_CPY_imm) ∧
        s.reg_y = r) := by
    rcases hname with ⟨h, hr⟩ | ⟨h, hr⟩ | ⟨h, hr⟩
    · exact Or.inl ⟨table_CMP _ hop256 h, hr⟩
    · exact Or.inr (Or.inl ⟨table_CPX _ hop256 h, hr⟩)
    · exact Or.inr (Or.inr ⟨table_CPY _ hop256 h, hr⟩)
  rcases hop with ⟨hh, rfl⟩ | ⟨hh | hh, rfl⟩ | ⟨hh | hh, rfl⟩
  · refine key (GetAddress (s.memory.Read8 s.reg_pc)
        { s with reg_pc := (s.reg_pc + 1) % 65536 }).2
      (GetAddress_reg_flags _ _) (GetAddress_reg_a _ _) (GetAddress_reg_x _ _)
      (GetAddress_reg_y _ _) (GetAddress_reg_s _ _) (GetAddress_memory _ _) ?_
    unfold DoStep
    simp only [hh, callHandler, not_jsr _ hop256 (by rw [hh]; decide)]
    unfold do_CMP
    simp only [GetAddress_reg_a, GetAddress_memory, hm]
  · refine key (GetAddress (s.memory.Read8 s.reg_pc)
        { s with reg_pc := (s.reg_pc + 1) % 65536 }).2
      (GetAddress_reg_flags _ _) (GetAddress_reg_a _ _) (GetAddress_reg_x _ _)
      (GetAddress_reg_y _ _) (GetAddress_reg_s _ _) (GetAddress_memory _ _) ?_
    unfold DoStep
    simp only [hh, callHandler, not_jsr _ hop256 (by rw [hh]; decide)]
    unfold do_CPX
    simp only [GetAddress_reg_x, GetAddress_memory, hm]
  · rw [GetAddress_immediate _ _ (table_cmp_imm _ hop256 (Or.inl hh))] at hm
    dsimp only at hm
    refine key { s with reg_pc := ((s.reg_pc + 1) % 65536 + 1) % 65536 }
      rfl rfl rfl rfl rfl rfl ?_
    unfold DoStep
    simp only [hh, callHandler, not_jsr _ hop256 (by rw [hh]; decide)]
    unfold do_CPX_imm
    simp only [hm]
  · refine key (GetAddress (s.memory.Read8 s.reg_pc)
        { s with reg_pc := (s.reg_pc + 1) % 65536 }).2
      (GetAddress_reg_flags _ _) (GetAddress_reg_a _ _) (GetAddress_reg_x _ _)
      (GetAddress_reg_y _ _) (GetAddress_reg_s _ _) (GetAddress_memory _ _) ?_
    unfold DoStep
    simp only [hh, callHandler, not_jsr _ hop256 (by rw [hh]; decide)]
    unfold do_CPY
    simp only [GetAddress_reg_y, GetAddress_memory, hm]
  · rw [GetAddress_immediate _ _ (table_cmp_imm _ hop256 (Or.inr hh))] at hm
    dsimp only at hm
    refine key { s with reg_pc := ((s.reg_pc + 1) % 65536 + 1) % 65536 }
      rfl rfl rfl rfl rfl rfl ?_
    unfold DoStep
    simp only [hh, callHandler, not_jsr _ hop256 (by rw [hh]; decide)]
    unfold do_CPY_imm
    simp only [hm]

/-- The instance of claim C4 at `CMP #$30` with `A = $40`. -/
theorem step_compare_witness :
    ∃ s', DoStep { machineAt 0x1000 [0xC9, 0x30] with reg_a := 0x40 }
        = Outcome.returned false s' ∧
      (s'.reg_flags &&& 0x01 = 0x01 ↔ 0x40 ≥ 0x30) ∧
      (s'.reg_flags &&& 0x02 = 0x02 ↔ 0x40 = 0x30) ∧
      s'.reg_flags &&& 0x80 = (0x40 + 256 - 0x30) % 256 &&& 0x80 ∧
      s'.reg_flags &&& 0x7C
        = ({ machineAt 0x1000 [0xC9, 0x30] with reg_a := 0x40 } : CPU6502Impl).reg_flags
          &&& 0x7C ∧
      s'.reg_a = ({ machineAt 0x1000 [0xC9, 0x30] with reg_a := 0x40 } : CPU6502Impl).reg_a ∧
      s'.reg_x = ({ machineAt 0x1000 [0xC9, 0x30] with reg_a := 0x40 } : CPU6502Impl).reg_x ∧
      s'.reg_y = ({ machineAt 0x1000 [0xC9, 0x30] with reg_a := 0x40 } : CPU6502Impl).reg_y ∧
      s'.reg_s = ({ machineAt 0x1000 [0xC9, 0x30] with reg_a := 0x40 } : CPU6502Impl).reg_s ∧
      s'.memory
        = ({ machineAt 0x1000 [0xC9, 0x30] with reg_a := 0x40 } : CPU6502Impl).memory :=
  step_compare { machineAt 0x1000 [0xC9, 0x30] with reg_a := 0x40 } 0x40 0x30
    (Or.inl ⟨by decide!, rfl⟩) (by decide) (by decide!)


/-! ## C5: LDA -/

theorem table_LDA : ∀ op < 256, (instructions op).name = "LDA".toList →
    (instructions op).handler = Handler.do_LDA := by
  decide!

theorem byte_and_7D : ∀ x < 256, x &&& 0x7D = 4 * (x / 4 % 32) + x % 2 := by decide!

theorem nat_and_7D (x : Nat) : x &&& 0x7D = 4 * (x / 4 % 32) + x % 2 := by
  rw [and_byte_mask x 0x7D (by decide), byte_and_7D _ (Nat.mod_lt _ (by decide))]
  omega

/-- Claim C5: a step of an LDA opcode, in any of its addressing modes, whose
operand resolves to the byte `v` leaves `A = v`, `N = v >> 7`, Z set iff
`v = 0` and every other flag unchanged; in immediate mode it advances PC by 2
and adds 2 to the cycle counter, a counter of 64 bits. -/
theorem step_LDA (s : CPU6502Impl) (v : Nat)
    (hop : (instructions (s.memory.Read8 s.reg_pc)).name = "LDA".toList)
    (hv : s.memory.Read8 (GetAddress (s.memory.Read8 s.reg_pc)
        { s with reg_pc := (s.reg_pc + 1) % 65536 }).1 = v) :
    ∃ s', DoStep s = Outcome.returned false s' ∧
      s'.reg_a = v ∧
      (s'.reg_flags &&& 0x80) >>> 7 = v >>> 7 ∧
      (s'.reg_flags &&& 0x02 = 0x02 ↔ v = 0) ∧
      s'.reg_flags &&& 0x7D = s.reg_flags &&& 0x7D ∧
      ((instructions (s.memory.Read8 s.reg_pc)).addr_mode = AddrMode.am_immediate →
        s'.reg_pc = ((s.reg_pc + 1) % 65536 + 1) % 65536 ∧
        s'.emu_cycles = (s.emu_cycles + 2) % 2 ^ 64) := by
  have hop256 : s.memory.Read8 s.reg_pc < 256 := Memory.Read8_lt _ _
  have hv256 : v < 256 := hv ▸ Memory.Read8_lt _ _
  have hh := table_LDA _ hop256 hop
  have hstep : DoStep s = Outcome.returned false
      { s with
        reg_a := v
        reg_flags := 128 * (v % 256 / 128) + 4 * (s.reg_flags / 4 % 32)
          + 2 * (decide (v % 256 = 0)).toNat + s.reg_flags % 2
        reg_pc := (GetAddress (s.memory.Read8 s.reg_pc)
          { s with reg_pc := (s.reg_pc + 1) % 65536 }).2.reg_pc
        emu_cycles := ((GetAddress (s.memory.Read8 s.reg_pc)
          { s with reg_pc := (s.reg_pc + 1) % 65536 }).2.emu_cycles + 2) % 2 ^ 64 } := by
    unfold DoStep
    simp only [hh, callHandler, not_jsr _ hop256 (by rw [hh]; decide)]
    unfold do_LDA
    simp only [GetAddress_reg_a, GetAddress_reg_x, GetAddress_reg_y,
      GetAddress_reg_s, GetAddress_reg_flags, GetAddress_memory, GetAddress_breakpoints, hv]
    rw [SetNZ_frame, SetNZ_flags]
  refine ⟨_, hstep, rfl, ?_, ?_, ?_, ?_⟩
  · dsimp only
    obtain ⟨hz1, hz2⟩ := toNat_decide (v % 256 = 0)
    generalize (decide (v % 256 = 0)).toNat = z at hz1 hz2 ⊢
    rw [byte_and_80 _ (by omega), Nat.shiftRight_eq_div_pow, Nat.shiftRight_eq_div_pow]
    omega
  · dsimp only
    obtain ⟨hz1, hz2⟩ := toNat_decide (v % 256 = 0)
    generalize (decide (v % 256 = 0)).toNat = z at hz1 hz2 ⊢
    rw [byte_and_02 _ (by omega)]
    omega
  · dsimp only
    obtain ⟨hz1, hz2⟩ := toNat_decide (v % 256 = 0)
    generalize (decide (v % 256 = 0)).toNat = z at hz1 hz2 ⊢
    rw [byte_and_7D _ (by omega), nat_and_7D]
    omega
  · intro himm
    rw [GetAddress_immediate _ _ himm]
    exact ⟨rfl, rfl⟩

/-- The instance of claim C5 at bytes `A9 42` at `$1000`: A = `$42`, N = 0,
Z = 0, PC = `$1002` and 2 cycles. -/
theorem step_LDA_witness :
    ∃ s', DoStep (machineAt 0x1000 [0xA9, 0x42]) = Outcome.returned false s' ∧
      s'.reg_a = 0x42 ∧ (s'.reg_flags &&& 0x80) >>> 7 = 0 ∧ s'.reg_flags &&& 0x02 ≠ 0x02 ∧
      s'.reg_pc = 0x1002 ∧ s'.emu_cycles = 2 := by
  obtain ⟨s', h1, h2, h3, h4, _, h6⟩ :=
    step_LDA (machineAt 0x1000 [0xA9, 0x42]) 0x42 (by decide!) (by decide!)
  exact ⟨s', h1, h2, h3, fun h => absurd (h4.mp h) (by decide), (h6 (by decide!)).1,
    (h6 (by decide!)).2⟩


/-! ## Reads and writes on a 64K memory -/

theorem and_FFFF (a : Nat) (h : a < 65536) : a &&& 0xFFFF = a :=
  Nat.and_pow_two_sub_one_of_lt_two_pow (n := 16) h

theorem Memory.Write8_size (m : Memory) (a v : Nat) : (m.Write8 a v).size = m.size := by
  unfold Memory.Write8; split <;> rfl

theorem Memory.Write8_mask (m : Memory) (a v : Nat) : (m.Write8 a v).mask = m.mask := by
  unfold Memory.Write8; split <;> rfl

theorem Memory.Read8_Write8 (m : Memory) (hsize : m.size = 65536) (hmask : m.mask = 0xFFFF)
    (a b v : Nat) (ha : a < 65536) (hb : b < 65536) :
    (m.Write8 a v).Read8 b = if b = a then v % 256 else m.Read8 b := by
  unfold Memory.Read8 Memory.Write8
  rw [hmask, hsize, and_FFFF a ha, if_pos ha]
  dsimp only
  rw [and_FFFF b hb, if_pos hb, if_pos hb]
  split
  · exact Nat.mod_mod _ _
  · rfl

/-! ## C6: JSR followed by RTS -/

theorem instructions_20 : (instructions 0x20).handler = Handler.do_JSR := by decide!
theorem instructions_60 : (instructions 0x60).handler = Handler.do_RTS := by decide!

theorem split_word (w : Nat) (h : w < 65536) :
    (w >>> 8) % 256 * 0x100 + (w &&& 0xFF) % 256 = w := by
  rw [byte_and_FF, Nat.shiftRight_eq_div_pow]
  omega

/-- Claim C6: on a 64K memory, with JSR `t` at address `a`, RTS at `t`, and `t`
not one of the two stack bytes the JSR writes, the first step leaves PC = `t`
and S lower by 2 (mod 256), and the second step leaves PC = `(a + 3) mod 2^16`
and S at its value before the JSR, for every S including those that wrap. -/
theorem jsr_rts_round_trip (s : CPU6502Impl) (a t : Nat)
    (hsize : s.memory.size = 65536) (hmask : s.memory.mask = 0xFFFF)
    (hpc : s.reg_pc = a) (ha : a < 65536) (hS : s.reg_s < 256)
    (hjsr : s.memory.Read8 a = 0x20)
    (ht : s.memory.Read8 ((a + 2) % 65536) * 0x100 + s.memory.Read8 ((a + 1) % 65536) = t)
    (hrts : s.memory.Read8 t = 0x60)
    (hne1 : t ≠ 0x0100 + (s.reg_s + 255) % 256)
    (hne2 : t ≠ 0x0100 + (s.reg_s + 254) % 256) :
    ∃ s1 s2, DoStep s = Outcome.returned true s1 ∧
      s1.reg_pc = t ∧ s1.reg_s = (s.reg_s + 254) % 256 ∧
      DoStep s1 = Outcome.returned false s2 ∧
      s2.reg_pc = (a + 3) % 65536 ∧ s2.reg_s = s.reg_s := by
  subst hpc
  have hlo : s.memory.Read8 ((s.reg_pc + 1) % 65536) < 256 := Memory.Read8_lt _ _
  have hhi : s.memory.Read8 ((s.reg_pc + 2) % 65536) < 256 := Memory.Read8_lt _ _
  have ht16 : t < 65536 := by omega
  have hpc2 : ((s.reg_pc + 1) % 65536 + 1) % 65536 = (s.reg_pc + 2) % 65536 := by omega
  have hstep1 : DoStep s = Outcome.returned true
      { s with
        reg_s := (s.reg_s + 254) % 256
        reg_pc := t
        emu_cycles := (s.emu_cycles + 6) % 2 ^ 64
        memory := (s.memory.Write8 (0x0100 + (s.reg_s + 255) % 256)
            (((s.reg_pc + 2) % 65536) >>> 8)).Write8 (0x0100 + (s.reg_s + 254) % 256)
            ((s.reg_pc + 2) % 65536 &&& 0xFF) } := by
    unfold DoStep
    simp only [hjsr, instructions_20, callHandler]
    unfold do_JSR PushByte
    simp only [hpc2, ht]
    have h1 : ((s.reg_s + 255) % 256 + 255) % 256 = (s.reg_s + 254) % 256 := by omega
    have h2 : t % 65536 = t := Nat.mod_eq_of_lt ht16
    rw [h1, h2]
    rfl
  have hm1 : ((s.memory.Write8 (0x0100 + (s.reg_s + 255) % 256)
      (((s.reg_pc + 2) % 65536) >>> 8)).Write8 (0x0100 + (s.reg_s + 254) % 256)
      ((s.reg_pc + 2) % 65536 &&& 0xFF)).Read8 t = 0x60 := by
    rw [Memory.Read8_Write8 _ (by rw [Memory.Write8_size]; exact hsize)
      (by rw [Memory.Write8_mask]; exact hmask) _ _ _ (by omega) ht16, if_neg hne2,
      Memory.Read8_Write8 _ hsize hmask _ _ _ (by omega) ht16, if_neg hne1, hrts]
  have hm2 : ((s.memory.Write8 (0x0100 + (s.reg_s + 255) % 256)
      (((s.reg_pc + 2) % 65536) >>> 8)).Write8 (0x0100 + (s.reg_s + 254) % 256)
      ((s.reg_pc + 2) % 65536 &&& 0xFF)).Read8 (0x0100 + (s.reg_s + 254) % 256)
      = ((s.reg_pc + 2) % 65536 &&& 0xFF) % 256 := by
    rw [Memory.Read8_Write8 _ (by rw [Memory.Write8_size]; exact hsize)
      (by rw [Memory.Write8_mask]; exact hmask) _ _ _ (by omega) (by omega), if_pos rfl]
  have hm3 : ((s.memory.Write8 (0x0100 + (s.reg_s + 255) % 256)
      (((s.reg_pc + 2) % 65536) >>> 8)).Write8 (0x0100 + (s.reg_s + 254) % 256)
      ((s.reg_pc + 2) % 65536 &&& 0xFF)).Read8 (0x0100 + ((s.reg_s + 254) % 256 + 1) % 256)
      = (((s.reg_pc + 2) % 65536) >>> 8) % 256 := by
    have h1 : ((s.reg_s + 254) % 256 + 1) % 256 = (s.reg_s + 255) % 256 := by omega
    rw [h1, Memory.Read8_Write8 _ (by rw [Memory.Write8_size]; exact hsize)
      (by rw [Memory.Write8_mask]; exact hmask) _ _ _ (by omega) (by omega),
      if_neg (by omega),
      Memory.Read8_Write8 _ hsize hmask _ _ _ (by omega) (by omega), if_pos rfl]
  have hstep2 : DoStep
      { s with
        reg_s := (s.reg_s + 254) % 256
        reg_pc := t
        emu_cycles := (s.emu_cycles + 6) % 2 ^ 64
        memory := (s.memory.Write8 (0x0100 + (s.reg_s + 255) % 256)
            (((s.reg_pc + 2) % 65536) >>> 8)).Write8 (0x0100 + (s.reg_s + 254) % 256)
            ((s.reg_pc + 2) % 65536 &&& 0xFF) }
      = Outcome.returned false
      { s with
        reg_s := s.reg_s
        reg_pc := (s.reg_pc + 3) % 65536
        emu_cycles := ((s.emu_cycles + 6) % 2 ^ 64 + 6) % 2 ^ 64
        memory := (s.memory.Write8 (0x0100 + (s.reg_s + 255) % 256)
            (((s.reg_pc + 2) % 65536) >>> 8)).Write8 (0x0100 + (s.reg_s + 254) % 256)
            ((s.reg_pc + 2) % 65536 &&& 0xFF) } := by
    unfold DoStep
    simp only [hm1, instructions_60, callHandler]
    unfold do_RTS PopByte
    simp only [hm2, hm3, split_word _ (Nat.mod_lt (s.reg_pc + 2) (by decide : 65536 > 0))]
    have h1 : (((s.reg_s + 254) % 256 + 1) % 256 + 1) % 256 = s.reg_s := by omega
    have h2 : ((s.reg_pc + 2) % 65536 + 1) % 65536 = (s.reg_pc + 3) % 65536 := by omega
    rw [h1, h2]
    rfl
  exact ⟨_, _, hstep1, rfl, rfl, hstep2, rfl, rfl⟩

/-- The instance of claim C6 at `20 10 40` at `$0500`, `60` at `$4010` and
S = `$FF`: PC = `$4010` and S = `$FD` after the JSR, PC = `$0503` and
S = `$FF` after the RTS. -/
theorem jsr_rts_round_trip_witness :
    ∃ s1 s2, DoStep jsrRtsMachine = Outcome.returned true s1 ∧
      s1.reg_pc = 0x4010 ∧ s1.reg_s = 0xFD ∧
      DoStep s1 = Outcome.returned false s2 ∧
      s2.reg_pc = 0x0503 ∧ s2.reg_s = 0xFF :=
  jsr_rts_round_trip jsrRtsMachine 0x0500 0x4010 rfl (by decide!) rfl (by decide) (by decide)
    (by decide!) (by decide!) (by decide!) (by decide) (by decide)

/-! ## C7: the order of a push and of a pop -/

/-- Claim C7 (what the code does): `PushByte` lowers S first and writes at
`$0100 + (S - 1) mod 256`, and `PopByte` reads at `$0100 + S` and raises S
afterwards; stepping the JSR of the scenario with S = `$FF` leaves `$05` at
`$01FE`, `$02` at `$01FD`, leaves `$01FF` as it was (`$00`) and ends with
S = `$FD`. -/
theorem push_pop_order :
    (∀ (byte : Nat) (s : CPU6502Impl),
      PushByte byte s =
        { s with
          reg_s := (s.reg_s + 255) % 256
          memory := s.memory.Write8 (0x0100 + (s.reg_s + 255) % 256) byte }) ∧
    (∀ s : CPU6502Impl,
      PopByte s = (s.memory.Read8 (0x0100 + s.reg_s), { s with reg_s := (s.reg_s + 1) % 256 })) ∧
    (∃ s1, DoStep jsrRtsMachine = Outcome.returned true s1 ∧
      s1.memory.Read8 0x01FF = 0x00 ∧ s1.memory.Read8 0x01FE = 0x05 ∧
      s1.memory.Read8 0x01FD = 0x02 ∧ s1.reg_s = 0xFD) := by
  refine ⟨fun _ _ => rfl, fun _ => rfl, ?_⟩
  have hstep : DoStep jsrRtsMachine = Outcome.returned true
      (do_JSR 0x20 { jsrRtsMachine with reg_pc := 0x0501 }) := by rfl
  refine ⟨_, hstep, ?_, ?_, ?_, ?_⟩ <;> decide!

/-! ## C8: JMP indirect -/

theorem instructions_6C : (instructions 0x6C).handler = Handler.do_JMP_ind := by decide!

/-- Claim C8: a step of JMP indirect (opcode `$6C`) with operand bytes `lo`,
`hi` sets PC to `mem[hi*256 + lo] + 256 * mem[hi*256 + ((lo + 1) mod 256)]`,
so the high byte of the pointer is fetched without a carry into the page,
adds exactly 5 to the cycle counter, a counter of 64 bits, and changes nothing
else. -/
theorem step_JMP_ind (s : CPU6502Impl) (lo hi : Nat)
    (hop : s.memory.Read8 s.reg_pc = 0x6C)
    (hlo : s.memory.Read8 ((s.reg_pc + 1) % 65536) = lo)
    (hhi : s.memory.Read8 ((s.reg_pc + 2) % 65536) = hi) :
    DoStep s = Outcome.returned false
      { s with
        reg_pc := s.memory.Read8 (hi * 256 + lo)
          + 256 * s.memory.Read8 (hi * 256 + (lo + 1) % 256)
        emu_cycles := (s.emu_cycles + 5) % 2 ^ 64 } := by
  have hlo256 : lo < 256 := hlo ▸ Memory.Read8_lt _ _
  have hhi256 : hi < 256 := hhi ▸ Memory.Read8_lt _ _
  have h3 : s.memory.Read8 (hi * 256 + lo) < 256 := Memory.Read8_lt _ _
  have h4 : s.memory.Read8 (hi * 256 + (lo + 1) % 256) < 256 := Memory.Read8_lt _ _
  have hpc2 : ((s.reg_pc + 1) % 65536 + 1) % 65536 = (s.reg_pc + 2) % 65536 := by omega
  have ha1 : (hi * 0x100 + lo) % 65536 = hi * 256 + lo := by omega
  have ha2 : (hi * 0x100 + (lo + 1) % 256) % 65536 = hi * 256 + (lo + 1) % 256 := by omega
  have hpc : (s.memory.Read8 (hi * 256 + (lo + 1) % 256) * 0x100
      + s.memory.Read8 (hi * 256 + lo)) % 65536
      = s.memory.Read8 (hi * 256 + lo) + 256 * s.memory.Read8 (hi * 256 + (lo + 1) % 256) := by
    omega
  unfold DoStep
  simp only [hop, instructions_6C, callHandler]
  unfold do_JMP_ind
  simp only [hpc2, hlo, hhi, ha1, ha2, hpc]
  rfl

/-- The instance of claim C8 at `$80` at `$10FF`, `$40` at `$1000` and
`6C FF 10` at `$3000`: PC = `$4080` after 5 cycles. -/
theorem step_JMP_ind_witness :
    DoStep jmpIndMachine = Outcome.returned false
      { jmpIndMachine with reg_pc := 0x4080, emu_cycles := 5 } :=
  step_JMP_ind jmpIndMachine 0xFF 0x10 (by decide!) (by decide!) (by decide!)


/-! ## C9: conditional branches -/

theorem table_rel : ∀ op < 256, (instructions op).addr_mode = AddrMode.am_rel →
    op = 0x10 ∨ op = 0x30 ∨ op = 0x50 ∨ op = 0x70 ∨
    op = 0x90 ∨ op = 0xB0 ∨ op = 0xD0 ∨ op = 0xF0 := by
  decide!

theorem byte_xor_80 : ∀ x < 256,
    x ^^^ 0x80 = if x < 128 then x + 128 else x - 128 := by
  decide!

/-- The state `do_branch` leaves, with the test of the flag spelled out. -/
theorem CPU6502Impl.do_branch_eq (opcode : Nat) (s : CPU6502Impl) (taken : Prop)
    [Decidable taken]
    (ht : (decide (s.reg_flags &&& flag_bits (opcode >>> 6) ≠ 0)
      = decide (opcode &&& 0x20 ≠ 0)) ↔ taken) :
    do_branch opcode s =
      { s with
        reg_pc :=
          if taken then
            ((s.reg_pc + 1) % 65536 + (s.memory.Read8 s.reg_pc ^^^ 0x80) + (65536 - 0x80)) % 65536
          else (s.reg_pc + 1) % 65536
        emu_cycles :=
          if taken then
            (s.emu_cycles + 2 + 1 +
              (if (((s.reg_pc + 1) % 65536 + (s.memory.Read8 s.reg_pc ^^^ 0x80)
                  + (65536 - 0x80)) % 65536) >>> 8 ≠ ((s.reg_pc + 1) % 65536) >>> 8
                then 1 else 0)) % 2 ^ 64
          else (s.emu_cycles + 2) % 2 ^ 64 } := by
  unfold do_branch
  dsimp only
  by_cases h : taken
  · rw [if_pos (ht.mpr h), if_pos h, if_pos h]
  · rw [if_neg (fun h' => h (ht.mp h')), if_neg h, if_neg h]

/-- Claim C9: a step of a branch opcode at address `a` with offset byte `o`
takes the branch iff BPL: N=0, BMI: N=1, BVC: V=0, BVS: V=1, BCC: C=0,
BCS: C=1, BNE: Z=0, BEQ: Z=1.  When taken, PC becomes
`(a + 2 + sign_extend(o)) mod 2^16` and the step costs 3 cycles, or 4 when the
target lies in another page than `a + 2`; otherwise PC becomes
`(a + 2) mod 2^16` and the step costs 2 cycles.  The cost is added to the cycle
counter, a counter of 64 bits.  Nothing but PC and the cycle counter changes. -/
theorem step_branch (s : CPU6502Impl) (a o : Nat)
    (hpc : s.reg_pc = a) (ha : a < 65536)
    (hrel : (instructions (s.memory.Read8 a)).addr_mode = AddrMode.am_rel)
    (ho : s.memory.Read8 ((a + 1) % 65536) = o) :
    ∃ (taken : Bool) (pc' cycles' : Nat),
      DoStep s = Outcome.returned false { s with reg_pc := pc', emu_cycles := cycles' } ∧
      (taken = true ↔
        ((instructions (s.memory.Read8 a)).name = "BPL".toList ∧ s.reg_flags &&& 0x80 = 0) ∨
        ((instructions (s.memory.Read8 a)).name = "BMI".toList ∧ s.reg_flags &&& 0x80 ≠ 0) ∨
        ((instructions (s.memory.Read8 a)).name = "BVC".toList ∧ s.reg_flags &&& 0x40 = 0) ∨
        ((instructions (s.memory.Read8 a)).name = "BVS".toList ∧ s.reg_flags &&& 0x40 ≠ 0) ∨
        ((instructions (s.memory.Read8 a)).name = "BCC".toList ∧ s.reg_flags &&& 0x01 = 0) ∨
        ((instructions (s.memory.Read8 a)).name = "BCS".toList ∧ s.reg_flags &&& 0x01 ≠ 0) ∨
        ((instructions (s.memory.Read8 a)).name = "BNE".toList ∧ s.reg_flags &&& 0x02 = 0) ∨
        ((instructions (s.memory.Read8 a)).name = "BEQ".toList ∧ s.reg_flags &&& 0x02 ≠ 0)) ∧
      (taken = true →
        (pc' : Int) = ((a : Int) + 2 + (if o < 128 then (o : Int) else (o : Int) - 256)) % 65536 ∧
        cycles' = (s.emu_cycles + 2 + 1 + (if pc' / 256 ≠ (a + 2) % 65536 / 256 then 1 else 0)) % 2 ^ 64) ∧
      (taken = false → pc' = (a + 2) % 65536 ∧ cycles' = (s.emu_cycles + 2) % 2 ^ 64) := by
  subst hpc
  have hop256 : s.memory.Read8 s.reg_pc < 256 := Memory.Read8_lt _ _
  have ho256 : o < 256 := ho ▸ Memory.Read8_lt _ _
  have hpc2 : ((s.reg_pc + 1) % 65536 + 1) % 65536 = (s.reg_pc + 2) % 65536 := by omega
  have hx := byte_xor_80 o ho256
  -- the shape of the step once the flag test is known
  have key : ∀ (taken : Prop) [Decidable taken],
      (instructions (s.memory.Read8 s.reg_pc)).handler = Handler.do_branch →
      ((decide (s.reg_flags &&& flag_bits (s.memory.Read8 s.reg_pc >>> 6) ≠ 0)
        = decide (s.memory.Read8 s.reg_pc &&& 0x20 ≠ 0)) ↔ taken) →
      ∃ (pc' cycles' : Nat),
        DoStep s = Outcome.returned false { s with reg_pc := pc', emu_cycles := cycles' } ∧
        (taken →
          (pc' : Int) = ((s.reg_pc : Int) + 2
            + (if o < 128 then (o : Int) else (o : Int) - 256)) % 65536 ∧
          cycles' = (s.emu_cycles + 2 + 1
            + (if pc' / 256 ≠ (s.reg_pc + 2) % 65536 / 256 then 1 else 0)) % 2 ^ 64) ∧
        (¬ taken → pc' = (s.reg_pc + 2) % 65536 ∧ cycles' = (s.emu_cycles + 2) % 2 ^ 64) := by
    intro taken _ hh ht
    have hstep : DoStep s = Outcome.returned false
        (do_branch (s.memory.Read8 s.reg_pc) { s with reg_pc := (s.reg_pc + 1) % 65536 }) := by
      unfold DoStep
      simp only [hh, callHandler, not_jsr _ hop256 (by rw [hh]; decide)]
    rw [do_branch_eq _ { s with reg_pc := (s.reg_pc + 1) % 65536 } taken ht] at hstep
    dsimp only at hstep
    rw [hpc2, ho] at hstep
    refine ⟨_, _, hstep, ?_, ?_⟩
    · intro h
      rw [if_pos h, if_pos h, hx, Nat.shiftRight_eq_div_pow, Nat.shiftRight_eq_div_pow]
      constructor
      · split_ifs <;> omega
      · rfl
    · intro h
      rw [if_neg h, if_neg h]
      exact ⟨rfl, rfl⟩
  have fin : ∀ (taken : Prop) [Decidable taken] (op : Nat),
      s.memory.Read8 s.reg_pc = op →
      (instructions op).handler = Handler.do_branch →
      ((decide (s.reg_flags &&& flag_bits (op >>> 6) ≠ 0) = decide (op &&& 0x20 ≠ 0)) ↔ taken) →
      (taken ↔
        ((instructions op).name = "BPL".toList ∧ s.reg_flags &&& 0x80 = 0) ∨
        ((instructions op).name = "BMI".toList ∧ s.reg_flags &&& 0x80 ≠ 0) ∨
        ((instructions op).name = "BVC".toList ∧ s.reg_flags &&& 0x40 = 0) ∨
        ((instructions op).name = "BVS".toList ∧ s.reg_flags &&& 0x40 ≠ 0) ∨
        ((instructions op).name = "BCC".toList ∧ s.reg_flags &&& 0x01 = 0) ∨
        ((instructions op).name = "BCS".toList ∧ s.reg_flags &&& 0x01 ≠ 0) ∨
        ((instructions op).name = "BNE".toList ∧ s.reg_flags &&& 0x02 = 0) ∨
        ((instructions op).name = "BEQ".toList ∧ s.reg_flags &&& 0x02 ≠ 0)) →
      ∃ (taken : Bool) (pc' cycles' : Nat),
        DoStep s = Outcome.returned false { s with reg_pc := pc', emu_cycles := cycles' } ∧
        (taken = true ↔
          ((instructions (s.memory.Read8 s.reg_pc)).name = "BPL".toList
            ∧ s.reg_flags &&& 0x80 = 0) ∨
          ((instructions (s.memory.Read8 s.reg_pc)).name = "BMI".toList
            ∧ s.reg_flags &&& 0x80 ≠ 0) ∨
          ((instructions (s.memory.Read8 s.reg_pc)).name = "BVC".toList
            ∧ s.reg_flags &&& 0x40 = 0) ∨
          ((instructions (s.memory.Read8 s.reg_pc)).name = "BVS".toList
            ∧ s.reg_flags &&& 0x40 ≠ 0) ∨
          ((instructions (s.memory.Read8 s.reg_pc)).name = "BCC".toList
            ∧ s.reg_flags &&& 0x01 = 0) ∨
          ((instructions (s.memory.Read8 s.reg_pc)).name = "BCS".toList
            ∧ s.reg_flags &&& 0x01 ≠ 0) ∨
          ((instructions (s.memory.Read8 s.reg_pc)).name = "BNE".toList
            ∧ s.reg_flags &&& 0x02 = 0) ∨
          ((instructions (s.memory.Read8 s.reg_pc)).name = "BEQ".toList
            ∧ s.reg_flags &&& 0x02 ≠ 0)) ∧
        (taken = true →
          (pc' : Int) = ((s.reg_pc : Int) + 2
            + (if o < 128 then (o : Int) else (o : Int) - 256)) % 65536 ∧
          cycles' = (s.emu_cycles + 2 + 1
            + (if pc' / 256 ≠ (s.reg_pc + 2) % 65536 / 256 then 1 else 0)) % 2 ^ 64) ∧
        (taken = false → pc' = (s.reg_pc + 2) % 65536 ∧ cycles' = (s.emu_cycles + 2) % 2 ^ 64) := by
    intro taken _ op hopv hh ht hdisj
    obtain ⟨pc', cycles', hstep, h1, h2⟩ := key taken (hopv ▸ hh) (hopv ▸ ht)
    refine ⟨decide taken, pc', cycles', hstep, ?_, ?_, ?_⟩
    · rw [decide_eq_true_iff, hopv]; exact hdisj
    · intro h; exact h1 (of_decide_eq_true h)
    · intro h; exact h2 (of_decide_eq_false h)
  rcases table_rel _ hop256 hrel with h | h | h | h | h | h | h | h
  · refine fin (s.reg_flags &&& 0x80 = 0) 0x10 h (by decide!) ?_ ?_
    · show (decide (s.reg_flags &&& 0x80 ≠ 0) = false) ↔ _
      simp
    · constructor
      · intro hc
        exact Or.inl ⟨by decide!, hc⟩
      · rintro (⟨hn, hc⟩ | ⟨hn, hc⟩ | ⟨hn, hc⟩ | ⟨hn, hc⟩ | ⟨hn, hc⟩ | ⟨hn, hc⟩ | ⟨hn, hc⟩ | ⟨hn, hc⟩)
        · exact hc
        · exact absurd hn (by decide!)
        · exact absurd hn (by decide!)
        · exact absurd hn (by decide!)
        · exact absurd hn (by decide!)
        · exact absurd hn (by decide!)
        · exact absurd hn (by decide!)
        · exact absurd hn (by decide!)
  · refine fin (s.reg_flags &&& 0x80 ≠ 0) 0x30 h (by decide!) ?_ ?_
    · show (decide (s.reg_flags &&& 0x80 ≠ 0) = true) ↔ _
      simp
    · constructor
      · intro hc
        exact Or.inr (Or.inl ⟨by decide!, hc⟩)
      · rintro (⟨hn, hc⟩ | ⟨hn, hc⟩ | ⟨hn, hc⟩ | ⟨hn, hc⟩ | ⟨hn, hc⟩ | ⟨hn, hc⟩ | ⟨hn, hc⟩ | ⟨hn, hc⟩)
        · exact absurd hn (by decide!)
        · exact hc
        · exact absurd hn (by decide!)
        · exact absurd hn (by decide!)
        · exact absurd hn (by decide!)
        · exact absurd hn (by decide!)
        · exact absurd hn (by decide!)
        · exact absurd hn (by decide!)
  · refine fin (s.reg_flags &&& 0x40 = 0) 0x50 h (by decide!) ?_ ?_
    · show (decide (s.reg_flags &&& 0x40 ≠ 0) = false) ↔ _
      simp
    · constructor
      · intro hc
        exact Or.inr (Or.inr (Or.inl ⟨by decide!, hc⟩))
      · rintro (⟨hn, hc⟩ | ⟨hn, hc⟩ | ⟨hn, hc⟩ | ⟨hn, hc⟩ | ⟨hn, hc⟩ | ⟨hn, hc⟩ | ⟨hn, hc⟩ | ⟨hn, hc⟩)
        · exact absurd hn (by decide!)
        · exact absurd hn (by decide!)
        · exact hc
        · exact absurd hn (by decide!)
        · exact absurd hn (by decide!)
        · exact absurd hn (by decide!)
        · exact absurd hn (by decide!)
        · exact absurd hn (by decide!)
  · refine fin (s.reg_flags &&& 0x40 ≠ 0) 0x70 h (by decide!) ?_ ?_
    · show (decide (s.reg_flags &&& 0x40 ≠ 0) = true) ↔ _
      simp
    · constructor
      · intro hc
        exact Or.inr (Or.inr (Or.inr (Or.inl ⟨by decide!, hc⟩)))
      · rintro (⟨hn, hc⟩ | ⟨hn, hc⟩ | ⟨hn, hc⟩ | ⟨hn, hc⟩ | ⟨hn, hc⟩ | ⟨hn, hc⟩ | ⟨hn, hc⟩ | ⟨hn, hc⟩)
        · exact absurd hn (by decide!)
        · exact absurd hn (by decide!)
        · exact absurd hn (by decide!)
        · exact hc
        · exact absurd hn (by decide!)
        · exact absurd hn (by decide!)
        · exact absurd hn (by decide!)
        · exact absurd hn (by decide!)
  · refine fin (s.reg_flags &&& 0x01 = 0) 0x90 h (by decide!) ?_ ?_
    · show (decide (s.reg_flags &&& 0x01 ≠ 0) = false) ↔ _
      simp
    · constructor
      · intro hc
        exact Or.inr (Or.inr (Or.inr (Or.inr (Or.inl ⟨by decide!, hc⟩))))
      · rintro (⟨hn, hc⟩ | ⟨hn, hc⟩ | ⟨hn, hc⟩ | ⟨hn, hc⟩ | ⟨hn, hc⟩ | ⟨hn, hc⟩ | ⟨hn, hc⟩ | ⟨hn, hc⟩)
        · exact absurd hn (by decide!)
        · exact absurd hn (by decide!)
        · exact absurd hn (by decide!)
        · exact absurd hn (by decide!)
        · exact hc
        · exact absurd hn (by decide!)
        · exact absurd hn (by decide!)
        · exact absurd hn (by decide!)
  · refine fin (s.reg_flags &&& 0x01 ≠ 0) 0xB0 h (by decide!) ?_ ?_
    · show (decide (s.reg_flags &&& 0x01 ≠ 0) = true) ↔ _
      simp
    · constructor
      · intro hc
        exact Or.inr (Or.inr (Or.inr (Or.inr (Or.inr (Or.inl ⟨by decide!, hc⟩)))))
      · rintro (⟨hn, hc⟩ | ⟨hn, hc⟩ | ⟨hn, hc⟩ | ⟨hn, hc⟩ | ⟨hn, hc⟩ | ⟨hn, hc⟩ | ⟨hn, hc⟩ | ⟨hn, hc⟩)
        · exact absurd hn (by decide!)
        · exact absurd hn (by decide!)
        · exact absurd hn (by decide!)
        · exact absurd hn (by decide!)
        · exact absurd hn (by decide!)
        · exact hc
        · exact absurd hn (by decide!)
        · exact absurd hn (by decide!)
  · refine fin (s.reg_flags &&& 0x02 = 0) 0xD0 h (by decide!) ?_ ?_
    · show (decide (s.reg_flags &&& 0x02 ≠ 0) = false) ↔ _
      simp
    · constructor
      · intro hc
        exact Or.inr (Or.inr (Or.inr (Or.inr (Or.inr (Or.inr (Or.inl ⟨by decide!, hc⟩))))))
      · rintro (⟨hn, hc⟩ | ⟨hn, hc⟩ | ⟨hn, hc⟩ | ⟨hn, hc⟩ | ⟨hn, hc⟩ | ⟨hn, hc⟩ | ⟨hn, hc⟩ | ⟨hn, hc⟩)
        · exact absurd hn (by decide!)
        · exact absurd hn (by decide!)
        · exact absurd hn (by decide!)
        · exact absurd hn (by decide!)
        · exact absurd hn (by decide!)
        · exact absurd hn (by decide!)
        · exact hc
        · exact absurd hn (by decide!)
  · refine fin (s.reg_flags &&& 0x02 ≠ 0) 0xF0 h (by decide!) ?_ ?_
    · show (decide (s.reg_flags &&& 0x02 ≠ 0) = true) ↔ _
      simp
    · constructor
      · intro hc
        exact Or.inr (Or.inr (Or.inr (Or.inr (Or.inr (Or.inr (Or.inr (⟨by decide!, hc⟩)))))))
      · rintro (⟨hn, hc⟩ | ⟨hn, hc⟩ | ⟨hn, hc⟩ | ⟨hn, hc⟩ | ⟨hn, hc⟩ | ⟨hn, hc⟩ | ⟨hn, hc⟩ | ⟨hn, hc⟩)
        · exact absurd hn (by decide!)
        · exact absurd hn (by decide!)
        · exact absurd hn (by decide!)
        · exact absurd hn (by decide!)
        · exact absurd hn (by decide!)
        · exact absurd hn (by decide!)
        · exact absurd hn (by decide!)
        · exact hc

/-- The instance of claim C9 at `30 FB` (BMI -5) at `$2000` with N set: the
branch is taken to `$1FFD`, in another page than `$2002`, in 4 cycles. -/
theorem step_branch_witness :
    DoStep { machineAt 0x2000 [0x30, 0xFB] with reg_flags := 0xA0 }
      = Outcome.returned false
        { machineAt 0x2000 [0x30, 0xFB] with
          reg_flags := 0xA0, reg_pc := 0x1FFD, emu_cycles := 4 } := by
  obtain ⟨taken, pc', cycles', hstep, hiff, ht, _⟩ :=
    step_branch { machineAt 0x2000 [0x30, 0xFB] with reg_flags := 0xA0 } 0x2000 0xFB
      rfl (by decide) (by decide!) (by decide!)
  have htaken : taken = true := hiff.mpr (Or.inr (Or.inl ⟨by decide!, by decide!⟩))
  obtain ⟨hpc, hcy⟩ := ht htaken
  have hpc' : pc' = 0x1FFD := by
    rw [if_neg (by decide)] at hpc
    omega
  subst hpc'
  rw [hcy] at hstep
  exact hstep

/-! ## C10: the page-crossing cycle of a taken branch -/

/-- Claim C10 fails as stated: the step of `D0 7F` at `$10FE` with Z = 0 does
not end with PC = `$117F` and 4 cycles. -/
theorem branch_page_cross_counterexample :
    ¬ ∃ s', DoStep (machineAt 0x10FE [0xD0, 0x7F]) = Outcome.returned false s' ∧
      s'.reg_pc = 0x117F ∧ s'.emu_cycles = 4 := by
  rintro ⟨s', h, _, hc⟩
  have h2 : DoStep (machineAt 0x10FE [0xD0, 0x7F]) = Outcome.returned false
      { machineAt 0x10FE [0xD0, 0x7F] with reg_pc := 0x117F, emu_cycles := 3 } := rfl
  rw [h2] at h
  injection h with _ hs
  subst hs
  exact absurd hc (by decide)

/-- Claim C10 as amended: with `D0 7F` (BNE +127) at `$10FE`, PC = `$10FE`,
Z = 0 and cycles = 0, one step takes the branch and leaves PC = `$117F`; the
target lies in the page of `$1100`, the address after the operand, so no
page-crossing cycle is counted and cycles = 2 + 1 = 3. -/
theorem branch_same_page_cycles :
    (machineAt 0x10FE [0xD0, 0x7F]).reg_pc = 0x10FE ∧
    (machineAt 0x10FE [0xD0, 0x7F]).reg_flags &&& 0x02 = 0 ∧
    (machineAt 0x10FE [0xD0, 0x7F]).emu_cycles = 0 ∧
    DoStep (machineAt 0x10FE [0xD0, 0x7F]) = Outcome.returned false
      { machineAt 0x10FE [0xD0, 0x7F] with reg_pc := 0x117F, emu_cycles := 3 } ∧
    0x117F >>> 8 = 0x1100 >>> 8 :=
  ⟨rfl, by decide, rfl, rfl, by decide⟩


/-! ## C11: BRK -/

theorem instructions_00 : (instructions 0x00).handler = Handler.do_BRK := by decide!

/-- Claim C11: a step of BRK (opcode `$00`) at address `a` sets PC to
`mem[$FFFE] + 256 * mem[$FFFF]`, read before the pushes; pushes the high byte
of `a + 2`, the low byte of `a + 2` and then the FLAGS value it found, in
that order (each push through `PushByte`, so at `$0100 + (S - 1)`,
`$0100 + (S - 2)` and `$0100 + (S - 3)`, mod 256); leaves S lower by 3
(mod 256) and FLAGS equal to the old FLAGS or-ed with `0x14`; leaves A, X, Y
and the breakpoints alone; and adds 7 to the cycle counter, a counter of 64
bits. -/
theorem step_BRK (s : CPU6502Impl) (a : Nat)
    (hpc : s.reg_pc = a) (hop : s.memory.Read8 a = 0x00) :
    ∃ s', DoStep s = Outcome.returned false s' ∧
      s'.reg_pc = s.memory.Read8 0xFFFE + 256 * s.memory.Read8 0xFFFF ∧
      s'.memory = (PushByte s.reg_flags
        (PushByte ((a + 2) % 65536 &&& 0xFF)
          (PushByte (((a + 2) % 65536) >>> 8) s))).memory ∧
      s'.memory
        = ((s.memory.Write8 (0x0100 + (s.reg_s + 255) % 256) (((a + 2) % 65536) >>> 8)).Write8
            (0x0100 + (s.reg_s + 254) % 256) ((a + 2) % 65536 &&& 0xFF)).Write8
            (0x0100 + (s.reg_s + 253) % 256) s.reg_flags ∧
      s'.reg_s = (s.reg_s + 253) % 256 ∧
      s'.reg_flags = s.reg_flags ||| 0x14 ∧
      s'.reg_a = s.reg_a ∧ s'.reg_x = s.reg_x ∧ s'.reg_y = s.reg_y ∧
      s'.emu_cycles = (s.emu_cycles + 7) % 2 ^ 64 ∧ s'.breakpoints = s.breakpoints := by
  subst hpc
  have hpc2 : ((s.reg_pc + 1) % 65536 + 1) % 65536 = (s.reg_pc + 2) % 65536 := by omega
  have h1 : ((s.reg_s + 255) % 256 + 255) % 256 = (s.reg_s + 254) % 256 := by omega
  have h2 : ((s.reg_s + 254) % 256 + 255) % 256 = (s.reg_s + 253) % 256 := by omega
  have hv : s.memory.Read8 0xFFFF * 0x100 + s.memory.Read8 0xFFFE
      = s.memory.Read8 0xFFFE + 256 * s.memory.Read8 0xFFFF := by omega
  have hstep : DoStep s = Outcome.returned false
      { s with
        reg_s := (s.reg_s + 253) % 256
        reg_flags := s.reg_flags ||| 0x14
        reg_pc := s.memory.Read8 0xFFFE + 256 * s.memory.Read8 0xFFFF
        emu_cycles := (s.emu_cycles + 7) % 2 ^ 64
        memory :=
          ((s.memory.Write8 (0x0100 + (s.reg_s + 255) % 256)
              (((s.reg_pc + 2) % 65536) >>> 8)).Write8
            (0x0100 + (s.reg_s + 254) % 256) ((s.reg_pc + 2) % 65536 &&& 0xFF)).Write8
            (0x0100 + (s.reg_s + 253) % 256) s.reg_flags } := by
    unfold DoStep
    simp only [hop, instructions_00, callHandler]
    unfold do_BRK PushByte
    simp only [hpc2, hv, h1, h2]
    rfl
  refine ⟨_, hstep, rfl, ?_, rfl, rfl, rfl, rfl, rfl, rfl, rfl, rfl⟩
  unfold PushByte
  simp only [h1, h2]

/-- The instance of claim C11 at `00` at `$0600` with IRQ vector `$1234` and
S = `$FF`. -/
theorem step_BRK_witness :
    ∃ s', DoStep brkMachine = Outcome.returned false s' ∧
      s'.reg_pc = 0x1234 ∧ s'.reg_s = 0xFC ∧ s'.reg_flags = 0x34 ∧ s'.emu_cycles = 7 ∧
      s'.memory.Read8 0x01FE = 0x06 ∧ s'.memory.Read8 0x01FD = 0x02 ∧
      s'.memory.Read8 0x01FC = 0x20 := by
  obtain ⟨s', h0, h1, _, h3, h4, h5, _, _, _, h9, _⟩ :=
    step_BRK brkMachine 0x0600 rfl (by decide!)
  refine ⟨s', h0, h1.trans (by decide!), h4.trans (by decide!), h5.trans (by decide!),
    h9.trans (by decide!), ?_, ?_, ?_⟩ <;> rw [h3] <;> decide!

/-! ## C12: SBC in binary mode -/

theorem table_SBC : ∀ op < 256, (instructions op).name = "SBC".toList →
    (instructions op).handler = Handler.do_SBC := by
  decide!

/-- What a step of an ADC opcode is: `DoAdd` of the operand byte. -/
theorem CPU6502Impl.DoStep_ADC (s : CPU6502Impl)
    (hname : (instructions (s.memory.Read8 s.reg_pc)).name = "ADC".toList) :
    DoStep s = Outcome.returned false
      (DoAdd (s.memory.Read8 (GetAddress (s.memory.Read8 s.reg_pc)
          { s with reg_pc := (s.reg_pc + 1) % 65536 }).1)
        { s with
          reg_pc := (GetAddress (s.memory.Read8 s.reg_pc)
            { s with reg_pc := (s.reg_pc + 1) % 65536 }).2.reg_pc
          emu_cycles := ((GetAddress (s.memory.Read8 s.reg_pc)
            { s with reg_pc := (s.reg_pc + 1) % 65536 }).2.emu_cycles + 2) % 2 ^ 64 }) := by
  have hop256 : s.memory.Read8 s.reg_pc < 256 := Memory.Read8_lt _ _
  have hh := table_ADC _ hop256 hname
  unfold DoStep
  simp only [hh, callHandler, not_jsr _ hop256 (by rw [hh]; decide)]
  unfold do_ADC
  simp only [GetAddress_reg_a, GetAddress_reg_x, GetAddress_reg_y, GetAddress_reg_s,
    GetAddress_reg_flags, GetAddress_memory, GetAddress_breakpoints]

theorem CPU6502Impl.GetAddress_snd (opcode : Nat) (s : CPU6502Impl) :
    (GetAddress opcode s).2 =
      { s with reg_pc := (GetAddress opcode s).2.reg_pc,
               emu_cycles := (GetAddress opcode s).2.emu_cycles } := by
  unfold GetAddress; split <;> rfl

/-- What a step of an SBC opcode is in binary mode: `DoAdd` of the operand
byte with its bits inverted. -/
theorem CPU6502Impl.DoStep_SBC_binary (s : CPU6502Impl) (pc1 cy1 : Nat)
    (hname : (instructions (s.memory.Read8 s.reg_pc)).name = "SBC".toList)
    (hD : s.reg_flags &&& 0x08 = 0)
    (hpc1 : (GetAddress (s.memory.Read8 s.reg_pc)
      { s with reg_pc := (s.reg_pc + 1) % 65536 }).2.reg_pc = pc1)
    (hcy1 : (GetAddress (s.memory.Read8 s.reg_pc)
      { s with reg_pc := (s.reg_pc + 1) % 65536 }).2.emu_cycles = cy1) :
    DoStep s = Outcome.returned false
      { DoAdd ((s.memory.Read8 (GetAddress (s.memory.Read8 s.reg_pc)
          { s with reg_pc := (s.reg_pc + 1) % 65536 }).1 ^^^ 0xFF) % 256)
          { s with reg_pc := pc1, emu_cycles := cy1 } with
        emu_cycles := ((DoAdd ((s.memory.Read8 (GetAddress (s.memory.Read8 s.reg_pc)
          { s with reg_pc := (s.reg_pc + 1) % 65536 }).1 ^^^ 0xFF) % 256)
          { s with reg_pc := pc1, emu_cycles := cy1 }).emu_cycles + 2) % 2 ^ 64 } := by
  have hop256 : s.memory.Read8 s.reg_pc < 256 := Memory.Read8_lt _ _
  have hh := table_SBC _ hop256 hname
  have hD' : ¬ (s.reg_flags &&& 0x08 ≠ 0) := by simp [hD]
  have hfr := GetAddress_snd (s.memory.Read8 s.reg_pc)
    { s with reg_pc := (s.reg_pc + 1) % 65536 }
  rw [hpc1, hcy1] at hfr
  unfold DoStep
  simp only [hh, callHandler, not_jsr _ hop256 (by rw [hh]; decide)]
  unfold do_SBC
  simp only [GetAddress_reg_flags, GetAddress_memory, if_neg hD']
  rw [hfr]

/-- Claim C12: in binary mode (D = 0), a step of an SBC opcode with
accumulator `A`, operand byte `M` and carry `C` leaves
`A' = (A - M - (1 - C)) mod 256` and the carry set iff `A >= M + (1 - C)`;
its A and FLAGS are those `DoAdd` gives for the byte `M xor 0xFF`, and so
those a step of an ADC opcode with operand `M xor 0xFF` leaves from the same
A and FLAGS. -/
theorem step_SBC_binary (s : CPU6502Impl) (A M C : Nat)
    (hname : (instructions (s.memory.Read8 s.reg_pc)).name = "SBC".toList)
    (hA : s.reg_a = A) (hA256 : A < 256)
    (hM : s.memory.Read8 (GetAddress (s.memory.Read8 s.reg_pc)
        { s with reg_pc := (s.reg_pc + 1) % 65536 }).1 = M)
    (hF : s.reg_flags < 256) (hC : s.reg_flags &&& 0x01 = C)
    (hD : s.reg_flags &&& 0x08 = 0) :
    ∃ s', DoStep s = Outcome.returned false s' ∧
      (s'.reg_a : Int) = ((A : Int) - (M : Int) - (1 - (C : Int))) % 256 ∧
      (s'.reg_flags &&& 0x01 = 0x01 ↔ A ≥ M + (1 - C)) ∧
      s'.reg_a = (DoAdd (M ^^^ 0xFF) s).reg_a ∧
      s'.reg_flags = (DoAdd (M ^^^ 0xFF) s).reg_flags ∧
      (∀ s2 : CPU6502Impl,
        (instructions (s2.memory.Read8 s2.reg_pc)).name = "ADC".toList →
        s2.reg_a = A → s2.reg_flags = s.reg_flags →
        s2.memory.Read8 (GetAddress (s2.memory.Read8 s2.reg_pc)
          { s2 with reg_pc := (s2.reg_pc + 1) % 65536 }).1 = M ^^^ 0xFF →
        ∃ s2', DoStep s2 = Outcome.returned false s2' ∧
          s2'.reg_a = s'.reg_a ∧ s2'.reg_flags = s'.reg_flags) := by
  subst hA
  have hM256 : M < 256 := hM ▸ Memory.Read8_lt _ _
  have hx := byte_xor_FF M hM256
  have hx256 : M ^^^ 0xFF < 256 := by omega
  have hxm : (M ^^^ 0xFF) % 256 = M ^^^ 0xFF := Nat.mod_eq_of_lt hx256
  rw [byte_and_01] at hC
  have hstep := DoStep_SBC_binary s _ _ hname hD rfl rfl
  rw [hM, hxm] at hstep
  generalize (GetAddress (s.memory.Read8 s.reg_pc)
      { s with reg_pc := (s.reg_pc + 1) % 65536 }).2.reg_pc = pc1 at hstep
  generalize (GetAddress (s.memory.Read8 s.reg_pc)
      { s with reg_pc := (s.reg_pc + 1) % 65536 }).2.emu_cycles = cy1 at hstep
  rw [DoAdd_binary (M ^^^ 0xFF) { s with reg_pc := pc1, emu_cycles := cy1 } hA256 hx256 hF hD]
    at hstep
  refine ⟨_, hstep, ?_, ?_, ?_, ?_, ?_⟩
  · dsimp only
    rw [hx, hC]
    omega
  · dsimp only
    rw [hx, hC]
    obtain ⟨hc1, hc2⟩ := toNat_decide (s.reg_a + (255 - M) + C > 0xFF)
    generalize (decide (s.reg_a + (255 - M) + C > 0xFF)).toNat = c at hc1 hc2 ⊢
    have hz := (toNat_decide ((s.reg_a + (255 - M) + C) % 256 = 0)).2
    generalize (decide ((s.reg_a + (255 - M) + C) % 256 = 0)).toNat = z at hz ⊢
    have hv := (toNat_decide ((s.reg_a % 128 + (255 - M) % 128 + C) / 128
      ≠ (s.reg_a + (255 - M) + C) / 256)).2
    generalize (decide ((s.reg_a % 128 + (255 - M) % 128 + C) / 128
      ≠ (s.reg_a + (255 - M) + C) / 256)).toNat = v at hv ⊢
    have hm : s.reg_flags / 4 % 16 < 16 := Nat.mod_lt _ (by decide)
    generalize s.reg_flags / 4 % 16 = m at hm ⊢
    have hn : (s.reg_a + (255 - M) + C) % 256 / 128 < 2 := by omega
    generalize (s.reg_a + (255 - M) + C) % 256 / 128 = n at hn ⊢
    rw [byte_and_01]
    omega
  · rw [DoAdd_binary (M ^^^ 0xFF) s hA256 hx256 hF hD]
  · rw [DoAdd_binary (M ^^^ 0xFF) s hA256 hx256 hF hD]
  · intro s2 hname2 hA2 hF2 hM2
    have hstep2 := DoStep_ADC s2 hname2
    rw [hM2] at hstep2
    generalize (GetAddress (s2.memory.Read8 s2.reg_pc)
        { s2 with reg_pc := (s2.reg_pc + 1) % 65536 }).2.reg_pc = pc2 at hstep2
    generalize (GetAddress (s2.memory.Read8 s2.reg_pc)
        { s2 with reg_pc := (s2.reg_pc + 1) % 65536 }).2.emu_cycles = cy2 at hstep2
    rw [DoAdd_binary (M ^^^ 0xFF) { s2 with reg_pc := pc2, emu_cycles := (cy2 + 2) % 2 ^ 64 }
      (hA2 ▸ hA256) hx256 (hF2 ▸ hF) (hF2 ▸ hD)] at hstep2
    refine ⟨_, hstep2, ?_, ?_⟩
    · dsimp only; rw [hA2, hF2]
    · dsimp only; rw [hA2, hF2]

/-- The instance of claim C12 at `SBC #$30` with `A = $50` and the carry set:
`A' = $20` and the carry stays set. -/
theorem step_SBC_binary_witness :
    ∃ s', DoStep { machineAt 0x1000 [0xE9, 0x30] with reg_a := 0x50, reg_flags := 0x21 }
        = Outcome.returned false s' ∧
      s'.reg_a = 0x20 ∧ s'.reg_flags &&& 0x01 = 0x01 := by
  obtain ⟨s', h0, h1, h2, _⟩ :=
    step_SBC_binary { machineAt 0x1000 [0xE9, 0x30] with reg_a := 0x50, reg_flags := 0x21 }
      0x50 0x30 1 (by decide!) rfl (by decide) (by decide!) (by decide) (by decide) (by decide)
  refine ⟨s', h0, ?_, h2.mpr (by decide)⟩
  have h3 : ((0x50 : Nat) : Int) - ((0x30 : Nat) : Int) - (1 - ((1 : Nat) : Int)) = 0x20 := by
    decide
  rw [h3] at h1
  omega

/-! ## C13: ADC in decimal mode -/

/-- Claim C13 (what the code does at the failing input): in decimal mode,
`ADC #$01` with `A = $01` and the carry clear leaves `A = $01`, not `$02`:
the sum of the low digits is taken with `byte & 0xF0`, so the low digit of
the operand is left out.  Likewise `$28 + $19` gives `$4E`, not `$47`. -/
theorem decimal_ADC_drops_low_digit :
    (∃ s', DoStep { machineAt 0x1000 [0x69, 0x01] with reg_a := 0x01, reg_flags := 0x28 }
        = Outcome.returned false s' ∧ s'.reg_a = 0x01 ∧ s'.reg_flags &&& 0x01 = 0) ∧
    (∃ s', DoStep { machineAt 0x1000 [0x69, 0x19] with reg_a := 0x28, reg_flags := 0x28 }
        = Outcome.returned false s' ∧ s'.reg_a = 0x4E ∧ s'.reg_flags &&& 0x01 = 0) ∧
    (∀ (byte : Nat) (s : CPU6502Impl), s.reg_flags &&& 0x08 ≠ 0 →
      (DoAdd byte s).reg_a =
        ((if (s.reg_a &&& 0x0F) + (byte &&& 0xF0) + (s.reg_flags &&& 0x01) > 0x09
            then (s.reg_a &&& 0x0F) + (byte &&& 0xF0) + (s.reg_flags &&& 0x01) + 0x06
            else (s.reg_a &&& 0x0F) + (byte &&& 0xF0) + (s.reg_flags &&& 0x01))
          + (if (s.reg_a &&& 0xF0) + (byte &&& 0xF0) > 0x90
            then (s.reg_a &&& 0xF0) + (byte &&& 0xF0) + 0x60
            else (s.reg_a &&& 0xF0) + (byte &&& 0xF0))) % 256) := by
  refine ⟨⟨DoAdd 0x01 { machineAt 0x1000 [0x69, 0x01] with
      reg_a := 0x01, reg_flags := 0x28, reg_pc := 0x1002, emu_cycles := 2 }, rfl,
      by decide!, by decide!⟩,
    ⟨DoAdd 0x19 { machineAt 0x1000 [0x69, 0x19] with
      reg_a := 0x28, reg_flags := 0x28, reg_pc := 0x1002, emu_cycles := 2 }, rfl,
      by decide!, by decide!⟩, ?_⟩
  intro byte s hD
  unfold DoAdd
  rw [if_pos hD]
  dsimp only
  rw [SetC_frame, SetNZ_frame]

/-! ## The unused flag bit 0x20 -/

theorem testBit5_consts :
    Nat.testBit 0x01 5 = false ∧ Nat.testBit 0x02 5 = false ∧ Nat.testBit 0x04 5 = false ∧
    Nat.testBit 0x08 5 = false ∧ Nat.testBit 0x40 5 = false ∧ Nat.testBit 0x14 5 = false ∧
    Nat.testBit 0x80 5 = false ∧ Nat.testBit 0xC0 5 = false ∧
    Nat.testBit 0xFE 5 = true ∧ Nat.testBit 0xFD 5 = true ∧ Nat.testBit 0xFB 5 = true ∧
    Nat.testBit 0xF7 5 = true ∧ Nat.testBit 0xBF 5 = true ∧ Nat.testBit 0x7F 5 = true ∧
    Nat.testBit 0x3F 5 = true ∧ Nat.testBit 0x20 5 = true := by
  decide

theorem testBit5_20 : Nat.testBit 0x20 5 = true := by decide

theorem and_20_iff (f : Nat) : f &&& 0x20 = 0x20 ↔ f.testBit 5 = true := by
  rw [show (0x20 : Nat) = 2 ^ 5 from rfl, Nat.and_two_pow]
  cases f.testBit 5 <;> simp

theorem CPU6502Impl.SetC_bit5 (c : Bool) (s : CPU6502Impl) :
    (SetC c s).reg_flags.testBit 5 = s.reg_flags.testBit 5 := by
  unfold SetC; split <;> simp [Nat.testBit_or, Nat.testBit_and, testBit5_consts]

theorem CPU6502Impl.SetV_bit5 (v : Bool) (s : CPU6502Impl) :
    (SetV v s).reg_flags.testBit 5 = s.reg_flags.testBit 5 := by
  unfold SetV; split <;> simp [Nat.testBit_or, Nat.testBit_and, testBit5_consts]

theorem CPU6502Impl.SetZ_bit5 (r : Nat) (s : CPU6502Impl) :
    (SetZ r s).reg_flags.testBit 5 = s.reg_flags.testBit 5 := by
  unfold SetZ; split <;> simp [Nat.testBit_or, Nat.testBit_and, testBit5_consts]

theorem CPU6502Impl.SetNZ_bit5 (r : Nat) (s : CPU6502Impl) :
    (SetNZ r s).reg_flags.testBit 5 = s.reg_flags.testBit 5 := by
  unfold SetNZ; rw [SetZ_bit5]; simp [Nat.testBit_or, Nat.testBit_and, testBit5_consts]

theorem CPU6502Impl.Compare_bit5 (reg byte : Nat) (s : CPU6502Impl) :
    (Compare reg byte s).reg_flags.testBit 5 = s.reg_flags.testBit 5 := by
  unfold Compare; rw [SetC_bit5, SetNZ_bit5]

theorem CPU6502Impl.DoAdd_bit5 (byte : Nat) (s : CPU6502Impl) :
    (DoAdd byte s).reg_flags.testBit 5 = s.reg_flags.testBit 5 := by
  unfold DoAdd
  split
  · dsimp only; rw [SetC_bit5, SetNZ_bit5]
  · dsimp only; rw [SetC_bit5, SetNZ_bit5]; exact SetV_bit5 _ _

/-- Every handler but `do_invalid` returns, and leaves bit 0x20 of FLAGS as it
found it; `do_PLP` and `do_RTI` leave it set. -/
theorem CPU6502Impl.callHandler_bit5 (h : Handler) (opcode : Nat) (s : CPU6502Impl)
    (hh : h ≠ Handler.do_invalid) :
    ∃ s', callHandler h opcode s = Outcome.returned () s' ∧
      (s.reg_flags.testBit 5 = true ∨ h = Handler.do_PLP ∨ h = Handler.do_RTI →
        s'.reg_flags.testBit 5 = true) := by
  cases h
  case do_invalid => exact absurd rfl hh
  case do_branch =>
    refine ⟨_, rfl, ?_⟩
    rintro (hb | hb | hb)
    · unfold do_branch
      dsimp only
      split <;> exact hb
    · exact Handler.noConfusion hb
    · exact Handler.noConfusion hb
  case do_ORA =>
    refine ⟨_, rfl, ?_⟩
    rintro (hb | hb | hb)
    · unfold do_ORA
      simp [SetZ_bit5, SetNZ_bit5, SetC_bit5, Compare_bit5, DoAdd_bit5, GetAddress_reg_flags,
        PushByte, PopByte, Nat.testBit_or, Nat.testBit_and, testBit5_consts, hb]
    · exact Handler.noConfusion hb
    · exact Handler.noConfusion hb
  case do_AND =>
    refine ⟨_, rfl, ?_⟩
    rintro (hb | hb | hb)
    · unfold do_AND
      simp [SetZ_bit5, SetNZ_bit5, SetC_bit5, Compare_bit5, DoAdd_bit5, GetAddress_reg_flags,
        PushByte, PopByte, Nat.testBit_or, Nat.testBit_and, testBit5_consts, hb]
    · exact Handler.noConfusion hb
    · exact Handler.noConfusion hb
  case do_EOR =>
    refine ⟨_, rfl, ?_⟩
    rintro (hb | hb | hb)
    · unfold do_EOR
      simp [SetZ_bit5, SetNZ_bit5, SetC_bit5, Compare_bit5, DoAdd_bit5, GetAddress_reg_flags,
        PushByte, PopByte, Nat.testBit_or, Nat.testBit_and, testBit5_consts, hb]
    · exact Handler.noConfusion hb
    · exact Handler.noConfusion hb
  case do_ADC =>
    refine ⟨_, rfl, ?_⟩
    rintro (hb | hb | hb)
    · unfold do_ADC
      simp [SetZ_bit5, SetNZ_bit5, SetC_bit5, Compare_bit5, DoAdd_bit5, GetAddress_reg_flags,
        PushByte, PopByte, Nat.testBit_or, Nat.testBit_and, testBit5_consts, hb]
    · exact Handler.noConfusion hb
    · exact Handler.noConfusion hb
  case do_STA =>
    refine ⟨_, rfl, ?_⟩
    rintro (hb | hb | hb)
    · unfold do_STA
      simp [SetZ_bit5, SetNZ_bit5, SetC_bit5, Compare_bit5, DoAdd_bit5, GetAddress_reg_flags,
        PushByte, PopByte, Nat.testBit_or, Nat.testBit_and, testBit5_consts, hb]
    · exact Handler.noConfusion hb
    · exact Handler.noConfusion hb
  case do_LDA =>
    refine ⟨_, rfl, ?_⟩
    rintro (hb | hb | hb)
    · unfold do_LDA
      simp [SetZ_bit5, SetNZ_bit5, SetC_bit5, Compare_bit5, DoAdd_bit5, GetAddress_reg_flags,
        PushByte, PopByte, Nat.testBit_or, Nat.testBit_and, testBit5_consts, hb]
    · exact Handler.noConfusion hb
    · exact Handler.noConfusion hb
  case do_CMP =>
    refine ⟨_, rfl, ?_⟩
    rintro (hb | hb | hb)
    · unfold do_CMP
      simp [SetZ_bit5, SetNZ_bit5, SetC_bit5, Compare_bit5, DoAdd_bit5, GetAddress_reg_flags,
        PushByte, PopByte, Nat.testBit_or, Nat.testBit_and, testBit5_consts, hb]
    · exact Handler.noConfusion hb
    · exact Handler.noConfusion hb
  case do_SBC =>
    refine ⟨_, rfl, ?_⟩
    rintro (hb | hb | hb)
    · unfold do_SBC
      simp [SetZ_bit5, SetNZ_bit5, SetC_bit5, Compare_bit5, DoAdd_bit5, GetAddress_reg_flags,
        PushByte, PopByte, Nat.testBit_or, Nat.testBit_and, testBit5_consts, hb]
    · exact Handler.noConfusion hb
    · exact Handler.noConfusion hb
  case do_ASL =>
    refine ⟨_, rfl, ?_⟩
    rintro (hb | hb | hb)
    · unfold do_ASL
      simp [SetZ_bit5, SetNZ_bit5, SetC_bit5, Compare_bit5, DoAdd_bit5, GetAddress_reg_flags,
        PushByte, PopByte, Nat.testBit_or, Nat.testBit_and, testBit5_consts, hb]
    · exact Handler.noConfusion hb
    · exact Handler.noConfusion hb
  case do_LSR =>
    refine ⟨_, rfl, ?_⟩
    rintro (hb | hb | hb)
    · unfold do_LSR
      simp [SetZ_bit5, SetNZ_bit5, SetC_bit5, Compare_bit5, DoAdd_bit5, GetAddress_reg_flags,
        PushByte, PopByte, Nat.testBit_or, Nat.testBit_and, testBit5_consts, hb]
    · exact Handler.noConfusion hb
    · exact Handler.noConfusion hb
  case do_ROL =>
    refine ⟨_, rfl, ?_⟩
    rintro (hb | hb | hb)
    · unfold do_ROL
      simp [SetZ_bit5, SetNZ_bit5, SetC_bit5, Compare_bit5, DoAdd_bit5, GetAddress_reg_flags,
        PushByte, PopByte, Nat.testBit_or, Nat.testBit_and, testBit5_consts, hb]
    · exact Handler.noConfusion hb
    · exact Handler.noConfusion hb
  case do_ROR =>
    refine ⟨_, rfl, ?_⟩
    rintro (hb | hb | hb)
    · unfold do_ROR
      simp [SetZ_bit5, SetNZ_bit5, SetC_bit5, Compare_bit5, DoAdd_bit5, GetAddress_reg_flags,
        PushByte, PopByte, Nat.testBit_or, Nat.testBit_and, testBit5_consts, hb]
    · exact Handler.noConfusion hb
    · exact Handler.noConfusion hb
  case do_ASL_A =>
    refine ⟨_, rfl, ?_⟩
    rintro (hb | hb | hb)
    · unfold do_ASL_A
      simp [SetZ_bit5, SetNZ_bit5, SetC_bit5, Compare_bit5, DoAdd_bit5, GetAddress_reg_flags,
        PushByte, PopByte, Nat.testBit_or, Nat.testBit_and, testBit5_consts, hb]
    · exact Handler.noConfusion hb
    · exact Handler.noConfusion hb
  case do_LSR_A =>
    refine ⟨_, rfl, ?_⟩
    rintro (hb | hb | hb)
    · unfold do_LSR_A
      simp [SetZ_bit5, SetNZ_bit5, SetC_bit5, Compare_bit5, DoAdd_bit5, GetAddress_reg_flags,
        PushByte, PopByte, Nat.testBit_or, Nat.testBit_and, testBit5_consts, hb]
    · exact Handler.noConfusion hb
    · exact Handler.noConfusion hb
  case do_ROL_A =>
    refine ⟨_, rfl, ?_⟩
    rintro (hb | hb | hb)
    · unfold do_ROL_A
      simp [SetZ_bit5, SetNZ_bit5, SetC_bit5, Compare_bit5, DoAdd_bit5, GetAddress_reg_flags,
        PushByte, PopByte, Nat.testBit_or, Nat.testBit_and, testBit5_consts, hb]
    · exact Handler.noConfusion hb
    · exact Handler.noConfusion hb
  case do_ROR_A =>
    refine ⟨_, rfl, ?_⟩
    rintro (hb | hb | hb)
    · unfold do_ROR_A
      simp [SetZ_bit5, SetNZ_bit5, SetC_bit5, Compare_bit5, DoAdd_bit5, GetAddress_reg_flags,
        PushByte, PopByte, Nat.testBit_or, Nat.testBit_and, testBit5_consts, hb]
    · exact Handler.noConfusion hb
    · exact Handler.noConfusion hb
  case do_BIT =>
    refine ⟨_, rfl, ?_⟩
    rintro (hb | hb | hb)
    · unfold do_BIT
      simp [SetZ_bit5, SetNZ_bit5, SetC_bit5, Compare_bit5, DoAdd_bit5, GetAddress_reg_flags,
        PushByte, PopByte, Nat.testBit_or, Nat.testBit_and, testBit5_consts, hb]
    · exact Handler.noConfusion hb
    · exact Handler.noConfusion hb
  case do_BRK =>
    refine ⟨_, rfl, ?_⟩
    rintro (hb | hb | hb)
    · unfold do_BRK
      simp [SetZ_bit5, SetNZ_bit5, SetC_bit5, Compare_bit5, DoAdd_bit5, GetAddress_reg_flags,
        PushByte, PopByte, Nat.testBit_or, Nat.testBit_and, testBit5_consts, hb]
    · exact Handler.noConfusion hb
    · exact Handler.noConfusion hb
  case do_CLC =>
    refine ⟨_, rfl, ?_⟩
    rintro (hb | hb | hb)
    · unfold do_CLC
      simp [SetZ_bit5, SetNZ_bit5, SetC_bit5, Compare_bit5, DoAdd_bit5, GetAddress_reg_flags,
        PushByte, PopByte, Nat.testBit_or, Nat.testBit_and, testBit5_consts, hb]
    · exact Handler.noConfusion hb
    · exact Handler.noConfusion hb
  case do_CLD =>
    refine ⟨_, rfl, ?_⟩
    rintro (hb | hb | hb)
    · unfold do_CLD
      simp [SetZ_bit5, SetNZ_bit5, SetC_bit5, Compare_bit5, DoAdd_bit5, GetAddress_reg_flags,
        PushByte, PopByte, Nat.testBit_or, Nat.testBit_and, testBit5_consts, hb]
    · exact Handler.noConfusion hb
    · exact Handler.noConfusion hb
  case do_CLI =>
    refine ⟨_, rfl, ?_⟩
    rintro (hb | hb | hb)
    · unfold do_CLI
      simp [SetZ_bit5, SetNZ_bit5, SetC_bit5, Compare_bit5, DoAdd_bit5, GetAddress_reg_flags,
        PushByte, PopByte, Nat.testBit_or, Nat.testBit_and, testBit5_consts, hb]
    · exact Handler.noConfusion hb
    · exact Handler.noConfusion hb
  case do_CLV =>
    refine ⟨_, rfl, ?_⟩
    rintro (hb | hb | hb)
    · unfold do_CLV
      simp [SetZ_bit5, SetNZ_bit5, SetC_bit5, Compare_bit5, DoAdd_bit5, GetAddress_reg_flags,
        PushByte, PopByte, Nat.testBit_or, Nat.testBit_and, testBit5_consts, hb]
    · exact Handler.noConfusion hb
    · exact Handler.noConfusion hb
  case do_CPX =>
    refine ⟨_, rfl, ?_⟩
    rintro (hb | hb | hb)
    · unfold do_CPX
      simp [SetZ_bit5, SetNZ_bit5, SetC_bit5, Compare_bit5, DoAdd_bit5, GetAddress_reg_flags,
        PushByte, PopByte, Nat.testBit_or, Nat.testBit_and, testBit5_consts, hb]
    · exact Handler.noConfusion hb
    · exact Handler.noConfusion hb
  case do_CPX_imm =>
    refine ⟨_, rfl, ?_⟩
    rintro (hb | hb | hb)
    · unfold do_CPX_imm
      simp [SetZ_bit5, SetNZ_bit5, SetC_bit5, Compare_bit5, DoAdd_bit5, GetAddress_reg_flags,
        PushByte, PopByte, Nat.testBit_or, Nat.testBit_and, testBit5_consts, hb]
    · exact Handler.noConfusion hb
    · exact Handler.noConfusion hb
  case do_CPY =>
    refine ⟨_, rfl, ?_⟩
    rintro (hb | hb | hb)
    · unfold do_CPY
      simp [SetZ_bit5, SetNZ_bit5, SetC_bit5, Compare_bit5, DoAdd_bit5, GetAddress_reg_flags,
        PushByte, PopByte, Nat.testBit_or, Nat.testBit_and, testBit5_consts, hb]
    · exact Handler.noConfusion hb
    · exact Handler.noConfusion hb
  case do_CPY_imm =>
    refine ⟨_, rfl, ?_⟩
    rintro (hb | hb | hb)
    · unfold do_CPY_imm
      simp [SetZ_bit5, SetNZ_bit5, SetC_bit5, Compare_bit5, DoAdd_bit5, GetAddress_reg_flags,
        PushByte, PopByte, Nat.testBit_or, Nat.testBit_and, testBit5_consts, hb]
    · exact Handler.noConfusion hb
    · exact Handler.noConfusion hb
  case do_DEC =>
    refine ⟨_, rfl, ?_⟩
    rintro (hb | hb | hb)
    · unfold do_DEC
      simp [SetZ_bit5, SetNZ_bit5, SetC_bit5, Compare_bit5, DoAdd_bit5, GetAddress_reg_flags,
        PushByte, PopByte, Nat.testBit_or, Nat.testBit_and, testBit5_consts, hb]
    · exact Handler.noConfusion hb
    · exact Handler.noConfusion hb
  case do_DEX =>
    refine ⟨_, rfl, ?_⟩
    rintro (hb | hb | hb)
    · unfold do_DEX
      simp [SetZ_bit5, SetNZ_bit5, SetC_bit5, Compare_bit5, DoAdd_bit5, GetAddress_reg_flags,
        PushByte, PopByte, Nat.testBit_or, Nat.testBit_and, testBit5_consts, hb]
    · exact Handler.noConfusion hb
    · exact Handler.noConfusion hb
  case do_DEY =>
    refine ⟨_, rfl, ?_⟩
    rintro (hb | hb | hb)
    · unfold do_DEY
      simp [SetZ_bit5, SetNZ_bit5, SetC_bit5, Compare_bit5, DoAdd_bit5, GetAddress_reg_flags,
        PushByte, PopByte, Nat.testBit_or, Nat.testBit_and, testBit5_consts, hb]
    · exact Handler.noConfusion hb
    · exact Handler.noConfusion hb
  case do_INC =>
    refine ⟨_, rfl, ?_⟩
    rintro (hb | hb | hb)
    · unfold do_INC
      simp [SetZ_bit5, SetNZ_bit5, SetC_bit5, Compare_bit5, DoAdd_bit5, GetAddress_reg_flags,
        PushByte, PopByte, Nat.testBit_or, Nat.testBit_and, testBit5_consts, hb]
    · exact Handler.noConfusion hb
    · exact Handler.noConfusion hb
  case do_INX =>
    refine ⟨_, rfl, ?_⟩
    rintro (hb | hb | hb)
    · unfold do_INX
      simp [SetZ_bit5, SetNZ_bit5, SetC_bit5, Compare_bit5, DoAdd_bit5, GetAddress_reg_flags,
        PushByte, PopByte, Nat.testBit_or, Nat.testBit_and, testBit5_consts, hb]
    · exact Handler.noConfusion hb
    · exact Handler.noConfusion hb
  case do_INY =>
    refine ⟨_, rfl, ?_⟩
    rintro (hb | hb | hb)
    · unfold do_INY
      simp [SetZ_bit5, SetNZ_bit5, SetC_bit5, Compare_bit5, DoAdd_bit5, GetAddress_reg_flags,
        PushByte, PopByte, Nat.testBit_or, Nat.testBit_and, testBit5_consts, hb]
    · exact Handler.noConfusion hb
    · exact Handler.noConfusion hb
  case do_JMP_abs =>
    refine ⟨_, rfl, ?_⟩
    rintro (hb | hb | hb)
    · unfold do_JMP_abs
      simp [SetZ_bit5, SetNZ_bit5, SetC_bit5, Compare_bit5, DoAdd_bit5, GetAddress_reg_flags,
        PushByte, PopByte, Nat.testBit_or, Nat.testBit_and, testBit5_consts, hb]
    · exact Handler.noConfusion hb
    · exact Handler.noConfusion hb
  case do_JMP_ind =>
    refine ⟨_, rfl, ?_⟩
    rintro (hb | hb | hb)
    · unfold do_JMP_ind
      simp [SetZ_bit5, SetNZ_bit5, SetC_bit5, Compare_bit5, DoAdd_bit5, GetAddress_reg_flags,
        PushByte, PopByte, Nat.testBit_or, Nat.testBit_and, testBit5_consts, hb]
    · exact Handler.noConfusion hb
    · exact Handler.noConfusion hb
  case do_JSR =>
    refine ⟨_, rfl, ?_⟩
    rintro (hb | hb | hb)
    · unfold do_JSR
      simp [SetZ_bit5, SetNZ_bit5, SetC_bit5, Compare_bit5, DoAdd_bit5, GetAddress_reg_flags,
        PushByte, PopByte, Nat.testBit_or, Nat.testBit_and, testBit5_consts, hb]
    · exact Handler.noConfusion hb
    · exact Handler.noConfusion hb
  case do_LDX =>
    refine ⟨_, rfl, ?_⟩
    rintro (hb | hb | hb)
    · unfold do_LDX
      simp [SetZ_bit5, SetNZ_bit5, SetC_bit5, Compare_bit5, DoAdd_bit5, GetAddress_reg_flags,
        PushByte, PopByte, Nat.testBit_or, Nat.testBit_and, testBit5_consts, hb]
    · exact Handler.noConfusion hb
    · exact Handler.noConfusion hb
  case do_LDX_imm =>
    refine ⟨_, rfl, ?_⟩
    rintro (hb | hb | hb)
    · unfold do_LDX_imm
      simp [SetZ_bit5, SetNZ_bit5, SetC_bit5, Compare_bit5, DoAdd_bit5, GetAddress_reg_flags,
        PushByte, PopByte, Nat.testBit_or, Nat.testBit_and, testBit5_consts, hb]
    · exact Handler.noConfusion hb
    · exact Handler.noConfusion hb
  case do_LDY =>
    refine ⟨_, rfl, ?_⟩
    rintro (hb | hb | hb)
    · unfold do_LDY
      simp [SetZ_bit5, SetNZ_bit5, SetC_bit5, Compare_bit5, DoAdd_bit5, GetAddress_reg_flags,
        PushByte, PopByte, Nat.testBit_or, Nat.testBit_and, testBit5_consts, hb]
    · exact Handler.noConfusion hb
    · exact Handler.noConfusion hb
  case do_LDY_imm =>
    refine ⟨_, rfl, ?_⟩
    rintro (hb | hb | hb)
    · unfold do_LDY_imm
      simp [SetZ_bit5, SetNZ_bit5, SetC_bit5, Compare_bit5, DoAdd_bit5, GetAddress_reg_flags,
        PushByte, PopByte, Nat.testBit_or, Nat.testBit_and, testBit5_consts, hb]
    · exact Handler.noConfusion hb
    · exact Handler.noConfusion hb
  case do_NOP =>
    refine ⟨_, rfl, ?_⟩
    rintro (hb | hb | hb)
    · unfold do_NOP
      simp [SetZ_bit5, SetNZ_bit5, SetC_bit5, Compare_bit5, DoAdd_bit5, GetAddress_reg_flags,
        PushByte, PopByte, Nat.testBit_or, Nat.testBit_and, testBit5_consts, hb]
    · exact Handler.noConfusion hb
    · exact Handler.noConfusion hb
  case do_PHA =>
    refine ⟨_, rfl, ?_⟩
    rintro (hb | hb | hb)
    · unfold do_PHA
      simp [SetZ_bit5, SetNZ_bit5, SetC_bit5, Compare_bit5, DoAdd_bit5, GetAddress_reg_flags,
        PushByte, PopByte, Nat.testBit_or, Nat.testBit_and, testBit5_consts, hb]
    · exact Handler.noConfusion hb
    · exact Handler.noConfusion hb
  case do_PHP =>
    refine ⟨_, rfl, ?_⟩
    rintro (hb | hb | hb)
    · unfold do_PHP
      simp [SetZ_bit5, SetNZ_bit5, SetC_bit5, Compare_bit5, DoAdd_bit5, GetAddress_reg_flags,
        PushByte, PopByte, Nat.testBit_or, Nat.testBit_and, testBit5_consts, hb]
    · exact Handler.noConfusion hb
    · exact Handler.noConfusion hb
  case do_PLA =>
    refine ⟨_, rfl, ?_⟩
    rintro (hb | hb | hb)
    · unfold do_PLA
      simp [SetZ_bit5, SetNZ_bit5, SetC_bit5, Compare_bit5, DoAdd_bit5, GetAddress_reg_flags,
        PushByte, PopByte, Nat.testBit_or, Nat.testBit_and, testBit5_consts, hb]
    · exact Handler.noConfusion hb
    · exact Handler.noConfusion hb
  case do_PLP =>
    refine ⟨_, rfl, fun _ => ?_⟩
    unfold do_PLP
    simp [SetZ_bit5, SetNZ_bit5, SetC_bit5, Compare_bit5, DoAdd_bit5, GetAddress_reg_flags,
    PushByte, PopByte, Nat.testBit_or, Nat.testBit_and, testBit5_consts]
  case do_RTI =>
    refine ⟨_, rfl, fun _ => ?_⟩
    unfold do_RTI
    simp [SetZ_bit5, SetNZ_bit5, SetC_bit5, Compare_bit5, DoAdd_bit5, GetAddress_reg_flags,
    PushByte, PopByte, Nat.testBit_or, Nat.testBit_and, testBit5_consts]
  case do_RTS =>
    refine ⟨_, rfl, ?_⟩
    rintro (hb | hb | hb)
    · unfold do_RTS
      simp [SetZ_bit5, SetNZ_bit5, SetC_bit5, Compare_bit5, DoAdd_bit5, GetAddress_reg_flags,
        PushByte, PopByte, Nat.testBit_or, Nat.testBit_and, testBit5_consts, hb]
    · exact Handler.noConfusion hb
    · exact Handler.noConfusion hb
  case do_SEC =>
    refine ⟨_, rfl, ?_⟩
    rintro (hb | hb | hb)
    · unfold do_SEC
      simp [SetZ_bit5, SetNZ_bit5, SetC_bit5, Compare_bit5, DoAdd_bit5, GetAddress_reg_flags,
        PushByte, PopByte, Nat.testBit_or, Nat.testBit_and, testBit5_consts, hb]
    · exact Handler.noConfusion hb
    · exact Handler.noConfusion hb
  case do_SED =>
    refine ⟨_, rfl, ?_⟩
    rintro (hb | hb | hb)
    · unfold do_SED
      simp [SetZ_bit5, SetNZ_bit5, SetC_bit5, Compare_bit5, DoAdd_bit5, GetAddress_reg_flags,
        PushByte, PopByte, Nat.testBit_or, Nat.testBit_and, testBit5_consts, hb]
    · exact Handler.noConfusion hb
    · exact Handler.noConfusion hb
  case do_SEI =>
    refine ⟨_, rfl, ?_⟩
    rintro (hb | hb | hb)
    · unfold do_SEI
      simp [SetZ_bit5, SetNZ_bit5, SetC_bit5, Compare_bit5, DoAdd_bit5, GetAddress_reg_flags,
        PushByte, PopByte, Nat.testBit_or, Nat.testBit_and, testBit5_consts, hb]
    · exact Handler.noConfusion hb
    · exact Handler.noConfusion hb
  case do_STX =>
    refine ⟨_, rfl, ?_⟩
    rintro (hb | hb | hb)
    · unfold do_STX
      simp [SetZ_bit5, SetNZ_bit5, SetC_bit5, Compare_bit5, DoAdd_bit5, GetAddress_reg_flags,
        PushByte, PopByte, Nat.testBit_or, Nat.testBit_and, testBit5_consts, hb]
    · exact Handler.noConfusion hb
    · exact Handler.noConfusion hb
  case do_STY =>
    refine ⟨_, rfl, ?_⟩
    rintro (hb | hb | hb)
    · unfold do_STY
      simp [SetZ_bit5, SetNZ_bit5, SetC_bit5, Compare_bit5, DoAdd_bit5, GetAddress_reg_flags,
        PushByte, PopByte, Nat.testBit_or, Nat.testBit_and, testBit5_consts, hb]
    · exact Handler.noConfusion hb
    · exact Handler.noConfusion hb
  case do_TAX =>
    refine ⟨_, rfl, ?_⟩
    rintro (hb | hb | hb)
    · unfold do_TAX
      simp [SetZ_bit5, SetNZ_bit5, SetC_bit5, Compare_bit5, DoAdd_bit5, GetAddress_reg_flags,
        PushByte, PopByte, Nat.testBit_or, Nat.testBit_and, testBit5_consts, hb]
    · exact Handler.noConfusion hb
    · exact Handler.noConfusion hb
  case do_TAY =>
    refine ⟨_, rfl, ?_⟩
    rintro (hb | hb | hb)
    · unfold do_TAY
      simp [SetZ_bit5, SetNZ_bit5, SetC_bit5, Compare_bit5, DoAdd_bit5, GetAddress_reg_flags,
        PushByte, PopByte, Nat.testBit_or, Nat.testBit_and, testBit5_consts, hb]
    · exact Handler.noConfusion hb
    · exact Handler.noConfusion hb
  case do_TSX =>
    refine ⟨_, rfl, ?_⟩
    rintro (hb | hb | hb)
    · unfold do_TSX
      simp [SetZ_bit5, SetNZ_bit5, SetC_bit5, Compare_bit5, DoAdd_bit5, GetAddress_reg_flags,
        PushByte, PopByte, Nat.testBit_or, Nat.testBit_and, testBit5_consts, hb]
    · exact Handler.noConfusion hb
    · exact Handler.noConfusion hb
  case do_TXA =>
    refine ⟨_, rfl, ?_⟩
    rintro (hb | hb | hb)
    · unfold do_TXA
      simp [SetZ_bit5, SetNZ_bit5, SetC_bit5, Compare_bit5, DoAdd_bit5, GetAddress_reg_flags,
        PushByte, PopByte, Nat.testBit_or, Nat.testBit_and, testBit5_consts, hb]
    · exact Handler.noConfusion hb
    · exact Handler.noConfusion hb
  case do_TXS =>
    refine ⟨_, rfl, ?_⟩
    rintro (hb | hb | hb)
    · unfold do_TXS
      simp [SetZ_bit5, SetNZ_bit5, SetC_bit5, Compare_bit5, DoAdd_bit5, GetAddress_reg_flags,
        PushByte, PopByte, Nat.testBit_or, Nat.testBit_and, testBit5_consts, hb]
    · exact Handler.noConfusion hb
    · exact Handler.noConfusion hb
  case do_TYA =>
    refine ⟨_, rfl, ?_⟩
    rintro (hb | hb | hb)
    · unfold do_TYA
      simp [SetZ_bit5, SetNZ_bit5, SetC_bit5, Compare_bit5, DoAdd_bit5, GetAddress_reg_flags,
        PushByte, PopByte, Nat.testBit_or, Nat.testBit_and, testBit5_consts, hb]
    · exact Handler.noConfusion hb
    · exact Handler.noConfusion hb

theorem table_PLP_RTI : ∀ op < 256,
    ((instructions op).name = "PLP".toList → (instructions op).handler = Handler.do_PLP) ∧
    ((instructions op).name = "RTI".toList → (instructions op).handler = Handler.do_RTI) := by
  decide!

/-- A step at a documented opcode returns, and keeps bit 0x20 of FLAGS. -/
theorem CPU6502Impl.DoStep_bit5 (s : CPU6502Impl)
    (hdoc : (instructions (s.memory.Read8 s.reg_pc)).addr_mode ≠ AddrMode.am_invalid) :
    ∃ jsr s', DoStep s = Outcome.returned jsr s' ∧
      (s.reg_flags.testBit 5 = true ∨
        (instructions (s.memory.Read8 s.reg_pc)).handler = Handler.do_PLP ∨
        (instructions (s.memory.Read8 s.reg_pc)).handler = Handler.do_RTI →
        s'.reg_flags.testBit 5 = true) := by
  have hop256 : s.memory.Read8 s.reg_pc < 256 := Memory.Read8_lt _ _
  have hh : (instructions (s.memory.Read8 s.reg_pc)).handler ≠ Handler.do_invalid :=
    fun h => hdoc ((table_invalid _ hop256).mp h)
  obtain ⟨s', hc, hb⟩ := callHandler_bit5 _ (s.memory.Read8 s.reg_pc)
    { s with reg_pc := (s.reg_pc + 1) % 65536 } hh
  refine ⟨s.memory.Read8 s.reg_pc == 0x20, s', ?_, hb⟩
  unfold DoStep
  simp only [hc]


/-! ## C15: bit 0x20 in every reachable state -/

theorem CPU6502Impl.DoStep_state_bit5 (s : CPU6502Impl) (hb : s.reg_flags.testBit 5 = true) :
    (DoStep s).state.reg_flags.testBit 5 = true := by
  have hop256 : s.memory.Read8 s.reg_pc < 256 := Memory.Read8_lt _ _
  by_cases hinv : (instructions (s.memory.Read8 s.reg_pc)).handler = Handler.do_invalid
  · rw [DoStep_invalid s hinv]
    simp only [Outcome.state]
    exact hb
  · obtain ⟨jsr, s', hstep, hb'⟩ :=
      DoStep_bit5 s (fun h => hinv ((table_invalid _ hop256).mpr h))
    rw [hstep]
    simp only [Outcome.state]
    exact hb' (Or.inl hb)

theorem CPU6502.Step_state_bit5 (s : CPU6502Impl) (hb : s.reg_flags.testBit 5 = true) :
    (CPU6502.Step s).state.reg_flags.testBit 5 = true := by
  have h := DoStep_state_bit5 s hb
  unfold CPU6502.Step
  cases hd : DoStep s with
  | returned v s1 =>
    rw [hd] at h
    simp only [Outcome.state] at h ⊢
    exact h
  | threw e s1 =>
    rw [hd] at h
    simp only [Outcome.state] at h ⊢
    exact h

theorem CPU6502.ToReturnLoop_bit5 (saved_s : Nat) :
    ∀ (fuel : Nat) (s : CPU6502Impl) (o : Outcome Unit),
      s.reg_flags.testBit 5 = true → CPU6502.ToReturnLoop saved_s fuel s = some o →
      o.state.reg_flags.testBit 5 = true := by
  intro fuel
  induction fuel with
  | zero =>
    intro s o _ h
    simp [CPU6502.ToReturnLoop] at h
  | succ n ih =>
    intro s o hb h
    have hs := CPU6502.Step_state_bit5 s hb
    unfold CPU6502.ToReturnLoop at h
    cases hd : CPU6502.Step s with
    | threw e s1 =>
      rw [hd] at h hs
      simp only [Outcome.state] at hs
      simp only [Option.some.injEq] at h
      rw [← h]
      simp only [Outcome.state]
      exact hs
    | returned v s1 =>
      rw [hd] at h hs
      simp only [Outcome.state] at hs
      dsimp only at h
      split at h
      · simp only [Option.some.injEq] at h
        rw [← h]
        simp only [Outcome.state]
        exact hs
      · split at h
        · exact ih s1 o hs h
        · simp only [Option.some.injEq] at h
          rw [← h]
          simp only [Outcome.state]
          exact hs

theorem CPU6502.Next_bit5 (fuel : Nat) (s : CPU6502Impl) (o : Outcome Unit)
    (hb : s.reg_flags.testBit 5 = true) (h : CPU6502.Next fuel s = some o) :
    o.state.reg_flags.testBit 5 = true := by
  have hs := DoStep_state_bit5 s hb
  unfold CPU6502.Next at h
  cases hd : DoStep s with
  | threw e s1 =>
    rw [hd] at h hs
    simp only [Outcome.state] at hs
    simp only [Option.some.injEq] at h
    rw [← h]
    simp only [Outcome.state]
    exact hs
  | returned v s1 =>
    rw [hd] at h hs
    simp only [Outcome.state] at hs
    dsimp only at h
    split at h
    · exact CPU6502.ToReturnLoop_bit5 _ fuel s1 o hs h
    · simp only [Option.some.injEq] at h
      rw [← h]
      simp only [Outcome.state]
      exact hs

theorem CPU6502.parseFlags_bit5 :
    ∀ (value : List Char) (num m : Nat), num.testBit 5 = true →
      CPU6502.parseFlags value num = some m → m.testBit 5 = true := by
  intro value
  induction value with
  | nil =>
    intro num m hb h
    simp only [CPU6502.parseFlags, Option.some.injEq] at h
    rw [← h]
    exact hb
  | cons ch rest ih =>
    intro num m hb h
    unfold CPU6502.parseFlags at h
    split at h
    · exact ih num m hb h
    · split at h
      · exact Option.noConfusion h
      · exact ih _ m (by rw [Nat.testBit_or, hb]; rfl) h

theorem CPU6502.SetRegister_flags_forced (value : List Char) (s s' : CPU6502Impl)
    (h : CPU6502.SetRegister "FLAGS".toList value s = (true, s')) :
    s'.reg_flags.testBit 5 = true := by
  unfold CPU6502.SetRegister at h
  rw [if_pos rfl] at h
  split at h
  · simp at h
  · rename_i num hp
    simp only [Prod.mk.injEq, true_and] at h
    rw [← h]
    have hm := CPU6502.parseFlags_bit5 value 0x20 num (by decide) hp
    show (num % 2 ^ 8).testBit 5 = true
    rw [Nat.testBit_mod_two_pow, hm]
    rfl

theorem CPU6502.SetRegister_bit5 (reg_name value : List Char) (s : CPU6502Impl)
    (hb : s.reg_flags.testBit 5 = true) :
    (CPU6502.SetRegister reg_name value s).2.reg_flags.testBit 5 = true := by
  by_cases hn : reg_name = "FLAGS".toList
  · subst hn
    cases hr : CPU6502.SetRegister "FLAGS".toList value s with
    | mk ok s' =>
      cases ok
      · unfold CPU6502.SetRegister at hr
        rw [if_pos rfl] at hr
        split at hr
        · simp only [Prod.mk.injEq, true_and] at hr
          rw [← hr]; exact hb
        · simp at hr
      · exact CPU6502.SetRegister_flags_forced value s s' hr
  · unfold CPU6502.SetRegister
    rw [if_neg hn]
    dsimp only
    split_ifs <;> exact hb

theorem Reachable.bit5 (s : CPU6502Impl) (h : Reachable s) : s.reg_flags.testBit 5 = true := by
  induction h with
  | construct mem => exact testBit5_20
  | step_returned _ hs ih =>
    have := CPU6502.Step_state_bit5 _ ih
    rw [hs] at this
    simp only [Outcome.state] at this
    exact this
  | step_threw _ hs ih =>
    have := CPU6502.Step_state_bit5 _ ih
    rw [hs] at this
    simp only [Outcome.state] at this
    exact this
  | next_returned _ hs ih =>
    have := CPU6502.Next_bit5 _ _ _ ih hs
    simp only [Outcome.state] at this
    exact this
  | next_threw _ hs ih =>
    have := CPU6502.Next_bit5 _ _ _ ih hs
    simp only [Outcome.state] at this
    exact this
  | to_return_returned _ hs ih =>
    have := CPU6502.ToReturnLoop_bit5 _ _ _ _ ih hs
    simp only [Outcome.state] at this
    exact this
  | to_return_threw _ hs ih =>
    have := CPU6502.ToReturnLoop_bit5 _ _ _ _ ih hs
    simp only [Outcome.state] at this
    exact this
  | set_register reg_name value _ ih => exact CPU6502.SetRegister_bit5 reg_name value _ ih
  | clear_cycles _ ih => exact ih
  | set_breakpoint addr _ ih => exact ih
  | clear_breakpoint addr _ ih => exact ih
  | load addr data _ ih => exact ih

/-- Claim C15: bit 0x20 of FLAGS is 1 in the constructed CPU; every handler
that returns keeps it; `do_PLP`, `do_RTI` and a `SetRegister` of FLAGS that
returns true leave it 1 whatever was popped or typed; hence it is 1 in every
state reachable by `Step`, `Next`, `ToReturn`, `SetRegister`,
`ClearEmuCycles`, the breakpoint methods and loads into memory. -/
theorem bit5_invariant :
    (∀ mem : Memory, (CPU6502Impl.new mem).reg_flags &&& 0x20 = 0x20) ∧
    (∀ (h : Handler) (opcode : Nat) (s s' : CPU6502Impl),
      callHandler h opcode s = Outcome.returned () s' →
      s.reg_flags &&& 0x20 = 0x20 → s'.reg_flags &&& 0x20 = 0x20) ∧
    (∀ (opcode : Nat) (s : CPU6502Impl),
      (do_PLP opcode s).reg_flags &&& 0x20 = 0x20 ∧
      (do_RTI opcode s).reg_flags &&& 0x20 = 0x20) ∧
    (∀ (value : List Char) (s s' : CPU6502Impl),
      CPU6502.SetRegister "FLAGS".toList value s = (true, s') →
      s'.reg_flags &&& 0x20 = 0x20) ∧
    (∀ s : CPU6502Impl, Reachable s → s.reg_flags &&& 0x20 = 0x20) := by
  refine ⟨fun _ => (and_20_iff _).mpr testBit5_20, ?_, ?_, ?_, ?_⟩
  · intro h opcode s s' hc hb
    have hh : h ≠ Handler.do_invalid := by
      intro hi
      subst hi
      simp [callHandler, do_invalid] at hc
    obtain ⟨s1, hc1, hb1⟩ := callHandler_bit5 h opcode s hh
    rw [hc1] at hc
    injection hc with _ hs
    subst hs
    exact (and_20_iff _).mpr (hb1 (Or.inl ((and_20_iff _).mp hb)))
  · intro opcode s
    obtain ⟨s1, hc1, hb1⟩ := callHandler_bit5 Handler.do_PLP opcode s (by decide)
    obtain ⟨s2, hc2, hb2⟩ := callHandler_bit5 Handler.do_RTI opcode s (by decide)
    injection hc1 with _ hs1
    injection hc2 with _ hs2
    subst hs1 hs2
    exact ⟨(and_20_iff _).mpr (hb1 (Or.inr (Or.inl rfl))),
      (and_20_iff _).mpr (hb2 (Or.inr (Or.inr rfl)))⟩
  · intro value s s' h
    exact (and_20_iff _).mpr (CPU6502.SetRegister_flags_forced value s s' h)
  · intro s h
    exact (and_20_iff _).mpr (Reachable.bit5 s h)

/-- An instance of claim C15: the state after typing the FLAGS value `nz` into
a constructed CPU is reachable, and its bit 0x20 is set. -/
theorem bit5_invariant_witness :
    Reachable (CPU6502.SetRegister "FLAGS".toList "nz".toList
      (CPU6502Impl.new (Memory.new 65536))).2 ∧
    (CPU6502.SetRegister "FLAGS".toList "nz".toList
      (CPU6502Impl.new (Memory.new 65536))).2.reg_flags &&& 0x20 = 0x20 :=
  ⟨Reachable.set_register _ _ (Reachable.construct _),
    bit5_invariant.2.2.2.2 _ (Reachable.set_register _ _ (Reachable.construct _))⟩

/-! ## C14: bit 0x20 after a step -/

/-- Claim C14: for every state the CPU can be in and every documented
instruction at its PC, the step returns and FLAGS bit 0x20 is 1 afterwards. -/
theorem step_keeps_bit5 (s : CPU6502Impl) (hs : Reachable s)
    (hdoc : (instructions (s.memory.Read8 s.reg_pc)).addr_mode ≠ AddrMode.am_invalid) :
    ∃ jsr s', DoStep s = Outcome.returned jsr s' ∧ s'.reg_flags &&& 0x20 = 0x20 := by
  obtain ⟨jsr, s', hstep, hb⟩ := DoStep_bit5 s hdoc
  exact ⟨jsr, s', hstep, (and_20_iff _).mpr (hb (Or.inl (Reachable.bit5 s hs)))⟩

/-- The instance of claim C14 at `BIT $10` (`24 10`) in a CPU constructed on a
memory that holds these bytes at address 0. -/
theorem step_keeps_bit5_witness :
    ∃ jsr s',
      DoStep (CPU6502Impl.new (loadBytes (Memory.new 65536) 0 [0x24, 0x10]))
        = Outcome.returned jsr s' ∧
      s'.reg_flags &&& 0x20 = 0x20 :=
  step_keeps_bit5 (CPU6502Impl.new (loadBytes (Memory.new 65536) 0 [0x24, 0x10]))
    (Reachable.construct _) (by decide!)


/-! ## C16: NOP -/

theorem instructions_EA : (instructions 0xEA).handler = Handler.do_NOP := by decide!

/-- Claim C16: a step at a NOP (byte `$EA` at PC) sets PC to
`(PC + 1) mod 2^16`, adds 2 to the cycle counter, a counter of 64 bits, and
changes nothing else: A, X, Y, S, FLAGS, the memory and the breakpoint set are
those of the state before. -/
theorem step_NOP (s : CPU6502Impl) (hop : s.memory.Read8 s.reg_pc = 0xEA) :
    DoStep s = Outcome.returned false
      { s with reg_pc := (s.reg_pc + 1) % 65536, emu_cycles := (s.emu_cycles + 2) % 2 ^ 64 } := by
  unfold DoStep
  simp only [hop, instructions_EA, callHandler]
  rfl

/-- The instance of claim C16 at `EA` at `$FFFF`: PC wraps to `$0000`. -/
theorem step_NOP_witness :
    DoStep (machineAt 0xFFFF [0xEA]) = Outcome.returned false
      { machineAt 0xFFFF [0xEA] with reg_pc := 0x0000, emu_cycles := 2 } :=
  step_NOP (machineAt 0xFFFF [0xEA]) (by decide!)

/-! ## The assembler on hexadecimal operands -/

/-- A character with a hexadecimal value is one of the 22 digits. -/
theorem hexValue_isSome_mem (c : Char) (h : (hexValue c).isSome = true) :
    c ∈ "0123456789ABCDEFabcdef".toList := by
  have hn : c.toNat < 103 := by
    unfold hexValue at h
    by_contra hc
    rw [if_neg (by omega), if_neg (by omega), if_neg (by omega)] at h
    simp at h
  have key : ∀ n < 103, (hexValue (Char.ofNat n)).isSome = true →
      Char.ofNat n ∈ "0123456789ABCDEFabcdef".toList := by decide!
  have := key c.toNat hn
  rw [Char.ofNat_toNat] at this
  exact this h

/-- What the assembler's text functions do to a hexadecimal digit. -/
theorem hexDigit_facts (c : Char) (h : (hexValue c).isSome = true) :
    isspace c = false ∧ c.toNat ≠ 0 ∧ c ≠ '$' ∧ c ≠ '-' ∧ c ≠ '+' ∧ c ≠ 'x' ∧ c ≠ 'X' ∧
    icaseEq '#' c = false ∧ (hexValue c).getD 0 < 16 ∧
    (hexValue (toupper c)).isSome = true ∧ hexValue (toupper c) = hexValue c := by
  have key : ∀ c ∈ "0123456789ABCDEFabcdef".toList,
    isspace c = false ∧ c.toNat ≠ 0 ∧ c ≠ '$' ∧ c ≠ '-' ∧ c ≠ '+' ∧ c ≠ 'x' ∧ c ≠ 'X' ∧
    icaseEq '#' c = false ∧ (hexValue c).getD 0 < 16 ∧
    (hexValue (toupper c)).isSome = true ∧ hexValue (toupper c) = hexValue c := by decide!
  exact key c (hexValue_isSome_mem c h)

/-- The digits in upper case are digits, with the same value. -/
theorem hex_map_toupper (ds : List Char) (h : ∀ c ∈ ds, (hexValue c).isSome = true) :
    (∀ c ∈ ds.map toupper, (hexValue c).isSome = true) ∧
    hexNumber (ds.map toupper) = hexNumber ds := by
  constructor
  · intro c hc
    rw [List.mem_map] at hc
    obtain ⟨d, hd, rfl⟩ := hc
    exact (hexDigit_facts d (h d hd)).2.2.2.2.2.2.2.2.2.1
  · unfold hexNumber
    suffices H : ∀ acc, List.foldl (fun acc c => acc * 16 + (hexValue c).getD 0) acc (ds.map toupper)
        = List.foldl (fun acc c => acc * 16 + (hexValue c).getD 0) acc ds from H 0
    induction ds with
    | nil => intro acc; rfl
    | cons d ds ih =>
      intro acc
      simp only [List.map_cons, List.foldl_cons]
      rw [(hexDigit_facts d (h d (List.mem_cons_self _ _))).2.2.2.2.2.2.2.2.2.2]
      exact ih (fun c hc => h c (List.mem_cons_of_mem _ hc)) _

/-- The value read so far never exceeds the value of the whole string. -/
theorem foldl_hex_ge (ds : List Char) (acc : Nat) :
    acc ≤ List.foldl (fun acc c => acc * 16 + (hexValue c).getD 0) acc ds := by
  induction ds generalizing acc with
  | nil => exact le_refl _
  | cons d ds ih =>
    simp only [List.foldl_cons]
    have := ih (acc * 16 + (hexValue d).getD 0)
    omega

/-- The digit loop of `strtoul` on a string of digits whose value fits in 64
bits. -/
theorem strtoulDigits_hex (ds : List Char) (h : ∀ c ∈ ds, (hexValue c).isSome = true) :
    ∀ (acc : Nat) (seen : Bool),
    List.foldl (fun acc c => acc * 16 + (hexValue c).getD 0) acc ds < 2 ^ 64 →
    strtoulDigits ds acc false seen =
      (List.foldl (fun acc c => acc * 16 + (hexValue c).getD 0) acc ds, false,
        (seen || !ds.isEmpty), []) := by
  induction ds with
  | nil => intro acc seen _; simp [strtoulDigits]
  | cons d ds ih =>
    intro acc seen hlt
    have hd := h d (List.mem_cons_self _ _)
    obtain ⟨v, hv⟩ := Option.isSome_iff_exists.mp hd
    simp only [List.foldl_cons] at hlt ⊢
    have hge := foldl_hex_ge ds (acc * 16 + (hexValue d).getD 0)
    rw [hv] at hlt hge ⊢
    simp only [Option.getD_some] at hlt hge ⊢
    unfold strtoulDigits
    rw [hv]
    simp only
    rw [if_neg (by simp; omega)]
    rw [ih (fun c hc => h c (List.mem_cons_of_mem _ hc)) _ true hlt]
    simp

/-- The function `strtoul` on a string of digits whose value fits in 64 bits. -/
theorem strtoul16_hex (ds : List Char) (h : ∀ c ∈ ds, (hexValue c).isSome = true)
    (hne : ds ≠ []) (hlt : hexNumber ds < 2 ^ 64) :
    strtoul16 ds = (hexNumber ds, []) := by
  obtain ⟨d, ds, rfl⟩ := List.exists_cons_of_ne_nil hne
  have hd := hexDigit_facts d (h d (List.mem_cons_self _ _))
  have h1 : List.dropWhile isspace (d :: ds) = d :: ds := by
    rw [List.dropWhile_cons_of_neg (by simp [hd.1])]
  have hr := strtoulDigits_hex (d :: ds) h 0 false hlt
  unfold strtoul16
  simp only [h1]
  rw [if_neg hd.2.2.2.1, if_neg hd.2.2.2.2.1]
  cases ds with
  | nil =>
    simp only
    rw [hr]
    simp [hexNumber]
  | cons e ds =>
    cases ds with
    | nil =>
      simp only
      rw [hr]
      simp [hexNumber]
    | cons f ds =>
      have he := hexDigit_facts e (h e (by simp))
      have hif : (if d = '0' ∧ (e = 'x' ∨ e = 'X') ∧ (hexValue f).isSome = true then f :: ds
          else d :: e :: f :: ds) = d :: e :: f :: ds := by
        apply if_neg
        rintro ⟨_, hx, _⟩
        rcases hx with hx | hx
        · exact he.2.2.2.2.2.1 hx
        · exact he.2.2.2.2.2.2.1 hx
      simp only
      rw [hif, hr]
      simp [hexNumber]

/-- The longest run of digits at the start of `L ++ suf` is `L` when `suf`
does not start with a digit. -/
theorem takeWhile_hex_append (L suf : List Char) (hL : ∀ c ∈ L, (hexValue c).isSome = true)
    (hs : suf.takeWhile (fun c => (hexValue c).isSome) = []) :
    (L ++ suf).takeWhile (fun c => (hexValue c).isSome) = L ∧
    (L ++ suf).dropWhile (fun c => (hexValue c).isSome) = suf := by
  constructor
  · rw [List.takeWhile_append_of_pos hL, hs, List.append_nil]
  · rw [List.dropWhile_append_of_pos hL]
    cases suf with
    | nil => rfl
    | cons c suf =>
      by_cases hc : (hexValue c).isSome = true
      · simp [List.takeWhile, hc] at hs
      · simp [List.dropWhile, hc]

/-- The regular expressions without a prefix on a string of digits, with or
without the dollar sign, followed by `suf`. -/
theorem regexMatchHex_digits (post L suf : List Char) (dollar : Bool)
    (hL : ∀ c ∈ L, (hexValue c).isSome = true) (hne : L ≠ [])
    (hs : suf.takeWhile (fun c => (hexValue c).isSome) = []) :
    regexMatchHex [] post ((if dollar then ['$'] else []) ++ L ++ suf) =
      (match matchLiteral post suf with
       | some [] => some L
       | _ => none) := by
  obtain ⟨h1, h2⟩ := takeWhile_hex_append L suf hL hs
  obtain ⟨d, L', rfl⟩ := List.exists_cons_of_ne_nil hne
  have hd := hexDigit_facts d (hL d (List.mem_cons_self _ _))
  cases dollar with
  | true =>
    simp only [regexMatchHex, matchLiteral, if_true, List.cons_append, List.nil_append,
      List.append_assoc]
    simp only [List.cons_append] at h1 h2
    rw [h1, h2]
    cases matchLiteral post suf with
    | none => simp
    | some l => cases l <;> simp
  | false =>
    simp only [regexMatchHex, matchLiteral, List.cons_append, List.nil_append,
      List.append_assoc, Bool.false_eq_true, if_false]
    simp only [List.cons_append] at h1 h2
    rw [if_neg hd.2.2.1, h1, h2]
    cases matchLiteral post suf with
    | none => simp
    | some l => cases l <;> simp

/-- The regular expression of the immediate mode does not match a string that
starts with a digit or a dollar sign. -/
theorem regexMatchHex_imm (L suf : List Char) (dollar : Bool)
    (hL : ∀ c ∈ L, (hexValue c).isSome = true) (hne : L ≠ []) :
    regexMatchHex ['#'] [] ((if dollar then ['$'] else []) ++ L ++ suf) = none := by
  obtain ⟨d, L', rfl⟩ := List.exists_cons_of_ne_nil hne
  have hd := hexDigit_facts d (hL d (List.mem_cons_self _ _))
  cases dollar with
  | true =>
    have : icaseEq '#' '$' = false := by decide
    simp [regexMatchHex, matchLiteral, this]
  | false =>
    simp [regexMatchHex, matchLiteral, hd.2.2.2.2.2.2.2.1]

/-- The operand text after `parseOperand` has removed the white space and put
it in upper case. -/
theorem parseOperand_buffer (ds suf : List Char) (dollar : Bool)
    (hds : ∀ c ∈ ds, (hexValue c).isSome = true)
    (hsuf : suf = [] ∨ suf = [',', 'X'] ∨ suf = [',', 'Y']) :
    ((((' ' :: ((if dollar then ['$'] else []) ++ ds ++ suf)).filter
      (fun c => !isspace c)).map toupper).takeWhile (fun c => c.toNat ≠ 0)) =
    (if dollar then ['$'] else []) ++ ds.map toupper ++ suf := by
  have hU := (hex_map_toupper ds hds).1
  have hf : ds.filter (fun c => !isspace c) = ds := by
    rw [List.filter_eq_self]
    intro c hc
    simp [(hexDigit_facts c (hds c hc)).1]
  have ht : (ds.map toupper).takeWhile (fun c => decide (c.toNat ≠ 0)) = ds.map toupper := by
    rw [List.takeWhile_eq_self_iff]
    intro c hc
    simpa using (hexDigit_facts c (hU c hc)).2.1
  have hsp : (!isspace ' ') = false := by decide
  rw [List.filter_cons_of_neg (by simp [hsp]), List.filter_append, List.filter_append, hf,
    List.map_append, List.map_append]
  have hpre : ((if dollar then ['$'] else []).filter (fun c => !isspace c)).map toupper
      = (if dollar then ['$'] else []) := by
    cases dollar <;> decide
  have hsuf2 : (suf.filter (fun c => !isspace c)).map toupper = suf := by
    rcases hsuf with rfl | rfl | rfl <;> decide
  rw [hpre, hsuf2, List.takeWhile_eq_self_iff]
  intro c hc
  simp only [List.mem_append] at hc
  rcases hc with (hc | hc) | hc
  · cases dollar
    · simp at hc
    · simp at hc; subst hc; decide
  · simpa using (hexDigit_facts c (hU c hc)).2.1
  · rcases hsuf with rfl | rfl | rfl
    · simp at hc
    · simp at hc; rcases hc with rfl | rfl <;> decide
    · simp at hc; rcases hc with rfl | rfl <;> decide

/-- The function `parseOperand` on a hexadecimal number: the mode is absolute,
or absolute indexed with the suffix `,X` or `,Y`, and the text of the number
is the digits in upper case.  The one exception is the single digit `A`
without a dollar sign and without a suffix, which is the accumulator. -/
theorem parseOperand_hex (ds : List Char) (dollar : Bool)
    (hds : ∀ c ∈ ds, (hexValue c).isSome = true) (hne : ds ≠ []) :
    (dollar = true ∨ ds.map toupper ≠ ['A'] →
      parseOperand (' ' :: ((if dollar then ['$'] else []) ++ ds ++ [])) =
        (checkAddress .am_abs (ds.map toupper), ds.map toupper)) ∧
    parseOperand (' ' :: ((if dollar then ['$'] else []) ++ ds ++ [',', 'X'])) =
      (checkAddress .am_abs_x (ds.map toupper), ds.map toupper) ∧
    parseOperand (' ' :: ((if dollar then ['$'] else []) ++ ds ++ [',', 'Y'])) =
      (checkAddress .am_abs_y (ds.map toupper), ds.map toupper) := by
  have hU := (hex_map_toupper ds hds).1
  have hUne : ds.map toupper ≠ [] := by simpa using hne
  have hne1 : ∀ suf : List Char, (if dollar then ['$'] else []) ++ ds.map toupper ++ suf ≠ [] := by
    intro suf h
    rcases List.append_eq_nil.mp h with ⟨h1, _⟩
    rcases List.append_eq_nil.mp h1 with ⟨_, h2⟩
    exact hUne h2
  have hX : ([',', 'X'] : List Char).takeWhile (fun c => (hexValue c).isSome) = [] := by decide
  have hY : ([',', 'Y'] : List Char).takeWhile (fun c => (hexValue c).isSome) = [] := by decide
  have hN : ([] : List Char).takeWhile (fun c => (hexValue c).isSome) = [] := rfl
  have m1 : matchLiteral [',', 'X'] [',', 'X'] = some [] := by decide
  have m2 : matchLiteral [',', 'Y'] [',', 'Y'] = some [] := by decide
  have m3 : matchLiteral [',', 'X'] [',', 'Y'] = none := by decide
  have m4 : matchLiteral [',', 'X'] [] = none := by decide
  have m5 : matchLiteral [',', 'Y'] [] = none := by decide
  have m6 : matchLiteral [] ([] : List Char) = some [] := by decide
  refine ⟨?_, ?_, ?_⟩
  · intro hA
    unfold parseOperand
    simp only [parseOperand_buffer ds [] dollar hds (Or.inl rfl)]
    rw [if_neg (hne1 []), if_neg]
    · rw [regexMatchHex_imm _ _ _ hU hUne]
      simp only
      rw [regexMatchHex_digits _ _ _ _ hU hUne hN, m4]
      simp only
      rw [regexMatchHex_digits _ _ _ _ hU hUne hN, m5]
      simp only
      rw [regexMatchHex_digits _ _ _ _ hU hUne hN, m6]
    · intro h
      cases dollar with
      | true => simp at h
      | false =>
        rcases hA with hA | hA
        · simp at hA
        · apply hA; simpa using h
  · unfold parseOperand
    simp only [parseOperand_buffer ds [',', 'X'] dollar hds (Or.inr (Or.inl rfl))]
    rw [if_neg (hne1 _), if_neg]
    · rw [regexMatchHex_imm _ _ _ hU hUne]
      simp only
      rw [regexMatchHex_digits _ _ _ _ hU hUne hX, m1]
    · intro h
      have := congrArg List.length h
      cases dollar <;> simp at this
  · unfold parseOperand
    simp only [parseOperand_buffer ds [',', 'Y'] dollar hds (Or.inr (Or.inr rfl))]
    rw [if_neg (hne1 _), if_neg]
    · rw [regexMatchHex_imm _ _ _ hU hUne]
      simp only
      rw [regexMatchHex_digits _ _ _ _ hU hUne hY, m3]
      simp only
      rw [regexMatchHex_digits _ _ _ _ hU hUne hY, m2]
    · intro h
      have := congrArg List.length h
      cases dollar <;> simp at this

/-- The method `Assemble` on a mnemonic without white space followed by a
space: the mnemonic in upper case and the rest of the line go to
`parseOperand`. -/
theorem Assemble_split (pc : Nat) (name operand : List Char) (hne : name ≠ [])
    (hsp : ∀ c ∈ name, isspace c = false) :
    Assemble pc (name ++ ' ' :: operand) =
      AssembleOperand pc (name.map toupper) (parseOperand (' ' :: operand)).1
        (parseOperand (' ' :: operand)).2 := by
  obtain ⟨c, cs, rfl⟩ := List.exists_cons_of_ne_nil hne
  have hc : isspace c = false := hsp c (List.mem_cons_self _ _)
  have h1 : List.dropWhile isspace (c :: cs ++ ' ' :: operand) = c :: cs ++ ' ' :: operand := by
    simp [List.dropWhile, hc]
  have hp : ∀ a ∈ c :: cs, (fun c => !isspace c) a = true := by
    intro a ha
    simp [hsp a ha]
  have hs : isspace ' ' = true := by decide
  have h2 : List.takeWhile (fun c => !isspace c) (c :: cs ++ ' ' :: operand) = c :: cs := by
    rw [List.takeWhile_append_of_pos hp]
    simp [List.takeWhile, hs]
  have h3 : List.dropWhile (fun c => !isspace c) (c :: cs ++ ' ' :: operand) = ' ' :: operand := by
    rw [List.dropWhile_append_of_pos hp]
    simp [List.dropWhile, hs]
  unfold Assemble
  simp only [h1, h2, h3]
  rw [if_neg (by simp)]

/-- Every documented entry of the opcode table is the first one with its
mnemonic and mode; its mnemonic is not empty, is in upper case and has no
white space. -/
theorem table_documented : ∀ op < 256, (instructions op).addr_mode ≠ .am_invalid →
    FindOpcode (instructions op).name (instructions op).addr_mode = (op : Int) ∧
    (instructions op).name ≠ [] ∧
    (instructions op).name.map toupper = (instructions op).name ∧
    ∀ c ∈ (instructions op).name, isspace c = false := by decide!

/-- The branch mnemonics have no zero-page mode and no absolute mode. -/
theorem table_branch : ∀ op < 256, (instructions op).addr_mode = .am_rel →
    FindOpcode (instructions op).name .am_zp = -1 ∧
    FindOpcode (instructions op).name .am_abs = -1 := by decide!

/-- The function `checkAddress` accepts a number of at most 16 bits in the
absolute modes. -/
theorem checkAddress_abs (U : List Char) (hU : ∀ c ∈ U, (hexValue c).isSome = true)
    (hne : U ≠ []) (hhi : hexNumber U ≤ 0xFFFF) :
    checkAddress .am_abs U = .am_abs ∧ checkAddress .am_abs_x U = .am_abs_x ∧
    checkAddress .am_abs_y U = .am_abs_y := by
  have hst := strtoul16_hex U hU hne (by omega)
  simp only [checkAddress, hst]
  refine ⟨?_, ?_, ?_⟩ <;> rw [if_neg (by omega)]

/-- The part of `Assemble` after the operand for a branch mnemonic and an
absolute operand: a number of three digits or more that is not below `$100` is
rejected before the relative mode is tried; otherwise the relative mode is
found and the offset is checked. -/
theorem AssembleOperand_branch (pc op : Nat) (U : List Char) (hop : op < 256)
    (hrel : (instructions op).addr_mode = .am_rel)
    (hU : ∀ c ∈ U, (hexValue c).isSome = true) (hne : U ≠ []) (hhi : hexNumber U ≤ 0xFFFF) :
    AssembleOperand pc (instructions op).name .am_abs U =
      if 2 < U.length ∧ 0x100 ≤ hexNumber U then ⟨false, []⟩
      else
        let diff := (hexNumber U + 2 ^ 64 - (pc + 2) % 2 ^ 64) % 2 ^ 64
        let offset : Int :=
          if diff % 2 ^ 32 < 2 ^ 31 then (diff % 2 ^ 32 : Nat)
          else ((diff % 2 ^ 32 : Nat) : Int) - 2 ^ 32
        if offset < -128 ∨ offset > 127 then ⟨false, []⟩
        else ⟨true, [op, (offset % 256).toNat]⟩ := by
  have hst := strtoul16_hex U hU hne (by omega)
  obtain ⟨hzp, habs⟩ := table_branch op hop hrel
  have hfind := (table_documented op hop (by rw [hrel]; decide)).1
  rw [hrel] at hfind
  have hmod : (op : Int).toNat % 256 = op := by
    simp only [Int.toNat_ofNat]; omega
  have hopm : op % 256 = op := Nat.mod_eq_of_lt hop
  unfold AssembleOperand
  simp only [hst]
  by_cases h1 : U.length ≤ 2
  · have h1n : ¬ (2 < U.length) := by omega
    simp [h1, h1n, hzp, habs, hfind, hopm]
  · have h1n : 2 < U.length := by omega
    by_cases h2 : hexNumber U < 0x100
    · have h2n : ¬ (256 ≤ hexNumber U) := by omega
      simp [h1, h1n, h2, h2n, hzp, habs, hfind, hopm]
    · have h2n : 256 ≤ hexNumber U := by omega
      simp [h1, h1n, h2, h2n, hzp, habs, hfind, hopm]

/-- The eight branch mnemonics are the mnemonics of the table entries with the
relative mode. -/
theorem branch_mnemonics : ∀ mn ∈ ["BPL".toList, "BMI".toList, "BVC".toList, "BVS".toList,
      "BCC".toList, "BCS".toList, "BNE".toList, "BEQ".toList],
    ∃ op < 256, (instructions op).addr_mode = .am_rel ∧ (instructions op).name = mn := by
  decide!

/-- The method `Assemble` on a branch mnemonic and a target of at most 16 bits
written with a dollar sign. -/
theorem Assemble_branch (pc op : Nat) (ds : List Char) (hop : op < 256)
    (hrel : (instructions op).addr_mode = .am_rel)
    (hds : ∀ c ∈ ds, (hexValue c).isSome = true) (hne : ds ≠ []) (hhi : hexNumber ds ≤ 0xFFFF) :
    Assemble pc ((instructions op).name ++ " $".toList ++ ds) =
      if 2 < ds.length ∧ 0x100 ≤ hexNumber ds then ⟨false, []⟩
      else
        let diff := (hexNumber ds + 2 ^ 64 - (pc + 2) % 2 ^ 64) % 2 ^ 64
        let offset : Int :=
          if diff % 2 ^ 32 < 2 ^ 31 then (diff % 2 ^ 32 : Nat)
          else ((diff % 2 ^ 32 : Nat) : Int) - 2 ^ 32
        if offset < -128 ∨ offset > 127 then ⟨false, []⟩
        else ⟨true, [op, (offset % 256).toNat]⟩ := by
  obtain ⟨hU, hN⟩ := hex_map_toupper ds hds
  have hUne : ds.map toupper ≠ [] := by simpa using hne
  obtain ⟨_, hnm, hup, hsp⟩ := table_documented op hop (by rw [hrel]; decide)
  have htxt : (instructions op).name ++ " $".toList ++ ds =
      (instructions op).name ++ ' ' :: ((if true then ['$'] else []) ++ ds ++ []) := by
    simp
  rw [htxt, Assemble_split pc _ _ hnm hsp, (parseOperand_hex ds true hds hne).1 (Or.inl rfl), hup,
    (checkAddress_abs _ hU hUne (by omega)).1]
  simp only
  rw [AssembleOperand_branch pc op _ hop hrel hU hUne (by omega), hN, List.length_map]

/-- The 32-bit offset that `Assemble` computes for a branch is the difference
between the target and the address after the instruction, when the program
counter is below `2^32 - 129`, or else is out of range like that difference. -/
theorem branch_offset (pc T : Nat) (hT : T ≤ 0xFFFF) (hpc : pc < 2 ^ 32 - 129) :
    let diff := (T + 2 ^ 64 - (pc + 2) % 2 ^ 64) % 2 ^ 64
    let offset : Int :=
      if diff % 2 ^ 32 < 2 ^ 31 then (diff % 2 ^ 32 : Nat)
      else ((diff % 2 ^ 32 : Nat) : Int) - 2 ^ 32
    ((offset < -128 ∨ offset > 127) ↔ ((T : Int) - (pc + 2) < -128 ∨ (T : Int) - (pc + 2) > 127)) ∧
    (¬ (offset < -128 ∨ offset > 127) → offset = (T : Int) - (pc + 2)) := by
  intro diff offset
  simp only [offset, diff]
  norm_num at hpc ⊢
  split <;> omega

/-- One or two hexadecimal digits denote a number below 256. -/
theorem hexNumber_lt_256 (ds : List Char) (hds : ∀ c ∈ ds, (hexValue c).isSome = true)
    (hlen : ds.length ≤ 2) : hexNumber ds < 256 := by
  match ds, hds, hlen with
  | [], _, _ => decide
  | [a], hds, _ =>
    have ha := (hexDigit_facts a (hds a (by simp))).2.2.2.2.2.2.2.2.1
    simp only [hexNumber, List.foldl_cons, List.foldl_nil]
    omega
  | [a, b], hds, _ =>
    have ha := (hexDigit_facts a (hds a (by simp))).2.2.2.2.2.2.2.2.1
    have hb := (hexDigit_facts b (hds b (by simp))).2.2.2.2.2.2.2.2.1
    simp only [hexNumber, List.foldl_cons, List.foldl_nil]
    omega
  | _ :: _ :: _ :: _, _, hlen => simp at hlen

/-- The only hexadecimal digits that `toupper` sends to `A` are `A` and `a`. -/
theorem map_toupper_eq_A (ds : List Char) (hds : ∀ c ∈ ds, (hexValue c).isSome = true)
    (h : ds.map toupper = ['A']) : ds = ['A'] ∨ ds = ['a'] := by
  match ds, hds, h with
  | [c], hds, h =>
    have key : ∀ c ∈ "0123456789ABCDEFabcdef".toList, toupper c = 'A' → c = 'A' ∨ c = 'a' := by
      decide!
    simp only [List.map_cons, List.map_nil, List.cons.injEq, and_true] at h
    rcases key c (hexValue_isSome_mem c (hds c (by simp))) h with rfl | rfl
    · exact Or.inl rfl
    · exact Or.inr rfl
  | [], _, h => simp at h
  | _ :: _ :: _, _, h => simp at h

/-- The part of `Assemble` after the operand for a mnemonic with a mode of the
zero-page family and a number of one or two digits: the zero-page mode is
tried first and found. -/
theorem AssembleOperand_zp (pc op : Nat) (U : List Char) (hop : op < 256)
    (hU : ∀ c ∈ U, (hexValue c).isSome = true) (hne : U ≠ []) (hlen : U.length ≤ 2) :
    ((instructions op).addr_mode = .am_zp →
      AssembleOperand pc (instructions op).name .am_abs U = ⟨true, [op, hexNumber U]⟩) ∧
    ((instructions op).addr_mode = .am_zp_x →
      AssembleOperand pc (instructions op).name .am_abs_x U = ⟨true, [op, hexNumber U]⟩) ∧
    ((instructions op).addr_mode = .am_zp_y →
      AssembleOperand pc (instructions op).name .am_abs_y U = ⟨true, [op, hexNumber U]⟩) := by
  have hN := hexNumber_lt_256 U hU hlen
  have hst := strtoul16_hex U hU hne (by omega)
  have hopm : op % 256 = op := Nat.mod_eq_of_lt hop
  have hNm : hexNumber U % 256 = hexNumber U := Nat.mod_eq_of_lt hN
  refine ⟨?_, ?_, ?_⟩ <;> intro hm
  all_goals
    have hfind := (table_documented op hop (by rw [hm]; decide)).1
    rw [hm] at hfind
    unfold AssembleOperand
    have hop0 : ¬ ((op : Int) < 0) := by omega
    simp [hst, hlen, hfind, hopm, hNm, hop0]

/-- The part of `Assemble` after the operand for a mnemonic with a mode of the
absolute family and a number of three digits or more below `$100`: the
absolute mode is tried first and found. -/
theorem AssembleOperand_abs (pc op : Nat) (U : List Char) (hop : op < 256)
    (hU : ∀ c ∈ U, (hexValue c).isSome = true) (hlen : 3 ≤ U.length)
    (hN : hexNumber U < 0x100) :
    ((instructions op).addr_mode = .am_abs →
      AssembleOperand pc (instructions op).name .am_abs U = ⟨true, [op, hexNumber U, 0]⟩) ∧
    ((instructions op).addr_mode = .am_abs_x →
      AssembleOperand pc (instructions op).name .am_abs_x U = ⟨true, [op, hexNumber U, 0]⟩) ∧
    ((instructions op).addr_mode = .am_abs_y →
      AssembleOperand pc (instructions op).name .am_abs_y U = ⟨true, [op, hexNumber U, 0]⟩) := by
  have hne : U ≠ [] := by
    intro h; rw [h] at hlen; simp at hlen
  have hst := strtoul16_hex U hU hne (by omega)
  have hopm : op % 256 = op := Nat.mod_eq_of_lt hop
  have hNm : hexNumber U % 256 = hexNumber U := Nat.mod_eq_of_lt hN
  have hlo : (hexNumber U &&& 0xFF) % 256 = hexNumber U := by
    rw [byte_and_FF]; omega
  have hhi : (hexNumber U >>> 8) % 256 = 0 := by
    rw [Nat.shiftRight_eq_div_pow]; omega
  have hl : ¬ U.length ≤ 2 := by omega
  refine ⟨?_, ?_, ?_⟩ <;> intro hm
  all_goals
    have hfind := (table_documented op hop (by rw [hm]; decide)).1
    rw [hm] at hfind
    unfold AssembleOperand
    have hop0 : ¬ ((op : Int) < 0) := by omega
    simp only [hst, if_neg hl, if_pos hN, hfind]
    simp [hopm, hlo, hhi, hop0]

/-- The method `Assemble` on a documented mnemonic and a hexadecimal number of
at most 16 bits, with or without the dollar sign and with or without an index
suffix: the work left is `AssembleOperand` on the absolute mode of that suffix
and the digits in upper case. -/
theorem Assemble_hex_operand (pc op : Nat) (ds : List Char) (dollar : Bool) (hop : op < 256)
    (hdoc : (instructions op).addr_mode ≠ .am_invalid)
    (hds : ∀ c ∈ ds, (hexValue c).isSome = true) (hne : ds ≠ []) (hhi : hexNumber ds ≤ 0xFFFF) :
    ((if dollar then "$".toList else []) ++ ds ≠ "A".toList ∧
        (if dollar then "$".toList else []) ++ ds ≠ "a".toList →
      Assemble pc ((instructions op).name ++ " ".toList ++ (if dollar then "$".toList else []) ++ ds)
        = AssembleOperand pc (instructions op).name .am_abs (ds.map toupper)) ∧
    Assemble pc ((instructions op).name ++ " ".toList ++ (if dollar then "$".toList else []) ++ ds
        ++ ",X".toList)
      = AssembleOperand pc (instructions op).name .am_abs_x (ds.map toupper) ∧
    Assemble pc ((instructions op).name ++ " ".toList ++ (if dollar then "$".toList else []) ++ ds
        ++ ",Y".toList)
      = AssembleOperand pc (instructions op).name .am_abs_y (ds.map toupper) := by
  obtain ⟨hU, hN⟩ := hex_map_toupper ds hds
  have hUne : ds.map toupper ≠ [] := by simpa using hne
  obtain ⟨_, hnm, hup, hsp⟩ := table_documented op hop hdoc
  obtain ⟨c1, c2, c3⟩ := checkAddress_abs _ hU hUne (by omega)
  obtain ⟨p1, p2, p3⟩ := parseOperand_hex ds dollar hds hne
  have e1 : " ".toList = [' '] := rfl
  have e2 : "$".toList = ['$'] := rfl
  have e3 : ",X".toList = [',', 'X'] := rfl
  have e4 : ",Y".toList = [',', 'Y'] := rfl
  have e5 : "A".toList = ['A'] := rfl
  have e6 : "a".toList = ['a'] := rfl
  simp only [e1, e2, e3, e4, e5, e6]
  refine ⟨?_, ?_, ?_⟩
  · rintro ⟨hA, ha⟩
    have hcond : dollar = true ∨ ds.map toupper ≠ ['A'] := by
      cases dollar with
      | true => exact Or.inl rfl
      | false =>
        right
        intro h
        rcases map_toupper_eq_A ds hds h with h | h
        · exact hA (by simp [h])
        · exact ha (by simp [h])
    have htxt : (instructions op).name ++ [' '] ++ (if dollar then ['$'] else []) ++ ds =
        (instructions op).name ++ ' ' :: ((if dollar then ['$'] else []) ++ ds ++ []) := by
      simp
    rw [htxt, Assemble_split pc _ _ hnm hsp, p1 hcond, hup, c1]
  · have htxt : (instructions op).name ++ [' '] ++ (if dollar then ['$'] else []) ++ ds ++ [',', 'X'] =
        (instructions op).name ++ ' ' :: ((if dollar then ['$'] else []) ++ ds ++ [',', 'X']) := by
      simp
    rw [htxt, Assemble_split pc _ _ hnm hsp, p2, hup, c2]
  · have htxt : (instructions op).name ++ [' '] ++ (if dollar then ['$'] else []) ++ ds ++ [',', 'Y'] =
        (instructions op).name ++ ' ' :: ((if dollar then ['$'] else []) ++ ds ++ [',', 'Y']) := by
      simp
    rw [htxt, Assemble_split pc _ _ hnm hsp, p3, hup, c3]

/-- One or two digits after a mnemonic with a mode of the zero-page family
give the two-byte form, except for the single digit `A` alone. -/
theorem Assemble_zero_page_form (pc op : Nat) (m : AddrMode) (suf ds : List Char) (dollar : Bool)
    (hop : op < 256) (hmode : (instructions op).addr_mode = m)
    (hm : (m, suf) ∈ [(AddrMode.am_zp, []), (AddrMode.am_zp_x, ",X".toList),
      (AddrMode.am_zp_y, ",Y".toList)])
    (hds : ∀ c ∈ ds, (hexValue c).isSome = true) (hlen : ds.length = 1 ∨ ds.length = 2)
    (hA : (if dollar then "$".toList else []) ++ ds ++ suf ≠ "A".toList ∧
      (if dollar then "$".toList else []) ++ ds ++ suf ≠ "a".toList) :
    Assemble pc ((instructions op).name ++ " ".toList ++ (if dollar then "$".toList else [])
      ++ ds ++ suf) = ⟨true, [op, hexNumber ds]⟩ := by
  obtain ⟨hU, hN⟩ := hex_map_toupper ds hds
  have hne : ds ≠ [] := by
    intro h; rw [h] at hlen; simp at hlen
  have hUne : ds.map toupper ≠ [] := by simpa using hne
  have hl2 : ds.length ≤ 2 := by omega
  have h256 := hexNumber_lt_256 ds hds hl2
  have hdoc : (instructions op).addr_mode ≠ .am_invalid := by
    rw [hmode]
    simp only [List.mem_cons, Prod.mk.injEq, List.mem_singleton, List.not_mem_nil, or_false] at hm
    rcases hm with ⟨rfl, _⟩ | ⟨rfl, _⟩ | ⟨rfl, _⟩ <;> decide
  obtain ⟨a1, a2, a3⟩ := Assemble_hex_operand pc op ds dollar hop hdoc hds hne (by omega)
  obtain ⟨z1, z2, z3⟩ := AssembleOperand_zp pc op (ds.map toupper) hop hU hUne
    (by rw [List.length_map]; exact hl2)
  rw [hN] at z1 z2 z3
  simp only [List.mem_cons, Prod.mk.injEq, List.mem_singleton, List.not_mem_nil, or_false] at hm
  rcases hm with ⟨rfl, rfl⟩ | ⟨rfl, rfl⟩ | ⟨rfl, rfl⟩
  · rw [List.append_nil] at hA ⊢
    rw [a1 hA, z1 hmode]
  · rw [a2, z2 hmode]
  · rw [a3, z3 hmode]

/-- Three digits or more below `$100` after a mnemonic with a mode of the
absolute family give the three-byte form. -/
theorem Assemble_absolute_form (pc op : Nat) (m : AddrMode) (suf ds : List Char) (dollar : Bool)
    (hop : op < 256) (hmode : (instructions op).addr_mode = m)
    (hm : (m, suf) ∈ [(AddrMode.am_abs, []), (AddrMode.am_abs_x, ",X".toList),
      (AddrMode.am_abs_y, ",Y".toList)])
    (hds : ∀ c ∈ ds, (hexValue c).isSome = true) (hlen : 3 ≤ ds.length)
    (hval : hexNumber ds < 0x100) :
    Assemble pc ((instructions op).name ++ " ".toList ++ (if dollar then "$".toList else [])
      ++ ds ++ suf) = ⟨true, [op, hexNumber ds, 0]⟩ := by
  obtain ⟨hU, hN⟩ := hex_map_toupper ds hds
  have hne : ds ≠ [] := by
    intro h; rw [h] at hlen; simp at hlen
  have hdoc : (instructions op).addr_mode ≠ .am_invalid := by
    rw [hmode]
    simp only [List.mem_cons, Prod.mk.injEq, List.mem_singleton, List.not_mem_nil, or_false] at hm
    rcases hm with ⟨rfl, _⟩ | ⟨rfl, _⟩ | ⟨rfl, _⟩ <;> decide
  obtain ⟨a1, a2, a3⟩ := Assemble_hex_operand pc op ds dollar hop hdoc hds hne (by omega)
  obtain ⟨z1, z2, z3⟩ := AssembleOperand_abs pc op (ds.map toupper) hop hU
    (by rw [List.length_map]; exact hlen) (by rw [hN]; exact hval)
  rw [hN] at z1 z2 z3
  have hA : (if dollar then "$".toList else []) ++ ds ≠ "A".toList ∧
      (if dollar then "$".toList else []) ++ ds ≠ "a".toList := by
    constructor <;> intro h <;> have h' := congrArg List.length h <;>
      simp at h' <;> omega
  simp only [List.mem_cons, Prod.mk.injEq, List.mem_singleton, List.not_mem_nil, or_false] at hm
  rcases hm with ⟨rfl, rfl⟩ | ⟨rfl, rfl⟩ | ⟨rfl, rfl⟩
  · rw [List.append_nil, a1 hA, z1 hmode]
  · rw [a2, z2 hmode]
  · rw [a3, z3 hmode]

/-! ## C17: assembling a branch to a target in range -/

/-- Claim C17 (what the code does): for a branch mnemonic, a target of at
most 16 bits written as a dollar sign and hexadecimal digits, and a difference
`target - (pc + 2)` within -128..127, `Assemble` rejects the line when the
target has three digits or more and is not below `$100`: `alt_mode` is then
`am_invalid` and the lookup with `am_rel` is never reached.  With one or two
digits, or a value below `$100`, the result is the branch opcode and the
offset as the claim says. -/
theorem assemble_branch_in_range (pc : Nat) (mn ds : List Char)
    (hmn : mn ∈ ["BPL".toList, "BMI".toList, "BVC".toList, "BVS".toList,
      "BCC".toList, "BCS".toList, "BNE".toList, "BEQ".toList])
    (hds : ∀ c ∈ ds, (hexValue c).isSome = true) (hne : ds ≠ [])
    (hhi : hexNumber ds ≤ 0xFFFF)
    (hin : -128 ≤ (hexNumber ds : Int) - (pc + 2) ∧ (hexNumber ds : Int) - (pc + 2) ≤ 127) :
    (3 ≤ ds.length ∧ 0x100 ≤ hexNumber ds →
      Assemble pc (mn ++ " $".toList ++ ds) = ⟨false, []⟩) ∧
    (ds.length ≤ 2 ∨ hexNumber ds < 0x100 →
      ∃ op < 256, (instructions op).name = mn ∧ (instructions op).addr_mode = .am_rel ∧
        Assemble pc (mn ++ " $".toList ++ ds) =
          ⟨true, [op, ((((hexNumber ds : Int) - (pc + 2)) % 256).toNat)]⟩) := by
  obtain ⟨op, hop, hrel, rfl⟩ := branch_mnemonics mn hmn
  have hpc : pc < 2 ^ 32 - 129 := by norm_num; omega
  have hA := Assemble_branch pc op ds hop hrel hds hne hhi
  obtain ⟨ho1, ho2⟩ := branch_offset pc (hexNumber ds) hhi hpc
  simp only at hA ho1 ho2
  constructor
  · rintro ⟨h1, h2⟩
    rw [hA, if_pos ⟨by omega, h2⟩]
  · intro h
    refine ⟨op, hop, rfl, hrel, ?_⟩
    have hno : ¬ ((hexNumber ds : Int) - (pc + 2) < -128 ∨ (hexNumber ds : Int) - (pc + 2) > 127) := by
      omega
    rw [hA, if_neg (by omega), if_neg (fun hc => hno (ho1.mp hc)), ho2 (fun hc => hno (ho1.mp hc))]

/-- Witness for C17: `BEQ $1010` at `$1000`, a difference of 14, is rejected. -/
theorem assemble_branch_in_range_witness :
    Assemble 0x1000 ("BEQ".toList ++ " $".toList ++ "1010".toList) = ⟨false, []⟩ :=
  (assemble_branch_in_range 0x1000 "BEQ".toList "1010".toList (by decide) (by decide) (by decide)
    (by decide) (by decide)).1 (by decide)

/-! ## C18: assembling a branch to a target out of range -/

/-- Claim C18: for a branch mnemonic, a program counter of 16 bits and a target
of at most 16 bits written as a dollar sign and hexadecimal digits, if
`target - (pc + 2)` lies outside -128..127 then `Assemble` returns the invalid
result. -/
theorem assemble_branch_out_of_range (pc : Nat) (mn ds : List Char)
    (hmn : mn ∈ ["BPL".toList, "BMI".toList, "BVC".toList, "BVS".toList,
      "BCC".toList, "BCS".toList, "BNE".toList, "BEQ".toList])
    (hds : ∀ c ∈ ds, (hexValue c).isSome = true) (hne : ds ≠ [])
    (hhi : hexNumber ds ≤ 0xFFFF) (hpc : pc < 65536)
    (hout : (hexNumber ds : Int) - (pc + 2) < -128 ∨ 127 < (hexNumber ds : Int) - (pc + 2)) :
    Assemble pc (mn ++ " $".toList ++ ds) = ⟨false, []⟩ := by
  obtain ⟨op, hop, hrel, rfl⟩ := branch_mnemonics mn hmn
  have hA := Assemble_branch pc op ds hop hrel hds hne hhi
  obtain ⟨ho1, _⟩ := branch_offset pc (hexNumber ds) hhi (lt_of_lt_of_le hpc (by decide))
  simp only at hA ho1
  rw [hA]
  split
  · rfl
  · rw [if_pos (ho1.mpr (by omega))]

/-- Witness for C18: `BEQ $1100` at `$1000` (a difference of 254) and
`BEQ $10` at `$1000` (a difference of -4082) are rejected. -/
theorem assemble_branch_out_of_range_witness :
    Assemble 0x1000 ("BEQ".toList ++ " $".toList ++ "1100".toList) = ⟨false, []⟩ ∧
    Assemble 0x1000 ("BEQ".toList ++ " $".toList ++ "10".toList) = ⟨false, []⟩ :=
  ⟨assemble_branch_out_of_range 0x1000 "BEQ".toList "1100".toList (by decide) (by decide)
    (by decide) (by decide) (by decide) (by decide),
   assemble_branch_out_of_range 0x1000 "BEQ".toList "10".toList (by decide) (by decide)
    (by decide) (by decide) (by decide) (by decide)⟩

/-! ## C19: one or two digits give the zero-page form -/

/-- Claim C19 (counterexample): `A` is a hexadecimal digit and `ASL` and `LDA`
have zero-page encodings (`$06`, `$A5`), but the operand `A` alone is taken by
`parseOperand` as the accumulator before any number is looked for: `ASL A` is
the one-byte `0A`, not `06 0A`, and `LDA A` is rejected. -/
theorem assemble_bare_A_counterexample :
    (hexValue 'A').isSome = true ∧
    (instructions 0x06).name = "ASL".toList ∧ (instructions 0x06).addr_mode = .am_zp ∧
    (instructions 0xA5).name = "LDA".toList ∧ (instructions 0xA5).addr_mode = .am_zp ∧
    Assemble 0 "ASL A".toList = ⟨true, [0x0A]⟩ ∧
    Assemble 0 "LDA A".toList = ⟨false, []⟩ := by
  refine ⟨?_, ?_, ?_, ?_, ?_, ?_, ?_⟩ <;> decide!

/-- Claim C19 (amended): for every table entry `op` with the mode zero-page,
zero-page,X or zero-page,Y, and every operand written as an optional dollar
sign, one or two hexadecimal digits and the suffix of the mode (none, `,X`,
`,Y`), other than the operand `A` or `a` alone, `Assemble` at any `pc` returns
the valid two-byte form `[op, value]`. -/
theorem assemble_zero_page (pc op : Nat) (m : AddrMode) (suf ds : List Char) (dollar : Bool)
    (hop : op < 256) (hmode : (instructions op).addr_mode = m)
    (hm : (m, suf) ∈ [(AddrMode.am_zp, []), (AddrMode.am_zp_x, ",X".toList),
      (AddrMode.am_zp_y, ",Y".toList)])
    (hds : ∀ c ∈ ds, (hexValue c).isSome = true) (hlen : ds.length = 1 ∨ ds.length = 2)
    (hA : (if dollar then "$".toList else []) ++ ds ++ suf ≠ "A".toList ∧
      (if dollar then "$".toList else []) ++ ds ++ suf ≠ "a".toList) :
    Assemble pc ((instructions op).name ++ " ".toList ++ (if dollar then "$".toList else [])
      ++ ds ++ suf) = ⟨true, [op, hexNumber ds]⟩ :=
  Assemble_zero_page_form pc op m suf ds dollar hop hmode hm hds hlen hA

/-- Witness for C19: `LDA $05` is `A5 05`, `ASL $A` is `06 0A` and `STX 5,Y`
is `96 05`. -/
theorem assemble_zero_page_witness :
    Assemble 0 "LDA $05".toList = ⟨true, [0xA5, 0x05]⟩ ∧
    Assemble 0 "ASL $A".toList = ⟨true, [0x06, 0x0A]⟩ ∧
    Assemble 0x1234 "STX 5,Y".toList = ⟨true, [0x96, 0x05]⟩ :=
  ⟨assemble_zero_page 0 0xA5 .am_zp [] "05".toList true (by decide) (by decide!) (by decide)
      (by decide) (by decide) (by decide),
   assemble_zero_page 0 0x06 .am_zp [] "A".toList true (by decide) (by decide!) (by decide)
      (by decide) (by decide) (by decide),
   assemble_zero_page 0x1234 0x96 .am_zp_y ",Y".toList "5".toList false (by decide) (by decide!)
      (by decide) (by decide) (by decide) (by decide)⟩

/-! ## C20: a value below `$100` written with more digits -/

/-- Claim C20 (counterexample): `LDA` has the zero-page encoding `$A5` and the
absolute encoding `$AD`; the literal `0005` has the value 5, below `$100`, and
`LDA $0005` is assembled to the three-byte absolute form, not to `A5 05`. -/
theorem assemble_four_digits_counterexample :
    (instructions 0xA5).name = "LDA".toList ∧ (instructions 0xA5).addr_mode = .am_zp ∧
    (instructions 0xAD).name = "LDA".toList ∧ (instructions 0xAD).addr_mode = .am_abs ∧
    hexNumber "0005".toList = 5 ∧
    Assemble 0 "LDA $0005".toList = ⟨true, [0xAD, 0x05, 0x00]⟩ := by
  refine ⟨?_, ?_, ?_, ?_, ?_, ?_⟩ <;> decide!

/-- Claim C20 (amended): for a mnemonic with the zero-page-family encoding
`opz` and the corresponding absolute-family encoding `opa`, and an operand
literal whose value is below `$100` (other than `A` or `a` alone), the number
of digits decides: with one or two digits the zero-page mode is tried first
and `Assemble` returns `[opz, value]`; with three digits or more the absolute
mode is tried first and `Assemble` returns the three-byte form
`[opa, value, 0]`. -/
theorem assemble_digits_decide_form (pc opz opa : Nat) (mz ma : AddrMode) (suf ds : List Char)
    (dollar : Bool) (hopz : opz < 256) (hopa : opa < 256)
    (hname : (instructions opa).name = (instructions opz).name)
    (hmz : (instructions opz).addr_mode = mz) (hma : (instructions opa).addr_mode = ma)
    (hm : (mz, ma, suf) ∈ [(AddrMode.am_zp, AddrMode.am_abs, []),
      (AddrMode.am_zp_x, AddrMode.am_abs_x, ",X".toList),
      (AddrMode.am_zp_y, AddrMode.am_abs_y, ",Y".toList)])
    (hds : ∀ c ∈ ds, (hexValue c).isSome = true) (hne : ds ≠ [])
    (hval : hexNumber ds < 0x100)
    (hA : (if dollar then "$".toList else []) ++ ds ++ suf ≠ "A".toList ∧
      (if dollar then "$".toList else []) ++ ds ++ suf ≠ "a".toList) :
    (ds.length ≤ 2 →
      Assemble pc ((instructions opz).name ++ " ".toList ++ (if dollar then "$".toList else [])
        ++ ds ++ suf) = ⟨true, [opz, hexNumber ds]⟩) ∧
    (3 ≤ ds.length →
      Assemble pc ((instructions opz).name ++ " ".toList ++ (if dollar then "$".toList else [])
        ++ ds ++ suf) = ⟨true, [opa, hexNumber ds, 0]⟩) := by
  have hl0 : 0 < ds.length := List.length_pos.mpr hne
  simp only [List.mem_cons, Prod.mk.injEq, List.mem_singleton, List.not_mem_nil, or_false] at hm
  constructor
  · intro hl
    refine Assemble_zero_page_form pc opz mz suf ds dollar hopz hmz ?_ hds (by omega) hA
    rcases hm with ⟨rfl, _, rfl⟩ | ⟨rfl, _, rfl⟩ | ⟨rfl, _, rfl⟩ <;> decide
  · intro hl
    rw [← hname]
    refine Assemble_absolute_form pc opa ma suf ds dollar hopa hma ?_ hds hl hval
    rcases hm with ⟨_, rfl, rfl⟩ | ⟨_, rfl, rfl⟩ | ⟨_, rfl, rfl⟩ <;> decide

/-- Witness for C20: `LDA $0005` is `AD 05 00` and `LDA $05` is `A5 05`. -/
theorem assemble_digits_decide_form_witness :
    Assemble 0 "LDA $0005".toList = ⟨true, [0xAD, 0x05, 0x00]⟩ ∧
    Assemble 0 "LDA $05".toList = ⟨true, [0xA5, 0x05]⟩ :=
  ⟨(assemble_digits_decide_form 0 0xA5 0xAD .am_zp .am_abs [] "0005".toList true (by decide)
      (by decide) (by decide!) (by decide!) (by decide!) (by decide) (by decide) (by decide)
      (by decide) (by decide)).2 (by decide),
   (assemble_digits_decide_form 0 0xA5 0xAD .am_zp .am_abs [] "05".toList true (by decide)
      (by decide) (by decide!) (by decide!) (by decide!) (by decide) (by decide) (by decide)
      (by decide) (by decide)).1 (by decide)⟩

/-! ## C21: operands out of range -/

/-- The digit loop of `strtoul` on a string of digits: the flag tells whether
the value has left the 64 bits, and without the flag the value is that of the
digits. -/
theorem strtoulDigits_hex_any (ds : List Char) (h : ∀ c ∈ ds, (hexValue c).isSome = true) :
    ∀ (acc : Nat) (over seen : Bool), (over = false → acc < 2 ^ 64) → ∃ x,
      strtoulDigits ds acc over seen =
        (x, (over || decide (2 ^ 64 ≤
            List.foldl (fun acc c => acc * 16 + (hexValue c).getD 0) acc ds)),
          (seen || !ds.isEmpty), []) ∧
      (over = false →
        List.foldl (fun acc c => acc * 16 + (hexValue c).getD 0) acc ds < 2 ^ 64 →
        x = List.foldl (fun acc c => acc * 16 + (hexValue c).getD 0) acc ds) := by
  induction ds with
  | nil =>
    intro acc over seen hinv
    refine ⟨acc, ?_, fun _ _ => rfl⟩
    cases over
    · have := hinv rfl
      simp [strtoulDigits]
      omega
    · simp [strtoulDigits]
  | cons d ds ih =>
    intro acc over seen hinv
    have hd := h d (List.mem_cons_self _ _)
    obtain ⟨v, hv⟩ := Option.isSome_iff_exists.mp hd
    have hds : ∀ c ∈ ds, (hexValue c).isSome = true := fun c hc => h c (List.mem_cons_of_mem _ hc)
    have hge := foldl_hex_ge ds (acc * 16 + (hexValue d).getD 0)
    have hgd : (hexValue d).getD 0 = v := by rw [hv]; rfl
    simp only [List.foldl_cons]
    simp only [hgd] at hge ⊢
    unfold strtoulDigits
    simp only [hv]
    cases over with
    | true =>
      rw [if_pos (Or.inl rfl)]
      obtain ⟨x, hx, _⟩ := ih hds acc true true (by simp)
      refine ⟨x, ?_, by simp⟩
      rw [hx]
      simp
    | false =>
      by_cases hov : acc * 16 + v ≥ 2 ^ 64
      · rw [if_pos (Or.inr hov)]
        obtain ⟨x, hx, _⟩ := ih hds acc true true (by simp)
        refine ⟨x, ?_, ?_⟩
        · rw [hx]
          have : 18446744073709551616 ≤ List.foldl (fun acc c => acc * 16 + (hexValue c).getD 0)
              (acc * 16 + v) ds := le_trans hov hge
          simp [this]
        · intro _ hlt
          omega
      · rw [if_neg (by simp; omega)]
        obtain ⟨x, hx, hval⟩ := ih hds (acc * 16 + v) false true (fun _ => by omega)
        refine ⟨x, ?_, fun _ hlt => hval rfl hlt⟩
        rw [hx]
        simp

/-- The number `strtoul` reads from a string of digits: their value, or
`2^64 - 1` when it does not fit. -/
theorem strtoul16_hex_val (ds : List Char) (h : ∀ c ∈ ds, (hexValue c).isSome = true)
    (hne : ds ≠ []) :
    (strtoul16 ds).1 = if hexNumber ds < 2 ^ 64 then hexNumber ds else 2 ^ 64 - 1 := by
  by_cases hlt : hexNumber ds < 2 ^ 64
  · rw [if_pos hlt, strtoul16_hex ds h hne hlt]
  · rw [if_neg hlt]
    obtain ⟨d, ds, rfl⟩ := List.exists_cons_of_ne_nil hne
    have hd := hexDigit_facts d (h d (List.mem_cons_self _ _))
    have h1 : List.dropWhile isspace (d :: ds) = d :: ds := by
      rw [List.dropWhile_cons_of_neg (by simp [hd.1])]
    obtain ⟨x, hr, _⟩ := strtoulDigits_hex_any (d :: ds) h 0 false false (fun _ => by norm_num)
    have hov : decide (2 ^ 64 ≤ List.foldl (fun acc c => acc * 16 + (hexValue c).getD 0) 0
        (d :: ds)) = true := by
      simp only [decide_eq_true_eq]
      unfold hexNumber at hlt
      omega
    rw [hov] at hr
    unfold strtoul16
    simp only [h1]
    rw [if_neg hd.2.2.2.1, if_neg hd.2.2.2.2.1]
    cases ds with
    | nil =>
      simp only
      rw [hr]
      simp
    | cons e ds =>
      cases ds with
      | nil =>
        simp only
        rw [hr]
        simp
      | cons f ds =>
        have he := hexDigit_facts e (h e (by simp))
        have hif : (if d = '0' ∧ (e = 'x' ∨ e = 'X') ∧ (hexValue f).isSome = true then f :: ds
            else d :: e :: f :: ds) = d :: e :: f :: ds := by
          apply if_neg
          rintro ⟨_, hx, _⟩
          rcases hx with hx | hx
          · exact he.2.2.2.2.2.1 hx
          · exact he.2.2.2.2.2.2.1 hx
        simp only
        rw [hif, hr]
        simp

/-- The function `checkAddress` gives `am_invalid` for a number above the
limit of the mode. -/
theorem checkAddress_invalid (mode : AddrMode) (lim : Nat) (U : List Char)
    (hU : ∀ c ∈ U, (hexValue c).isSome = true) (hne : U ≠ [])
    (hm : (mode, lim) ∈ [(AddrMode.am_immediate, 0xFF), (AddrMode.am_ind_x, 0xFF),
      (AddrMode.am_ind_y, 0xFF), (AddrMode.am_abs, 0xFFFF), (AddrMode.am_abs_x, 0xFFFF),
      (AddrMode.am_abs_y, 0xFFFF), (AddrMode.am_ind, 0xFFFF)])
    (hbig : lim < hexNumber U) :
    checkAddress mode U = .am_invalid := by
  have hv := strtoul16_hex_val U hU hne
  have hgt : lim < (strtoul16 U).1 ∧ lim ≤ 0xFFFF := by
    simp only [List.mem_cons, Prod.mk.injEq, List.mem_singleton, List.not_mem_nil, or_false] at hm
    rw [hv]
    split
    · refine ⟨hbig, ?_⟩
      rcases hm with h | h | h | h | h | h | h <;> obtain ⟨_, rfl⟩ := h <;> decide
    · rcases hm with h | h | h | h | h | h | h <;> obtain ⟨_, rfl⟩ := h <;> decide
  simp only [List.mem_cons, Prod.mk.injEq, List.mem_singleton, List.not_mem_nil, or_false] at hm
  rcases hm with h | h | h | h | h | h | h <;> obtain ⟨rfl, rfl⟩ := h <;>
  · simp only [checkAddress]
    rw [if_pos hgt.1]

/-- With the mode `am_invalid` no line is assembled. -/
theorem AssembleOperand_invalid (pc : Nat) (instr address : List Char) :
    AssembleOperand pc instr .am_invalid address = ⟨false, []⟩ := by
  unfold AssembleOperand
  generalize FindOpcode instr .am_invalid = f
  simp only [ne_eq, not_true_eq_false, and_false, if_false]
  split <;> rfl

/-- The operand text after `parseOperand` has removed the white space and put
it in upper case, for digits between two strings of punctuation. -/
theorem parseOperand_buffer_gen (pre ds suf : List Char)
    (hpre : ∀ c ∈ pre, isspace c = false ∧ toupper c = c ∧ c.toNat ≠ 0)
    (hsuf : ∀ c ∈ suf, isspace c = false ∧ toupper c = c ∧ c.toNat ≠ 0)
    (hds : ∀ c ∈ ds, (hexValue c).isSome = true) :
    ((((' ' :: (pre ++ ds ++ suf)).filter (fun c => !isspace c)).map toupper).takeWhile
      (fun c => c.toNat ≠ 0)) = pre ++ ds.map toupper ++ suf := by
  have hU := (hex_map_toupper ds hds).1
  have hsp : (!isspace ' ') = false := by decide
  have hf : ∀ l : List Char, (∀ c ∈ l, isspace c = false) →
      l.filter (fun c => !isspace c) = l := by
    intro l hl
    rw [List.filter_eq_self]
    intro c hc
    simp [hl c hc]
  have hm : ∀ l : List Char, (∀ c ∈ l, toupper c = c) → l.map toupper = l := by
    intro l hl
    induction l with
    | nil => rfl
    | cons c cs ih =>
      rw [List.map_cons, hl c (List.mem_cons_self _ _),
        ih (fun x hx => hl x (List.mem_cons_of_mem _ hx))]
  rw [List.filter_cons_of_neg (by simp [hsp]), List.filter_append, List.filter_append,
    hf pre (fun c hc => (hpre c hc).1), hf suf (fun c hc => (hsuf c hc).1),
    hf ds (fun c hc => (hexDigit_facts c (hds c hc)).1),
    List.map_append, List.map_append, hm pre (fun c hc => (hpre c hc).2.1),
    hm suf (fun c hc => (hsuf c hc).2.1), List.takeWhile_eq_self_iff]
  intro c hc
  simp only [List.mem_append] at hc
  rcases hc with (hc | hc) | hc
  · simpa using (hpre c hc).2.2
  · simpa using (hexDigit_facts c (hU c hc)).2.1
  · simpa using (hsuf c hc).2.2

/-- A regular expression whose first literal character is the first character
of the text. -/
theorem regexMatchHex_cons (p : Char) (pre post t : List Char) :
    regexMatchHex (p :: pre) post (p :: t) = regexMatchHex pre post t := by
  have : icaseEq p p = true := by simp [icaseEq]
  simp only [regexMatchHex, matchLiteral, this, if_true]

/-- The regular expressions that start with the number do not match a text
that starts with a parenthesis or a number sign. -/
theorem regexMatchHex_no_digits (p : Char) (post t : List Char)
    (hp : p = '(' ∨ p = '#') :
    regexMatchHex [] post (p :: t) = none := by
  have h1 : p ≠ '$' := by rcases hp with rfl | rfl <;> decide
  have h2 : (hexValue p).isSome = false := by rcases hp with rfl | rfl <;> decide
  simp [regexMatchHex, matchLiteral, h1, List.takeWhile, h2]

/-- The function `parseOperand` on the operands with a number sign or with
parentheses. -/
theorem parseOperand_prefixed (ds : List Char) (dollar : Bool)
    (hds : ∀ c ∈ ds, (hexValue c).isSome = true) (hne : ds ≠ []) :
    parseOperand (' ' :: ("#".toList ++ (if dollar then "$".toList else []) ++ ds ++ [])) =
      (checkAddress .am_immediate (ds.map toupper), ds.map toupper) ∧
    parseOperand (' ' :: ("(".toList ++ (if dollar then "$".toList else []) ++ ds ++ ",X)".toList))
      = (checkAddress .am_ind_x (ds.map toupper), ds.map toupper) ∧
    parseOperand (' ' :: ("(".toList ++ (if dollar then "$".toList else []) ++ ds ++ "),Y".toList))
      = (checkAddress .am_ind_y (ds.map toupper), ds.map toupper) ∧
    parseOperand (' ' :: ("(".toList ++ (if dollar then "$".toList else []) ++ ds ++ ")".toList))
      = (checkAddress .am_ind (ds.map toupper), ds.map toupper) := by
  have hU := (hex_map_toupper ds hds).1
  have hUne : ds.map toupper ≠ [] := by simpa using hne
  have hpre : ∀ p : Char, p = '(' ∨ p = '#' →
      ∀ c ∈ [p] ++ (if dollar then "$".toList else []),
        isspace c = false ∧ toupper c = c ∧ c.toNat ≠ 0 := by
    intro p hp c hc
    have hc' : c = p ∨ c = '$' := by
      cases dollar
      · simp at hc; exact Or.inl hc
      · simp at hc; exact hc
    rcases hc' with rfl | rfl
    · rcases hp with rfl | rfl <;> decide
    · decide
  have hsufs : ∀ suf ∈ [[], ",X)".toList, "),Y".toList, ")".toList],
      (∀ c ∈ suf, isspace c = false ∧ toupper c = c ∧ c.toNat ≠ 0) ∧
      suf.takeWhile (fun c => (hexValue c).isSome) = [] := by decide
  have buf : ∀ (p : Char) (suf : List Char), p = '(' ∨ p = '#' →
      suf ∈ [[], ",X)".toList, "),Y".toList, ")".toList] →
      ((((' ' :: ([p] ++ (if dollar then "$".toList else []) ++ ds ++ suf)).filter
        (fun c => !isspace c)).map toupper).takeWhile (fun c => c.toNat ≠ 0))
      = p :: ((if dollar then ['$'] else []) ++ ds.map toupper ++ suf) := by
    intro p suf hp hs
    rw [parseOperand_buffer_gen _ ds suf (hpre p hp) (hsufs suf hs).1 hds]
    cases dollar <;> rfl
  have e1 : "#".toList = ['#'] := rfl
  have e2 : "(".toList = ['('] := rfl
  have m1 : matchLiteral [',', 'X', ')'] ",X)".toList = some [] := by decide
  have m2 : matchLiteral [',', 'X', ')'] "),Y".toList = none := by decide
  have m3 : matchLiteral [',', 'X', ')'] ")".toList = none := by decide
  have m4 : matchLiteral [')', ',', 'Y'] "),Y".toList = some [] := by decide
  have m5 : matchLiteral [')', ',', 'Y'] ")".toList = none := by decide
  have m6 : matchLiteral [')'] ")".toList = some [] := by decide
  have m7 : matchLiteral [] ([] : List Char) = some [] := by decide
  have i1 : icaseEq '#' '(' = false := by decide
  have hparen : ∀ t : List Char, regexMatchHex ['#'] [] ('(' :: t) = none := by
    intro t
    simp [regexMatchHex, matchLiteral, i1]
  refine ⟨?_, ?_, ?_, ?_⟩
  · unfold parseOperand
    rw [e1]
    simp only [buf '#' [] (Or.inr rfl) (by decide)]
    rw [if_neg (List.cons_ne_nil _ _), if_neg (by
      intro h
      have := (List.cons.inj h).1
      exact absurd this (by decide))]
    rw [regexMatchHex_cons, regexMatchHex_digits [] _ [] _ hU hUne rfl, m7]
  · unfold parseOperand
    rw [e2]
    simp only [buf '(' _ (Or.inl rfl) (by decide : ",X)".toList ∈ _)]
    rw [if_neg (List.cons_ne_nil _ _), if_neg (by
      intro h
      have := (List.cons.inj h).1
      exact absurd this (by decide))]
    rw [hparen]
    simp only [regexMatchHex_no_digits '(' _ _ (Or.inl rfl)]
    rw [regexMatchHex_cons,
      regexMatchHex_digits _ _ _ _ hU hUne (hsufs _ (by decide : ",X)".toList ∈ _)).2, m1]
  · unfold parseOperand
    rw [e2]
    simp only [buf '(' _ (Or.inl rfl) (by decide : "),Y".toList ∈ _)]
    rw [if_neg (List.cons_ne_nil _ _), if_neg (by
      intro h
      have := (List.cons.inj h).1
      exact absurd this (by decide))]
    rw [hparen]
    simp only [regexMatchHex_no_digits '(' _ _ (Or.inl rfl)]
    rw [regexMatchHex_cons,
      regexMatchHex_digits _ _ _ _ hU hUne (hsufs _ (by decide : "),Y".toList ∈ _)).2, m2]
    simp only
    rw [regexMatchHex_cons,
      regexMatchHex_digits _ _ _ _ hU hUne (hsufs _ (by decide : "),Y".toList ∈ _)).2, m4]
  · unfold parseOperand
    rw [e2]
    simp only [buf '(' _ (Or.inl rfl) (by decide : ")".toList ∈ _)]
    rw [if_neg (List.cons_ne_nil _ _), if_neg (by
      intro h
      have := (List.cons.inj h).1
      exact absurd this (by decide))]
    rw [hparen]
    simp only [regexMatchHex_no_digits '(' _ _ (Or.inl rfl)]
    rw [regexMatchHex_cons,
      regexMatchHex_digits _ _ _ _ hU hUne (hsufs _ (by decide : ")".toList ∈ _)).2, m3]
    simp only
    rw [regexMatchHex_cons,
      regexMatchHex_digits _ _ _ _ hU hUne (hsufs _ (by decide : ")".toList ∈ _)).2, m5]
    simp only
    rw [regexMatchHex_cons,
      regexMatchHex_digits _ _ _ _ hU hUne (hsufs _ (by decide : ")".toList ∈ _)).2, m6]

/-- Claim C21: for every mnemonic (any text without white space), every `pc`
and every number written as hexadecimal digits with or without a dollar sign:
`Assemble` returns the invalid result when the operand is `#n`, `(n,X)` or
`(n),Y` with `n > $FF`, and when it is `n`, `n,X`, `n,Y` or `(n)` with
`n > $FFFF`. -/
theorem assemble_out_of_range (pc : Nat) (name ds pre suf : List Char) (dollar : Bool)
    (lim : Nat) (hne : name ≠ []) (hsp : ∀ c ∈ name, isspace c = false)
    (hds : ∀ c ∈ ds, (hexValue c).isSome = true) (hdne : ds ≠ [])
    (hshape : (pre, suf, lim) ∈ [("#".toList, [], 0xFF), ("(".toList, ",X)".toList, 0xFF),
      ("(".toList, "),Y".toList, 0xFF), ([], [], 0xFFFF), ([], ",X".toList, 0xFFFF),
      ([], ",Y".toList, 0xFFFF), ("(".toList, ")".toList, 0xFFFF)])
    (hbig : lim < hexNumber ds) :
    Assemble pc (name ++ " ".toList ++ pre ++ (if dollar then "$".toList else []) ++ ds ++ suf)
      = ⟨false, []⟩ := by
  obtain ⟨hU, hN⟩ := hex_map_toupper ds hds
  have hUne : ds.map toupper ≠ [] := by simpa using hdne
  obtain ⟨q1, q2, q3, q4⟩ := parseOperand_prefixed ds dollar hds hdne
  obtain ⟨p1, p2, p3⟩ := parseOperand_hex ds dollar hds hdne
  have hA : dollar = true ∨ ds.map toupper ≠ ['A'] := by
    right
    intro h
    have h10 : hexNumber (ds.map toupper) = 10 := by rw [h]; decide
    rw [hN] at h10
    simp only [List.mem_cons, Prod.mk.injEq, List.mem_singleton, List.not_mem_nil, or_false]
      at hshape
    rcases hshape with h | h | h | h | h | h | h <;> obtain ⟨_, _, rfl⟩ := h <;> omega
  have hchk : ∀ mode, (mode, lim) ∈ [(AddrMode.am_immediate, 0xFF), (AddrMode.am_ind_x, 0xFF),
      (AddrMode.am_ind_y, 0xFF), (AddrMode.am_abs, 0xFFFF), (AddrMode.am_abs_x, 0xFFFF),
      (AddrMode.am_abs_y, 0xFFFF), (AddrMode.am_ind, 0xFFFF)] →
      checkAddress mode (ds.map toupper) = .am_invalid :=
    fun mode hm => checkAddress_invalid mode lim _ hU hUne hm (by rw [hN]; exact hbig)
  have e1 : " ".toList = [' '] := rfl
  have e2 : "$".toList = ['$'] := rfl
  have e3 : ",X".toList = [',', 'X'] := rfl
  have e4 : ",Y".toList = [',', 'Y'] := rfl
  have htxt : name ++ " ".toList ++ pre ++ (if dollar then "$".toList else []) ++ ds ++ suf =
      name ++ ' ' :: (pre ++ (if dollar then "$".toList else []) ++ ds ++ suf) := by
    simp [e1]
  rw [htxt, Assemble_split pc _ _ hne hsp]
  simp only [List.mem_cons, Prod.mk.injEq, List.mem_singleton, List.not_mem_nil, or_false]
    at hshape
  rcases hshape with h | h | h | h | h | h | h <;> obtain ⟨rfl, rfl, rfl⟩ := h
  · rw [q1, hchk _ (by decide)]
    exact AssembleOperand_invalid _ _ _
  · rw [q2, hchk _ (by decide)]
    exact AssembleOperand_invalid _ _ _
  · rw [q3, hchk _ (by decide)]
    exact AssembleOperand_invalid _ _ _
  · rw [List.nil_append, e2, p1 hA, hchk _ (by decide)]
    exact AssembleOperand_invalid _ _ _
  · rw [List.nil_append, e2, e3, p2, hchk _ (by decide)]
    exact AssembleOperand_invalid _ _ _
  · rw [List.nil_append, e2, e4, p3, hchk _ (by decide)]
    exact AssembleOperand_invalid _ _ _
  · rw [q4, hchk _ (by decide)]
    exact AssembleOperand_invalid _ _ _

/-- Witness for C21: `LDA #$100`, `LDA ($100,X)`, `JMP ($10000)` and
`STA 10000,X` are rejected. -/
theorem assemble_out_of_range_witness :
    Assemble 0 "LDA #$100".toList = ⟨false, []⟩ ∧
    Assemble 0 "LDA ($100,X)".toList = ⟨false, []⟩ ∧
    Assemble 0 "JMP ($10000)".toList = ⟨false, []⟩ ∧
    Assemble 0 "STA 10000,X".toList = ⟨false, []⟩ :=
  ⟨assemble_out_of_range 0 "LDA".toList "100".toList "#".toList [] true 0xFF (by decide)
      (by decide) (by decide) (by decide) (by decide) (by decide),
   assemble_out_of_range 0 "LDA".toList "100".toList "(".toList ",X)".toList true 0xFF (by decide)
      (by decide) (by decide) (by decide) (by decide) (by decide),
   assemble_out_of_range 0 "JMP".toList "10000".toList "(".toList ")".toList true 0xFFFF
      (by decide) (by decide) (by decide) (by decide) (by decide) (by decide),
   assemble_out_of_range 0 "STA".toList "10000".toList [] ",X".toList false 0xFFFF
      (by decide) (by decide) (by decide) (by decide) (by decide) (by decide)⟩

/-! ## Hexadecimal text -/

/-- The value of a string of digits followed by another. -/
theorem hexNumber_append (a b : List Char) :
    hexNumber (a ++ b) = hexNumber a * 16 ^ b.length + hexNumber b := by
  unfold hexNumber
  suffices H : ∀ (b : List Char) (x : Nat),
      List.foldl (fun acc c => acc * 16 + (hexValue c).getD 0) x b
        = x * 16 ^ b.length + List.foldl (fun acc c => acc * 16 + (hexValue c).getD 0) 0 b by
    rw [List.foldl_append, H b]
  intro b
  induction b with
  | nil => intro x; simp
  | cons c cs ih =>
    intro x
    simp only [List.foldl_cons, List.length_cons]
    rw [ih, ih (0 * 16 + (hexValue c).getD 0)]
    ring

/-- The conversion `%02X` of a byte is the byte in two uppercase digits. -/
theorem fmt02X_isHexText : ∀ b < 256, isHexText 2 b (fmt02X b) = true := by decide!

/-- The conversion `%04X` is `%02X` of the high byte and of the low byte. -/
theorem fmt04X_split (w : Nat) : fmt04X w = fmt02X (w / 256 % 256) ++ fmt02X (w % 256) := by
  unfold fmt04X fmt02X
  have h1 : w / 256 % 256 / 16 % 16 = w / 4096 % 16 := by omega
  have h2 : w / 256 % 256 % 16 = w / 256 % 16 := by omega
  have h3 : w % 256 / 16 % 16 = w / 16 % 16 := by omega
  have h4 : w % 256 % 16 = w % 16 := by omega
  rw [h1, h2, h3, h4]
  rfl

/-- Two texts of bytes side by side are the text of the 16-bit number. -/
theorem isHexText_append (hi lo : Nat) (a b : List Char)
    (ha : isHexText 2 hi a = true) (hb : isHexText 2 lo b = true) :
    isHexText 4 (hi * 256 + lo) (a ++ b) = true := by
  unfold isHexText at ha hb ⊢
  simp only [Bool.and_eq_true, beq_iff_eq, List.all_eq_true] at ha hb ⊢
  obtain ⟨⟨ha1, ha2⟩, ha3⟩ := ha
  obtain ⟨⟨hb1, hb2⟩, hb3⟩ := hb
  refine ⟨⟨?_, ?_⟩, ?_⟩
  · rw [List.length_append, ha1, hb1]
  · intro c hc
    rcases List.mem_append.mp hc with h | h
    · exact ha2 c h
    · exact hb2 c h
  · rw [hexNumber_append, ha3, hb3, hb1]; norm_num

/-- The conversion `%04X` of a 16-bit number is the number in four uppercase
digits. -/
theorem fmt04X_isHexText (w : Nat) (hw : w < 65536) : isHexText 4 w (fmt04X w) = true := by
  rw [fmt04X_split]
  have h := isHexText_append (w / 256 % 256) (w % 256) _ _
    (fmt02X_isHexText _ (Nat.mod_lt _ (by decide))) (fmt02X_isHexText _ (Nat.mod_lt _ (by decide)))
  have e : w / 256 % 256 * 256 + w % 256 = w := by omega
  rw [e] at h
  exact h

/-! ## C22: the disassembler -/

/-- Masking an address taken modulo `2^64` is masking the address, for a mask
of 64 bits. -/
theorem and_mod_two_pow_64 (x mask : Nat) (h : mask < 2 ^ 64) :
    (x % 2 ^ 64) &&& mask = x &&& mask := by
  apply Nat.eq_of_testBit_eq
  intro i
  rw [Nat.testBit_and, Nat.testBit_and, Nat.testBit_mod_two_pow]
  by_cases hi : i < 64
  · simp [hi]
  · have : mask.testBit i = false := by
      apply Nat.testBit_eq_false_of_lt
      calc mask < 2 ^ 64 := h
        _ ≤ 2 ^ i := Nat.pow_le_pow_right (by decide) (by omega)
    simp [this]

theorem Memory.Peek8_mod (m : Memory) (h : m.mask < 2 ^ 64) (x : Nat) :
    m.Peek8 (x % 2 ^ 64) = m.Peek8 x := by
  unfold Memory.Peek8
  rw [and_mod_two_pow_64 x m.mask h]

theorem Memory.Peek8_lt (m : Memory) (a : Nat) : m.Peek8 a < 256 := by
  unfold Memory.Peek8; split <;> omega

/-- The target the disassembler prints for a branch is the address after the
instruction plus the signed offset, modulo `2^16`. -/
theorem rel_target (address b : Nat) (hb : b < 256) :
    (address + 2 + ((b ^^^ 0x80) + (65536 - 0x80)) % 65536) % 65536
      = (((address : Int) + 2 + signExtend b) % 65536).toNat := by
  rw [byte_xor_80 b hb]
  unfold signExtend
  split <;> omega

/-- Claim C22: for every memory (with a 64-bit mask) and address, with `b1`
and `b2` the bytes peeked at `address + 1` and `address + 2`, written `x1` and
`x2` as two uppercase hexadecimal digits, `xop` the opcode written so, and
`xt` the four digits of `(address + 2 + sign_extend(b1)) mod 2^16`:
`Disassemble` returns the text and the byte count of the table for the mode of
the opcode. -/
theorem disassemble_table (s : CPU6502Impl) (address : Nat) (hmask : s.memory.mask < 2 ^ 64) :
    ∃ xop x1 x2 xt : List Char,
      isHexText 2 (s.memory.Peek8 address) xop = true ∧
      isHexText 2 (s.memory.Peek8 (address + 1)) x1 = true ∧
      isHexText 2 (s.memory.Peek8 (address + 2)) x2 = true ∧
      isHexText 4 (((address : Int) + 2 + signExtend (s.memory.Peek8 (address + 1))) % 65536).toNat
        xt = true ∧
      ((instructions (s.memory.Peek8 address)).addr_mode = .am_invalid →
        Disassemble s address = ⟨"??? $".toList ++ xop, 1⟩) ∧
      ((instructions (s.memory.Peek8 address)).addr_mode = .am_implied →
        Disassemble s address = ⟨(instructions (s.memory.Peek8 address)).name, 1⟩) ∧
      ((instructions (s.memory.Peek8 address)).addr_mode = .am_acc →
        Disassemble s address =
          ⟨(instructions (s.memory.Peek8 address)).name ++ " A".toList, 1⟩) ∧
      ((instructions (s.memory.Peek8 address)).addr_mode = .am_immediate →
        Disassemble s address =
          ⟨(instructions (s.memory.Peek8 address)).name ++ " #$".toList ++ x1, 2⟩) ∧
      ((instructions (s.memory.Peek8 address)).addr_mode = .am_zp →
        Disassemble s address =
          ⟨(instructions (s.memory.Peek8 address)).name ++ " $".toList ++ x1, 2⟩) ∧
      ((instructions (s.memory.Peek8 address)).addr_mode = .am_zp_x →
        Disassemble s address =
          ⟨(instructions (s.memory.Peek8 address)).name ++ " $".toList ++ x1 ++ ",X".toList, 2⟩) ∧
      ((instructions (s.memory.Peek8 address)).addr_mode = .am_zp_y →
        Disassemble s address =
          ⟨(instructions (s.memory.Peek8 address)).name ++ " $".toList ++ x1 ++ ",Y".toList, 2⟩) ∧
      ((instructions (s.memory.Peek8 address)).addr_mode = .am_abs →
        Disassemble s address =
          ⟨(instructions (s.memory.Peek8 address)).name ++ " $".toList ++ x2 ++ x1, 3⟩) ∧
      ((instructions (s.memory.Peek8 address)).addr_mode = .am_abs_x →
        Disassemble s address =
          ⟨(instructions (s.memory.Peek8 address)).name ++ " $".toList ++ x2 ++ x1
            ++ ",X".toList, 3⟩) ∧
      ((instructions (s.memory.Peek8 address)).addr_mode = .am_abs_y →
        Disassemble s address =
          ⟨(instructions (s.memory.Peek8 address)).name ++ " $".toList ++ x2 ++ x1
            ++ ",Y".toList, 3⟩) ∧
      ((instructions (s.memory.Peek8 address)).addr_mode = .am_ind →
        Disassemble s address =
          ⟨(instructions (s.memory.Peek8 address)).name ++ " ($".toList ++ x2 ++ x1
            ++ ")".toList, 3⟩) ∧
      ((instructions (s.memory.Peek8 address)).addr_mode = .am_ind_x →
        Disassemble s address =
          ⟨(instructions (s.memory.Peek8 address)).name ++ " ($".toList ++ x1
            ++ ",X)".toList, 2⟩) ∧
      ((instructions (s.memory.Peek8 address)).addr_mode = .am_ind_y →
        Disassemble s address =
          ⟨(instructions (s.memory.Peek8 address)).name ++ " ($".toList ++ x1
            ++ "),Y".toList, 2⟩) ∧
      ((instructions (s.memory.Peek8 address)).addr_mode = .am_rel →
        Disassemble s address =
          ⟨(instructions (s.memory.Peek8 address)).name ++ " $".toList ++ xt, 2⟩) := by
  have h1 := Memory.Peek8_mod s.memory hmask (address + 1)
  have h2 := Memory.Peek8_mod s.memory hmask (address + 2)
  have hb1 := Memory.Peek8_lt s.memory (address + 1)
  have ht := rel_target address _ hb1
  refine ⟨fmt02X (s.memory.Peek8 address), fmt02X (s.memory.Peek8 (address + 1)),
    fmt02X (s.memory.Peek8 (address + 2)),
    fmt04X ((((address : Int) + 2 + signExtend (s.memory.Peek8 (address + 1))) % 65536).toNat),
    fmt02X_isHexText _ (Memory.Peek8_lt _ _), fmt02X_isHexText _ hb1,
    fmt02X_isHexText _ (Memory.Peek8_lt _ _), fmt04X_isHexText _ (by omega),
    ?_, ?_, ?_, ?_, ?_, ?_, ?_, ?_, ?_, ?_, ?_, ?_, ?_, ?_⟩
  all_goals
    intro hm
    unfold Disassemble
    simp only [hm, h1, h2, ht]

/-- Witness for C22: `BEQ` with offset `$FC` at `$1000` is `BEQ $0FFE`, 2
bytes, and the undocumented opcode `$02` is `??? $02`, 1 byte. -/
theorem disassemble_table_witness :
    (∃ xop x1 x2 xt : List Char,
      isHexText 2 ((machineAt 0x1000 [0xF0, 0xFC]).memory.Peek8 0x1000) xop = true ∧
      isHexText 2 ((machineAt 0x1000 [0xF0, 0xFC]).memory.Peek8 (0x1000 + 1)) x1 = true ∧
      isHexText 2 ((machineAt 0x1000 [0xF0, 0xFC]).memory.Peek8 (0x1000 + 2)) x2 = true ∧
      isHexText 4 (((0x1000 : Int) + 2 +
        signExtend ((machineAt 0x1000 [0xF0, 0xFC]).memory.Peek8 (0x1000 + 1))) % 65536).toNat
        xt = true ∧
      Disassemble (machineAt 0x1000 [0xF0, 0xFC]) 0x1000 = ⟨"BEQ".toList ++ " $".toList ++ xt, 2⟩) ∧
    Disassemble (machineAt 0x1000 [0xF0, 0xFC]) 0x1000 = ⟨"BEQ $0FFE".toList, 2⟩ ∧
    Disassemble (machineAt 0x1000 [0x02]) 0x1000 = ⟨"??? $02".toList, 1⟩ := by
  refine ⟨?_, by decide!, by decide!⟩
  obtain ⟨xop, x1, x2, xt, h1, h2, h3, h4, h⟩ :=
    disassemble_table (machineAt 0x1000 [0xF0, 0xFC]) 0x1000 (by decide!)
  exact ⟨xop, x1, x2, xt, h1, h2, h3, h4, h.2.2.2.2.2.2.2.2.2.2.2.2.2 (by decide!)⟩

/-! ## C23: the memory -/

/-- Claim C23: for a memory of size `n` with mask `m` and a byte `v`: `Read8`
and `Peek8` agree and return the stored byte at `a & m` when `a & m < n` and
`$FF` otherwise; `Write8` and `Load8` agree, leave the memory as it is when
`a & m` is not below `n`, and otherwise set the byte at `a & m` to `v` and
change nothing else; after `Write8(a, v)` a read at `b` gives `v` when
`b & m = a & m < n` and gives what it gave before when `b & m` differs from
`a & m`. -/
theorem memory_read_write (m : Memory) (a b v : Nat) (hv : v < 256) :
    m.Peek8 a = m.Read8 a ∧
    (a &&& m.mask < m.size → m.Read8 a = m.bytes (a &&& m.mask) % 256) ∧
    (¬ a &&& m.mask < m.size → m.Read8 a = 0xFF) ∧
    m.Load8 a v = m.Write8 a v ∧
    (¬ a &&& m.mask < m.size → m.Write8 a v = m) ∧
    (a &&& m.mask < m.size →
      (m.Write8 a v).size = m.size ∧ (m.Write8 a v).mask = m.mask ∧
      (m.Write8 a v).bytes (a &&& m.mask) = v ∧
      ∀ i, i ≠ a &&& m.mask → (m.Write8 a v).bytes i = m.bytes i) ∧
    (b &&& m.mask = a &&& m.mask → a &&& m.mask < m.size → (m.Write8 a v).Read8 b = v) ∧
    (b &&& m.mask ≠ a &&& m.mask → (m.Write8 a v).Read8 b = m.Read8 b) := by
  have hvm : v % 256 = v := Nat.mod_eq_of_lt hv
  refine ⟨rfl, ?_, ?_, rfl, ?_, ?_, ?_, ?_⟩
  · intro h
    unfold Memory.Read8
    rw [if_pos h]
  · intro h
    unfold Memory.Read8
    rw [if_neg h]
  · intro h
    unfold Memory.Write8
    rw [if_neg h]
  · intro h
    unfold Memory.Write8
    rw [if_pos h]
    refine ⟨rfl, rfl, ?_, ?_⟩
    · simp [hvm]
    · intro i hi
      simp [hi]
  · intro hba h
    unfold Memory.Read8 Memory.Write8
    rw [if_pos h]
    simp only
    rw [hba, if_pos h, if_pos rfl, hvm, hvm]
  · intro hba
    unfold Memory.Read8 Memory.Write8
    split
    · simp only
      rw [if_neg hba]
    · rfl

/-- Witness for C23 on a 64K memory: after `Write8($12345, $AB)` the byte is
read back at `$2345`, and the byte at `$2346` is as before. -/
theorem memory_read_write_witness :
    ((Memory.new 65536).Write8 0x12345 0xAB).Read8 0x2345 = 0xAB ∧
    ((Memory.new 65536).Write8 0x12345 0xAB).Read8 0x2346 = (Memory.new 65536).Read8 0x2346 :=
  ⟨(memory_read_write (Memory.new 65536) 0x12345 0x2345 0xAB (by decide)).2.2.2.2.2.2.1
      (by decide!) (by decide!),
   (memory_read_write (Memory.new 65536) 0x12345 0x2346 0xAB (by decide)).2.2.2.2.2.2.2
      (by decide!)⟩

/-! ## C24: the breakpoint set -/

/-- Claim C24: for every breakpoint set, address `a` (a `std::uint64_t`) and
count `n`, `HasBreakpoint(a, n)` is true iff some `i < n` has `a + i` in the
set, the sum being taken in 64 bits (it is the plain sum when `a + n` does
not pass `2^64`), so it is false for `n = 0`; after `SetBreakpoint(a)`,
`HasBreakpoint(a, 1)` is true; after `ClearBreakpoint(a)` it is false; and
neither changes whether any other address is in the set. -/
theorem breakpoint_set (s : CPU6502Impl) (a n : Nat) (ha : a < 2 ^ 64) :
    (CPU.HasBreakpoint a n s = true ↔ ∃ i, i < n ∧ (a + i) % 2 ^ 64 ∈ s.breakpoints) ∧
    (a + n ≤ 2 ^ 64 → (CPU.HasBreakpoint a n s = true ↔ ∃ i, i < n ∧ a + i ∈ s.breakpoints)) ∧
    CPU.HasBreakpoint a 0 s = false ∧
    CPU.HasBreakpoint a 1 (CPU.SetBreakpoint a s) = true ∧
    CPU.HasBreakpoint a 1 (CPU.ClearBreakpoint a s) = false ∧
    (∀ b, b ≠ a → (b ∈ (CPU.SetBreakpoint a s).breakpoints ↔ b ∈ s.breakpoints)) ∧
    (∀ b, b ≠ a → (b ∈ (CPU.ClearBreakpoint a s).breakpoints ↔ b ∈ s.breakpoints)) := by
  have hiff : CPU.HasBreakpoint a n s = true ↔ ∃ i, i < n ∧ (a + i) % 2 ^ 64 ∈ s.breakpoints := by
    unfold CPU.HasBreakpoint
    simp [List.any_eq_true, List.mem_range]
  have ham : (a + 0) % 2 ^ 64 = a := by
    rw [Nat.add_zero]; exact Nat.mod_eq_of_lt ha
  have hr1 : List.range 1 = [0] := rfl
  refine ⟨hiff, ?_, ?_, ?_, ?_, ?_, ?_⟩
  · intro hn
    rw [hiff]
    constructor
    · rintro ⟨i, hi, hm⟩
      exact ⟨i, hi, by rwa [Nat.mod_eq_of_lt (by omega)] at hm⟩
    · rintro ⟨i, hi, hm⟩
      exact ⟨i, hi, by rwa [Nat.mod_eq_of_lt (by omega)]⟩
  · rfl
  · unfold CPU.HasBreakpoint CPU.SetBreakpoint
    rw [hr1]
    simp only [List.any_cons, List.any_nil, Bool.or_false, ham, decide_eq_true_eq]
    split
    · assumption
    · exact List.mem_cons_self _ _
  · unfold CPU.HasBreakpoint CPU.ClearBreakpoint
    rw [hr1]
    simp only [List.any_cons, List.any_nil, Bool.or_false, ham, decide_eq_false_iff_not,
      List.mem_filter]
    rintro ⟨_, h⟩
    simp at h
  · intro b hb
    unfold CPU.SetBreakpoint
    simp only
    split
    · rfl
    · simp [hb]
  · intro b hb
    unfold CPU.ClearBreakpoint
    simp [hb]

/-- Witness for C24: with breakpoints at `$0602` and `$0700`, the three bytes
from `$0600` hold a breakpoint and the two bytes from `$0600` do not. -/
theorem breakpoint_set_witness :
    (CPU.HasBreakpoint 0x0600 3
        (CPU.SetBreakpoint 0x0700 (CPU.SetBreakpoint 0x0602 (machineAt 0x0600 []))) = true ↔
      ∃ i, i < 3 ∧ 0x0600 + i ∈
        (CPU.SetBreakpoint 0x0700 (CPU.SetBreakpoint 0x0602 (machineAt 0x0600 []))).breakpoints) ∧
    CPU.HasBreakpoint 0x0600 3
        (CPU.SetBreakpoint 0x0700 (CPU.SetBreakpoint 0x0602 (machineAt 0x0600 []))) = true ∧
    CPU.HasBreakpoint 0x0600 2
        (CPU.SetBreakpoint 0x0700 (CPU.SetBreakpoint 0x0602 (machineAt 0x0600 []))) = false :=
  ⟨(breakpoint_set _ 0x0600 3 (by decide)).2.1 (by decide), by decide, by decide⟩

/-! ## The instructions that `ToReturn` runs -/

/-- The byte difference `reg_s - saved_s` of `ToReturn` is the difference of
the two numbers modulo 256. -/
theorem delta_s_eq (r saved : Nat) :
    (((r + (256 - saved % 256)) % 256 : Nat) : Int) = ((r : Int) - (saved : Int)) % 256 := by
  omega

/-- One more `Step` after `stepTimes`. -/
theorem stepTimes_succ (s s1 : CPU6502Impl) (h : CPU6502.Step s = Outcome.returned () s1)
    (n : Nat) : stepTimes (n + 1) s = stepTimes n s1 := by
  simp only [stepTimes, h]

/-- The loop of `ToReturn`: when it ends, with a return or with an exception,
it has run `n + 1` instructions for some `n` below the bound: those at `s` and
at the states after 1, ..., `n` steps.  Its outcome is that of the last of
these steps.  Each state after 1, ..., `n` steps had no breakpoint on its
instruction and a stack pointer with `(S - saved_s) mod 256` equal to 0 or
above 3; the state `s` itself was not looked at.  When the loop returns, the
last state has a breakpoint on its instruction or `(S - saved_s) mod 256` in
1..3. -/
theorem ToReturnLoop_trace (saved : Nat) : ∀ (fuel : Nat) (s : CPU6502Impl) (out : Outcome Unit),
    CPU6502.ToReturnLoop saved fuel s = some out →
    ∃ n t, n < fuel ∧ stepTimes n s = some t ∧ CPU6502.Step t = out ∧
      (∀ k u, 1 ≤ k → k ≤ n → stepTimes k s = some u →
        u.HasBreakpoint = false ∧
        (((u.reg_s : Int) - saved) % 256 = 0 ∨ ((u.reg_s : Int) - saved) % 256 > 3)) ∧
      (∀ s1, out = Outcome.returned () s1 →
        s1.HasBreakpoint = true ∨
        (1 ≤ ((s1.reg_s : Int) - saved) % 256 ∧ ((s1.reg_s : Int) - saved) % 256 ≤ 3)) := by
  intro fuel
  induction fuel with
  | zero => intro s out h; simp [CPU6502.ToReturnLoop] at h
  | succ fuel ih =>
    intro s out h
    unfold CPU6502.ToReturnLoop at h
    cases hstep : CPU6502.Step s with
    | threw e s1 =>
      rw [hstep] at h
      simp only [Option.some.injEq] at h
      refine ⟨0, s, Nat.succ_pos _, rfl, by rw [hstep, h], ?_, ?_⟩
      · intro k u h1 h2; omega
      · intro s1 hs1; rw [← h] at hs1; cases hs1
    | returned v s1 =>
      rw [hstep] at h
      simp only at h
      by_cases hb : s1.HasBreakpoint = true
      · rw [if_pos hb] at h
        simp only [Option.some.injEq] at h
        refine ⟨0, s, Nat.succ_pos _, rfl, by rw [hstep, ← h], ?_, ?_⟩
        · intro k u h1 h2; omega
        · intro s2 hs2
          rw [← h] at hs2
          cases hs2
          exact Or.inl hb
      · rw [if_neg hb] at h
        have hd := delta_s_eq s1.reg_s saved
        by_cases hc : (s1.reg_s + (256 - saved % 256)) % 256 = 0
            ∨ (s1.reg_s + (256 - saved % 256)) % 256 > 3
        · rw [if_pos hc] at h
          obtain ⟨n, t, hn, ht, hout, hmid, hfin⟩ := ih s1 out h
          refine ⟨n + 1, t, Nat.succ_lt_succ hn, ?_, hout, ?_, hfin⟩
          · rw [stepTimes_succ s s1 hstep, ht]
          · intro k u h1 h2 hk
            obtain ⟨j, rfl⟩ : ∃ j, k = j + 1 := ⟨k - 1, by omega⟩
            rw [stepTimes_succ s s1 hstep] at hk
            cases j with
            | zero =>
              simp only [stepTimes, Option.some.injEq] at hk
              subst hk
              refine ⟨by simpa using hb, ?_⟩
              omega
            | succ j => exact hmid (j + 1) u (by omega) (by omega) hk
        · rw [if_neg hc] at h
          simp only [Option.some.injEq] at h
          refine ⟨0, s, Nat.succ_pos _, rfl, by rw [hstep, ← h], ?_, ?_⟩
          · intro k u h1 h2; omega
          · intro s2 hs2
            rw [← h] at hs2
            cases hs2
            right
            omega

/-! ## C25: `ToReturn` and a breakpoint on the first instruction -/

/-- Claim C25 (counterexample): RTS at `$4010` with a breakpoint set on
`$4010` and PC = `$4010`.  A breakpoint covers the instruction at PC, yet
`ToReturn` executes it: it returns with PC = `$0001`, S = 2 and 6 cycles
counted, whatever the bound on the number of steps. -/
theorem to_return_runs_first_counterexample :
    (CPU.SetBreakpoint 0x4010 (machineAt 0x4010 [0x60])).HasBreakpoint = true ∧
    (CPU.SetBreakpoint 0x4010 (machineAt 0x4010 [0x60])).reg_pc = 0x4010 ∧
    ∀ fuel, ∃ s1,
      CPU6502.ToReturn (fuel + 1) (CPU.SetBreakpoint 0x4010 (machineAt 0x4010 [0x60]))
        = some (Outcome.returned () s1) ∧
      s1.reg_pc = 0x0001 ∧ s1.reg_s = 2 ∧ s1.emu_cycles = 6 := by
  refine ⟨by decide!, by decide!, ?_⟩
  intro fuel
  refine ⟨(CPU6502.Step (CPU.SetBreakpoint 0x4010 (machineAt 0x4010 [0x60]))).state,
    ?_, by decide!, by decide!, by decide!⟩
  rfl

/-- Claim C25 (amended): `ToReturn` executes the instruction at the PC it is
invoked with without looking at the breakpoints; the check is made after each
step, at the new PC.  When the call ends, with a return or an exception, it
has executed the instructions at `s` and at the states after 1, ..., `n`
steps, its outcome is that of the last of these steps, and each of the states
after 1, ..., `n` steps had no breakpoint on its instruction.  Nothing is
asked of `s` itself. -/
theorem to_return_checks_after_step (fuel : Nat) (s : CPU6502Impl) (out : Outcome Unit)
    (h : CPU6502.ToReturn fuel s = some out) :
    ∃ n t, n < fuel ∧ stepTimes n s = some t ∧ CPU6502.Step t = out ∧
      ∀ k u, 1 ≤ k → k ≤ n → stepTimes k s = some u → u.HasBreakpoint = false := by
  obtain ⟨n, t, hn, ht, hout, hmid, _⟩ := ToReturnLoop_trace s.reg_s fuel s out h
  exact ⟨n, t, hn, ht, hout, fun k u h1 h2 hk => (hmid k u h1 h2 hk).1⟩

/-- Witness for C25: NOP at `$0600`, RTS at `$0601`, a breakpoint on `$0600`
and PC = `$0600`; `ToReturn` runs both instructions. -/
theorem to_return_checks_after_step_witness :
    ∃ n t, n < 2 ∧
      stepTimes n (CPU.SetBreakpoint 0x0600 (machineAt 0x0600 [0xEA, 0x60])) = some t ∧
      CPU6502.Step t = CPU6502.Step
        (CPU6502.Step (CPU.SetBreakpoint 0x0600 (machineAt 0x0600 [0xEA, 0x60]))).state ∧
      ∀ k u, 1 ≤ k → k ≤ n →
        stepTimes k (CPU.SetBreakpoint 0x0600 (machineAt 0x0600 [0xEA, 0x60])) = some u →
        u.HasBreakpoint = false :=
  to_return_checks_after_step 2 (CPU.SetBreakpoint 0x0600 (machineAt 0x0600 [0xEA, 0x60]))
    (CPU6502.Step (CPU6502.Step (CPU.SetBreakpoint 0x0600 (machineAt 0x0600 [0xEA, 0x60]))).state)
    rfl

/-! ## C26: when `ToReturn` stops -/

/-- Claim C26: when `ToReturn` returns from a state `s` in the state `s1`,
then `s1` is the state after `n + 1` steps from `s` for some `n`; `s1` has a
breakpoint on the instruction at PC or `(S - S0) mod 256` is 1, 2 or 3, where
`S0` is the stack pointer of `s`; and every state in between, after 1, ...,
`n` steps, had no breakpoint on the instruction at PC and `(S - S0) mod 256`
equal to 0 or above 3. -/
theorem to_return_stops (fuel : Nat) (s s1 : CPU6502Impl)
    (h : CPU6502.ToReturn fuel s = some (Outcome.returned () s1)) :
    ∃ n, n < fuel ∧ stepTimes (n + 1) s = some s1 ∧
      (s1.HasBreakpoint = true ∨
        (1 ≤ ((s1.reg_s : Int) - s.reg_s) % 256 ∧ ((s1.reg_s : Int) - s.reg_s) % 256 ≤ 3)) ∧
      ∀ k u, 1 ≤ k → k ≤ n → stepTimes k s = some u →
        u.HasBreakpoint = false ∧
        (((u.reg_s : Int) - s.reg_s) % 256 = 0 ∨ ((u.reg_s : Int) - s.reg_s) % 256 > 3) := by
  obtain ⟨n, t, hn, ht, hout, hmid, hfin⟩ := ToReturnLoop_trace s.reg_s fuel s _ h
  refine ⟨n, hn, ?_, hfin s1 rfl, hmid⟩
  have key : ∀ (m : Nat) (a b c : CPU6502Impl), stepTimes m a = some b →
      CPU6502.Step b = Outcome.returned () c → stepTimes (m + 1) a = some c := by
    intro m
    induction m with
    | zero =>
      intro a b c hab hbc
      simp only [stepTimes, Option.some.injEq] at hab
      subst hab
      simp only [stepTimes, hbc]
    | succ m ih =>
      intro a b c hab hbc
      cases hs : CPU6502.Step a with
      | threw e a1 => simp only [stepTimes, hs] at hab; cases hab
      | returned v a1 =>
        rw [stepTimes_succ a a1 hs] at hab ⊢
        exact ih a1 b c hab hbc
  exact key n s t s1 ht hout

/-- Witness for C26: NOP at `$0600`, RTS at `$0601`, no breakpoint, S = 0.
After the NOP the difference is 0 and the loop goes on; after the RTS it is 2
and the loop stops. -/
theorem to_return_stops_witness :
    ∃ n, n < 2 ∧
      stepTimes (n + 1) (machineAt 0x0600 [0xEA, 0x60]) =
        some (CPU6502.Step (CPU6502.Step (machineAt 0x0600 [0xEA, 0x60])).state).state ∧
      ((CPU6502.Step (CPU6502.Step (machineAt 0x0600 [0xEA, 0x60])).state).state.HasBreakpoint
          = true ∨
        (1 ≤ (((CPU6502.Step (CPU6502.Step (machineAt 0x0600 [0xEA, 0x60])).state).state.reg_s
            : Int) - (machineAt 0x0600 [0xEA, 0x60]).reg_s) % 256 ∧
         (((CPU6502.Step (CPU6502.Step (machineAt 0x0600 [0xEA, 0x60])).state).state.reg_s
            : Int) - (machineAt 0x0600 [0xEA, 0x60]).reg_s) % 256 ≤ 3)) ∧
      ∀ k u, 1 ≤ k → k ≤ n → stepTimes k (machineAt 0x0600 [0xEA, 0x60]) = some u →
        u.HasBreakpoint = false ∧
        (((u.reg_s : Int) - (machineAt 0x0600 [0xEA, 0x60]).reg_s) % 256 = 0 ∨
          ((u.reg_s : Int) - (machineAt 0x0600 [0xEA, 0x60]).reg_s) % 256 > 3) :=
  to_return_stops 2 (machineAt 0x0600 [0xEA, 0x60])
    (CPU6502.Step (CPU6502.Step (machineAt 0x0600 [0xEA, 0x60])).state).state rfl

/-! ## C27: `Next` -/

/-- With an empty breakpoint set no instruction has a breakpoint. -/
theorem CPU6502Impl.HasBreakpoint_nil (s : CPU6502Impl) (h : s.breakpoints = []) :
    s.HasBreakpoint = false := by
  unfold CPU6502Impl.HasBreakpoint CPU.HasBreakpoint
  simp [h]

/-- On a 64K memory, JSR `t` at `a` followed by RTS at `t`: the two steps with
the states they leave, whose breakpoint set is that of the start. -/
theorem DoStep_JSR_RTS (s : CPU6502Impl) (a t : Nat)
    (hsize : s.memory.size = 65536) (hmask : s.memory.mask = 0xFFFF)
    (hpc : s.reg_pc = a) (ha : a < 65536) (hS : s.reg_s < 256)
    (hjsr : s.memory.Read8 a = 0x20)
    (ht : s.memory.Read8 ((a + 2) % 65536) * 0x100 + s.memory.Read8 ((a + 1) % 65536) = t)
    (hrts : s.memory.Read8 t = 0x60)
    (hne1 : t ≠ 0x0100 + (s.reg_s + 255) % 256)
    (hne2 : t ≠ 0x0100 + (s.reg_s + 254) % 256) :
    ∃ s1 s2, DoStep s = Outcome.returned true s1 ∧
      s1.reg_pc = t ∧ s1.reg_s = (s.reg_s + 254) % 256 ∧ s1.breakpoints = s.breakpoints ∧
      DoStep s1 = Outcome.returned false s2 ∧
      s2.reg_pc = (a + 3) % 65536 ∧ s2.reg_s = s.reg_s ∧ s2.breakpoints = s.breakpoints := by
  subst hpc
  have hlo : s.memory.Read8 ((s.reg_pc + 1) % 65536) < 256 := Memory.Read8_lt _ _
  have hhi : s.memory.Read8 ((s.reg_pc + 2) % 65536) < 256 := Memory.Read8_lt _ _
  have ht16 : t < 65536 := by omega
  have hpc2 : ((s.reg_pc + 1) % 65536 + 1) % 65536 = (s.reg_pc + 2) % 65536 := by omega
  have hstep1 : DoStep s = Outcome.returned true
      { s with
        reg_s := (s.reg_s + 254) % 256
        reg_pc := t
        emu_cycles := (s.emu_cycles + 6) % 2 ^ 64
        memory := (s.memory.Write8 (0x0100 + (s.reg_s + 255) % 256)
            (((s.reg_pc + 2) % 65536) >>> 8)).Write8 (0x0100 + (s.reg_s + 254) % 256)
            ((s.reg_pc + 2) % 65536 &&& 0xFF) } := by
    unfold DoStep
    simp only [hjsr, instructions_20, callHandler]
    unfold do_JSR PushByte
    simp only [hpc2, ht]
    have h1 : ((s.reg_s + 255) % 256 + 255) % 256 = (s.reg_s + 254) % 256 := by omega
    have h2 : t % 65536 = t := Nat.mod_eq_of_lt ht16
    rw [h1, h2]
    rfl
  have hm1 : ((s.memory.Write8 (0x0100 + (s.reg_s + 255) % 256)
      (((s.reg_pc + 2) % 65536) >>> 8)).Write8 (0x0100 + (s.reg_s + 254) % 256)
      ((s.reg_pc + 2) % 65536 &&& 0xFF)).Read8 t = 0x60 := by
    rw [Memory.Read8_Write8 _ (by rw [Memory.Write8_size]; exact hsize)
      (by rw [Memory.Write8_mask]; exact hmask) _ _ _ (by omega) ht16, if_neg hne2,
      Memory.Read8_Write8 _ hsize hmask _ _ _ (by omega) ht16, if_neg hne1, hrts]
  have hm2 : ((s.memory.Write8 (0x0100 + (s.reg_s + 255) % 256)
      (((s.reg_pc + 2) % 65536) >>> 8)).Write8 (0x0100 + (s.reg_s + 254) % 256)
      ((s.reg_pc + 2) % 65536 &&& 0xFF)).Read8 (0x0100 + (s.reg_s + 254) % 256)
      = ((s.reg_pc + 2) % 65536 &&& 0xFF) % 256 := by
    rw [Memory.Read8_Write8 _ (by rw [Memory.Write8_size]; exact hsize)
      (by rw [Memory.Write8_mask]; exact hmask) _ _ _ (by omega) (by omega), if_pos rfl]
  have hm3 : ((s.memory.Write8 (0x0100 + (s.reg_s + 255) % 256)
      (((s.reg_pc + 2) % 65536) >>> 8)).Write8 (0x0100 + (s.reg_s + 254) % 256)
      ((s.reg_pc + 2) % 65536 &&& 0xFF)).Read8 (0x0100 + ((s.reg_s + 254) % 256 + 1) % 256)
      = (((s.reg_pc + 2) % 65536) >>> 8) % 256 := by
    have h1 : ((s.reg_s + 254) % 256 + 1) % 256 = (s.reg_s + 255) % 256 := by omega
    rw [h1, Memory.Read8_Write8 _ (by rw [Memory.Write8_size]; exact hsize)
      (by rw [Memory.Write8_mask]; exact hmask) _ _ _ (by omega) (by omega),
      if_neg (by omega),
      Memory.Read8_Write8 _ hsize hmask _ _ _ (by omega) (by omega), if_pos rfl]
  have hstep2 : DoStep
      { s with
        reg_s := (s.reg_s + 254) % 256
        reg_pc := t
        emu_cycles := (s.emu_cycles + 6) % 2 ^ 64
        memory := (s.memory.Write8 (0x0100 + (s.reg_s + 255) % 256)
            (((s.reg_pc + 2) % 65536) >>> 8)).Write8 (0x0100 + (s.reg_s + 254) % 256)
            ((s.reg_pc + 2) % 65536 &&& 0xFF) }
      = Outcome.returned false
      { s with
        reg_s := s.reg_s
        reg_pc := (s.reg_pc + 3) % 65536
        emu_cycles := ((s.emu_cycles + 6) % 2 ^ 64 + 6) % 2 ^ 64
        memory := (s.memory.Write8 (0x0100 + (s.reg_s + 255) % 256)
            (((s.reg_pc + 2) % 65536) >>> 8)).Write8 (0x0100 + (s.reg_s + 254) % 256)
            ((s.reg_pc + 2) % 65536 &&& 0xFF) } := by
    unfold DoStep
    simp only [hm1, instructions_60, callHandler]
    unfold do_RTS PopByte
    simp only [hm2, hm3, split_word _ (Nat.mod_lt (s.reg_pc + 2) (by decide : 65536 > 0))]
    have h1 : (((s.reg_s + 254) % 256 + 1) % 256 + 1) % 256 = s.reg_s := by omega
    have h2 : ((s.reg_pc + 2) % 65536 + 1) % 65536 = (s.reg_pc + 3) % 65536 := by omega
    rw [h1, h2]
    rfl
  exact ⟨_, _, hstep1, rfl, rfl, rfl, hstep2, rfl, rfl, rfl⟩

/-- The call of the handler of JSR returns. -/
theorem DoStep_JSR_returns (s : CPU6502Impl) (h : s.memory.Read8 s.reg_pc = 0x20) :
    ∃ s1, DoStep s = Outcome.returned true s1 := by
  unfold DoStep
  simp only [h, instructions_20, callHandler]
  exact ⟨_, rfl⟩

/-- Claim C27 (counterexample): JSR `$01FE` at `$6800` with RTS at `$01FE`,
S = `$FF` and no breakpoints.  The JSR pushes the high byte `$68` of its
return address at `$01FE`, over the RTS, so the instruction that runs at the
target is PLA (`$68`): `Next` returns with PC = `$01FF` and S = `$FE`, not
with PC = `$6803` and S = `$FF`. -/
theorem next_target_on_stack_counterexample :
    jsrStackMachine.breakpoints = [] ∧
    jsrStackMachine.reg_pc = 0x6800 ∧ jsrStackMachine.reg_s = 0xFF ∧
    jsrStackMachine.memory.Read8 0x6800 = 0x20 ∧
    jsrStackMachine.memory.Read8 0x6802 * 0x100 + jsrStackMachine.memory.Read8 0x6801
      = 0x01FE ∧
    jsrStackMachine.memory.Read8 0x01FE = 0x60 ∧
    ∀ fuel, ∃ s2, CPU6502.Next (fuel + 1) jsrStackMachine = some (Outcome.returned () s2) ∧
      s2.reg_pc = 0x01FF ∧ s2.reg_s = 0xFE := by
  refine ⟨rfl, rfl, rfl, by decide!, by decide!, by decide!, fun fuel =>
    ⟨(CPU6502.Step (CPU6502.Step jsrStackMachine).state).state, ?_, by decide!, by decide!⟩⟩
  rfl

/-- Claim C27 (amended): `Next` runs one instruction as `Step` does.  When its
opcode is not `$20` the outcome of `Next` is that of `Step`.  When it is `$20`
the step returns, and `Next` ends there if a breakpoint covers the instruction
at the new PC and calls `ToReturn` otherwise.  With no breakpoints, on a 64K
memory, `Next` at a JSR whose target holds RTS and is not one of the two stack
bytes the JSR writes returns with PC = JSR address + 3 and S as before. -/
theorem next_steps_over (s : CPU6502Impl) (fuel : Nat) :
    (s.memory.Read8 s.reg_pc ≠ 0x20 → CPU6502.Next fuel s = some (CPU6502.Step s)) ∧
    (s.memory.Read8 s.reg_pc = 0x20 →
      ∃ s1, CPU6502.Step s = Outcome.returned () s1 ∧
        (s1.HasBreakpoint = true → CPU6502.Next fuel s = some (Outcome.returned () s1)) ∧
        (s1.HasBreakpoint = false → CPU6502.Next fuel s = CPU6502.ToReturn fuel s1)) ∧
    (∀ a t, s.memory.size = 65536 → s.memory.mask = 0xFFFF → s.reg_pc = a → a < 65536 →
      s.reg_s < 256 → s.breakpoints = [] → s.memory.Read8 a = 0x20 →
      s.memory.Read8 ((a + 2) % 65536) * 0x100 + s.memory.Read8 ((a + 1) % 65536) = t →
      s.memory.Read8 t = 0x60 →
      t ≠ 0x0100 + (s.reg_s + 255) % 256 → t ≠ 0x0100 + (s.reg_s + 254) % 256 →
      ∃ s2, CPU6502.Next (fuel + 1) s = some (Outcome.returned () s2) ∧
        s2.reg_pc = (a + 3) % 65536 ∧ s2.reg_s = s.reg_s) := by
  refine ⟨?_, ?_, ?_⟩
  · intro hop
    unfold CPU6502.Next CPU6502.Step DoStep
    simp only
    cases callHandler (instructions (s.memory.Read8 s.reg_pc)).handler
        (s.memory.Read8 s.reg_pc) { s with reg_pc := (s.reg_pc + 1) % 65536 } with
    | threw e s1 => rfl
    | returned v s1 =>
      simp only
      have : (s.memory.Read8 s.reg_pc == 0x20) = false := by simpa using hop
      rw [this]
      rfl
  · intro hop
    obtain ⟨s1, hs1⟩ := DoStep_JSR_returns s hop
    refine ⟨s1, ?_, ?_, ?_⟩
    · unfold CPU6502.Step; rw [hs1]
    · intro hb
      unfold CPU6502.Next
      rw [hs1]
      simp [hb]
    · intro hb
      unfold CPU6502.Next
      rw [hs1]
      simp [hb]
  · intro a t hsize hmask hpc ha hS hbp hjsr ht hrts hne1 hne2
    obtain ⟨s1, s2, h1, _, hs1, hb1, h2, hpc2, hs2, hb2⟩ :=
      DoStep_JSR_RTS s a t hsize hmask hpc ha hS hjsr ht hrts hne1 hne2
    have hnb1 := CPU6502Impl.HasBreakpoint_nil s1 (by rw [hb1, hbp])
    have hnb2 := CPU6502Impl.HasBreakpoint_nil s2 (by rw [hb2, hbp])
    refine ⟨s2, ?_, hpc2, hs2⟩
    unfold CPU6502.Next
    rw [h1]
    simp only [hnb1, Bool.not_false, Bool.and_self, if_true]
    unfold CPU6502.ToReturn CPU6502.ToReturnLoop CPU6502.Step
    rw [h2]
    simp only [hnb2, Bool.false_eq_true, if_false]
    rw [if_neg]
    rw [hs1, hs2]
    omega

/-- Witness for C27: `20 10 40` at `$0500`, `60` at `$4010`, S = `$FF`, no
breakpoints: `Next` returns with PC = `$0503` and S = `$FF`. -/
theorem next_steps_over_witness :
    ∃ s2, CPU6502.Next 1 jsrRtsMachine = some (Outcome.returned () s2) ∧
      s2.reg_pc = 0x0503 ∧ s2.reg_s = 0xFF :=
  (next_steps_over jsrRtsMachine 0).2.2 0x0500 0x4010 rfl (by decide!) rfl (by decide) (by decide)
    rfl (by decide!) (by decide!) (by decide!) (by decide) (by decide)

/-! ## C28: the registers as text -/

/-- Claim C28 (counterexample): the text of FLAGS has eight characters, one
for each of the seven flags and the dash in the third place; for the flags
`$20` of a new CPU it is `--------`. -/
theorem get_register_flags_counterexample :
    CPU6502.GetRegister "FLAGS".toList (CPU6502Impl.new (Memory.new 65536)) = "--------".toList ∧
    (CPU6502.GetRegister "FLAGS".toList (CPU6502Impl.new (Memory.new 65536))).length = 8 ∧
    ∀ s, (CPU6502.GetRegister "FLAGS".toList s).length ≠ 7 := by
  refine ⟨by decide!, by decide!, ?_⟩
  intro s
  have : (CPU6502.GetRegister "FLAGS".toList s).length = 8 := rfl
  omega

/-- Claim C28 (amended): for every state with registers in their ranges,
`GetRegister` gives A, X, Y and S as two uppercase hexadecimal digits and PC
as four, and gives FLAGS as 8 characters, which are in order the letters
`N`, `V`, `-`, `B`, `D`, `I`, `Z`, `C`: each letter is shown when its bit
(`$80`, `$40`, `$10`, `$08`, `$04`, `$02`, `$01`) is set and replaced by `-`
otherwise, and the third character is always `-`. -/
theorem get_register (s : CPU6502Impl) (ha : s.reg_a < 256) (hx : s.reg_x < 256)
    (hy : s.reg_y < 256) (hs : s.reg_s < 256) (hpc : s.reg_pc < 65536) :
    isHexText 2 s.reg_a (CPU6502.GetRegister "A".toList s) = true ∧
    isHexText 2 s.reg_x (CPU6502.GetRegister "X".toList s) = true ∧
    isHexText 2 s.reg_y (CPU6502.GetRegister "Y".toList s) = true ∧
    isHexText 2 s.reg_s (CPU6502.GetRegister "S".toList s) = true ∧
    isHexText 4 s.reg_pc (CPU6502.GetRegister "PC".toList s) = true ∧
    (CPU6502.GetRegister "FLAGS".toList s).length = 8 ∧
    (CPU6502.GetRegister "FLAGS".toList s).getD 2 ' ' = '-' ∧
    ∀ p ∈ [(0, 'N', 0x80), (1, 'V', 0x40), (3, 'B', 0x10), (4, 'D', 0x08), (5, 'I', 0x04),
        (6, 'Z', 0x02), (7, 'C', 0x01)],
      (CPU6502.GetRegister "FLAGS".toList s).getD p.1 ' ' =
        if s.reg_flags &&& p.2.2 ≠ 0 then p.2.1 else '-' := by
  have e1 : CPU6502.GetRegister "A".toList s = fmt02X s.reg_a := rfl
  have e2 : CPU6502.GetRegister "X".toList s = fmt02X s.reg_x := rfl
  have e3 : CPU6502.GetRegister "Y".toList s = fmt02X s.reg_y := rfl
  have e4 : CPU6502.GetRegister "S".toList s = fmt02X s.reg_s := rfl
  have e5 : CPU6502.GetRegister "PC".toList s = fmt04X s.reg_pc := rfl
  refine ⟨?_, ?_, ?_, ?_, ?_, rfl, rfl, ?_⟩
  · rw [e1]; exact fmt02X_isHexText _ ha
  · rw [e2]; exact fmt02X_isHexText _ hx
  · rw [e3]; exact fmt02X_isHexText _ hy
  · rw [e4]; exact fmt02X_isHexText _ hs
  · rw [e5]; exact fmt04X_isHexText _ hpc
  · intro p hp
    simp only [List.mem_cons, List.mem_singleton, List.not_mem_nil, or_false] at hp
    rcases hp with rfl | rfl | rfl | rfl | rfl | rfl | rfl <;> rfl

/-- Witness for C28: the JSR/RTS machine has PC = `$0500` and S = `$FF`. -/
theorem get_register_witness :
    CPU6502.GetRegister "PC".toList jsrRtsMachine = "0500".toList ∧
    CPU6502.GetRegister "S".toList jsrRtsMachine = "FF".toList ∧
    isHexText 4 jsrRtsMachine.reg_pc (CPU6502.GetRegister "PC".toList jsrRtsMachine) = true :=
  ⟨by decide!, by decide!,
    (get_register jsrRtsMachine (by decide) (by decide) (by decide) (by decide)
      (by decide)).2.2.2.2.1⟩

/-! ## C29: setting FLAGS from its letters -/

/-- The characters `toupper` sends to a flag letter are the flag letters of
either case, and only NUL is sent to NUL. -/
theorem toupper_flag_letter (c : Char) :
    (toupper c ∈ "NVBDIZC".toList ↔ c ∈ "NVBDIZCnvbdizc".toList) ∧
    ((toupper c).toNat = 0 ↔ c.toNat = 0) ∧ (toupper c = '-' ↔ c = '-') := by
  by_cases h : 97 ≤ c.toNat ∧ c.toNat ≤ 122
  · have key : ∀ n < 123, 97 ≤ n →
        ((toupper (Char.ofNat n) ∈ "NVBDIZC".toList ↔ Char.ofNat n ∈ "NVBDIZCnvbdizc".toList) ∧
        ((toupper (Char.ofNat n)).toNat = 0 ↔ (Char.ofNat n).toNat = 0) ∧
        (toupper (Char.ofNat n) = '-' ↔ Char.ofNat n = '-')) := by decide!
    have := key c.toNat (by omega) h.1
    rwa [Char.ofNat_toNat] at this
  · have hid : toupper c = c := by
      unfold toupper
      rw [if_neg h]
    rw [hid]
    refine ⟨?_, Iff.rfl, Iff.rfl⟩
    constructor
    · intro hc
      have : ∀ x ∈ "NVBDIZC".toList, x ∈ "NVBDIZCnvbdizc".toList := by decide
      exact this c hc
    · intro hc
      have : ∀ x ∈ "NVBDIZCnvbdizc".toList,
          x ∈ "NVBDIZC".toList ∨ (97 ≤ x.toNat ∧ x.toNat ≤ 122) := by decide
      rcases this c hc with h1 | h1
      · exact h1
      · exact absurd h1 h

/-- What `strchr` finds in `NV-BDIZC` for a character in upper case. -/
theorem strchr_flags (u : Char) (hu : u ≠ '-') :
    (u ∈ "NVBDIZC".toList ∨ u.toNat = 0 →
      ∃ i, CPU6502.strchr "NV-BDIZC".toList u = some i ∧ 0x80 >>> i = flagBit u) ∧
    (¬ (u ∈ "NVBDIZC".toList ∨ u.toNat = 0) → CPU6502.strchr "NV-BDIZC".toList u = none) := by
  constructor
  · rintro (h | h)
    · have key : ∀ x ∈ "NVBDIZC".toList,
          ∃ i, CPU6502.strchr "NV-BDIZC".toList x = some i ∧ 0x80 >>> i = flagBit x := by
        decide
      exact key u h
    · have h0 : u = Char.ofNat 0 := by
        rw [← Char.ofNat_toNat u, h]
      subst h0
      exact ⟨8, by decide, by decide⟩
  · intro h
    have hmem : u ∉ "NV-BDIZC".toList := by
      intro hm
      have : ∀ x ∈ "NV-BDIZC".toList, x = '-' ∨ x ∈ "NVBDIZC".toList := by decide
      rcases this u hm with h1 | h1
      · exact hu h1
      · exact h (Or.inl h1)
    unfold CPU6502.strchr
    rw [if_neg hmem, if_neg (fun h0 => h (Or.inr h0))]

/-- The loop of `SetRegister` over the letters of FLAGS: it accepts the dash,
the flag letters of either case and NUL, and rejects any other character. -/
theorem parseFlags_spec (value : List Char) : ∀ num : Nat,
    ((∀ c ∈ value, c = '-' ∨ c ∈ "NVBDIZCnvbdizc".toList ∨ c.toNat = 0) →
      CPU6502.parseFlags value num
        = some (value.foldl (fun num c => num ||| flagBit (toupper c)) num)) ∧
    ((∃ c ∈ value, ¬ (c = '-' ∨ c ∈ "NVBDIZCnvbdizc".toList ∨ c.toNat = 0)) →
      CPU6502.parseFlags value num = none) := by
  induction value with
  | nil =>
    intro num
    exact ⟨fun _ => rfl, fun ⟨c, hc, _⟩ => absurd hc (List.not_mem_nil c)⟩
  | cons ch rest ih =>
    intro num
    obtain ⟨t1, t2, t3⟩ := toupper_flag_letter ch
    by_cases hd : ch = '-'
    · subst hd
      have hfb : flagBit (toupper '-') = 0 := by decide
      constructor
      · intro hall
        unfold CPU6502.parseFlags
        rw [if_pos rfl, List.foldl_cons, hfb, Nat.or_zero]
        exact (ih num).1 (fun c hc => hall c (List.mem_cons_of_mem _ hc))
      · rintro ⟨c, hc, hbad⟩
        unfold CPU6502.parseFlags
        rw [if_pos rfl]
        rcases List.mem_cons.mp hc with rfl | hc'
        · exact absurd (Or.inl rfl) hbad
        · exact (ih num).2 ⟨c, hc', hbad⟩
    · have hu : toupper ch ≠ '-' := fun h => hd (t3.mp h)
      obtain ⟨s1, s2⟩ := strchr_flags (toupper ch) hu
      by_cases hok : ch ∈ "NVBDIZCnvbdizc".toList ∨ ch.toNat = 0
      · have hok' : toupper ch ∈ "NVBDIZC".toList ∨ (toupper ch).toNat = 0 := by
          rcases hok with h | h
          · exact Or.inl (t1.mpr h)
          · exact Or.inr (t2.mpr h)
        obtain ⟨i, hi, hbit⟩ := s1 hok'
        constructor
        · intro hall
          unfold CPU6502.parseFlags
          rw [if_neg hd, hi]
          simp only [List.foldl_cons]
          rw [hbit]
          exact (ih _).1 (fun c hc => hall c (List.mem_cons_of_mem _ hc))
        · rintro ⟨c, hc, hbad⟩
          unfold CPU6502.parseFlags
          rw [if_neg hd, hi]
          simp only
          rcases List.mem_cons.mp hc with rfl | hc'
          · exact absurd (Or.inr hok) hbad
          · exact (ih _).2 ⟨c, hc', hbad⟩
      · have hok' : ¬ (toupper ch ∈ "NVBDIZC".toList ∨ (toupper ch).toNat = 0) := by
          rintro (h | h)
          · exact hok (Or.inl (t1.mp h))
          · exact hok (Or.inr (t2.mp h))
        have hnone := s2 hok'
        constructor
        · intro hall
          rcases hall ch (List.mem_cons_self _ _) with h | h
          · exact absurd h hd
          · exact absurd h hok
        · intro _
          unfold CPU6502.parseFlags
          rw [if_neg hd, hnone]

/-- The bits of a byte as tests of its masks. -/
theorem byte_mask_testBit : ∀ x < 256,
    (x &&& 0x80 ≠ 0 ↔ x.testBit 7 = true) ∧ (x &&& 0x40 ≠ 0 ↔ x.testBit 6 = true) ∧
    (x &&& 0x20 = 0x20 ↔ x.testBit 5 = true) ∧
    (x &&& 0x10 ≠ 0 ↔ x.testBit 4 = true) ∧ (x &&& 0x08 ≠ 0 ↔ x.testBit 3 = true) ∧
    (x &&& 0x04 ≠ 0 ↔ x.testBit 2 = true) ∧ (x &&& 0x02 ≠ 0 ↔ x.testBit 1 = true) ∧
    (x &&& 0x01 ≠ 0 ↔ x.testBit 0 = true) := by decide!

/-- The bits of `flagBit`. -/
theorem flagBit_testBit (u : Char) :
    flagBit u < 256 ∧
    ((flagBit u).testBit 7 = true ↔ u = 'N') ∧ ((flagBit u).testBit 6 = true ↔ u = 'V') ∧
    (flagBit u).testBit 5 = false ∧
    ((flagBit u).testBit 4 = true ↔ u = 'B') ∧ ((flagBit u).testBit 3 = true ↔ u = 'D') ∧
    ((flagBit u).testBit 2 = true ↔ u = 'I') ∧ ((flagBit u).testBit 1 = true ↔ u = 'Z') ∧
    ((flagBit u).testBit 0 = true ↔ u = 'C') := by
  unfold flagBit
  by_cases h1 : u = 'N'
  · subst h1; decide
  by_cases h2 : u = 'V'
  · subst h2; decide
  by_cases h3 : u = 'B'
  · subst h3; decide
  by_cases h4 : u = 'D'
  · subst h4; decide
  by_cases h5 : u = 'I'
  · subst h5; decide
  by_cases h6 : u = 'Z'
  · subst h6; decide
  by_cases h7 : u = 'C'
  · subst h7; decide
  rw [if_neg h1, if_neg h2, if_neg h3, if_neg h4, if_neg h5, if_neg h6, if_neg h7]
  simp [h1, h2, h3, h4, h5, h6, h7]

/-- The bits of the number built from the letters of a text. -/
theorem foldl_flagBit (text : List Char) : ∀ num : Nat, num < 256 →
    text.foldl (fun num c => num ||| flagBit (toupper c)) num < 256 ∧
    ∀ k, (text.foldl (fun num c => num ||| flagBit (toupper c)) num).testBit k
      = (num.testBit k || text.any (fun c => (flagBit (toupper c)).testBit k)) := by
  induction text with
  | nil => intro num h; exact ⟨h, fun k => by simp⟩
  | cons c cs ih =>
    intro num h
    have hlt : num ||| flagBit (toupper c) < 256 :=
      Nat.or_lt_two_pow (n := 8) h (flagBit_testBit _).1
    obtain ⟨h1, h2⟩ := ih _ hlt
    refine ⟨h1, fun k => ?_⟩
    simp only [List.foldl_cons, List.any_cons]
    rw [h2 k, Nat.testBit_or, Bool.or_assoc]

/-- The value `flagsOfLetters`: a byte with bit `$20` set and the bit of each
flag set exactly when its letter occurs in the text, in either case. -/
theorem flagsOfLetters_spec (text : List Char) :
    flagsOfLetters text < 256 ∧ flagsOfLetters text &&& 0x20 = 0x20 ∧
    ∀ p ∈ [('N', 0x80), ('V', 0x40), ('B', 0x10), ('D', 0x08), ('I', 0x04), ('Z', 0x02),
        ('C', 0x01)],
      (flagsOfLetters text &&& p.2 ≠ 0 ↔ ∃ c ∈ text, toupper c = p.1) := by
  obtain ⟨hlt, hbits⟩ := foldl_flagBit text 0x20 (by decide)
  have hm := byte_mask_testBit (flagsOfLetters text) hlt
  have hany : ∀ (k : Nat) (L : Char), (∀ u, (flagBit u).testBit k = true ↔ u = L) →
      (text.any (fun c => (flagBit (toupper c)).testBit k) = true ↔ ∃ c ∈ text, toupper c = L) := by
    intro k L hk
    simp only [List.any_eq_true, hk]
  have t7 : Nat.testBit 32 7 = false := by decide
  have t6 : Nat.testBit 32 6 = false := by decide
  have t4 : Nat.testBit 32 4 = false := by decide
  have t3 : Nat.testBit 32 3 = false := by decide
  have t2 : Nat.testBit 32 2 = false := by decide
  have t1 : Nat.testBit 32 1 = false := by decide
  have t0 : Nat.testBit 32 0 = false := by decide
  refine ⟨hlt, ?_, ?_⟩
  · rw [hm.2.2.1]
    unfold flagsOfLetters
    rw [hbits 5]
    simp [testBit5_20]
  · intro p hp
    simp only [List.mem_cons, List.mem_singleton, List.not_mem_nil, or_false] at hp
    unfold flagsOfLetters at hm ⊢
    rcases hp with rfl | rfl | rfl | rfl | rfl | rfl | rfl
    · rw [hm.1, hbits 7, ← hany 7 'N' (fun u => (flagBit_testBit u).2.1)]
      simp [t7]
    · rw [hm.2.1, hbits 6, ← hany 6 'V' (fun u => (flagBit_testBit u).2.2.1)]
      simp [t6]
    · rw [hm.2.2.2.1, hbits 4, ← hany 4 'B' (fun u => (flagBit_testBit u).2.2.2.2.1)]
      simp [t4]
    · rw [hm.2.2.2.2.1, hbits 3, ← hany 3 'D' (fun u => (flagBit_testBit u).2.2.2.2.2.1)]
      simp [t3]
    · rw [hm.2.2.2.2.2.1, hbits 2, ← hany 2 'I' (fun u => (flagBit_testBit u).2.2.2.2.2.2.1)]
      simp [t2]
    · rw [hm.2.2.2.2.2.2.1, hbits 1, ← hany 1 'Z' (fun u => (flagBit_testBit u).2.2.2.2.2.2.2.1)]
      simp [t1]
    · rw [hm.2.2.2.2.2.2.2, hbits 0, ← hany 0 'C' (fun u => (flagBit_testBit u).2.2.2.2.2.2.2.2)]
      simp [t0]

/-- What `SetRegister("FLAGS", value)` does for any text: it returns true when
every character is `-`, a flag letter of either case, or NUL, and then FLAGS
is `$20` or-ed with the bits of exactly the letters that occur; it returns
false and leaves the state as it is when the text has any other character. -/
theorem CPU6502.SetRegister_flags_text (value : List Char) (s : CPU6502Impl) :
    ((∀ c ∈ value, c = '-' ∨ c ∈ "NVBDIZCnvbdizc".toList ∨ c.toNat = 0) →
      CPU6502.SetRegister "FLAGS".toList value s
        = (true, { s with reg_flags := flagsOfLetters value })) ∧
    ((∃ c ∈ value, ¬ (c = '-' ∨ c ∈ "NVBDIZCnvbdizc".toList ∨ c.toNat = 0)) →
      CPU6502.SetRegister "FLAGS".toList value s = (false, s)) := by
  have hspec := flagsOfLetters_spec value
  obtain ⟨p1, p2⟩ := parseFlags_spec value 0x20
  refine ⟨?_, ?_⟩
  · intro hall
    unfold CPU6502.SetRegister
    rw [if_pos rfl, p1 hall]
    simp only
    have : flagsOfLetters value % 256 = flagsOfLetters value := Nat.mod_eq_of_lt hspec.1
    unfold flagsOfLetters at this
    rw [this]
    rfl
  · intro hbad
    unfold CPU6502.SetRegister
    rw [if_pos rfl, p2 hbad]

/-- Claim C29: for every text without a NUL character, as the strings are that
`SetRegister` is called with: if every character is `-` or one of N, V, B, D,
I, Z, C in either case, `SetRegister("FLAGS", value)` returns true and FLAGS
becomes `$20` or-ed with the bits of exactly the letters that occur
(N = `$80`, V = `$40`, B = `$10`, D = `$08`, I = `$04`, Z = `$02`,
C = `$01`); if the text has any other character it returns false and the state
is unchanged. -/
theorem set_register_flags (value : List Char) (s : CPU6502Impl)
    (hnul : ∀ c ∈ value, c.toNat ≠ 0) :
    ((∀ c ∈ value, c = '-' ∨ c ∈ "NVBDIZCnvbdizc".toList) →
      CPU6502.SetRegister "FLAGS".toList value s
        = (true, { s with reg_flags := flagsOfLetters value })) ∧
    ((∃ c ∈ value, ¬ (c = '-' ∨ c ∈ "NVBDIZCnvbdizc".toList)) →
      CPU6502.SetRegister "FLAGS".toList value s = (false, s)) ∧
    (flagsOfLetters value < 256 ∧ flagsOfLetters value &&& 0x20 = 0x20 ∧
      ∀ p ∈ [('N', 0x80), ('V', 0x40), ('B', 0x10), ('D', 0x08), ('I', 0x04), ('Z', 0x02),
          ('C', 0x01)],
        (flagsOfLetters value &&& p.2 ≠ 0 ↔ ∃ c ∈ value, toupper c = p.1)) := by
  obtain ⟨h1, h2⟩ := CPU6502.SetRegister_flags_text value s
  refine ⟨?_, ?_, flagsOfLetters_spec value⟩
  · intro hall
    apply h1
    intro c hc
    rcases hall c hc with h | h
    · exact Or.inl h
    · exact Or.inr (Or.inl h)
  · rintro ⟨c, hc, hbad⟩
    apply h2
    refine ⟨c, hc, ?_⟩
    rintro (h | h | h)
    · exact hbad (Or.inl h)
    · exact hbad (Or.inr h)
    · exact hnul c hc h

/-- Witness for C29: `nv-C` sets N, V and C; `N?` is rejected. -/
theorem set_register_flags_witness :
    CPU6502.SetRegister "FLAGS".toList "nv-C".toList (machineAt 0 [])
      = (true, { machineAt 0 [] with reg_flags := flagsOfLetters "nv-C".toList }) ∧
    flagsOfLetters "nv-C".toList = 0xE1 ∧
    CPU6502.SetRegister "FLAGS".toList "N?".toList (machineAt 0 []) = (false, machineAt 0 []) :=
  ⟨(set_register_flags "nv-C".toList (machineAt 0 []) (by decide)).1 (by decide), by decide,
   (set_register_flags "N?".toList (machineAt 0 []) (by decide)).2.1 (by decide)⟩


/-! ## C30: setting a register from hexadecimal text -/

/-- Claim C30 (what the code does): for a non-empty string of hexadecimal
digits whose value fits in 64 bits, `SetRegister` returns true and the
register holds the number cut to its width, 8 bits, or 16 bits for PC.  It
also returns true, and sets the register to 0, for the empty string and for a
string of blanks, because `strtoul` then reads no digit and leaves nothing but
white space; it accepts a sign and the prefix `0x`; and a number too large for
the register is cut without an error.  A digit string followed by another
character that is not white space is rejected. -/
theorem set_register_hex (s : CPU6502Impl) :
    (∀ ds : List Char, (∀ c ∈ ds, (hexValue c).isSome = true) → ds ≠ [] →
      hexNumber ds < 2 ^ 64 →
      CPU6502.SetRegister "A".toList ds s = (true, { s with reg_a := hexNumber ds % 256 }) ∧
      CPU6502.SetRegister "X".toList ds s = (true, { s with reg_x := hexNumber ds % 256 }) ∧
      CPU6502.SetRegister "Y".toList ds s = (true, { s with reg_y := hexNumber ds % 256 }) ∧
      CPU6502.SetRegister "S".toList ds s = (true, { s with reg_s := hexNumber ds % 256 }) ∧
      CPU6502.SetRegister "PC".toList ds s = (true, { s with reg_pc := hexNumber ds % 65536 })) ∧
    CPU6502.SetRegister "A".toList "".toList s = (true, { s with reg_a := 0 }) ∧
    CPU6502.SetRegister "PC".toList "".toList s = (true, { s with reg_pc := 0 }) ∧
    CPU6502.SetRegister "A".toList "  ".toList s = (true, { s with reg_a := 0 }) ∧
    CPU6502.SetRegister "A".toList "-1".toList s = (true, { s with reg_a := 0xFF }) ∧
    CPU6502.SetRegister "A".toList "0x1F".toList s = (true, { s with reg_a := 0x1F }) ∧
    CPU6502.SetRegister "A".toList "123".toList s = (true, { s with reg_a := 0x23 }) ∧
    CPU6502.SetRegister "A".toList " 1F ".toList s = (true, { s with reg_a := 0x1F }) ∧
    CPU6502.SetRegister "A".toList "1G".toList s = (false, s) := by
  refine ⟨?_, rfl, rfl, rfl, rfl, rfl, rfl, rfl, rfl⟩
  intro ds hds hne hlt
  have htw : ds.takeWhile (fun c => decide (c.toNat ≠ 0)) = ds := by
    rw [List.takeWhile_eq_self_iff]
    intro c hc
    simpa using (hexDigit_facts c (hds c hc)).2.1
  have hst := strtoul16_hex ds hds hne hlt
  refine ⟨?_, ?_, ?_, ?_, ?_⟩ <;>
  · unfold CPU6502.SetRegister
    rw [if_neg (by decide)]
    simp only [htw, hst, List.all_nil, if_true]
    try rfl

/-- Witness for C30: `1F` sets A to `$1F`. -/
theorem set_register_hex_witness :
    CPU6502.SetRegister "A".toList "1F".toList (machineAt 0 [])
      = (true, { machineAt 0 [] with reg_a := 0x1F }) :=
  ((set_register_hex (machineAt 0 [])).1 "1F".toList (by decide) (by decide) (by decide)).1

/-! ## C31: the effective address -/

/-- Claim C31: for every opcode and state, with `b0` the byte at PC and `b1`
the byte at PC + 1 (mod 2^16), `GetAddress` returns the effective address of
the table for the mode of the opcode and leaves PC advanced, modulo 2^16, by
the length of the operand; the pointers of the two indirect modes are read
inside page zero.  The registers other than PC, the memory and the
breakpoints are as before. -/
theorem get_address (opcode : Nat) (s : CPU6502Impl) :
    ((instructions opcode).addr_mode = .am_immediate →
      (GetAddress opcode s).1 = s.reg_pc ∧
      (GetAddress opcode s).2.reg_pc = (s.reg_pc + 1) % 65536) ∧
    ((instructions opcode).addr_mode = .am_zp →
      (GetAddress opcode s).1 = s.memory.Read8 s.reg_pc ∧
      (GetAddress opcode s).2.reg_pc = (s.reg_pc + 1) % 65536) ∧
    ((instructions opcode).addr_mode = .am_zp_x →
      (GetAddress opcode s).1 = (s.memory.Read8 s.reg_pc + s.reg_x) &&& 0xFF ∧
      (GetAddress opcode s).2.reg_pc = (s.reg_pc + 1) % 65536) ∧
    ((instructions opcode).addr_mode = .am_zp_y →
      (GetAddress opcode s).1 = (s.memory.Read8 s.reg_pc + s.reg_y) &&& 0xFF ∧
      (GetAddress opcode s).2.reg_pc = (s.reg_pc + 1) % 65536) ∧
    ((instructions opcode).addr_mode = .am_abs →
      (GetAddress opcode s).1 =
        s.memory.Read8 ((s.reg_pc + 1) % 65536) * 256 + s.memory.Read8 s.reg_pc ∧
      (GetAddress opcode s).2.reg_pc = (s.reg_pc + 2) % 65536) ∧
    ((instructions opcode).addr_mode = .am_abs_x →
      (GetAddress opcode s).1 =
        (s.memory.Read8 ((s.reg_pc + 1) % 65536) * 256 + s.memory.Read8 s.reg_pc + s.reg_x)
          % 65536 ∧
      (GetAddress opcode s).2.reg_pc = (s.reg_pc + 2) % 65536) ∧
    ((instructions opcode).addr_mode = .am_abs_y →
      (GetAddress opcode s).1 =
        (s.memory.Read8 ((s.reg_pc + 1) % 65536) * 256 + s.memory.Read8 s.reg_pc + s.reg_y)
          % 65536 ∧
      (GetAddress opcode s).2.reg_pc = (s.reg_pc + 2) % 65536) ∧
    ((instructions opcode).addr_mode = .am_ind_x →
      (GetAddress opcode s).1 =
        s.memory.Read8 ((s.memory.Read8 s.reg_pc + s.reg_x) &&& 0xFF)
          + 256 * s.memory.Read8 ((s.memory.Read8 s.reg_pc + s.reg_x + 1) &&& 0xFF) ∧
      (GetAddress opcode s).2.reg_pc = (s.reg_pc + 1) % 65536) ∧
    ((instructions opcode).addr_mode = .am_ind_y →
      (GetAddress opcode s).1 =
        (s.memory.Read8 (s.memory.Read8 s.reg_pc)
          + 256 * s.memory.Read8 ((s.memory.Read8 s.reg_pc + 1) &&& 0xFF) + s.reg_y) % 65536 ∧
      (GetAddress opcode s).2.reg_pc = (s.reg_pc + 1) % 65536) ∧
    ((GetAddress opcode s).2.reg_a = s.reg_a ∧ (GetAddress opcode s).2.reg_x = s.reg_x ∧
      (GetAddress opcode s).2.reg_y = s.reg_y ∧ (GetAddress opcode s).2.reg_s = s.reg_s ∧
      (GetAddress opcode s).2.reg_flags = s.reg_flags ∧
      (GetAddress opcode s).2.memory = s.memory ∧
      (GetAddress opcode s).2.breakpoints = s.breakpoints) := by
  have hb0 : s.memory.Read8 s.reg_pc < 256 := Memory.Read8_lt _ _
  have h2 : ((s.reg_pc + 1) % 65536 + 1) % 65536 = (s.reg_pc + 2) % 65536 := by omega
  refine ⟨?_, ?_, ?_, ?_, ?_, ?_, ?_, ?_, ?_, GetAddress_reg_a _ _, GetAddress_reg_x _ _,
    GetAddress_reg_y _ _, GetAddress_reg_s _ _, GetAddress_reg_flags _ _,
    GetAddress_memory _ _, GetAddress_breakpoints _ _⟩
  · intro h
    unfold GetAddress
    rw [h]
    exact ⟨rfl, rfl⟩
  · intro h
    unfold GetAddress
    rw [h]
    refine ⟨?_, rfl⟩
    simp only
    rw [byte_and_FF]
    omega
  · intro h
    unfold GetAddress
    rw [h]
    exact ⟨rfl, rfl⟩
  · intro h
    unfold GetAddress
    rw [h]
    exact ⟨rfl, rfl⟩
  · intro h
    unfold GetAddress
    rw [h]
    exact ⟨rfl, h2⟩
  · intro h
    unfold GetAddress
    rw [h]
    exact ⟨rfl, h2⟩
  · intro h
    unfold GetAddress
    rw [h]
    exact ⟨rfl, h2⟩
  · intro h
    unfold GetAddress
    rw [h]
    refine ⟨?_, rfl⟩
    simp only
    rw [byte_and_FF, byte_and_FF]
    have e : ((s.memory.Read8 s.reg_pc + s.reg_x) % 256 + 1) % 256
        = (s.memory.Read8 s.reg_pc + s.reg_x + 1) % 256 := by omega
    rw [e]
    omega
  · intro h
    unfold GetAddress
    rw [h]
    refine ⟨?_, rfl⟩
    simp only
    rw [byte_and_FF]
    have e : ∀ a b y : Nat, (a * 256 + b + y) % 65536 = (b + 256 * a + y) % 65536 := by
      intro a b y; omega
    exact e _ _ _

/-- Witness for C31: `LDA ($FF,X)` with X = 0 reads its pointer at `$FF` and
`$00`, not at `$100`. -/
theorem get_address_witness :
    (GetAddress 0xA1 (machineAt 0x0000 [0xFF, 0x34])).1 =
      (machineAt 0x0000 [0xFF, 0x34]).memory.Read8 (((machineAt 0x0000 [0xFF, 0x34]).memory.Read8
          (machineAt 0x0000 [0xFF, 0x34]).reg_pc + (machineAt 0x0000 [0xFF, 0x34]).reg_x) &&& 0xFF)
        + 256 * (machineAt 0x0000 [0xFF, 0x34]).memory.Read8
          (((machineAt 0x0000 [0xFF, 0x34]).memory.Read8 (machineAt 0x0000 [0xFF, 0x34]).reg_pc
            + (machineAt 0x0000 [0xFF, 0x34]).reg_x + 1) &&& 0xFF) ∧
    (GetAddress 0xA1 (machineAt 0x0000 [0xFF, 0x34])).2.reg_pc = 1 ∧
    (GetAddress 0xA1 (machineAt 0x0000 [0xFF, 0x34])).1 = 0xFF00 :=
  ⟨((get_address 0xA1 (machineAt 0x0000 [0xFF, 0x34])).2.2.2.2.2.2.2.1 (by decide!)).1,
   ((get_address 0xA1 (machineAt 0x0000 [0xFF, 0x34])).2.2.2.2.2.2.2.1 (by decide!)).2,
   by decide!⟩

/-! ## C32: the cycles of a step -/

theorem CPU6502Impl.SetZ_cycles (r : Nat) (s : CPU6502Impl) :
    (SetZ r s).emu_cycles = s.emu_cycles := by
  unfold SetZ; split <;> rfl

theorem CPU6502Impl.SetNZ_cycles (r : Nat) (s : CPU6502Impl) :
    (SetNZ r s).emu_cycles = s.emu_cycles := by
  unfold SetNZ; rw [SetZ_cycles]

theorem CPU6502Impl.SetC_cycles (c : Bool) (s : CPU6502Impl) :
    (SetC c s).emu_cycles = s.emu_cycles := by
  unfold SetC; split <;> rfl

theorem CPU6502Impl.SetV_cycles (v : Bool) (s : CPU6502Impl) :
    (SetV v s).emu_cycles = s.emu_cycles := by
  unfold SetV; split <;> rfl

theorem CPU6502Impl.Compare_cycles (reg byte : Nat) (s : CPU6502Impl) :
    (Compare reg byte s).emu_cycles = s.emu_cycles := by
  unfold Compare; rw [SetC_cycles, SetNZ_cycles]

theorem CPU6502Impl.DoAdd_cycles (byte : Nat) (s : CPU6502Impl) :
    (DoAdd byte s).emu_cycles = s.emu_cycles := by
  unfold DoAdd
  split
  · dsimp only; rw [SetC_cycles, SetNZ_cycles]
  · dsimp only; rw [SetC_cycles, SetNZ_cycles]; exact SetV_cycles _ _

/-- The cycles the handlers of the instructions with an operand in memory add
on top of those of `GetAddress`: 2, or 4 for the handlers that write the
operand back; the handlers of the immediate forms of CPX, CPY, LDX and LDY do
not call `GetAddress` and add 2. -/
theorem CPU6502Impl.callHandler_cycles (h : Handler) (opcode : Nat) (s : CPU6502Impl) :
    (h ∈ [Handler.do_ORA, .do_AND, .do_EOR, .do_ADC, .do_SBC, .do_LDA, .do_LDX, .do_LDY,
        .do_STA, .do_STX, .do_STY, .do_CMP, .do_CPX, .do_CPY, .do_BIT] →
      ∃ s', callHandler h opcode s = Outcome.returned () s' ∧
        s'.emu_cycles = ((GetAddress opcode s).2.emu_cycles + 2) % 2 ^ 64) ∧
    (h ∈ [Handler.do_CPX_imm, .do_CPY_imm, .do_LDX_imm, .do_LDY_imm] →
      ∃ s', callHandler h opcode s = Outcome.returned () s' ∧
        s'.emu_cycles = (s.emu_cycles + 2) % 2 ^ 64) ∧
    (h ∈ [Handler.do_ASL, .do_LSR, .do_ROL, .do_ROR, .do_INC, .do_DEC] →
      ∃ s', callHandler h opcode s = Outcome.returned () s' ∧
        s'.emu_cycles = ((GetAddress opcode s).2.emu_cycles + 4) % 2 ^ 64) := by
  refine ⟨?_, ?_, ?_⟩
  · intro hh
    simp only [List.mem_cons, List.mem_singleton, List.not_mem_nil, or_false] at hh
    rcases hh with rfl | rfl | rfl | rfl | rfl | rfl | rfl | rfl | rfl | rfl | rfl | rfl | rfl |
      rfl | rfl
    all_goals
      refine ⟨_, rfl, ?_⟩
      simp [do_ORA, do_AND, do_EOR, do_ADC, do_SBC, do_LDA, do_LDX, do_LDY, do_STA, do_STX,
        do_STY, do_CMP, do_CPX, do_CPY, do_BIT, SetZ_cycles, SetNZ_cycles, SetC_cycles,
        SetV_cycles, Compare_cycles, DoAdd_cycles]
  · intro hh
    simp only [List.mem_cons, List.mem_singleton, List.not_mem_nil, or_false] at hh
    rcases hh with rfl | rfl | rfl | rfl
    all_goals
      refine ⟨_, rfl, ?_⟩
      simp [do_CPX_imm, do_CPY_imm, do_LDX_imm, do_LDY_imm, SetZ_cycles, SetNZ_cycles,
        SetC_cycles, SetV_cycles, Compare_cycles]
  · intro hh
    simp only [List.mem_cons, List.mem_singleton, List.not_mem_nil, or_false] at hh
    rcases hh with rfl | rfl | rfl | rfl | rfl | rfl
    all_goals
      refine ⟨_, rfl, ?_⟩
      simp [do_ASL, do_LSR, do_ROL, do_ROR, do_INC, do_DEC, SetZ_cycles, SetNZ_cycles,
        SetC_cycles, SetV_cycles]

/-- Two additions to the cycle counter, each modulo 2^64, are one. -/
theorem cycles_add (c m b : Nat) :
    ((c + m) % 2 ^ 64 + b) % 2 ^ 64 = (c + (b + m)) % 2 ^ 64 := by
  omega

/-- The cycles `GetAddress` adds, mode by mode. -/
theorem CPU6502Impl.GetAddress_cycles (opcode : Nat) (s : CPU6502Impl) :
    ((instructions opcode).addr_mode = .am_immediate →
      (GetAddress opcode s).2.emu_cycles = s.emu_cycles) ∧
    ((instructions opcode).addr_mode = .am_zp →
      (GetAddress opcode s).2.emu_cycles = (s.emu_cycles + 2) % 2 ^ 64) ∧
    ((instructions opcode).addr_mode = .am_zp_x →
      (GetAddress opcode s).2.emu_cycles = (s.emu_cycles + 2) % 2 ^ 64) ∧
    ((instructions opcode).addr_mode = .am_zp_y →
      (GetAddress opcode s).2.emu_cycles = (s.emu_cycles + 2) % 2 ^ 64) ∧
    ((instructions opcode).addr_mode = .am_abs →
      (GetAddress opcode s).2.emu_cycles = (s.emu_cycles + 2) % 2 ^ 64) ∧
    ((instructions opcode).addr_mode = .am_abs_x →
      (GetAddress opcode s).2.emu_cycles = (s.emu_cycles + 2 +
        (if ((s.memory.Read8 ((s.reg_pc + 1) % 65536) * 256 + s.memory.Read8 s.reg_pc
              + s.reg_x) % 65536) / 256 ≠
            (s.memory.Read8 ((s.reg_pc + 1) % 65536) * 256 + s.memory.Read8 s.reg_pc) / 256
          then 1 else 0)) % 2 ^ 64) ∧
    ((instructions opcode).addr_mode = .am_abs_y →
      (GetAddress opcode s).2.emu_cycles = (s.emu_cycles + 2 +
        (if ((s.memory.Read8 ((s.reg_pc + 1) % 65536) * 256 + s.memory.Read8 s.reg_pc
              + s.reg_y) % 65536) / 256 ≠
            (s.memory.Read8 ((s.reg_pc + 1) % 65536) * 256 + s.memory.Read8 s.reg_pc) / 256
          then 1 else 0)) % 2 ^ 64) ∧
    ((instructions opcode).addr_mode = .am_ind_x →
      (GetAddress opcode s).2.emu_cycles = (s.emu_cycles + 4) % 2 ^ 64) ∧
    ((instructions opcode).addr_mode = .am_ind_y →
      (GetAddress opcode s).2.emu_cycles = (s.emu_cycles + 3 +
        (if ((s.memory.Read8 ((s.memory.Read8 s.reg_pc + 1) % 256) * 256
              + s.memory.Read8 (s.memory.Read8 s.reg_pc) + s.reg_y) % 65536) / 256 ≠
            (s.memory.Read8 ((s.memory.Read8 s.reg_pc + 1) % 256) * 256
              + s.memory.Read8 (s.memory.Read8 s.reg_pc)) / 256
          then 1 else 0)) % 2 ^ 64) := by
  refine ⟨?_, ?_, ?_, ?_, ?_, ?_, ?_, ?_, ?_⟩ <;> intro h <;>
    simp [GetAddress, h, Nat.shiftRight_eq_div_pow]

/-- The handlers of the table entries named after an ALU, load, store, compare
or BIT instruction. -/
theorem table_operand_handlers (op : Nat) (hop : op < 256)
    (hn : (instructions op).name ∈ ["ORA".toList, "AND".toList, "EOR".toList, "ADC".toList,
        "SBC".toList, "LDA".toList, "LDX".toList, "LDY".toList, "STA".toList, "STX".toList,
        "STY".toList, "CMP".toList, "CPX".toList, "CPY".toList, "BIT".toList]) :
    op ≠ 0x20 ∧
      (((instructions op).handler ∈ [Handler.do_ORA, .do_AND, .do_EOR, .do_ADC, .do_SBC,
          .do_LDA, .do_LDX, .do_LDY, .do_STA, .do_STX, .do_STY, .do_CMP, .do_CPX, .do_CPY,
          .do_BIT] ∧
        (instructions op).addr_mode ∈ [AddrMode.am_immediate, .am_zp, .am_zp_x, .am_zp_y,
          .am_abs, .am_abs_x, .am_abs_y, .am_ind_x, .am_ind_y]) ∨
       ((instructions op).handler ∈ [Handler.do_CPX_imm, .do_CPY_imm, .do_LDX_imm,
          .do_LDY_imm] ∧
        (instructions op).addr_mode = .am_immediate)) := by
  revert op; decide!

/-- The handlers of the table entries named after a shift, a rotation, INC or
DEC, the forms on the accumulator apart. -/
theorem table_rmw_handlers (op : Nat) (hop : op < 256)
    (hn : (instructions op).name ∈ ["ASL".toList, "LSR".toList, "ROL".toList, "ROR".toList,
        "INC".toList, "DEC".toList] ∧ (instructions op).addr_mode ≠ .am_acc) :
    op ≠ 0x20 ∧
      (instructions op).handler ∈ [Handler.do_ASL, .do_LSR, .do_ROL, .do_ROR, .do_INC,
        .do_DEC] ∧
      (instructions op).addr_mode ∈ [AddrMode.am_zp, .am_zp_x, .am_abs, .am_abs_x] := by
  revert op; decide!

/-- A step at an instruction with an operand in memory returns, and adds
`base` cycles to those of `GetAddress` (or, for the immediate forms of CPX, CPY,
LDX and LDY, to the cycles before the step). -/
theorem CPU6502Impl.DoStep_operand_cycles (s : CPU6502Impl) (base : Nat)
    (h : ((instructions (s.memory.Read8 s.reg_pc)).name ∈ ["ORA".toList, "AND".toList,
          "EOR".toList, "ADC".toList, "SBC".toList, "LDA".toList, "LDX".toList, "LDY".toList,
          "STA".toList, "STX".toList, "STY".toList, "CMP".toList, "CPX".toList, "CPY".toList,
          "BIT".toList] ∧ base = 2) ∨
        (((instructions (s.memory.Read8 s.reg_pc)).name ∈ ["ASL".toList, "LSR".toList,
          "ROL".toList, "ROR".toList, "INC".toList, "DEC".toList] ∧
          (instructions (s.memory.Read8 s.reg_pc)).addr_mode ≠ .am_acc) ∧ base = 4)) :
    ∃ s', DoStep s = Outcome.returned false s' ∧
      (instructions (s.memory.Read8 s.reg_pc)).addr_mode ∈ [AddrMode.am_immediate, .am_zp,
        .am_zp_x, .am_zp_y, .am_abs, .am_abs_x, .am_abs_y, .am_ind_x, .am_ind_y] ∧
      (s'.emu_cycles = ((GetAddress (s.memory.Read8 s.reg_pc)
          { s with reg_pc := (s.reg_pc + 1) % 65536 }).2.emu_cycles + base) % 2 ^ 64 ∨
        ((instructions (s.memory.Read8 s.reg_pc)).addr_mode = .am_immediate ∧
          s'.emu_cycles = (s.emu_cycles + base) % 2 ^ 64)) := by
  have hop : s.memory.Read8 s.reg_pc < 256 := Memory.Read8_lt _ _
  generalize hopq : s.memory.Read8 s.reg_pc = op at h hop ⊢
  have hstep : ∀ s', callHandler (instructions op).handler op
      { s with reg_pc := (s.reg_pc + 1) % 65536 } = Outcome.returned () s' → op ≠ 0x20 →
      DoStep s = Outcome.returned false s' := by
    intro s' hc hne
    unfold DoStep
    simp only [hopq, hc]
    simp [hne]
  rcases h with ⟨hn, rfl⟩ | ⟨hn, rfl⟩
  · obtain ⟨hne, hh | ⟨hh, hm⟩⟩ := table_operand_handlers op hop hn
    · obtain ⟨s', hc, hcy⟩ := (callHandler_cycles (instructions op).handler op
        { s with reg_pc := (s.reg_pc + 1) % 65536 }).1 hh.1
      exact ⟨s', hstep s' hc hne, hh.2, Or.inl hcy⟩
    · obtain ⟨s', hc, hcy⟩ := (callHandler_cycles (instructions op).handler op
        { s with reg_pc := (s.reg_pc + 1) % 65536 }).2.1 hh
      exact ⟨s', hstep s' hc hne, by simp [hm], Or.inr ⟨hm, hcy⟩⟩
  · obtain ⟨hne, hh, hm⟩ := table_rmw_handlers op hop hn
    obtain ⟨s', hc, hcy⟩ := (callHandler_cycles (instructions op).handler op
      { s with reg_pc := (s.reg_pc + 1) % 65536 }).2.2 hh
    refine ⟨s', hstep s' hc hne, ?_, Or.inl hcy⟩
    simp only [List.mem_cons, List.mem_singleton, List.not_mem_nil, or_false] at hm ⊢
    rcases hm with hm | hm | hm | hm <;> simp [hm]

/-- Claim C32: a step at a documented ALU, load, store, compare or BIT opcode
(base 2) or at a shift, rotation, INC or DEC of memory (base 4) returns and
adds exactly base + m to the cycle counter, a counter of 64 bits, where m is 0
for Immediate, 2 for ZeroPage, ZeroPageX, ZeroPageY and Absolute, 2 plus 1 iff
base address and base address + index differ in their high byte for AbsoluteX
and AbsoluteY, 4 for IndirectX, and 3 plus 1 iff the pointer and pointer + Y
differ in their high byte for IndirectY; the mode of such an opcode is one of
these nine. -/
theorem step_cycles (s : CPU6502Impl) (base : Nat)
    (h : ((instructions (s.memory.Read8 s.reg_pc)).name ∈ ["ORA".toList, "AND".toList,
          "EOR".toList, "ADC".toList, "SBC".toList, "LDA".toList, "LDX".toList, "LDY".toList,
          "STA".toList, "STX".toList, "STY".toList, "CMP".toList, "CPX".toList, "CPY".toList,
          "BIT".toList] ∧ base = 2) ∨
        (((instructions (s.memory.Read8 s.reg_pc)).name ∈ ["ASL".toList, "LSR".toList,
          "ROL".toList, "ROR".toList, "INC".toList, "DEC".toList] ∧
          (instructions (s.memory.Read8 s.reg_pc)).addr_mode ≠ .am_acc) ∧ base = 4)) :
    ∃ s', DoStep s = Outcome.returned false s' ∧
      (instructions (s.memory.Read8 s.reg_pc)).addr_mode ∈ [AddrMode.am_immediate, .am_zp,
        .am_zp_x, .am_zp_y, .am_abs, .am_abs_x, .am_abs_y, .am_ind_x, .am_ind_y] ∧
      ((instructions (s.memory.Read8 s.reg_pc)).addr_mode = .am_immediate →
        s'.emu_cycles = (s.emu_cycles + (base + 0)) % 2 ^ 64) ∧
      ((instructions (s.memory.Read8 s.reg_pc)).addr_mode = .am_zp →
        s'.emu_cycles = (s.emu_cycles + (base + 2)) % 2 ^ 64) ∧
      ((instructions (s.memory.Read8 s.reg_pc)).addr_mode = .am_zp_x →
        s'.emu_cycles = (s.emu_cycles + (base + 2)) % 2 ^ 64) ∧
      ((instructions (s.memory.Read8 s.reg_pc)).addr_mode = .am_zp_y →
        s'.emu_cycles = (s.emu_cycles + (base + 2)) % 2 ^ 64) ∧
      ((instructions (s.memory.Read8 s.reg_pc)).addr_mode = .am_abs →
        s'.emu_cycles = (s.emu_cycles + (base + 2)) % 2 ^ 64) ∧
      ((instructions (s.memory.Read8 s.reg_pc)).addr_mode = .am_abs_x →
        s'.emu_cycles = (s.emu_cycles + (base + (2 +
          (if ((s.memory.Read8 (((s.reg_pc + 1) % 65536 + 1) % 65536) * 256
                + s.memory.Read8 ((s.reg_pc + 1) % 65536) + s.reg_x) % 65536) / 256 ≠
              (s.memory.Read8 (((s.reg_pc + 1) % 65536 + 1) % 65536) * 256
                + s.memory.Read8 ((s.reg_pc + 1) % 65536)) / 256
            then 1 else 0)))) % 2 ^ 64) ∧
      ((instructions (s.memory.Read8 s.reg_pc)).addr_mode = .am_abs_y →
        s'.emu_cycles = (s.emu_cycles + (base + (2 +
          (if ((s.memory.Read8 (((s.reg_pc + 1) % 65536 + 1) % 65536) * 256
                + s.memory.Read8 ((s.reg_pc + 1) % 65536) + s.reg_y) % 65536) / 256 ≠
              (s.memory.Read8 (((s.reg_pc + 1) % 65536 + 1) % 65536) * 256
                + s.memory.Read8 ((s.reg_pc + 1) % 65536)) / 256
            then 1 else 0)))) % 2 ^ 64) ∧
      ((instructions (s.memory.Read8 s.reg_pc)).addr_mode = .am_ind_x →
        s'.emu_cycles = (s.emu_cycles + (base + 4)) % 2 ^ 64) ∧
      ((instructions (s.memory.Read8 s.reg_pc)).addr_mode = .am_ind_y →
        s'.emu_cycles = (s.emu_cycles + (base + (3 +
          (if ((s.memory.Read8 ((s.memory.Read8 ((s.reg_pc + 1) % 65536) + 1) % 256) * 256
                + s.memory.Read8 (s.memory.Read8 ((s.reg_pc + 1) % 65536)) + s.reg_y)
                % 65536) / 256 ≠
              (s.memory.Read8 ((s.memory.Read8 ((s.reg_pc + 1) % 65536) + 1) % 256) * 256
                + s.memory.Read8 (s.memory.Read8 ((s.reg_pc + 1) % 65536))) / 256
            then 1 else 0)))) % 2 ^ 64) := by
  obtain ⟨s', hs, hm, hc⟩ := DoStep_operand_cycles s base h
  have hg := GetAddress_cycles (s.memory.Read8 s.reg_pc)
    { s with reg_pc := (s.reg_pc + 1) % 65536 }
  dsimp only at hg
  obtain ⟨g1, g2, g3, g4, g5, g6, g7, g8, g9⟩ := hg
  refine ⟨s', hs, hm, ?_, ?_, ?_, ?_, ?_, ?_, ?_, ?_, ?_⟩ <;> intro hmode
  · rcases hc with hc | ⟨_, hc⟩
    · rw [hc, g1 hmode]; rfl
    · rw [hc]; rfl
  all_goals
    rcases hc with hc | ⟨hi, _⟩
    · first
        | rw [hc, g2 hmode, cycles_add]
        | rw [hc, g3 hmode, cycles_add]
        | rw [hc, g4 hmode, cycles_add]
        | rw [hc, g5 hmode, cycles_add]
        | rw [hc, g6 hmode, cycles_add]
        | rw [hc, g7 hmode, cycles_add]
        | rw [hc, g8 hmode, cycles_add]
        | rw [hc, g9 hmode, cycles_add]
      try (congr 1; ring)
    · rw [hi] at hmode; cases hmode

/-- Witness for C32: `STA $1234` at `$2000` adds 4 cycles. -/
theorem step_cycles_witness :
    (((instructions ((machineAt 0x2000 [0x8D, 0x34, 0x12]).memory.Read8
          (machineAt 0x2000 [0x8D, 0x34, 0x12]).reg_pc)).name ∈ ["ORA".toList, "AND".toList,
          "EOR".toList, "ADC".toList, "SBC".toList, "LDA".toList, "LDX".toList, "LDY".toList,
          "STA".toList, "STX".toList, "STY".toList, "CMP".toList, "CPX".toList, "CPY".toList,
          "BIT".toList] ∧ 2 = 2) ∨
        (((instructions ((machineAt 0x2000 [0x8D, 0x34, 0x12]).memory.Read8
          (machineAt 0x2000 [0x8D, 0x34, 0x12]).reg_pc)).name ∈ ["ASL".toList, "LSR".toList,
          "ROL".toList, "ROR".toList, "INC".toList, "DEC".toList] ∧
          (instructions ((machineAt 0x2000 [0x8D, 0x34, 0x12]).memory.Read8
            (machineAt 0x2000 [0x8D, 0x34, 0x12]).reg_pc)).addr_mode ≠ .am_acc) ∧ 2 = 4)) ∧
    ∃ s', DoStep (machineAt 0x2000 [0x8D, 0x34, 0x12]) = Outcome.returned false s' ∧
      s'.emu_cycles = ((machineAt 0x2000 [0x8D, 0x34, 0x12]).emu_cycles + (2 + 2)) % 2 ^ 64 ∧
      s'.emu_cycles = 4 := by
  have hyp : ((instructions ((machineAt 0x2000 [0x8D, 0x34, 0x12]).memory.Read8
          (machineAt 0x2000 [0x8D, 0x34, 0x12]).reg_pc)).name ∈ ["ORA".toList, "AND".toList,
          "EOR".toList, "ADC".toList, "SBC".toList, "LDA".toList, "LDX".toList, "LDY".toList,
          "STA".toList, "STX".toList, "STY".toList, "CMP".toList, "CPX".toList, "CPY".toList,
          "BIT".toList] ∧ 2 = 2) ∨
        (((instructions ((machineAt 0x2000 [0x8D, 0x34, 0x12]).memory.Read8
          (machineAt 0x2000 [0x8D, 0x34, 0x12]).reg_pc)).name ∈ ["ASL".toList, "LSR".toList,
          "ROL".toList, "ROR".toList, "INC".toList, "DEC".toList] ∧
          (instructions ((machineAt 0x2000 [0x8D, 0x34, 0x12]).memory.Read8
            (machineAt 0x2000 [0x8D, 0x34, 0x12]).reg_pc)).addr_mode ≠ .am_acc) ∧ 2 = 4) :=
    Or.inl (by decide!)
  obtain ⟨s', hs, _, _, _, _, _, habs, _⟩ :=
    step_cycles (machineAt 0x2000 [0x8D, 0x34, 0x12]) 2 hyp
  have hc := habs (by decide!)
  exact ⟨hyp, s', hs, hc, by rw [hc]; rfl⟩

/-! ## C33: the overflow flag of ADC -/

/-- Without the shift, the test of bit 8 sees only the carry out of the sum. -/
theorem unshifted_bit (r7 result : Nat) (h7 : r7 < 256) (hr : result < 512) :
    (r7 ^^^ result) &&& 0x100 ≠ 0 ↔ result ≥ 256 := by
  rw [Nat.and_xor_distrib_right, and_0x100 _ hr, and_0x100 r7 (by omega)]
  have h := xor_bit8 (r7 / 256) (by omega) (result / 256) (by omega)
  rw [Ne, h]
  omega

/-- Claim C33 (counterexample): `ADC #$50` with A = `$50`, carry clear, in
binary mode.  The step leaves V set ($50 + $50 overflows as a signed sum),
while the formula of the claim, which has no shift, gives 0. -/
theorem adc_overflow_counterexample :
    (∃ s', DoStep { machineAt 0x1000 [0x69, 0x50] with reg_a := 0x50 }
        = Outcome.returned false s' ∧ s'.reg_flags &&& 0x40 = 0x40) ∧
    ¬ ((((0x50 &&& 0x7F) + (0x50 &&& 0x7F) + 0) ^^^ (0x50 + 0x50 + 0)) &&& 0x100 ≠ 0) := by
  refine ⟨⟨(DoStep { machineAt 0x1000 [0x69, 0x50] with reg_a := 0x50 }).state, rfl, by decide!⟩,
    by decide⟩

/-- Claim C33 (amended): for every A, M in 0..255 and C in 0..1 in binary
mode, the V flag left by a step of ADC is set iff
`((((A & 0x7F) + (M & 0x7F) + C) << 1) XOR (A + M + C)) & 0x100` is not 0: the
sum of the low seven bits is shifted left by one before the exclusive or, so
that its carry into bit 7 meets the carry out in bit 8.  The formula without
the shift is not 0 iff `A + M + C >= 256`, which is the carry flag. -/
theorem adc_overflow_flag (s : CPU6502Impl) (A M C : Nat)
    (hname : (instructions (s.memory.Read8 s.reg_pc)).name = "ADC".toList)
    (hA : s.reg_a = A) (hA256 : A < 256)
    (hM : s.memory.Read8 (GetAddress (s.memory.Read8 s.reg_pc)
        { s with reg_pc := (s.reg_pc + 1) % 65536 }).1 = M)
    (hF : s.reg_flags < 256) (hC : s.reg_flags &&& 0x01 = C)
    (hD : s.reg_flags &&& 0x08 = 0) :
    ∃ s', DoStep s = Outcome.returned false s' ∧
      (s'.reg_flags &&& 0x40 ≠ 0 ↔
        ((((A &&& 0x7F) + (M &&& 0x7F) + C) <<< 1) ^^^ (A + M + C)) &&& 0x100 ≠ 0) ∧
      ((((A &&& 0x7F) + (M &&& 0x7F) + C) ^^^ (A + M + C)) &&& 0x100 ≠ 0 ↔ A + M + C ≥ 256) ∧
      (s'.reg_flags &&& 0x01 ≠ 0 ↔ A + M + C ≥ 256) := by
  have hM256 : M < 256 := hM ▸ Memory.Read8_lt _ _
  have hstep := DoStep_ADC s hname
  rw [hM] at hstep
  generalize (GetAddress (s.memory.Read8 s.reg_pc)
      { s with reg_pc := (s.reg_pc + 1) % 65536 }).2.reg_pc = pc1 at hstep
  generalize (GetAddress (s.memory.Read8 s.reg_pc)
      { s with reg_pc := (s.reg_pc + 1) % 65536 }).2.emu_cycles = cy1 at hstep
  rw [DoAdd_binary M { s with reg_pc := pc1, emu_cycles := (cy1 + 2) % 2 ^ 64 }
    (hA ▸ hA256) hM256 hF hD] at hstep
  rw [byte_and_01] at hC
  refine ⟨_, hstep, ?_⟩
  dsimp only
  rw [hA, hC, byte_and_7F, byte_and_7F]
  have hC2 : C < 2 := by omega
  have hov := overflow_bit (A % 128 + M % 128 + C) (A + M + C) (by omega) (by omega)
  have hun := unshifted_bit (A % 128 + M % 128 + C) (A + M + C) (by omega) (by omega)
  obtain ⟨hz1, hz2⟩ := toNat_decide ((A + M + C) % 256 = 0)
  obtain ⟨hv1, hv2⟩ := toNat_decide ((A % 128 + M % 128 + C) / 128 ≠ (A + M + C) / 256)
  obtain ⟨hc1, hc2⟩ := toNat_decide (A + M + C > 0xFF)
  have hn : (A + M + C) % 256 / 128 < 2 := by omega
  have hm : s.reg_flags / 4 % 16 < 16 := by omega
  rw [hov, hun]
  generalize (decide ((A + M + C) % 256 = 0)).toNat = z at hz1 hz2 ⊢
  generalize (decide ((A % 128 + M % 128 + C) / 128 ≠ (A + M + C) / 256)).toNat = v
    at hv1 hv2 ⊢
  generalize (decide (A + M + C > 0xFF)).toNat = c at hc1 hc2 ⊢
  generalize s.reg_flags / 4 % 16 = m at hm ⊢
  refine ⟨?_, Iff.rfl, ?_⟩
  · rw [byte_and_40 _ (by omega), ← hv1]
    omega
  · rw [byte_and_01, ← show A + M + C > 0xFF ↔ A + M + C ≥ 256 from Iff.rfl, ← hc1]
    omega

/-- Witness for C33: `ADC #$50` with A = `$50` and carry clear. -/
theorem adc_overflow_flag_witness :
    ∃ s', DoStep { machineAt 0x1000 [0x69, 0x50] with reg_a := 0x50 }
        = Outcome.returned false s' ∧
      (s'.reg_flags &&& 0x40 ≠ 0 ↔
        ((((0x50 &&& 0x7F) + (0x50 &&& 0x7F) + 0) <<< 1) ^^^ (0x50 + 0x50 + 0)) &&& 0x100 ≠ 0) ∧
      ((((0x50 &&& 0x7F) + (0x50 &&& 0x7F) + 0) ^^^ (0x50 + 0x50 + 0)) &&& 0x100 ≠ 0
        ↔ 0x50 + 0x50 + 0 ≥ 256) ∧
      (s'.reg_flags &&& 0x01 ≠ 0 ↔ 0x50 + 0x50 + 0 ≥ 256) :=
  adc_overflow_flag { machineAt 0x1000 [0x69, 0x50] with reg_a := 0x50 } 0x50 0x50 0
    (by decide!) rfl (by decide) (by decide!) (by decide) (by decide) (by decide)

/-! ## C34: the two shapes of a table entry -/

/-- Claim C34: every one of the 256 entries of the opcode table either has
the empty mnemonic, the mode `am_invalid` and the handler `do_invalid`, or has
a mnemonic of three capital letters, a mode other than `am_invalid` and a
handler other than `do_invalid`. -/
theorem table_shapes (op : Nat) (hop : op < 256) :
    ((instructions op).name = [] ∧ (instructions op).addr_mode = .am_invalid ∧
      (instructions op).handler = .do_invalid) ∨
    ((instructions op).name.length = 3 ∧
      (∀ c ∈ (instructions op).name, 'A'.toNat ≤ c.toNat ∧ c.toNat ≤ 'Z'.toNat) ∧
      (instructions op).addr_mode ≠ .am_invalid ∧ (instructions op).handler ≠ .do_invalid) := by
  revert op
  decide!

/-- Witness for C34: entry `$A9` is `LDA`, immediate, and entry `$02` is an
undocumented slot. -/
theorem table_shapes_witness :
    (((instructions 0xA9).name = [] ∧ (instructions 0xA9).addr_mode = .am_invalid ∧
      (instructions 0xA9).handler = .do_invalid) ∨
    ((instructions 0xA9).name.length = 3 ∧
      (∀ c ∈ (instructions 0xA9).name, 'A'.toNat ≤ c.toNat ∧ c.toNat ≤ 'Z'.toNat) ∧
      (instructions 0xA9).addr_mode ≠ .am_invalid ∧
      (instructions 0xA9).handler ≠ .do_invalid)) ∧
    (instructions 0xA9).name = "LDA".toList ∧ (instructions 0x02).name = [] :=
  ⟨table_shapes 0xA9 (by decide), by decide!, by decide!⟩

/-! ## C40: `FindOpcode` -/

/-- The loop of `FindOpcode` from `i` with enough iterations left: the result
is the first index from `i` on whose entry has the mnemonic and the mode, or
-1 when there is none. -/
theorem FindOpcodeFrom_spec (instr : List Char) (mode : AddrMode) :
    ∀ (fuel i : Nat), 256 ≤ i + fuel →
      (FindOpcodeFrom instr mode fuel i = -1 ∧
        ∀ j, i ≤ j → j < 256 →
          ¬ (instr = (instructions j).name ∧ mode = (instructions j).addr_mode)) ∨
      (∃ k : Nat, FindOpcodeFrom instr mode fuel i = (k : Int) ∧ i ≤ k ∧ k < 256 ∧
        instr = (instructions k).name ∧ mode = (instructions k).addr_mode ∧
        ∀ j, i ≤ j → j < k →
          ¬ (instr = (instructions j).name ∧ mode = (instructions j).addr_mode)) := by
  intro fuel
  induction fuel with
  | zero =>
    intro i hi
    left
    exact ⟨rfl, fun j h1 h2 => by omega⟩
  | succ fuel ih =>
    intro i hi
    unfold FindOpcodeFrom
    by_cases h256 : i < 256
    · rw [if_pos h256]
      by_cases hm : instr = (instructions i).name ∧ mode = (instructions i).addr_mode
      · rw [if_pos hm]
        right
        exact ⟨i, rfl, le_refl _, h256, hm.1, hm.2, fun j h1 h2 => by omega⟩
      · rw [if_neg hm]
        rcases ih (i + 1) (by omega) with ⟨h1, h2⟩ | ⟨k, h1, h2, h3, h4, h5, h6⟩
        · left
          refine ⟨h1, fun j hj1 hj2 => ?_⟩
          by_cases hji : j = i
          · subst hji; exact hm
          · exact h2 j (by omega) hj2
        · right
          refine ⟨k, h1, by omega, h3, h4, h5, fun j hj1 hj2 => ?_⟩
          by_cases hji : j = i
          · subst hji; exact hm
          · exact h6 j (by omega) hj2
    · rw [if_neg h256]
      left
      exact ⟨rfl, fun j h1 h2 => by omega⟩

/-- The method `FindOpcode`: the first index whose entry has the mnemonic and
the mode, or -1 when there is none. -/
theorem FindOpcode_spec (instr : List Char) (mode : AddrMode) :
    (FindOpcode instr mode = -1 ∧
      ∀ j, j < 256 → ¬ (instr = (instructions j).name ∧ mode = (instructions j).addr_mode)) ∨
    (∃ k : Nat, FindOpcode instr mode = (k : Int) ∧ k < 256 ∧
      instr = (instructions k).name ∧ mode = (instructions k).addr_mode ∧
      ∀ j, j < k → ¬ (instr = (instructions j).name ∧ mode = (instructions j).addr_mode)) := by
  unfold FindOpcode
  rcases FindOpcodeFrom_spec instr mode 256 0 (by omega) with ⟨h1, h2⟩ | ⟨k, h1, _, h3, h4, h5, h6⟩
  · left
    exact ⟨h1, fun j hj => h2 j (Nat.zero_le _) hj⟩
  · right
    exact ⟨k, h1, h3, h4, h5, fun j hj => h6 j (Nat.zero_le _) hj⟩

/-- The undocumented slots of the table have the empty mnemonic. -/
theorem table_invalid_name : ∀ op < 256, (instructions op).addr_mode = .am_invalid →
    (instructions op).name = [] := by decide!

/-- Claim C40: no two documented opcodes share both mnemonic and mode: for
every `op` whose entry is not Invalid, `FindOpcode` on its mnemonic and mode is
`op`; and for every mnemonic that is not empty, as `Assemble` makes sure before
it calls `FindOpcode`, and every mode, `FindOpcode` returns -1 when no
documented entry has both, and only then. -/
theorem find_opcode_unique (op : Nat) (instr : List Char) (mode : AddrMode) (hop : op < 256)
    (hne : instr ≠ []) :
    ((instructions op).addr_mode ≠ .am_invalid →
      FindOpcode (instructions op).name (instructions op).addr_mode = (op : Int)) ∧
    (FindOpcode instr mode = -1 ↔
      ∀ j, j < 256 → (instructions j).addr_mode ≠ .am_invalid →
        ¬ ((instructions j).name = instr ∧ (instructions j).addr_mode = mode)) := by
  have hiff : FindOpcode instr mode = -1 ↔
      ∀ j, j < 256 → ¬ ((instructions j).name = instr ∧ (instructions j).addr_mode = mode) := by
    rcases FindOpcode_spec instr mode with ⟨h1, h2⟩ | ⟨k, h1, h2, h3, h4, _⟩
    · exact ⟨fun _ j hj hc => h2 j hj ⟨hc.1.symm, hc.2.symm⟩, fun _ => h1⟩
    · constructor
      · intro h
        rw [h1] at h
        omega
      · intro h
        exact absurd ⟨h3.symm, h4.symm⟩ (h k h2)
  refine ⟨fun hdoc => (table_documented op hop hdoc).1, ?_⟩
  rw [hiff]
  constructor
  · intro h j hj _ hc
    exact h j hj hc
  · intro hnone j hj hc
    by_cases hinv : (instructions j).addr_mode = .am_invalid
    · exact hne (by rw [← hc.1]; exact table_invalid_name j hj hinv)
    · exact hnone j hj hinv hc

/-- Witness for C40: `LDA` immediate is found at `$A9`, and `XYZ` implied is
not found. -/
theorem find_opcode_unique_witness :
    FindOpcode "LDA".toList .am_immediate = 0xA9 ∧
    FindOpcode "XYZ".toList .am_implied = -1 :=
  ⟨(find_opcode_unique 0xA9 "LDA".toList .am_immediate (by decide) (by decide)).1 (by decide!),
   (find_opcode_unique 0 "XYZ".toList .am_implied (by decide) (by decide)).2.mpr (by decide!)⟩

/-! ## C35: the length of an instruction -/

/-- Claim C35: for every state and address, the byte count `Disassemble`
reports is 1 for the modes Implied, Accumulator and Invalid, 2 for Immediate,
the zero-page modes, IndirectX, IndirectY and Relative, and 3 for the absolute
modes and Indirect; and `CPU6502Impl::HasBreakpoint()` is
`HasBreakpoint(PC, n)` with `n` the byte count `Disassemble` reports at PC. -/
theorem breakpoint_length (s : CPU6502Impl) (address : Nat) :
    (Disassemble s address).num_bytes =
      (match (instructions (s.memory.Peek8 address)).addr_mode with
       | .am_invalid | .am_implied | .am_acc => 1
       | .am_immediate | .am_zp_x | .am_zp_y | .am_zp | .am_ind_x | .am_ind_y | .am_rel => 2
       | .am_abs_x | .am_abs_y | .am_abs | .am_ind => 3) ∧
    s.HasBreakpoint = CPU.HasBreakpoint s.reg_pc (Disassemble s s.reg_pc).num_bytes s := by
  constructor
  · unfold Disassemble
    dsimp only
    cases (instructions (s.memory.Peek8 address)).addr_mode <;> rfl
  · unfold CPU6502Impl.HasBreakpoint Disassemble
    dsimp only
    cases (instructions (s.memory.Peek8 s.reg_pc)).addr_mode <;> rfl

/-! ## C38: a failing step changes nothing -/

/-- Claim C38: when a step fails, the byte at PC is an undocumented opcode and
the state the call leaves is the state before it: A, X, Y, S, FLAGS, PC, the
cycle counter, the memory and the breakpoint set are unchanged.  A step on an
undocumented opcode does fail. -/
theorem failing_step_atomic (s : CPU6502Impl) (hpc : s.reg_pc < 65536) :
    (∀ e s', CPU6502.Step s = Outcome.threw e s' →
      (instructions (s.memory.Read8 s.reg_pc)).addr_mode = .am_invalid ∧
      s' = s ∧ s'.reg_a = s.reg_a ∧ s'.reg_x = s.reg_x ∧ s'.reg_y = s.reg_y ∧
      s'.reg_s = s.reg_s ∧ s'.reg_flags = s.reg_flags ∧ s'.reg_pc = s.reg_pc ∧
      s'.emu_cycles = s.emu_cycles ∧ s'.memory = s.memory ∧
      s'.breakpoints = s.breakpoints) ∧
    ((instructions (s.memory.Read8 s.reg_pc)).addr_mode = .am_invalid →
      ∃ e, CPU6502.Step s = Outcome.threw e s) := by
  have hlt : s.memory.Read8 s.reg_pc < 256 := Memory.Read8_lt _ _
  have hpc' : ((s.reg_pc + 1) % 65536 + 65535) % 65536 = s.reg_pc := by omega
  have hsame : { s with reg_pc := ((s.reg_pc + 1) % 65536 + 65535) % 65536 } = s := by
    rw [hpc']
  constructor
  · intro e s' h
    have hd : DoStep s = Outcome.threw e s' := by
      unfold CPU6502.Step at h
      cases hds : DoStep s with
      | returned v s1 => rw [hds] at h; cases h
      | threw e1 s1 =>
        rw [hds] at h
        simp only [Outcome.threw.injEq] at h
        rw [h.1, h.2]
    have hh := DoStep_threw s e s' hd
    rw [DoStep_invalid s hh, hsame] at hd
    simp only [Outcome.threw.injEq] at hd
    have hs : s' = s := hd.2.symm
    subst hs
    exact ⟨(table_invalid _ hlt).mp hh, rfl, rfl, rfl, rfl, rfl, rfl, rfl, rfl, rfl, rfl⟩
  · intro hm
    have hh := (table_invalid _ hlt).mpr hm
    refine ⟨⟨"Undocumented opcode ".toList ++ fmt02X (s.memory.Read8 s.reg_pc)⟩, ?_⟩
    unfold CPU6502.Step
    rw [DoStep_invalid s hh, hsame]

/-- Witness for C38: the undocumented opcode `$02` at `$0800`. -/
theorem failing_step_atomic_witness :
    ∃ e, CPU6502.Step (machineAt 0x0800 [0x02]) = Outcome.threw e (machineAt 0x0800 [0x02]) :=
  (failing_step_atomic (machineAt 0x0800 [0x02]) (by decide)).2 (by decide!)

/-! ## C36: the address mask of a memory -/

/-- The loop of the constructor from `p2 = 2^i`, when `2^k` with `k <= 63` is
the first power of two not below `size`: it stops at `2^k` after `k - i`
iterations. -/
theorem Memory.maskLoop_pow (size k : Nat) (hk : k ≤ 63) (hle : size ≤ 2 ^ k)
    (hmin : ∀ j, j < k → 2 ^ j < size) :
    ∀ (d i fuel : Nat), i + d = k → d ≤ fuel → Memory.maskLoop size fuel (2 ^ i) = 2 ^ k := by
  intro d
  induction d with
  | zero =>
    intro i fuel hi _
    have hik : i = k := by omega
    subst hik
    cases fuel with
    | zero => rfl
    | succ fuel =>
      unfold Memory.maskLoop
      rw [if_neg (by omega)]
  | succ d ih =>
    intro i fuel hi hf
    obtain ⟨fuel, rfl⟩ : ∃ f, fuel = f + 1 := ⟨fuel - 1, by omega⟩
    have hlt : 2 ^ i < size := hmin i (by omega)
    have hpos : 2 ^ i ≠ 0 := by positivity
    have hsh : (2 ^ i <<< 1) % 2 ^ 64 = 2 ^ (i + 1) := by
      rw [Nat.shiftLeft_eq, ← pow_succ]
      apply Nat.mod_eq_of_lt
      exact Nat.pow_lt_pow_right (by decide) (by omega)
    unfold Memory.maskLoop
    rw [if_pos ⟨hlt, hpos⟩, hsh]
    exact ih (i + 1) fuel (by omega) (by omega)

/-- Claim C36: for a size `n` with `1 <= n <= 2^63` the loop of the
constructor ends, after `k <= 63` doublings, at the smallest power of two
`2^k` that is not below `n`, and `mask + 1 = 2^k`; so `mask = n - 1` when `n`
is a power of two.  For the size 0 the mask is 0. -/
theorem memory_mask (n : Nat) (h1 : 1 ≤ n) (h2 : n ≤ 2 ^ 63) :
    (∃ k, k ≤ 63 ∧ n ≤ 2 ^ k ∧ (∀ j, n ≤ 2 ^ j → k ≤ j) ∧
      (∀ fuel, k ≤ fuel → Memory.maskLoop n fuel 1 = 2 ^ k) ∧
      (Memory.new n).mask + 1 = 2 ^ k) ∧
    (∀ j, n = 2 ^ j → (Memory.new n).mask = n - 1) ∧
    (Memory.new 0).mask = 0 := by
  have hex : ∃ k, n ≤ 2 ^ k := ⟨63, h2⟩
  have hk63 : Nat.find hex ≤ 63 := Nat.find_min' hex h2
  have hle : n ≤ 2 ^ Nat.find hex := Nat.find_spec hex
  have hmin : ∀ j, j < Nat.find hex → 2 ^ j < n := by
    intro j hj
    have := Nat.find_min hex hj
    omega
  have hloop : ∀ fuel, Nat.find hex ≤ fuel → Memory.maskLoop n fuel 1 = 2 ^ Nat.find hex := by
    intro fuel hf
    have := Memory.maskLoop_pow n (Nat.find hex) hk63 hle hmin (Nat.find hex) 0 fuel
      (by omega) hf
    simpa using this
  have hpos : 0 < 2 ^ Nat.find hex := by positivity
  have hlt : 2 ^ Nat.find hex < 2 ^ 64 := Nat.pow_lt_pow_right (by decide) (by omega)
  have hmask : (Memory.new n).mask + 1 = 2 ^ Nat.find hex := by
    unfold Memory.new
    simp only
    rw [hloop 65 (by omega)]
    omega
  refine ⟨⟨Nat.find hex, hk63, hle, fun j hj => Nat.find_min' hex hj, hloop, hmask⟩, ?_, by decide⟩
  intro j hj
  have hjk : Nat.find hex = j := by
    apply le_antisymm
    · exact Nat.find_min' hex (by rw [hj])
    · have h3 : 2 ^ j ≤ 2 ^ Nat.find hex := by rw [← hj]; exact hle
      exact (Nat.pow_le_pow_iff_right (by decide)).mp h3
  rw [hjk] at hmask
  omega

/-- Witness for C36: the mask of a memory of 65536 bytes is `$FFFF`, and that
of a memory of 40000 bytes too. -/
theorem memory_mask_witness :
    (Memory.new 65536).mask = 0xFFFF ∧
    ∃ k, k ≤ 63 ∧ 40000 ≤ 2 ^ k ∧ (∀ j, 40000 ≤ 2 ^ j → k ≤ j) ∧
      (∀ fuel, k ≤ fuel → Memory.maskLoop 40000 fuel 1 = 2 ^ k) ∧
      (Memory.new 40000).mask + 1 = 2 ^ k :=
  ⟨(memory_mask 65536 (by decide) (by decide)).2.1 16 (by decide),
   (memory_mask 40000 (by decide) (by decide)).1⟩

/-! ## C37: assembling what the disassembler printed -/

/-- The two digits `%02X` prints for a byte are hexadecimal digits in upper
case that denote the byte. -/
theorem fmt02X_digits : ∀ b < 256,
    (∀ c ∈ fmt02X b, (hexValue c).isSome = true) ∧ (fmt02X b).map toupper = fmt02X b ∧
    hexNumber (fmt02X b) = b ∧ (fmt02X b).length = 2 := by
  decide!

/-- The four digits printed for the two bytes of an address. -/
theorem fmt02X_pair (hi lo : Nat) (hhi : hi < 256) (hlo : lo < 256) :
    (∀ c ∈ fmt02X hi ++ fmt02X lo, (hexValue c).isSome = true) ∧
    (fmt02X hi ++ fmt02X lo).map toupper = fmt02X hi ++ fmt02X lo ∧
    hexNumber (fmt02X hi ++ fmt02X lo) = hi * 256 + lo ∧
    (fmt02X hi ++ fmt02X lo).length = 4 := by
  obtain ⟨a1, a2, a3, a4⟩ := fmt02X_digits hi hhi
  obtain ⟨b1, b2, b3, b4⟩ := fmt02X_digits lo hlo
  refine ⟨?_, ?_, ?_, ?_⟩
  · intro c hc
    rcases List.mem_append.mp hc with h | h
    · exact a1 c h
    · exact b1 c h
  · rw [List.map_append, a2, b2]
  · rw [hexNumber_append, a3, b3, b4]; norm_num
  · rw [List.length_append, a4, b4]

/-- The bytes `AssembleOperand` gives when the table has the mnemonic with the
mode of the operand, for the modes other than the zero-page forms and the
branches; an absolute mode is kept when the number has three digits or more. -/
theorem CPU6502Impl.AssembleOperand_direct (pc op n : Nat) (instr address : List Char)
    (mode0 : AddrMode) (hop : op < 256) (hfind : FindOpcode instr mode0 = (op : Int))
    (hst : (strtoul16 address).1 = n) :
    (mode0 = .am_implied ∨ mode0 = .am_acc →
      AssembleOperand pc instr mode0 address = ⟨true, [op]⟩) ∧
    (mode0 = .am_immediate ∨ mode0 = .am_ind_x ∨ mode0 = .am_ind_y →
      AssembleOperand pc instr mode0 address = ⟨true, [op, n % 256]⟩) ∧
    (mode0 = .am_ind ∨ ((mode0 = .am_abs ∨ mode0 = .am_abs_x ∨ mode0 = .am_abs_y) ∧
        3 ≤ address.length) →
      AssembleOperand pc instr mode0 address = ⟨true, [op, n % 256, n / 256 % 256]⟩) := by
  have hopm : op % 256 = op := Nat.mod_eq_of_lt hop
  have hop0 : ¬ ((op : Int) < 0) := by omega
  have hlo : (n &&& 0xFF) % 256 = n % 256 := by
    rw [byte_and_FF]; omega
  have hhi : (n >>> 8) % 256 = n / 256 % 256 := by
    rw [Nat.shiftRight_eq_div_pow]
  refine ⟨?_, ?_, ?_⟩
  · intro h
    rcases h with rfl | rfl <;>
    · unfold AssembleOperand
      simp only [hst, hfind]
      simp [hopm, hop0]
  · intro h
    rcases h with rfl | rfl | rfl <;>
    · unfold AssembleOperand
      simp only [hst, hfind]
      simp [hopm, hop0]
  · intro h
    rcases h with rfl | ⟨rfl | rfl | rfl, hlen⟩
    · unfold AssembleOperand
      simp only [hst, hfind]
      simp [hopm, hop0, hlo, hhi]
    all_goals
      have hl : ¬ address.length ≤ 2 := by omega
      unfold AssembleOperand
      simp only [hst, hfind, if_neg hl]
      by_cases hN : n < 256 <;> simp [hopm, hop0, hlo, hhi, hN, hfind]

/-- The method `Assemble` on a mnemonic alone: the operand is empty. -/
theorem Assemble_bare (pc : Nat) (name : List Char) (hne : name ≠ [])
    (hsp : ∀ c ∈ name, isspace c = false) :
    Assemble pc name = AssembleOperand pc (name.map toupper) .am_implied [] := by
  obtain ⟨c, cs, rfl⟩ := List.exists_cons_of_ne_nil hne
  have hc : isspace c = false := hsp c (List.mem_cons_self _ _)
  have h1 : List.dropWhile isspace (c :: cs) = c :: cs := by
    simp [List.dropWhile, hc]
  have hp : ∀ a ∈ c :: cs, (fun c => !isspace c) a = true := by
    intro a ha
    simp [hsp a ha]
  have h2 : List.takeWhile (fun c => !isspace c) (c :: cs) = c :: cs := by
    have h := @List.takeWhile_append_of_pos _ (fun c => !isspace c) (c :: cs) [] hp
    simpa using h
  have h3 : List.dropWhile (fun c => !isspace c) (c :: cs) = [] := by
    have h := @List.dropWhile_append_of_pos _ (fun c => !isspace c) (c :: cs) [] hp
    simpa using h
  unfold Assemble
  simp only [h1, h2, h3]
  rw [if_neg (by simp)]
  rfl

/-- A number of at most `lim` passes `checkAddress`. -/
theorem checkAddress_valid (mode : AddrMode) (lim : Nat) (U : List Char)
    (hU : ∀ c ∈ U, (hexValue c).isSome = true) (hne : U ≠ [])
    (hm : (mode, lim) ∈ [(AddrMode.am_immediate, 0xFF), (AddrMode.am_ind_x, 0xFF),
      (AddrMode.am_ind_y, 0xFF), (AddrMode.am_ind, 0xFFFF)])
    (hle : hexNumber U ≤ lim) :
    checkAddress mode U = mode ∧ (strtoul16 U).1 = hexNumber U := by
  simp only [List.mem_cons, Prod.mk.injEq, List.mem_singleton, List.not_mem_nil, or_false] at hm
  have hlim : lim ≤ 0xFFFF := by
    rcases hm with h | h | h | h <;> obtain ⟨_, rfl⟩ := h <;> decide
  have hst := strtoul16_hex U hU hne (by omega)
  have hv : (strtoul16 U).1 = hexNumber U := by rw [hst]
  refine ⟨?_, hv⟩
  rcases hm with h | h | h | h <;> obtain ⟨rfl, rfl⟩ := h <;>
    simp only [checkAddress, hv] <;> rw [if_neg (by omega)]

/-- Claim C37: for every address and every memory whose byte at the address is a
documented opcode of a mode other than Relative, `Assemble` on the text that
`Disassemble` prints there is valid and returns exactly the `num_bytes` bytes
stored at the address; the sums `address + i` are taken in 64 bits as in
`Disassemble`. -/
theorem assemble_disassemble (s : CPU6502Impl) (address : Nat) (hA : address < 2 ^ 64)
    (hdoc : (instructions (s.memory.Peek8 address)).addr_mode ≠ .am_invalid)
    (hrel : (instructions (s.memory.Peek8 address)).addr_mode ≠ .am_rel) :
    Assemble address (Disassemble s address).disasm =
      ⟨true, (List.range (Disassemble s address).num_bytes).map
        (fun i => s.memory.Peek8 ((address + i) % 2 ^ 64))⟩ := by
  have hop := Memory.Peek8_lt s.memory address
  have hb1 := Memory.Peek8_lt s.memory ((address + 1) % 2 ^ 64)
  have hb2 := Memory.Peek8_lt s.memory ((address + 2) % 2 ^ 64)
  have hA0 : (address + 0) % 2 ^ 64 = address := Nat.mod_eq_of_lt hA
  have hr1 : List.range 1 = [0] := rfl
  have hr2 : List.range 2 = [0, 1] := rfl
  have hr3 : List.range 3 = [0, 1, 2] := rfl
  have e1 : List.map (fun i => s.memory.Peek8 ((address + i) % 2 ^ 64)) (List.range 1) =
      [s.memory.Peek8 address] := by
    rw [hr1]; simp only [List.map, hA0]
  have e2 : List.map (fun i => s.memory.Peek8 ((address + i) % 2 ^ 64)) (List.range 2) =
      [s.memory.Peek8 address, s.memory.Peek8 ((address + 1) % 2 ^ 64)] := by
    rw [hr2]; simp only [List.map, hA0]
  have e3 : List.map (fun i => s.memory.Peek8 ((address + i) % 2 ^ 64)) (List.range 3) =
      [s.memory.Peek8 address, s.memory.Peek8 ((address + 1) % 2 ^ 64),
        s.memory.Peek8 ((address + 2) % 2 ^ 64)] := by
    rw [hr3]; simp only [List.map, hA0]
  unfold Disassemble
  simp only []
  generalize s.memory.Peek8 ((address + 1) % 2 ^ 64) = b1 at hb1 e2 e3 ⊢
  generalize s.memory.Peek8 ((address + 2) % 2 ^ 64) = b2 at hb2 e3 ⊢
  generalize s.memory.Peek8 address = op at hop hdoc hrel e1 e2 e3 ⊢
  generalize (fun i => s.memory.Peek8 ((address + i) % 2 ^ 64)) = rd at e1 e2 e3 ⊢
  obtain ⟨hfind, hne, hup, hsp⟩ := table_documented op hop hdoc
  obtain ⟨d1, d2, d3, d4⟩ := fmt02X_digits b1 hb1
  obtain ⟨w1, w2, w3, w4⟩ := fmt02X_pair b2 b1 hb2 hb1
  have d5 : fmt02X b1 ≠ [] := by
    intro h; rw [h] at d4; simp at d4
  have w5 : fmt02X b2 ++ fmt02X b1 ≠ [] := by
    intro h; rw [h] at w4; simp at w4
  obtain ⟨q1, q2, q3, _⟩ := parseOperand_prefixed (fmt02X b1) true d1 d5
  obtain ⟨_, _, _, q4⟩ := parseOperand_prefixed (fmt02X b2 ++ fmt02X b1) true w1 w5
  obtain ⟨a1, a2, a3⟩ := Assemble_hex_operand address op (fmt02X b2 ++ fmt02X b1) true hop hdoc
    w1 w5 (by rw [w3]; omega)
  rw [d2, if_pos rfl] at q1 q2 q3
  rw [w2, if_pos rfl] at q4 a1 a2 a3
  have hck := fun mode hmm => checkAddress_valid mode 0xFF (fmt02X b1) d1 d5 hmm
    (by rw [d3]; omega)
  have hckw := checkAddress_valid .am_ind 0xFFFF (fmt02X b2 ++ fmt02X b1) w1 w5 (by decide)
    (by rw [w3]; omega)
  have hlen1 : ∀ suf : List Char, "$".toList ++ fmt02X b1 ++ suf ≠ "A".toList ∧
      "$".toList ++ fmt02X b1 ++ suf ≠ "a".toList := by
    intro suf
    constructor <;> intro h <;> have h' := congrArg List.length h <;>
      simp [d4] at h'
  have hlen2 : "$".toList ++ (fmt02X b2 ++ fmt02X b1) ≠ "A".toList ∧
      "$".toList ++ (fmt02X b2 ++ fmt02X b1) ≠ "a".toList := by
    constructor <;> intro h <;> have h' := congrArg List.length h <;>
      simp [w4] at h'
  have hz := fun mm suf hmode hmem => Assemble_zero_page_form address op mm suf (fmt02X b1) true
    hop hmode hmem d1 (Or.inr d4)
  have hw : (strtoul16 (fmt02X b2 ++ fmt02X b1)).1 = b2 * 256 + b1 := by
    rw [strtoul16_hex _ w1 w5 (by rw [w3]; omega), w3]
  have hwlo : (b2 * 256 + b1) % 256 = b1 := by omega
  have hwhi : (b2 * 256 + b1) / 256 % 256 = b2 := by omega
  have hb1m : b1 % 256 = b1 := Nat.mod_eq_of_lt hb1
  have s1 : " ".toList = [' '] := rfl
  have s2 : " #$".toList = ' ' :: ("#".toList ++ "$".toList) := rfl
  have s3 : " ($".toList = ' ' :: ("(".toList ++ "$".toList) := rfl
  have s4 : " $".toList = " ".toList ++ "$".toList := rfl
  have s5 : " A".toList = ' ' :: ['A'] := rfl
  have hD := AssembleOperand_direct address op
  generalize hm : (instructions op).addr_mode = m at hdoc hrel hfind ⊢
  cases m <;> simp only [e1, e2, e3]
  case am_invalid => exact absurd rfl hdoc
  case am_rel => exact absurd rfl hrel
  case am_implied =>
    rw [Assemble_bare _ _ hne hsp, hup]
    exact (hD _ _ _ _ hop hfind rfl).1 (Or.inl rfl)
  case am_acc =>
    rw [s5, Assemble_split _ _ _ hne hsp, hup]
    have hp : parseOperand (' ' :: ['A']) = (.am_acc, []) := by decide!
    rw [hp]
    exact (hD _ _ _ _ hop hfind rfl).1 (Or.inr rfl)
  case am_immediate =>
    have t : (instructions op).name ++ " #$".toList ++ fmt02X b1 =
        (instructions op).name ++ ' ' :: ("#".toList ++ "$".toList ++ fmt02X b1 ++ []) := by
      rw [s2]; simp
    rw [t, Assemble_split _ _ _ hne hsp, hup, q1, (hck _ (by decide)).1]
    rw [(hD _ _ _ _ hop hfind (hck .am_immediate (by decide)).2).2.1 (Or.inl rfl), d3, hb1m]
  case am_ind_x =>
    have t : (instructions op).name ++ " ($".toList ++ fmt02X b1 ++ ",X)".toList =
        (instructions op).name ++ ' ' :: ("(".toList ++ "$".toList ++ fmt02X b1 ++ ",X)".toList) := by
      rw [s3]; simp
    rw [t, Assemble_split _ _ _ hne hsp, hup, q2, (hck _ (by decide)).1]
    rw [(hD _ _ _ _ hop hfind (hck .am_ind_x (by decide)).2).2.1 (Or.inr (Or.inl rfl)), d3, hb1m]
  case am_ind_y =>
    have t : (instructions op).name ++ " ($".toList ++ fmt02X b1 ++ "),Y".toList =
        (instructions op).name ++ ' ' :: ("(".toList ++ "$".toList ++ fmt02X b1 ++ "),Y".toList) := by
      rw [s3]; simp
    rw [t, Assemble_split _ _ _ hne hsp, hup, q3, (hck _ (by decide)).1]
    rw [(hD _ _ _ _ hop hfind (hck .am_ind_y (by decide)).2).2.1 (Or.inr (Or.inr rfl)), d3, hb1m]
  case am_ind =>
    have t : (instructions op).name ++ " ($".toList ++ fmt02X b2 ++ fmt02X b1 ++ ")".toList =
        (instructions op).name ++
          ' ' :: ("(".toList ++ "$".toList ++ (fmt02X b2 ++ fmt02X b1) ++ ")".toList) := by
      rw [s3]; simp
    rw [t, Assemble_split _ _ _ hne hsp, hup, q4, hckw.1]
    rw [(hD _ _ _ _ hop hfind hw).2.2 (Or.inl rfl), hwlo, hwhi]
  case am_abs =>
    have t : (instructions op).name ++ " $".toList ++ fmt02X b2 ++ fmt02X b1 =
        (instructions op).name ++ " ".toList ++ "$".toList ++ (fmt02X b2 ++ fmt02X b1) := by
      rw [s4]; simp
    rw [t, a1 hlen2]
    rw [(hD _ _ _ _ hop hfind hw).2.2 (Or.inr ⟨Or.inl rfl, by rw [w4]; decide⟩), hwlo, hwhi]
  case am_abs_x =>
    have t : (instructions op).name ++ " $".toList ++ fmt02X b2 ++ fmt02X b1 ++ ",X".toList =
        (instructions op).name ++ " ".toList ++ "$".toList ++ (fmt02X b2 ++ fmt02X b1)
          ++ ",X".toList := by
      rw [s4]; simp
    rw [t, a2]
    rw [(hD _ _ _ _ hop hfind hw).2.2 (Or.inr ⟨Or.inr (Or.inl rfl), by rw [w4]; decide⟩),
      hwlo, hwhi]
  case am_abs_y =>
    have t : (instructions op).name ++ " $".toList ++ fmt02X b2 ++ fmt02X b1 ++ ",Y".toList =
        (instructions op).name ++ " ".toList ++ "$".toList ++ (fmt02X b2 ++ fmt02X b1)
          ++ ",Y".toList := by
      rw [s4]; simp
    rw [t, a3]
    rw [(hD _ _ _ _ hop hfind hw).2.2 (Or.inr ⟨Or.inr (Or.inr rfl), by rw [w4]; decide⟩),
      hwlo, hwhi]
  case am_zp =>
    have t : (instructions op).name ++ " $".toList ++ fmt02X b1 =
        (instructions op).name ++ " ".toList ++ (if true = true then "$".toList else [])
          ++ fmt02X b1 ++ [] := by
      rw [s4]; simp
    rw [t, hz _ _ hm (by decide) (by rw [if_pos rfl]; exact hlen1 _), d3]
  case am_zp_x =>
    have t : (instructions op).name ++ " $".toList ++ fmt02X b1 ++ ",X".toList =
        (instructions op).name ++ " ".toList ++ (if true = true then "$".toList else [])
          ++ fmt02X b1 ++ ",X".toList := by
      rw [s4]; simp
    rw [t, hz _ _ hm (by decide) (by rw [if_pos rfl]; exact hlen1 _), d3]
  case am_zp_y =>
    have t : (instructions op).name ++ " $".toList ++ fmt02X b1 ++ ",Y".toList =
        (instructions op).name ++ " ".toList ++ (if true = true then "$".toList else [])
          ++ fmt02X b1 ++ ",Y".toList := by
      rw [s4]; simp
    rw [t, hz _ _ hm (by decide) (by rw [if_pos rfl]; exact hlen1 _), d3]

/-- Witness for C37: the bytes `AD 05 00` are printed as `LDA $0005`, which
assembles to the same three bytes, and `A5 05` as `LDA $05`, which assembles
to the same two. -/
theorem assemble_disassemble_witness :
    (Disassemble (machineAt 0 [0xAD, 0x05, 0x00]) 0).disasm = "LDA $0005".toList ∧
    Assemble 0 (Disassemble (machineAt 0 [0xAD, 0x05, 0x00]) 0).disasm =
      ⟨true, [0xAD, 0x05, 0x00]⟩ ∧
    (Disassemble (machineAt 0 [0xA5, 0x05]) 0).disasm = "LDA $05".toList ∧
    Assemble 0 (Disassemble (machineAt 0 [0xA5, 0x05]) 0).disasm = ⟨true, [0xA5, 0x05]⟩ :=
  ⟨by decide!,
   (assemble_disassemble (machineAt 0 [0xAD, 0x05, 0x00]) 0 (by decide) (by decide!)
      (by decide!)).trans (by decide!),
   by decide!,
   (assemble_disassemble (machineAt 0 [0xA5, 0x05]) 0 (by decide) (by decide!)
      (by decide!)).trans (by decide!)⟩

/-! ## C39: what a valid result of the assembler holds -/

/-- A lookup that does not fail returns the index of an entry with the
mnemonic and the mode looked up. -/
theorem CPU6502Impl.FindOpcode_found (instr : List Char) (mode : AddrMode) :
    FindOpcode instr mode < 0 ∨
    ∃ k : Nat, FindOpcode instr mode = (k : Int) ∧ k < 256 ∧
      instr = (instructions k).name ∧ mode = (instructions k).addr_mode := by
  rcases FindOpcode_spec instr mode with ⟨h, _⟩ | ⟨k, h1, h2, h3, h4, _⟩
  · left; rw [h]; decide
  · right; exact ⟨k, h1, h2, h3, h4⟩

/-- The lookup and the bytes of `AssembleOperand`, from the pair of modes the
first part chose: a valid result starts with the index of an entry with the
mnemonic, and has the length of the mode of that entry. -/
theorem CPU6502Impl.AssembleOperand_lookup (pc n : Nat) (instr : List Char)
    (p : AddrMode × AddrMode) (r : Assem)
    (hr : (match p with
      | (mode1, alt_mode) =>
        match (if FindOpcode instr mode1 < 0 ∧ alt_mode ≠ .am_invalid then
            if FindOpcode instr alt_mode ≥ 0 then (FindOpcode instr alt_mode, alt_mode)
            else if mode1 = .am_abs ∨ mode1 = .am_zp then
              if FindOpcode instr .am_rel ≥ 0 then (FindOpcode instr .am_rel, AddrMode.am_rel)
              else (FindOpcode instr .am_rel, mode1)
            else (FindOpcode instr alt_mode, mode1)
          else (FindOpcode instr mode1, mode1)) with
        | (opcode, mode) =>
          if opcode < 0 then (⟨false, []⟩ : Assem)
          else
            match mode with
            | .am_invalid => ⟨false, []⟩
            | .am_implied | .am_acc => ⟨true, [opcode.toNat % 256]⟩
            | .am_immediate | .am_zp_x | .am_zp_y | .am_zp | .am_ind_x | .am_ind_y =>
              ⟨true, [opcode.toNat % 256, n % 256]⟩
            | .am_abs_x | .am_abs_y | .am_abs | .am_ind =>
              ⟨true, [opcode.toNat % 256, (n &&& 0xFF) % 256, (n >>> 8) % 256]⟩
            | .am_rel =>
              let diff := (n + 2 ^ 64 - (pc + 2) % 2 ^ 64) % 2 ^ 64
              let offset : Int :=
                if diff % 2 ^ 32 < 2 ^ 31 then (diff % 2 ^ 32 : Nat)
                else ((diff % 2 ^ 32 : Nat) : Int) - 2 ^ 32
              if offset < -128 ∨ offset > 127 then ⟨false, []⟩
              else ⟨true, [opcode.toNat % 256, (offset % 256).toNat]⟩) = r)
    (h : r.valid = true) :
    ∃ k : Nat, k < 256 ∧ instr = (instructions k).name ∧
      (instructions k).addr_mode ≠ .am_invalid ∧
      r.bytes.head? = some k ∧
      r.bytes.length =
        (match (instructions k).addr_mode with
          | .am_invalid | .am_implied | .am_acc => 1
          | .am_immediate | .am_zp_x | .am_zp_y | .am_zp | .am_ind_x | .am_ind_y | .am_rel => 2
          | .am_abs_x | .am_abs_y | .am_abs | .am_ind => 3) := by
  have hf := FindOpcode_found instr
  generalize FindOpcode instr = f at hr hf
  obtain ⟨mode1, alt_mode⟩ := p
  dsimp only at hr
  have hsel : ∀ (q : Int × AddrMode),
      (if f mode1 < 0 ∧ alt_mode ≠ AddrMode.am_invalid then
        if f alt_mode ≥ 0 then (f alt_mode, alt_mode)
        else
          if mode1 = AddrMode.am_abs ∨ mode1 = AddrMode.am_zp then
            if f AddrMode.am_rel ≥ 0 then (f AddrMode.am_rel, AddrMode.am_rel)
            else (f AddrMode.am_rel, mode1)
          else (f alt_mode, mode1)
      else (f mode1, mode1)) = q →
      q.1 < 0 ∨ ∃ k : Nat, q.1 = (k : Int) ∧ k < 256 ∧
        instr = (instructions k).name ∧ q.2 = (instructions k).addr_mode := by
    intro q hq
    subst hq
    split_ifs
    · exact hf _
    · exact hf _
    · left; dsimp only; omega
    · left; dsimp only; omega
    · exact hf _
  generalize hq : (if f mode1 < 0 ∧ alt_mode ≠ AddrMode.am_invalid then
        if f alt_mode ≥ 0 then (f alt_mode, alt_mode)
        else
          if mode1 = AddrMode.am_abs ∨ mode1 = AddrMode.am_zp then
            if f AddrMode.am_rel ≥ 0 then (f AddrMode.am_rel, AddrMode.am_rel)
            else (f AddrMode.am_rel, mode1)
          else (f alt_mode, mode1)
      else (f mode1, mode1)) = q at hr
  have hk := hsel q hq
  obtain ⟨opcode, mode⟩ := q
  dsimp only at hr hk
  subst hr
  by_cases hneg : opcode < 0
  · simp [hneg] at h
  · rcases hk with hk | ⟨k, rfl, hk, hi, hm⟩
    · exact absurd hk hneg
    · refine ⟨k, hk, hi, ?_, ?_, ?_⟩
      · rintro hinv
        rw [← hm] at hinv
        subst hinv
        simp at h
      · have hkm : k % 256 = k := Nat.mod_eq_of_lt hk
        cases mode <;> simp [hneg, hkm] at h ⊢
        split_ifs at h ⊢ <;> simp at h ⊢
      · rw [← hm]
        cases mode <;> simp [hneg] at h ⊢
        split_ifs at h ⊢ <;> simp at h ⊢

/-- A valid result of `AssembleOperand` starts with the index of an entry with
the mnemonic, and has the length of the mode of that entry. -/
theorem CPU6502Impl.AssembleOperand_valid (pc : Nat) (instr : List Char) (mode0 : AddrMode)
    (address : List Char) (h : (AssembleOperand pc instr mode0 address).valid = true) :
    ∃ k : Nat, k < 256 ∧ instr = (instructions k).name ∧
      (instructions k).addr_mode ≠ .am_invalid ∧
      (AssembleOperand pc instr mode0 address).bytes.head? = some k ∧
      (AssembleOperand pc instr mode0 address).bytes.length =
        (match (instructions k).addr_mode with
          | .am_invalid | .am_implied | .am_acc => 1
          | .am_immediate | .am_zp_x | .am_zp_y | .am_zp | .am_ind_x | .am_ind_y | .am_rel => 2
          | .am_abs_x | .am_abs_y | .am_abs | .am_ind => 3) :=
  AssembleOperand_lookup pc _ instr _ _ rfl h

/-- Claim C39: when `Assemble` returns a valid result, its first byte is the index
of a documented entry of the opcode table whose mnemonic is the first token of
the line in upper case, and the number of bytes is the length of an
instruction of the mode of that entry (1, 2 or 3), which is the `num_bytes`
that `Disassemble` reports wherever that opcode is stored. -/
theorem assemble_valid_entry (pc : Nat) (code : List Char)
    (h : (Assemble pc code).valid = true) :
    ∃ op : Nat, op < 256 ∧ (instructions op).addr_mode ≠ .am_invalid ∧
      (instructions op).name =
        ((code.dropWhile isspace).takeWhile (fun c => !isspace c)).map toupper ∧
      (Assemble pc code).bytes.head? = some op ∧
      (Assemble pc code).bytes.length =
        (match (instructions op).addr_mode with
          | .am_invalid | .am_implied | .am_acc => 1
          | .am_immediate | .am_zp_x | .am_zp_y | .am_zp | .am_ind_x | .am_ind_y | .am_rel => 2
          | .am_abs_x | .am_abs_y | .am_abs | .am_ind => 3) ∧
      ∀ (s : CPU6502Impl) (address : Nat), s.memory.Peek8 address = op →
        (Disassemble s address).num_bytes = (Assemble pc code).bytes.length := by
  have hA : Assemble pc code =
      if ((code.dropWhile isspace).takeWhile (fun c => !isspace c)).map toupper = [] then
        ⟨false, []⟩
      else AssembleOperand pc
        (((code.dropWhile isspace).takeWhile (fun c => !isspace c)).map toupper)
        (parseOperand ((code.dropWhile isspace).dropWhile (fun c => !isspace c))).1
        (parseOperand ((code.dropWhile isspace).dropWhile (fun c => !isspace c))).2 := rfl
  rw [hA] at h ⊢
  split_ifs at h ⊢ with he
  obtain ⟨k, hk, hi, hm, hh, hl⟩ := AssembleOperand_valid _ _ _ _ h
  refine ⟨k, hk, hm, hi.symm, hh, hl, ?_⟩
  intro s address hp
  rw [hl]
  unfold Disassemble
  simp only [hp]
  cases (instructions k).addr_mode <;> rfl

/-- Witness for C39: `lda #$42` gives the two bytes of the entry `A9`, whose
mnemonic is `LDA`. -/
theorem assemble_valid_entry_witness :
    (Assemble 0 "lda #$42".toList).valid = true ∧
    ∃ op : Nat, op < 256 ∧ (instructions op).addr_mode ≠ .am_invalid ∧
      (instructions op).name = "LDA".toList ∧
      (Assemble 0 "lda #$42".toList).bytes.head? = some op ∧
      (Assemble 0 "lda #$42".toList).bytes.length =
        (match (instructions op).addr_mode with
          | .am_invalid | .am_implied | .am_acc => 1
          | .am_immediate | .am_zp_x | .am_zp_y | .am_zp | .am_ind_x | .am_ind_y | .am_rel => 2
          | .am_abs_x | .am_abs_y | .am_abs | .am_ind => 3) ∧
      ∀ (s : CPU6502Impl) (address : Nat), s.memory.Peek8 address = op →
        (Disassemble s address).num_bytes = (Assemble 0 "lda #$42".toList).bytes.length :=
  ⟨by decide!, assemble_valid_entry 0 "lda #$42".toList (by decide!)⟩


end Cpusim
